import Mathlib

set_option autoImplicit false
set_option linter.unusedSectionVars false

/-!
# spanforge: a shallow embedding of the trace generator and its pipeline

The definitions follow the Go sources of `internal/model`, `internal/config`,
`internal/generator`, `internal/encode/*`, `internal/sink/*` and `internal/app`.

Conventions of the embedding:

* `time.Time` is an `Int`: nanoseconds since the Unix epoch (UTC).
  `time.Duration` is an `Int` of nanoseconds; sums of two run-time durations are
  wrapped to 64 bits (`wrapInt64`).
* `float64` is an abstract type `F` with the operations of the class `GoFloat64`
  (arithmetic, comparisons, conversions). Theorems stated for every `F` hold for
  IEEE arithmetic in particular. `DecFloat` is a small exact instance used to
  evaluate the definitions on concrete inputs.
* The packages `math` and `math/rand` are outside the repository: they are the
  parameters `MathLib` and `RandLib`. The state of the random source is threaded
  explicitly.
* A Go `map[string]any` is an association list with replace-or-append writes.
* Where Go panics (negative slice capacity in `BuildTopology`, `Intn` with a
  non-positive bound) no value is returned by the program; the embedding is total
  and its value there is unconstrained by the source.
-/

namespace Spanforge

/-! ## Go runtime: integers, floats, strings, time -/

/-- Two's complement wrap-around of a 64-bit signed integer operation. -/
def wrapInt64 (x : Int) : Int :=
  (x + 9223372036854775808) % 18446744073709551616 - 9223372036854775808

/-- Go `float64` as the program uses it. `ofInt` is the conversion `float64(i)`,
`toInt64` the conversion `int64(x)` (also `int(x)` and `time.Duration(x)`), which
truncates toward zero when the value fits and is implementation-dependent
otherwise. Decimal literals are read through `OfScientific`. -/
class GoFloat64 (F : Type) extends OfScientific F, Add F, Sub F, Mul F, Div F, Neg F, LT F, LE F where
  ofInt : Int → F
  toInt64 : F → Int
  decLt : DecidableRel (fun (a b : F) => a < b)
  decLe : DecidableRel (fun (a b : F) => a ≤ b)

instance instDecidableLtGoFloat64 {F : Type} [GoFloat64 F] (a b : F) : Decidable (a < b) :=
  GoFloat64.decLt a b

instance instDecidableLeGoFloat64 {F : Type} [GoFloat64 F] (a b : F) : Decidable (a ≤ b) :=
  GoFloat64.decLe a b

/-- The functions and constants of Go's `math` package that the sampler calls. -/
structure MathLib (F : Type) where
  Log : F → F
  Exp : F → F
  Sqrt : F → F
  Cos : F → F
  Pi : F

/-- The part of Go's `math/rand` the program calls: `rand.NewSource(seed)` wrapped by
`rand.New`, `(*Rand).Float64` and `(*Rand).Intn`, over a source state `σ`. -/
structure RandLib (F : Type) (σ : Type) where
  NewSource : Int → σ
  Float64 : σ → F × σ
  Intn : Int → σ → Int × σ

/-- Instants: nanoseconds since the Unix epoch. -/
abbrev time.Time := Int

/-- Durations: nanoseconds. -/
abbrev time.Duration := Int

def time.Microsecond : time.Duration := 1000

def time.Millisecond : time.Duration := 1000000

def time.Second : time.Duration := 1000000000

/-- The zero value of `time.Time`: 1 January of year 1, 00:00:00 UTC. -/
def zeroTime : time.Time := -62135596800000000000

/-- The method `Time.IsZero`. -/
def time.Time.IsZero (t : time.Time) : Bool := t == zeroTime

/-- The method `Time.Add`. -/
def time.Time.Add (t : time.Time) (d : time.Duration) : time.Time := t + d

/-- The predicate `unicode.IsSpace`. -/
def isSpace (c : Char) : Bool :=
  let n := c.toNat
  n == 0x09 || n == 0x0A || n == 0x0B || n == 0x0C || n == 0x0D || n == 0x20 ||
  n == 0x85 || n == 0xA0 || n == 0x1680 || (0x2000 ≤ n && n ≤ 0x200A) ||
  n == 0x2028 || n == 0x2029 || n == 0x202F || n == 0x205F || n == 0x3000

/-- The function `strings.TrimSpace`. -/
def TrimSpace (s : String) : String :=
  String.mk (((s.data.dropWhile isSpace).reverse.dropWhile isSpace).reverse)

/-- The function `unicode.ToLower` on the code points whose lower case is an ASCII
letter: `A`..`Z`, U+0130 and U+212A. Every other code point is left unchanged; Go
maps the remaining upper-case letters to non-ASCII letters, so the two agree on
whether the result equals an ASCII string. -/
def lowerRune (c : Char) : Char :=
  if c.toNat = 0x212A then 'k'
  else if c.toNat = 0x130 then 'i'
  else if 'A' ≤ c ∧ c ≤ 'Z' then Char.ofNat (c.toNat + 32)
  else c

/-- The function `strings.ToLower`. -/
def ToLower (s : String) : String :=
  String.mk (s.data.map lowerRune)

/-- The function `hex.EncodeToString` on a list of bytes. -/
def hexDigit (n : Nat) : Char :=
  if n < 10 then Char.ofNat (48 + n) else Char.ofNat (87 + n)

def hexEncode (bs : List Nat) : String :=
  String.mk (bs.flatMap (fun b => [hexDigit (b / 16 % 16), hexDigit (b % 16)]))

/-! ## internal/model -/

/-- A 16-byte trace identifier. -/
abbrev model.TraceID := List Nat

/-- An 8-byte span identifier. -/
abbrev model.SpanID := List Nat

def zeroTraceID : model.TraceID := List.replicate 16 0

def zeroSpanID : model.SpanID := List.replicate 8 0

/-- The dynamic values stored in an attribute map (`any`). `other` stands for a value
of any further type, carried by its `fmt.Sprint` rendering. -/
inductive AttrValue (F : Type) where
  | str (s : String)
  | bool (b : Bool)
  | int (i : Int)
  | int64 (i : Int)
  | float64 (x : F)
  | float32 (x : F)
  | duration (d : time.Duration)
  | other (sprint : String)
  deriving DecidableEq

/-- The type `model.Attrs`, a `map[string]any`. -/
abbrev Attrs (F : Type) := List (String × AttrValue F)

/-- The map read `attrs[k]` with its presence flag. -/
def Attrs.get {F : Type} (attrs : Attrs F) (k : String) : Option (AttrValue F) :=
  match attrs with
  | [] => none
  | (k1, v) :: rest => if k1 = k then some v else Attrs.get rest k

/-- The map write `attrs[k] = v`. -/
def Attrs.set {F : Type} (attrs : Attrs F) (k : String) (v : AttrValue F) : Attrs F :=
  match attrs with
  | [] => [(k, v)]
  | (k1, v1) :: rest => if k1 = k then (k, v) :: rest else (k1, v1) :: Attrs.set rest k v

/-- The test `_, ok := attrs[k]`. -/
def Attrs.has {F : Type} (attrs : Attrs F) (k : String) : Bool :=
  (Attrs.get attrs k).isSome

/-- The type assertion `attrs[k].(string)`: the string and whether the value is one. -/
def Attrs.getString {F : Type} (attrs : Attrs F) (k : String) : String × Bool :=
  match Attrs.get attrs k with
  | some (AttrValue.str s) => (s, true)
  | _ => ("", false)

structure Resource (F : Type) where
  Attributes : Attrs F := []
  deriving DecidableEq

structure Event (F : Type) where
  Name : String := ""
  Time : time.Time := zeroTime
  Attributes : Attrs F := []
  deriving DecidableEq

structure Link (F : Type) where
  TraceID : model.TraceID := zeroTraceID
  SpanID : model.SpanID := zeroSpanID
  Attributes : Attrs F := []
  deriving DecidableEq

structure SpanStatus where
  Code : String := ""
  Message : String := ""
  deriving DecidableEq

structure Span (F : Type) where
  TraceID : model.TraceID := zeroTraceID
  SpanID : model.SpanID := zeroSpanID
  ParentSpanID : model.SpanID := zeroSpanID
  HasParent : Bool := false
  Name : String := ""
  Kind : String := ""
  StartTime : time.Time := zeroTime
  Duration : time.Duration := 0
  Attributes : Attrs F := []
  Events : List (Event F) := []
  Links : List (Link F) := []
  Status : SpanStatus := {}
  Resource : Resource F := {}
  deriving DecidableEq

structure Trace (F : Type) where
  TraceID : model.TraceID := zeroTraceID
  Resource : Resource F := {}
  Spans : List (Span F) := []
  deriving DecidableEq

/-! ## internal/config -/

/-- The configuration record `config.Config`. -/
structure Config (F : Type) where
  RateValue : F
  RateUnit : String
  RateInterval : time.Duration
  Duration : time.Duration
  Count : Int
  Seed : Int
  Workers : Int
  Profile : String
  Routes : Int
  Services : Int
  Depth : Int
  Fanout : F
  ServicePrefix : String
  P50 : time.Duration
  P95 : time.Duration
  P99 : time.Duration
  Errors : F
  Retries : F
  DBHeavy : F
  CacheHitRate : F
  Variety : String
  HighCardinality : Bool
  Format : String
  Output : String
  File : String
  OTLPEndpoint : String
  ZipkinEndpoint : String
  OTLPInsecure : Bool
  Headers : List (String × String)
  Compress : String
  BatchSize : Int
  FlushInterval : time.Duration
  SinkRetries : Int
  SinkRetryBackoff : time.Duration
  SinkTimeout : time.Duration
  SinkMaxInFlight : Int
  ReportFile : String
  HTTPListen : String
  Debug : Bool

def RateUnitSpans : String := "spans"

def RateUnitTraces : String := "traces"

/-- The errors of `Config.Validate`, one constructor per `fmt.Errorf` of the source,
in source order; the formatted arguments are carried as fields. -/
inductive ValidateError where
  | rate
  | rateInterval
  | rateUnit
  | duration
  | count
  | workers
  | services
  | routes
  | depth
  | fanout
  | percentilesPositive
  | percentilesOrder
  | probabilities
  | profile
  | variety
  | otlpEndpoint (output format : String)
  | zipkinEndpoint (output format : String)
  | batchSize
  | flushInterval
  | sinkRetries
  | sinkRetryBackoff
  | sinkTimeout
  | sinkMaxInFlight
  | jsonlOutput
  | prettyOutput
  | otlpHTTPOutput
  | otlpGRPCOutput
  | zipkinOutput
  | unsupportedFormat (format : String)
  | unsupportedOutput (output : String)
  | fileRequired
  deriving DecidableEq

/-- The method `Config.Validate`: `none` is the Go result `nil`. -/
def Config.Validate {F : Type} [GoFloat64 F] (c : Config F) : Option ValidateError :=
  if c.RateValue ≤ 0.0 then some .rate
  else if c.RateInterval ≤ 0 then some .rateInterval
  else if c.RateUnit ≠ RateUnitSpans ∧ c.RateUnit ≠ RateUnitTraces then some .rateUnit
  else if c.Duration < 0 then some .duration
  else if c.Count < 0 then some .count
  else if c.Workers ≤ 0 then some .workers
  else if c.Services ≤ 0 then some .services
  else if c.Routes ≤ 0 then some .routes
  else if c.Depth ≤ 0 then some .depth
  else if c.Fanout ≤ 0.0 then some .fanout
  else if c.P50 ≤ 0 ∨ c.P95 ≤ 0 ∨ c.P99 ≤ 0 then some .percentilesPositive
  else if c.P50 > c.P95 ∨ c.P95 > c.P99 then some .percentilesOrder
  else if c.Errors < 0.0 ∨ c.Errors > 1.0 ∨ c.Retries < 0.0 ∨ c.Retries > 1.0 ∨
      c.DBHeavy < 0.0 ∨ c.DBHeavy > 1.0 ∨ c.CacheHitRate < 0.0 ∨ c.CacheHitRate > 1.0 then
    some .probabilities
  else if ¬ (c.Profile = "web" ∨ c.Profile = "grpc" ∨ c.Profile = "queue" ∨ c.Profile = "batch") then
    some .profile
  else
    let v := ToLower (TrimSpace c.Variety)
    if ¬ (v = "" ∨ v = "low" ∨ v = "medium" ∨ v = "high") then some .variety
    else
      let needsOTLPEndpoint : Bool := c.Output = "otlp" ∨
        ((c.Format = "otlp-http" ∨ c.Format = "otlp-grpc") ∧ c.Output ≠ "noop")
      if needsOTLPEndpoint ∧ TrimSpace c.OTLPEndpoint = "" then
        some (.otlpEndpoint c.Output c.Format)
      else
        let needsZipkinEndpoint : Bool := c.Output = "zipkin" ∨
          (c.Format = "zipkin-json" ∧ c.Output ≠ "noop")
        if needsZipkinEndpoint ∧ TrimSpace c.ZipkinEndpoint = "" then
          some (.zipkinEndpoint c.Output c.Format)
        else if c.BatchSize ≤ 0 then some .batchSize
        else if c.FlushInterval ≤ 0 then some .flushInterval
        else if c.SinkRetries < 0 then some .sinkRetries
        else if c.SinkRetryBackoff ≤ 0 then some .sinkRetryBackoff
        else if c.SinkTimeout ≤ 0 then some .sinkTimeout
        else if c.SinkMaxInFlight ≤ 0 then some .sinkMaxInFlight
        else
          let formatError : Option ValidateError :=
            if c.Format = "jsonl" then
              if c.Output ≠ "stdout" ∧ c.Output ≠ "file" ∧ c.Output ≠ "noop" then some .jsonlOutput else none
            else if c.Format = "pretty" then
              if c.Output ≠ "stdout" ∧ c.Output ≠ "noop" then some .prettyOutput else none
            else if c.Format = "otlp-http" then
              if c.Output ≠ "otlp" ∧ c.Output ≠ "noop" then some .otlpHTTPOutput else none
            else if c.Format = "otlp-grpc" then
              if c.Output ≠ "otlp" ∧ c.Output ≠ "noop" then some .otlpGRPCOutput else none
            else if c.Format = "zipkin-json" then
              if c.Output ≠ "zipkin" ∧ c.Output ≠ "noop" then some .zipkinOutput else none
            else some (.unsupportedFormat c.Format)
          match formatError with
          | some e => some e
          | none =>
            if ¬ (c.Output = "stdout" ∨ c.Output = "file" ∨ c.Output = "otlp" ∨
                c.Output = "zipkin" ∨ c.Output = "noop") then some (.unsupportedOutput c.Output)
            else if c.Output = "file" ∧ TrimSpace c.File = "" then some .fileRequired
            else none

/-! ## internal/generator: rng.go, topology.go -/

/-- The method `RNG.Float64`. -/
def RNG.Float64 {F σ : Type} (R : RandLib F σ) (r : σ) : F × σ :=
  R.Float64 r

/-- The method `RNG.Intn`. -/
def RNG.Intn {F σ : Type} (R : RandLib F σ) (n : Int) (r : σ) : Int × σ :=
  R.Intn n r

/-- The method `RNG.Read` on a buffer of `n` bytes: `p[i] = byte(r.r.Intn(256))`. -/
def RNG.Read {F σ : Type} (R : RandLib F σ) : Nat → σ → List Nat × σ
  | 0, r => ([], r)
  | n + 1, r =>
    let (v, r1) := R.Intn 256 r
    let (rest, r2) := RNG.Read R n r1
    ((v % 256).toNat :: rest, r2)

structure Topology where
  Frontdoor : String
  Services : List String

/-- The digit loop of `itoa`, writing from the end of a 20-byte buffer. -/
def itoaDigits : Nat → Int → List Char → List Char
  | 0, _, acc => acc
  | fuel + 1, v, acc =>
    if v > 0 then itoaDigits fuel (Int.tdiv v 10) (Char.ofNat (48 + (Int.tmod v 10).toNat) :: acc)
    else acc

def itoa (v : Int) : String :=
  if v = 0 then "0" else String.mk (itoaDigits 20 v [])

/-- The value computed by `BuildTopology(prefix, n)` when `make([]string, 0, n)` returns:
`api-gateway`, then `prefix+itoa(i)` for `i = 1 .. n-1`. The call of `make` panics
when `n` is negative or too large to allocate; `BuildTopologyChecked` below is the
function with that check. -/
def BuildTopology (pfx : String) (n : Int) : Topology :=
  let services := "api-gateway" ::
    (List.range (n.toNat - 1)).map (fun j => pfx ++ itoa (Int.ofNat j + 1))
  { Frontdoor := services.headD "", Services := services }

/-! ## internal/generator: profile.go -/

/-- The four implementations of the interface `profileModule`. -/
inductive profileModule where
  | webProfile
  | grpcProfile
  | queueProfile
  | batchProfile
  deriving DecidableEq

def moduleFor (name : String) : profileModule :=
  let n := ToLower name
  if n = "grpc" then .grpcProfile
  else if n = "queue" then .queueProfile
  else if n = "batch" then .batchProfile
  else .webProfile

/-- Indexing `table[idx % len(table)]` of a non-empty literal table. -/
def tableAt (table : List String) (idx : Int) : String :=
  table.getD (Int.tmod idx (Int.ofNat table.length)).toNat ""

def webOperation (idx : Int) : String × String :=
  let ops : List (String × String) := [
    ("GET", "/catalog"),
    ("GET", "/cart"),
    ("POST", "/checkout"),
    ("POST", "/payments"),
    ("GET", "/orders/:id"),
    ("GET", "/inventory"),
    ("POST", "/login"),
    ("GET", "/search")]
  ops.getD (Int.tmod idx (Int.ofNat ops.length)).toNat ("", "")

def grpcMethod (idx : Int) : String :=
  tableAt ["GetCatalog", "GetCart", "PlaceOrder", "AuthorizePayment", "ReserveInventory",
    "ShipOrder", "ListOrders", "TrackOrder"] idx

def queueTopic (idx : Int) : String :=
  tableAt ["orders", "payments", "shipments", "returns", "invoices", "notifications"] idx

def batchJob (idx : Int) : String :=
  tableAt ["reindex-catalog", "daily-billing-rollup", "inventory-reconcile", "order-archive",
    "sla-report", "fraud-retrain"] idx

def addStoreAttrs {F : Type} (attrs : Attrs F) (dbHeavy : Bool) (cacheHit : Bool) : Attrs F :=
  let attrs :=
    if dbHeavy then
      (attrs.set "db.system" (.str "postgresql")).set "db.operation" (.str "SELECT")
    else attrs
  attrs.set "cache.hit" (.bool cacheHit)

/-- The call `strings.ReplaceAll(service, "-", "")`. -/
def removeDashes (service : String) : String :=
  String.mk (service.data.filter (fun c => c ≠ '-'))

def profileModule.buildRoot {F : Type} (p : profileModule) (frontdoor : String) (routeIdx : Int)
    (start : time.Time) (spanID : model.SpanID) (traceID : model.TraceID) (dur : time.Duration) : Span F :=
  match p with
  | .webProfile =>
    let (method, route) := webOperation routeIdx
    { TraceID := traceID
      SpanID := spanID
      Name := method ++ " " ++ route
      Kind := "SERVER"
      StartTime := start
      Duration := dur
      Attributes := [
        ("service.name", .str frontdoor),
        ("http.method", .str method),
        ("http.route", .str route),
        ("http.status_code", .int 200)]
      Status := { Code := "OK" }
      Resource := { Attributes := [("service.name", .str frontdoor)] } }
  | .grpcProfile =>
    let method := grpcMethod routeIdx
    { TraceID := traceID
      SpanID := spanID
      Name := "rpc Gateway/" ++ method
      Kind := "SERVER"
      StartTime := start
      Duration := dur
      Attributes := [
        ("service.name", .str frontdoor),
        ("rpc.system", .str "grpc"),
        ("rpc.service", .str "Gateway"),
        ("rpc.method", .str method)]
      Status := { Code := "OK" }
      Resource := { Attributes := [("service.name", .str frontdoor)] } }
  | .queueProfile =>
    let topic := queueTopic routeIdx
    { TraceID := traceID
      SpanID := spanID
      Name := "enqueue " ++ topic
      Kind := "SERVER"
      StartTime := start
      Duration := dur
      Attributes := [
        ("service.name", .str frontdoor),
        ("messaging.system", .str "kafka"),
        ("messaging.destination.name", .str topic),
        ("messaging.operation", .str "publish")]
      Status := { Code := "OK" }
      Resource := { Attributes := [("service.name", .str frontdoor)] } }
  | .batchProfile =>
    let job := batchJob routeIdx
    { TraceID := traceID
      SpanID := spanID
      Name := "batch " ++ job
      Kind := "INTERNAL"
      StartTime := start
      Duration := dur
      Attributes := [
        ("service.name", .str frontdoor),
        ("batch.job", .str job),
        ("batch.run_id", .str "run-fixed")]
      Status := { Code := "OK" }
      Resource := { Attributes := [("service.name", .str frontdoor)] } }

def profileModule.buildChild {F : Type} (p : profileModule) (parent : Span F) (service : String)
    (routeIdx : Int) (start : time.Time) (spanID : model.SpanID) (traceID : model.TraceID)
    (dur : time.Duration) (dbHeavy : Bool) (cacheHit : Bool) : Span F :=
  match p with
  | .webProfile =>
    let (method, route) := webOperation routeIdx
    let attrs : Attrs F := [
      ("service.name", .str service),
      ("peer.service", .str service),
      ("http.method", .str method),
      ("http.route", .str route),
      ("http.status_code", .int 200)]
    let attrs := addStoreAttrs attrs dbHeavy cacheHit
    { TraceID := traceID
      SpanID := spanID
      ParentSpanID := parent.SpanID
      HasParent := true
      Name := method ++ " " ++ route
      Kind := "CLIENT"
      StartTime := start
      Duration := dur
      Attributes := attrs
      Status := { Code := "OK" }
      Resource := { Attributes := [("service.name", .str service)] } }
  | .grpcProfile =>
    let method := grpcMethod routeIdx
    let attrs : Attrs F := [
      ("service.name", .str service),
      ("peer.service", .str service),
      ("rpc.system", .str "grpc"),
      ("rpc.service", .str (removeDashes service ++ ".API")),
      ("rpc.method", .str method)]
    let attrs := addStoreAttrs attrs dbHeavy cacheHit
    { TraceID := traceID
      SpanID := spanID
      ParentSpanID := parent.SpanID
      HasParent := true
      Name := "rpc " ++ service ++ "/" ++ method
      Kind := "CLIENT"
      StartTime := start
      Duration := dur
      Attributes := attrs
      Status := { Code := "OK" }
      Resource := { Attributes := [("service.name", .str service)] } }
  | .queueProfile =>
    let attrs : Attrs F := [("service.name", .str service), ("peer.service", .str service)]
    let attrs := addStoreAttrs attrs dbHeavy cacheHit
    { TraceID := traceID
      SpanID := spanID
      ParentSpanID := parent.SpanID
      HasParent := true
      Name := "handle work"
      Kind := "INTERNAL"
      StartTime := start
      Duration := dur
      Attributes := attrs
      Status := { Code := "OK" }
      Resource := { Attributes := [("service.name", .str service)] } }
  | .batchProfile =>
    let job := batchJob routeIdx
    let attrs : Attrs F := [
      ("service.name", .str service),
      ("batch.job", .str job),
      ("batch.chunk", .int routeIdx)]
    let attrs := addStoreAttrs attrs dbHeavy cacheHit
    { TraceID := traceID
      SpanID := spanID
      ParentSpanID := parent.SpanID
      HasParent := true
      Name := "batch step " ++ job
      Kind := "INTERNAL"
      StartTime := start
      Duration := dur
      Attributes := attrs
      Status := { Code := "OK" }
      Resource := { Attributes := [("service.name", .str service)] } }

def profileModule.buildQueuePair {F : Type} (p : profileModule) (parent : Span F) (service : String)
    (routeIdx : Int) (start : time.Time) (producerID : model.SpanID) (consumerID : model.SpanID)
    (traceID : model.TraceID) (dur : time.Duration) : Span F × Span F :=
  match p with
  | .queueProfile =>
    let topic := queueTopic routeIdx
    let producer : Span F :=
      { TraceID := traceID
        SpanID := producerID
        ParentSpanID := parent.SpanID
        HasParent := true
        Name := "publish " ++ topic
        Kind := "PRODUCER"
        StartTime := start
        Duration := Int.tdiv dur 3
        Attributes := [
          ("service.name", .str service),
          ("messaging.system", .str "kafka"),
          ("messaging.destination.name", .str topic),
          ("messaging.operation", .str "publish")]
        Status := { Code := "OK" }
        Resource := { Attributes := [("service.name", .str service)] } }
    let consumer : Span F :=
      { TraceID := traceID
        SpanID := consumerID
        ParentSpanID := parent.SpanID
        HasParent := true
        Name := "consume " ++ topic
        Kind := "CONSUMER"
        StartTime := start.Add (Int.tdiv dur 2)
        Duration := Int.tdiv dur 2
        Attributes := [
          ("service.name", .str service),
          ("messaging.system", .str "kafka"),
          ("messaging.destination.name", .str topic),
          ("messaging.operation", .str "process")]
        Status := { Code := "OK" }
        Resource := { Attributes := [("service.name", .str service)] } }
    let link : Link F :=
      { TraceID := traceID, SpanID := consumerID, Attributes := [("link.type", .str "follows_from")] }
    let producer : Span F := { producer with Links := producer.Links ++ [link] }
    (producer, consumer)
  | _ => ({}, {})

/-! ## internal/generator: generator.go -/

/-- The struct `Generator` without its field `rng`: the state of the random source is
passed to and returned by every method that draws from it. The fields `rand` and
`math` are the two library packages the generator is linked with. -/
structure Generator (F : Type) (σ : Type) where
  cfg : Config F
  rand : RandLib F σ
  math : MathLib F
  topology : Topology
  profile : profileModule
  mu : F
  sigma : F

/-- The function `New`, returning the generator and the initial state of its source
(`NewRNG(cfg.Seed)`). -/
def New {F σ : Type} [GoFloat64 F] (R : RandLib F σ) (M : MathLib F) (cfg : Config F) :
    Generator F σ × σ :=
  let mu := M.Log (GoFloat64.ofInt cfg.P50)
  let sigma := (M.Log (GoFloat64.ofInt cfg.P95) - mu) / 1.6448536269514722
  let sigma := if sigma < 0.01 then 0.01 else sigma
  ({ cfg := cfg
     rand := R
     math := M
     topology := BuildTopology cfg.ServicePrefix cfg.Services
     profile := moduleFor cfg.Profile
     mu := mu
     sigma := sigma },
   R.NewSource cfg.Seed)

section generator

variable {F σ : Type} [GoFloat64 F]

/-- The helper `max` of generator.go. -/
def max (a b : Int) : Int :=
  if a > b then a else b

def Generator.variety (g : Generator F σ) : String :=
  let v := ToLower (TrimSpace g.cfg.Variety)
  if v = "" then "medium" else v

def Generator.eventProbability (g : Generator F σ) : F :=
  if g.variety = "low" then 0.15
  else if g.variety = "high" then 0.65
  else 0.35

def Generator.profileLatencyMultiplier (g : Generator F σ) : F :=
  let p := ToLower g.cfg.Profile
  if p = "grpc" then 1.15
  else if p = "queue" then 1.4
  else if p = "batch" then 1.8
  else 1.0

def Generator.profileErrorMultiplier (g : Generator F σ) : F :=
  let p := ToLower g.cfg.Profile
  if p = "grpc" then 0.9
  else if p = "queue" then 1.2
  else if p = "batch" then 1.1
  else 1.0

def Generator.slowProbability (g : Generator F σ) : F :=
  if g.variety = "low" then 0.01
  else if g.variety = "high" then 0.15
  else 0.05

def Generator.slowMultiplier (g : Generator F σ) : F :=
  if g.variety = "low" then 2.0
  else if g.variety = "high" then 8.0
  else 4.0

def Generator.errorProbability (g : Generator F σ) (span : Span F) : F :=
  let rate := g.cfg.Errors * g.profileErrorMultiplier
  let rate := if span.Duration ≥ g.cfg.P95 then rate + (g.cfg.Errors * 0.75 + 0.02) else rate
  let rate := if span.Duration ≥ g.cfg.P99 then rate + (g.cfg.Errors + 0.03) else rate
  let rate :=
    if g.variety = "low" then rate - 0.01
    else if g.variety = "high" then rate + 0.02
    else rate
  if rate < 0.0 then 0.0
  else if rate > 1.0 then 1.0
  else rate

def Generator.sampleDuration (g : Generator F σ) (r : σ) : time.Duration × σ :=
  let (u1, r) := RNG.Float64 g.rand r
  let u1 := if u1 < 1e-9 then 1e-9 else u1
  let (u2, r) := RNG.Float64 g.rand r
  let z := g.math.Sqrt (-2.0 * g.math.Log u1) * g.math.Cos (2.0 * g.math.Pi * u2)
  let x := g.math.Exp (g.mu + g.sigma * z)
  let x := if x < GoFloat64.ofInt time.Microsecond then GoFloat64.ofInt time.Microsecond else x
  (GoFloat64.toInt64 x, r)

def Generator.sampleDurationForProfile (g : Generator F σ) (r : σ) : time.Duration × σ :=
  let (d, r) := g.sampleDuration r
  let d := GoFloat64.toInt64 (GoFloat64.ofInt d * g.profileLatencyMultiplier)
  let (u, r) := RNG.Float64 g.rand r
  let d := if u < g.slowProbability then GoFloat64.toInt64 (GoFloat64.ofInt d * g.slowMultiplier) else d
  if d < time.Microsecond then (time.Microsecond, r) else (d, r)

def Generator.newTraceID (g : Generator F σ) (r : σ) : model.TraceID × σ :=
  RNG.Read g.rand 16 r

def Generator.newSpanID (g : Generator F σ) (r : σ) : model.SpanID × σ :=
  RNG.Read g.rand 8 r

def fmtHexID (traceID : model.TraceID) (spanID : model.SpanID) : String :=
  hexEncode traceID ++ "-" ++ hexEncode spanID

def Generator.applyCardinalityAttrs (g : Generator F σ) (span : Span F) : Span F :=
  if ¬ g.cfg.HighCardinality then span
  else
    let attrs := span.Attributes.set "span.id" (.str (hexEncode span.SpanID))
    let attrs := attrs.set "trace.id" (.str (hexEncode span.TraceID))
    let attrs :=
      if attrs.has "http.method" then
        attrs.set "http.request_id" (.str (fmtHexID span.TraceID span.SpanID))
      else attrs
    let attrs :=
      if attrs.has "messaging.system" then
        attrs.set "messaging.message_id" (.str (fmtHexID span.TraceID span.SpanID))
      else attrs
    let attrs :=
      if attrs.has "batch.job" then
        attrs.set "batch.run_id" (.str (fmtHexID span.TraceID span.SpanID))
      else attrs
    { span with Attributes := attrs }

def Generator.maybeAddProfileEvent (g : Generator F σ) (span : Span F) (r : σ) : Span F × σ :=
  let (u, r) := RNG.Float64 g.rand r
  if u ≥ g.eventProbability then (span, r)
  else
    let attrs : Attrs F := [("profile", .str g.cfg.Profile)]
    let name :=
      if g.cfg.Profile = "grpc" then "grpc.message"
      else if g.cfg.Profile = "queue" then "message.visible"
      else if g.cfg.Profile = "batch" then "batch.chunk.complete"
      else "app.log"
    let event : Event F :=
      { Name := name, Time := span.StartTime.Add (Int.tdiv span.Duration 3), Attributes := attrs }
    ({ span with Events := span.Events ++ [event] }, r)

/-- The method `maybeErrorAndRetry`: the span as left behind the pointer, the retry
span (`none` for the Go result `nil`) and the state of the source. -/
def Generator.maybeErrorAndRetry (g : Generator F σ) (span : Span F) (r : σ) :
    Span F × Option (Span F) × σ :=
  let (u, r) := RNG.Float64 g.rand r
  if u ≥ g.errorProbability span then (span, none, r)
  else
    let span : Span F := { span with Status := { Code := "ERROR", Message := "synthetic failure" } }
    let span : Span F := { span with Attributes := span.Attributes.set "error" (.bool true) }
    let span : Span F :=
      if span.Attributes.has "http.method" then
        { span with Attributes := span.Attributes.set "http.status_code" (.int 500) }
      else span
    let exceptionEvent : Event F :=
      { Name := "exception"
        Time := span.StartTime.Add (Int.tdiv span.Duration 2)
        Attributes := [
          ("exception.type", .str "SyntheticError"),
          ("exception.message", .str "generated error")] }
    let span : Span F := { span with Events := span.Events ++ [exceptionEvent] }
    let (u, r) := RNG.Float64 g.rand r
    if u < g.cfg.Retries then
      let retryEvent : Event F :=
        { Name := "retry"
          Time := span.StartTime.Add span.Duration
          Attributes := [("retry.attempt", .int 1)] }
      let span : Span F := { span with Events := span.Events ++ [retryEvent] }
      let (d, r) := g.sampleDuration r
      let retryDuration := Int.tdiv d 2
      let span : Span F := { span with Duration := wrapInt64 (span.Duration + retryDuration) }
      let serviceName := (span.Attributes.getString "service.name").1
      let (retryID, r) := g.newSpanID r
      let retrySpan : Span F :=
        { TraceID := span.TraceID
          SpanID := retryID
          ParentSpanID := span.SpanID
          HasParent := true
          Name := "retry attempt"
          Kind := "INTERNAL"
          StartTime := span.StartTime.Add (wrapInt64 (span.Duration - retryDuration))
          Duration := retryDuration
          Attributes := [
            ("service.name", .str serviceName),
            ("retry.attempt", .int 1)]
          Status := { Code := "OK" }
          Resource := { Attributes := [("service.name", .str serviceName)] } }
      let retrySpan :=
        if span.Attributes.has "http.method" then
          { retrySpan with Attributes := retrySpan.Attributes.set "http.status_code" (.int 200) }
        else retrySpan
      (span, some retrySpan, r)
    else (span, none, r)

/-- The statements `if retrySpan != nil ...` that follow an append: the retry span gets
its cardinality attributes and is appended. -/
def Generator.appendRetry (g : Generator F σ) (spans : List (Span F)) (retrySpan : Option (Span F)) :
    List (Span F) :=
  match retrySpan with
  | some rs => spans ++ [g.applyCardinalityAttrs rs]
  | none => spans

/-- One iteration `i` of the loop of `generateChildren`; `recurse` is the recursive call
`g.generateChildren(trace, ·, level+1)`. -/
def Generator.generateChild (g : Generator F σ)
    (recurse : List (Span F) → Span F → σ → List (Span F) × σ)
    (traceID : model.TraceID) (parent : Span F) (i : Int) (spans : List (Span F)) (r : σ) :
    List (Span F) × σ :=
  let (si, r) := RNG.Intn g.rand (Int.ofNat g.topology.Services.length) r
  let service := g.topology.Services.getD si.toNat ""
  let start := parent.StartTime.Add ((i + 1) * time.Millisecond)
  let (routeIdx, r) := RNG.Intn g.rand (max 1 g.cfg.Routes) r
  if g.cfg.Profile = "queue" then
    let (producerID, r) := g.newSpanID r
    let (consumerID, r) := g.newSpanID r
    let (dur, r) := g.sampleDurationForProfile r
    let (producer, consumer) :=
      g.profile.buildQueuePair parent service routeIdx start producerID consumerID traceID dur
    let producer := g.applyCardinalityAttrs producer
    let consumer := g.applyCardinalityAttrs consumer
    let (producer, r) := g.maybeAddProfileEvent producer r
    let (consumer, r) := g.maybeAddProfileEvent consumer r
    let (producer, producerRetry, r) := g.maybeErrorAndRetry producer r
    let (consumer, consumerRetry, r) := g.maybeErrorAndRetry consumer r
    let spans := spans ++ [producer, consumer]
    let spans := g.appendRetry spans producerRetry
    let spans := g.appendRetry spans consumerRetry
    recurse spans consumer r
  else
    let (spanID, r) := g.newSpanID r
    let (dur, r) := g.sampleDurationForProfile r
    let (u1, r) := RNG.Float64 g.rand r
    let (u2, r) := RNG.Float64 g.rand r
    let child := g.profile.buildChild parent service routeIdx start spanID traceID dur
      (u1 < g.cfg.DBHeavy) (u2 < g.cfg.CacheHitRate)
    let child := g.applyCardinalityAttrs child
    let (child, r) := g.maybeAddProfileEvent child r
    let (child, retrySpan, r) := g.maybeErrorAndRetry child r
    let spans := spans ++ [child]
    let spans := g.appendRetry spans retrySpan
    recurse spans child r

/-- The loop `for i := 0; i < childCount; i++` with `n` iterations left, at index `i`. -/
def Generator.childLoop (g : Generator F σ)
    (recurse : List (Span F) → Span F → σ → List (Span F) × σ)
    (traceID : model.TraceID) (parent : Span F) : Nat → Int → List (Span F) → σ → List (Span F) × σ
  | 0, _, spans, r => (spans, r)
  | n + 1, i, spans, r =>
    let (spans, r) := g.generateChild recurse traceID parent i spans r
    Generator.childLoop g recurse traceID parent n (i + 1) spans r

/-- The draw of `childCount` at the head of `generateChildren`. -/
def Generator.childCount (g : Generator F σ) (r : σ) : Int × σ :=
  let childCount := GoFloat64.toInt64 g.cfg.Fanout
  let (u, r) := RNG.Float64 g.rand r
  let childCount := if u < g.cfg.Fanout - GoFloat64.ofInt childCount then childCount + 1 else childCount
  let childCount := if childCount < 1 then 1 else childCount
  (childCount, r)

/-- The method `generateChildren` with the recursion depth bounded by `fuel`; the
trace is represented by its id and its span list. -/
def Generator.generateChildrenFuel (g : Generator F σ) (traceID : model.TraceID) :
    Nat → Int → List (Span F) → Span F → σ → List (Span F) × σ
  | 0, _, spans, _, r => (spans, r)
  | fuel + 1, level, spans, parent, r =>
    if level ≥ g.cfg.Depth then (spans, r)
    else
      let (childCount, r) := g.childCount r
      g.childLoop (Generator.generateChildrenFuel g traceID fuel (level + 1)) traceID parent
        childCount.toNat 0 spans r

/-- The method `generateChildren`: the recursion stops at `level >= Depth`, so
`Depth - level` nested calls suffice. -/
def Generator.generateChildren (g : Generator F σ) (traceID : model.TraceID) (spans : List (Span F))
    (parent : Span F) (level : Int) (r : σ) : List (Span F) × σ :=
  g.generateChildrenFuel traceID (g.cfg.Depth - level).toNat level spans parent r

/-- The method `GenerateTrace`. -/
def Generator.GenerateTrace (g : Generator F σ) (start : time.Time) (r : σ) : Trace F × σ :=
  let (traceID, r) := g.newTraceID r
  let (rootID, r) := g.newSpanID r
  let (routeIdx, r) := RNG.Intn g.rand (max 1 g.cfg.Routes) r
  let (dur, r) := g.sampleDurationForProfile r
  let root : Span F := g.profile.buildRoot g.topology.Frontdoor routeIdx start rootID traceID dur
  let root := g.applyCardinalityAttrs root
  let (root, r) := g.maybeAddProfileEvent root r
  let (root, retrySpan, r) := g.maybeErrorAndRetry root r
  let spans := [root]
  let spans := g.appendRetry spans retrySpan
  let (spans, r) := g.generateChildren traceID spans root 1 r
  let trace : Trace F :=
    { TraceID := traceID
      Resource := { Attributes := [("deployment.environment", .str "dev")] }
      Spans := spans }
  (trace, r)

end generator

/-! ## Results of fallible calls -/

deriving instance DecidableEq for Except

/-- The result of a Go call that returns `(α, error)` and may panic. -/
inductive Outcome (α : Type) (E : Type) where
  | ok (a : α)
  | error (e : E)
  | panic
  deriving DecidableEq

/-! ## internal/encode/otlp -/

inductive AnyValue (F : Type) where
  | StringValue (s : String)
  | BoolValue (b : Bool)
  | IntValue (i : Int)
  | DoubleValue (x : F)
  deriving DecidableEq

structure KeyValue (F : Type) where
  Key : String
  Value : AnyValue F
  deriving DecidableEq

inductive SpanKind where
  | SPAN_KIND_UNSPECIFIED
  | SPAN_KIND_INTERNAL
  | SPAN_KIND_SERVER
  | SPAN_KIND_CLIENT
  | SPAN_KIND_PRODUCER
  | SPAN_KIND_CONSUMER
  deriving DecidableEq

inductive StatusCode where
  | STATUS_CODE_UNSET
  | STATUS_CODE_OK
  | STATUS_CODE_ERROR
  deriving DecidableEq

structure OTLPStatus where
  Message : String
  Code : StatusCode
  deriving DecidableEq

structure OTLPEvent (F : Type) where
  Name : String
  TimeUnixNano : Nat
  Attributes : List (KeyValue F)
  DroppedAttributesCount : Nat
  deriving DecidableEq

structure OTLPSpan (F : Type) where
  TraceId : List Nat
  SpanId : List Nat
  ParentSpanId : List Nat
  Name : String
  Kind : SpanKind
  StartTimeUnixNano : Nat
  EndTimeUnixNano : Nat
  Attributes : List (KeyValue F)
  Events : List (OTLPEvent F)
  Status : OTLPStatus
  deriving DecidableEq

structure ScopeSpans (F : Type) where
  Spans : List (OTLPSpan F)
  deriving DecidableEq

structure ResourceSpans (F : Type) where
  Resource : List (KeyValue F)
  ScopeSpans : List (ScopeSpans F)
  deriving DecidableEq

structure ExportTraceServiceRequest (F : Type) where
  ResourceSpans : List (ResourceSpans F)
  deriving DecidableEq

section otlp

variable {F : Type} [GoFloat64 F]

/-- The conversion `uint64(t.UnixNano())`. -/
def unixNanoUint64 (t : time.Time) : Nat :=
  (wrapInt64 t % 18446744073709551616).toNat

def toAny (v : AttrValue F) : AnyValue F :=
  match v with
  | .str t => .StringValue t
  | .bool t => .BoolValue t
  | .int t => .IntValue t
  | .int64 t => .IntValue t
  | .float64 t => .DoubleValue t
  | .float32 t => .DoubleValue t
  | .duration t => .DoubleValue (GoFloat64.ofInt t / GoFloat64.ofInt time.Millisecond)
  | .other sprint => .StringValue sprint

/-- The keys of a map, sorted by `sort.Strings`. -/
def sortedKeys (keys : List String) : List String :=
  (keys.dedup).insertionSort (fun a b => a ≤ b)

def toAttrs (attrs : Attrs F) : List (KeyValue F) :=
  if attrs.length = 0 then []
  else
    (sortedKeys (attrs.map (fun kv => kv.1))).map
      (fun k => { Key := k, Value := toAny ((attrs.get k).getD (.other "<nil>")) })

def toSpanKind (kind : String) : SpanKind :=
  if kind = "INTERNAL" then .SPAN_KIND_INTERNAL
  else if kind = "SERVER" then .SPAN_KIND_SERVER
  else if kind = "CLIENT" then .SPAN_KIND_CLIENT
  else if kind = "PRODUCER" then .SPAN_KIND_PRODUCER
  else if kind = "CONSUMER" then .SPAN_KIND_CONSUMER
  else .SPAN_KIND_UNSPECIFIED

def toStatus (code message : String) : OTLPStatus :=
  if code = "OK" then { Message := message, Code := .STATUS_CODE_OK }
  else if code = "ERROR" then { Message := message, Code := .STATUS_CODE_ERROR }
  else { Message := message, Code := .STATUS_CODE_UNSET }

/-- The errors of the OTLP encoder: `negative duration for span %q`. -/
inductive OTLPEncodeError where
  | negativeDuration (name : String)
  deriving DecidableEq

def toOTLPSpan (s : Span F) : Except OTLPEncodeError (OTLPSpan F) :=
  let start := s.StartTime
  let finish := s.StartTime.Add s.Duration
  if s.Duration < 0 then .error (.negativeDuration s.Name)
  else
    let attrs := toAttrs s.Attributes
    let events := s.Events.map (fun e =>
      ({ Name := e.Name
         TimeUnixNano := unixNanoUint64 e.Time
         Attributes := toAttrs e.Attributes
         DroppedAttributesCount := 0 } : OTLPEvent F))
    .ok { TraceId := s.TraceID
          SpanId := s.SpanID
          ParentSpanId := if s.HasParent then s.ParentSpanID else []
          Name := s.Name
          Kind := toSpanKind s.Kind
          StartTimeUnixNano := unixNanoUint64 start
          EndTimeUnixNano := unixNanoUint64 finish
          Attributes := attrs
          Events := events
          Status := toStatus s.Status.Code s.Status.Message }

/-- The group key of a span: `service, _ := s.Attributes["service.name"].(string)`,
replaced by `unknown-service` when empty. -/
def otlpServiceOf (s : Span F) : String :=
  let service := (s.Attributes.getString "service.name").1
  if service = "" then "unknown-service" else service

/-- The inner loop of `otlp.EncodeSpans` over the spans of one service. -/
def encodeServiceSpans : List (Span F) → Except OTLPEncodeError (List (OTLPSpan F))
  | [] => .ok []
  | s :: rest =>
    match toOTLPSpan s with
    | .error e => .error e
    | .ok span =>
      match encodeServiceSpans rest with
      | .error e => .error e
      | .ok spans => .ok (span :: spans)

/-- The outer loop of `otlp.EncodeSpans` over the sorted service names. -/
def encodeServices (spans : List (Span F)) : List String → Except OTLPEncodeError (List (ResourceSpans F))
  | [] => .ok []
  | service :: rest =>
    match encodeServiceSpans (spans.filter (fun s => otlpServiceOf s = service)) with
    | .error e => .error e
    | .ok otelSpans =>
      match encodeServices spans rest with
      | .error e => .error e
      | .ok more =>
        .ok ({ Resource := [{ Key := "service.name", Value := .StringValue service }]
               ScopeSpans := [{ Spans := otelSpans }] } :: more)

/-- The function `otlp.EncodeSpans`. -/
def otlp.EncodeSpans (spans : List (Span F)) : Except OTLPEncodeError (ExportTraceServiceRequest F) :=
  let services := sortedKeys (spans.map otlpServiceOf)
  match encodeServices spans services with
  | .error e => .error e
  | .ok resourceSpans => .ok { ResourceSpans := resourceSpans }

end otlp

/-! ## internal/encode/zipkin -/

/-- The formatting functions of `strconv` and `fmt` for values whose text depends on
the floating-point representation or on `Duration.String`. -/
structure FormatLib (F : Type) where
  FormatFloat64 : F → String
  FormatFloat32 : F → String
  DurationString : time.Duration → String

/-- The function `strconv.Itoa`. -/
def strconvItoa (i : Int) : String :=
  if i < 0 then "-" ++ itoa (- i) else itoa i

structure ZipkinSpan where
  TraceID : String
  ID : String
  ParentID : String
  Name : String
  Kind : String
  TimestampMicr : Int
  DurationMicr : Int
  LocalEndpoint : String
  Tags : Option (List (String × String))
  deriving DecidableEq

/-- The errors of the Zipkin encoder: `span %x has zero start time`. -/
inductive ZipkinEncodeError where
  | zeroStartTime (spanID : model.SpanID)
  deriving DecidableEq

section zipkin

variable {F : Type}

/-- The function `tagsFromAttrs`; `none` is the nil map. -/
def tagsFromAttrs (fmt : FormatLib F) (attrs : Attrs F) : Option (List (String × String)) :=
  if attrs.length = 0 then none
  else some (attrs.map (fun kv =>
    (kv.1, match kv.2 with
      | .str tv => tv
      | .bool tv => if tv then "true" else "false"
      | .int tv => strconvItoa tv
      | .int64 tv => strconvItoa tv
      | .float32 tv => fmt.FormatFloat32 tv
      | .float64 tv => fmt.FormatFloat64 tv
      | .duration tv => fmt.DurationString tv
      | .other sprint => sprint)))

/-- The function `serviceName` of the Zipkin encoder. -/
def zipkinServiceName (s : Span F) : String :=
  let rn := s.Resource.Attributes.getString "service.name"
  if rn.2 ∧ rn.1 ≠ "" then rn.1
  else
    let an := s.Attributes.getString "service.name"
    if an.2 then an.1 else "unknown"

/-- The write `tags[k] = v` and the read `tags[k]` of a `map[string]string`. -/
def tagsSet (tags : List (String × String)) (k v : String) : List (String × String) :=
  match tags with
  | [] => [(k, v)]
  | (k1, v1) :: rest => if k1 = k then (k, v) :: rest else (k1, v1) :: tagsSet rest k v

def tagsGet (tags : List (String × String)) (k : String) : String :=
  match tags with
  | [] => ""
  | (k1, v1) :: rest => if k1 = k then v1 else tagsGet rest k

/-- The body of the loop of `zipkin.EncodeSpans` for one span. A write to the nil map
returned by `tagsFromAttrs` panics. -/
def zipkinEncodeSpan (fmt : FormatLib F) (s : Span F) : Outcome ZipkinSpan ZipkinEncodeError :=
  if s.StartTime.IsZero then .error (.zeroStartTime s.SpanID)
  else
    let d := Int.tdiv s.Duration time.Microsecond
    let d := if d < 1 then 1 else d
    let tags := tagsFromAttrs fmt s.Attributes
    let tagsResult : Option (Option (List (String × String))) :=
      if s.Status.Code = "ERROR" then
        match tags with
        | none => none
        | some m =>
          let m := tagsSet m "error" s.Status.Message
          let m := if tagsGet m "error" = "" then tagsSet m "error" "true" else m
          some (some m)
      else some tags
    match tagsResult with
    | none => .panic
    | some tags =>
      .ok { TraceID := hexEncode s.TraceID
            ID := hexEncode s.SpanID
            ParentID := if s.HasParent then hexEncode s.ParentSpanID else ""
            Name := s.Name
            Kind := s.Kind
            TimestampMicr := s.StartTime / 1000
            DurationMicr := d
            LocalEndpoint := zipkinServiceName s
            Tags := tags }

/-- The function `zipkin.EncodeSpans`; the result is the slice handed to
`json.Marshal`. -/
def zipkin.EncodeSpans (fmt : FormatLib F) : List (Span F) → Outcome (List ZipkinSpan) ZipkinEncodeError
  | [] => .ok []
  | s :: rest =>
    match zipkinEncodeSpan fmt s with
    | .error e => .error e
    | .panic => .panic
    | .ok z =>
      match zipkin.EncodeSpans fmt rest with
      | .error e => .error e
      | .panic => .panic
      | .ok out => .ok (z :: out)

end zipkin

/-! ## internal/sink -/

/-- The errors returned by the `SendSpans` methods of the sink clients. Everything
after the encoding (marshalling, compression, the HTTP round trip and the status
check) is the parameter `transport` of the methods; its error is `transport`. -/
inductive SinkError where
  | otlpEncode (e : OTLPEncodeError)
  | zipkinEncode (e : ZipkinEncodeError)
  | transport (msg : String)
  deriving DecidableEq

/-- The method `SendSpans` of the OTLP/HTTP client. -/
def otlphttp.SendSpans {F : Type} [GoFloat64 F]
    (transport : ExportTraceServiceRequest F → Option String) (spans : List (Span F)) :
    Outcome Unit SinkError :=
  if spans.length = 0 then .ok ()
  else
    match otlp.EncodeSpans spans with
    | .error e => .error (.otlpEncode e)
    | .ok reqMsg =>
      match transport reqMsg with
      | some msg => .error (.transport msg)
      | none => .ok ()

/-- The method `SendSpans` of the Zipkin client. -/
def zipkinsink.SendSpans {F : Type} (fmt : FormatLib F)
    (transport : List ZipkinSpan → Option String) (spans : List (Span F)) :
    Outcome Unit SinkError :=
  if spans.length = 0 then .ok ()
  else
    match zipkin.EncodeSpans fmt spans with
    | .error e => .error (.zipkinEncode e)
    | .panic => .panic
    | .ok payload =>
      match transport payload with
      | some msg => .error (.transport msg)
      | none => .ok ()

/-! ## internal/app: sendWithRetry -/

/-- The error returned by `sendWithRetry`: the error of the last attempt or
`ctx.Err()`. -/
inductive RetryError (E : Type) where
  | last (e : E)
  | ctx
  deriving DecidableEq

/-- The statement `return lastErr`. -/
def returnLastErr {E : Type} (lastErr : Option E) : Outcome Unit (RetryError E) :=
  match lastErr with
  | none => .ok ()
  | some e => .error (.last e)

/-- The loop of `sendWithRetry`. `send timeout k` is the result of the call of `send`
number `k` (from 0) under a context with the given timeout; `cancelled k` tells
whether `ctx.Done()` wins the `select` during the back-off after that call. The
second component counts the calls of `send`. -/
def sendWithRetryLoop {E : Type} (cancelled : Nat → Bool) (retries : Int) (timeout : time.Duration)
    (send : time.Duration → Nat → Outcome Unit E) :
    Nat → Int → Option E → Nat → Outcome Unit (RetryError E) × Nat
  | 0, _, lastErr, calls => (returnLastErr lastErr, calls)
  | fuel + 1, attempt, lastErr, calls =>
    if attempt ≤ retries then
      match send timeout calls with
      | .ok _ => (.ok (), calls + 1)
      | .panic => (.panic, calls + 1)
      | .error e =>
        if attempt = retries then (.error (.last e), calls + 1)
        else if cancelled calls then (.error .ctx, calls + 1)
        else sendWithRetryLoop cancelled retries timeout send fuel (attempt + 1) (some e) (calls + 1)
    else (returnLastErr lastErr, calls)

/-- The function `sendWithRetry`: the returned error and the number of calls of
`send`. The loop runs for `attempt = 0 .. retries`, so `retries + 1` iterations are
enough fuel. -/
def sendWithRetry {E : Type} (cancelled : Nat → Bool) (retries : Int)
    (backoff timeout : time.Duration) (send : time.Duration → Nat → Outcome Unit E) :
    Outcome Unit (RetryError E) × Nat :=
  let retries := if retries < 0 then 0 else retries
  let _backoff := if backoff ≤ 0 then 100 * time.Millisecond else backoff
  let timeout := if timeout ≤ 0 then 10 * time.Second else timeout
  sendWithRetryLoop cancelled retries timeout send (retries.toNat + 1) 0 none 0

/-! ## internal/app: the workers of produceTraces -/

/-- The function `withSeed`. -/
def withSeed {F : Type} (cfg : Config F) (seed : Int) : Config F :=
  { cfg with Seed := seed }

/-- The loop of one worker when the run is not cancelled:
`for start := range jobs { trace := g.GenerateTrace(start); traceCh <- trace }`.
The result lists the traces in the order in which the worker publishes them. -/
def workerTraces {F σ : Type} [GoFloat64 F] (g : Generator F σ) :
    List time.Time → σ → List (Trace F) × σ
  | [], r => ([], r)
  | start :: jobs, r =>
    let (trace, r) := g.GenerateTrace start r
    let (rest, r) := workerTraces g jobs r
    (trace :: rest, r)

/-! ## internal/app: produceTraces -/

/-- A reading of `time.Now()`: the wall clock and the monotonic clock. -/
structure Instant where
  wall : time.Time
  mono : Int
  deriving DecidableEq

/-- The method `Time.Sub` on two readings of `time.Now()`: the difference of the
monotonic readings, saturated to the range of `time.Duration`. -/
def Instant.Sub (t u : Instant) : time.Duration :=
  let d := t.mono - u.mono
  if d < -9223372036854775808 then -9223372036854775808
  else if d > 9223372036854775807 then 9223372036854775807
  else d

/-- The method `Duration.Seconds`. -/
def time.Duration.Seconds {F : Type} [GoFloat64 F] (d : time.Duration) : F :=
  let sec := Int.tdiv d time.Second
  let nsec := Int.tmod d time.Second
  GoFloat64.ofInt sec + GoFloat64.ofInt nsec / 1e9

/-- The result of the `select` that offers a job to the workers. -/
inductive JobSelect where
  | sent
  | done
  | full
  deriving DecidableEq

/-- The result of the `select` that waits for the ticker. -/
inductive WaitSelect where
  | done
  | tick
  deriving DecidableEq

/-- What the scheduler observes of its environment: the successive readings of
`time.Now()`, the successive outcomes of the `select` on the jobs channel
(`sent`: the channel took the job, `done`: the context is cancelled, `full`: the
`default` case) and of the `select` on the ticker. -/
structure ProducerEnv where
  now : Nat → Instant
  trySend : Nat → JobSelect
  wait : Nat → WaitSelect

/-- The local variables of the loop of `produceTraces`, the list of the timestamps
sent on the jobs channel so far, and how many readings and `select` outcomes have
been consumed. -/
structure ProducerState (F : Type) where
  tokens : F
  lastRefill : Instant
  sent : Int
  jobs : List time.Time
  nows : Nat
  sends : Nat
  waits : Nat
  deriving DecidableEq

/-- The values computed by `produceTraces` before its loop. -/
structure ProducerParams (F : Type) where
  cfg : Config F
  ratePerSecond : F
  capacity : F
  start : time.Time
  hasDurationLimit : Bool
  durationDeadline : time.Time

inductive InnerResult (F : Type) where
  | exit (st : ProducerState F) (dispatched : Bool)
  | cancelled (st : ProducerState F)
  | outOfFuel (st : ProducerState F)
  deriving DecidableEq

/-- How `produceTraces` ends: `returned` after the loop is left by `break` (or by the
guard on the rate), `cancelled` after `ctx.Done()`, `outOfFuel` when the loop is
still running after the given number of iterations. -/
inductive ProducerResult (F : Type) where
  | returned (st : ProducerState F)
  | cancelled (st : ProducerState F)
  | outOfFuel (st : ProducerState F)
  deriving DecidableEq

section producer

variable {F : Type} [GoFloat64 F]

def estimateSpansPerTraceLoop (fanout : F) : Nat → F → F → F
  | 0, _, total => total
  | n + 1, level, total =>
    let level := level * fanout
    let total := total + level
    estimateSpansPerTraceLoop fanout n level total

def estimateSpansPerTrace (depth : Int) (fanout : F) : F :=
  if depth ≤ 1 then 1.0
  else if fanout ≤ 1.0 then GoFloat64.ofInt depth
  else estimateSpansPerTraceLoop fanout (depth - 1).toNat 1.0 1.0

def effectiveTracesPerInterval (cfg : Config F) : F :=
  if cfg.RateUnit = RateUnitTraces then cfg.RateValue
  else
    let estimatedSpansPerTrace := estimateSpansPerTrace cfg.Depth cfg.Fanout
    if estimatedSpansPerTrace ≤ 0.0 then 1.0
    else
      let traces := cfg.RateValue / estimatedSpansPerTrace
      if traces < 1.0 then 1.0 else traces

/-- The test `hasDurationLimit && time.Now().After(durationDeadline)`: the clock is
read only when the run has a duration limit. -/
def deadlinePassed (p : ProducerParams F) (env : ProducerEnv) (st : ProducerState F) :
    Bool × ProducerState F :=
  if p.hasDurationLimit then
    (decide ((env.now st.nows).wall > p.durationDeadline), { st with nows := st.nows + 1 })
  else (false, st)

/-- The timestamp of the next job:
`start.Add(time.Duration(float64(sent) / ratePerSecond * float64(time.Second)))`. -/
def scheduledAt (p : ProducerParams F) (sent : Int) : time.Time :=
  p.start.Add (GoFloat64.toInt64
    (GoFloat64.ofInt sent / p.ratePerSecond * GoFloat64.ofInt time.Second))

/-- The loop `for tokens >= 1 { ... }`. -/
def producerInner (p : ProducerParams F) (env : ProducerEnv) :
    Nat → ProducerState F → Bool → InnerResult F
  | 0, st, _ => .outOfFuel st
  | fuel + 1, st, dispatched =>
    if st.tokens ≥ 1.0 then
      if p.cfg.Count > 0 ∧ st.sent ≥ p.cfg.Count then .exit st dispatched
      else
        let (expired, st) := deadlinePassed p env st
        if expired then .exit st dispatched
        else
          let scheduled := scheduledAt p st.sent
          match env.trySend st.sends with
          | .sent =>
            producerInner p env fuel
              { st with sends := st.sends + 1, jobs := st.jobs ++ [scheduled],
                        sent := st.sent + 1, tokens := st.tokens - 1.0 } true
          | .done => .cancelled { st with sends := st.sends + 1 }
          | .full =>
            producerInner p env fuel { st with sends := st.sends + 1, tokens := 0.0 } dispatched
    else .exit st dispatched

/-- The loop `for { ... }` of `produceTraces`. Each iteration runs the inner loop with
the fuel that is left. -/
def producerOuter (p : ProducerParams F) (env : ProducerEnv) :
    Nat → ProducerState F → ProducerResult F
  | 0, st => .outOfFuel st
  | fuel + 1, st =>
    if p.cfg.Count > 0 ∧ st.sent ≥ p.cfg.Count then .returned st
    else
      let (expired, st) := deadlinePassed p env st
      if expired then .returned st
      else
        let now := env.now st.nows
        let elapsed : F := time.Duration.Seconds (now.Sub st.lastRefill)
        let tokens := st.tokens + elapsed * p.ratePerSecond
        let tokens := if tokens > p.capacity then p.capacity else tokens
        let st := { st with nows := st.nows + 1, lastRefill := now, tokens := tokens }
        match producerInner p env fuel st false with
        | .outOfFuel st => .outOfFuel st
        | .cancelled st => .cancelled st
        | .exit st dispatched =>
          if dispatched then producerOuter p env fuel st
          else
            match env.wait st.waits with
            | .done => .cancelled { st with waits := st.waits + 1 }
            | .tick => producerOuter p env fuel { st with waits := st.waits + 1 }

/-- The rate of `produceTraces` in traces per second. -/
def ratePerSecond (cfg : Config F) : F :=
  effectiveTracesPerInterval cfg / time.Duration.Seconds cfg.RateInterval

/-- The values `produceTraces` computes before its loop, from the first reading of the
clock. -/
def producerParams (cfg : Config F) (env : ProducerEnv) : ProducerParams F :=
  let rate := ratePerSecond cfg
  let capacity := if rate < 1.0 then 1.0 else rate
  let start := (env.now 0).wall
  let hasDurationLimit : Bool := cfg.Count ≤ 0 ∧ cfg.Duration > 0
  { cfg := cfg
    ratePerSecond := rate
    capacity := capacity
    start := start
    hasDurationLimit := hasDurationLimit
    durationDeadline := if hasDurationLimit then start.Add cfg.Duration else zeroTime }

/-- The scheduler of `produceTraces`: everything but the worker goroutines. -/
def produceTraces (cfg : Config F) (env : ProducerEnv) (fuel : Nat) : ProducerResult F :=
  if ratePerSecond cfg ≤ 0.0 then
    .returned { tokens := 0.0, lastRefill := env.now 0, sent := 0, jobs := [],
                nows := 0, sends := 0, waits := 0 }
  else
    let p := producerParams cfg env
    producerOuter p env fuel
      { tokens := p.capacity, lastRefill := env.now 0, sent := 0, jobs := [],
        nows := 1, sends := 0, waits := 0 }

/-- The worker goroutines of `produceTraces` when the run is not cancelled. Worker `w`
owns the generator `New(withSeed(cfg, cfg.Seed+w))`; `assign k` names the worker
that receives job number `k`. The traces are listed in the order of their jobs; the
order in which different workers publish is not modelled. -/
def poolTraces {σ : Type} (R : RandLib F σ) (M : MathLib F) (cfg : Config F) (assign : Nat → Nat) :
    List time.Time → Nat → (Nat → σ) → List (Trace F)
  | [], _, _ => []
  | start :: jobs, k, states =>
    let w := assign k % cfg.Workers.toNat
    let g := (New R M (withSeed cfg (wrapInt64 (cfg.Seed + Int.ofNat w)))).1
    let (trace, r) := g.GenerateTrace start (states w)
    trace :: poolTraces R M cfg assign jobs (k + 1) (Function.update states w r)

/-- The initial states of the sources of the workers. -/
def poolStates {σ : Type} (R : RandLib F σ) (M : MathLib F) (cfg : Config F) : Nat → σ :=
  fun w => (New R M (withSeed cfg (wrapInt64 (cfg.Seed + Int.ofNat w)))).2

end producer

/-! ## internal/encode/jsonl and the JSONL branch of consumeTraces -/

/-- The struct `spanLine`: one line of JSONL output before `json.Encoder` renders it. -/
structure SpanLine (F : Type) where
  TraceID : String
  SpanID : String
  ParentSpanID : String
  Name : String
  Kind : String
  ServiceName : String
  StartTime : time.Time
  DurationMS : F
  Status : String
  Attributes : Attrs F
  deriving DecidableEq

/-- The body of the loop of `jsonl.WriteTrace` for one span. -/
def jsonlLine {F : Type} [GoFloat64 F] (span : Span F) : SpanLine F :=
  { TraceID := hexEncode span.TraceID
    SpanID := hexEncode span.SpanID
    ParentSpanID := if span.HasParent then hexEncode span.ParentSpanID else ""
    Name := span.Name
    Kind := span.Kind
    ServiceName := (span.Attributes.getString "service.name").1
    StartTime := span.StartTime
    DurationMS := GoFloat64.ofInt span.Duration / GoFloat64.ofInt time.Millisecond
    Status := span.Status.Code
    Attributes := span.Attributes }

/-- The function `jsonl.WriteTrace`: the lines handed to the JSON encoder, in order.
The encoder and the writer are not modelled and do not fail. -/
def jsonl.WriteTrace {F : Type} [GoFloat64 F] (spans : List (Span F)) : List (SpanLine F) :=
  spans.map jsonlLine

/-- What the consumer receives: a trace from the trace channel or a tick of the flush
ticker. -/
inductive ConsumerEvent (F : Type) where
  | trace (t : Trace F)
  | flushTick

/-- The variables of `consumeTraces` for the JSONL format: the span buffer, the
pending-trace counter, the lines written so far and the two counters of the stats. -/
structure ConsumerState (F : Type) where
  spanBatch : List (Span F) := []
  pendingTraceCount : Int := 0
  written : List (SpanLine F) := []
  statsTraces : Nat := 0
  statsSpans : Nat := 0

section consumer

variable {F : Type} [GoFloat64 F]

/-- The method `emitterStats.add`. -/
def ConsumerState.statsAdd (st : ConsumerState F) (traces spans : Int) : ConsumerState F :=
  let st := if traces > 0 then { st with statsTraces := st.statsTraces + traces.toNat } else st
  if spans > 0 then { st with statsSpans := st.statsSpans + spans.toNat } else st

/-- The closure `flushJSONL`. -/
def flushJSONL (st : ConsumerState F) : ConsumerState F :=
  if st.spanBatch.length = 0 then st
  else
    let batchSpans := Int.ofNat st.spanBatch.length
    let batchTraces := st.pendingTraceCount
    let st := { st with written := st.written ++ jsonl.WriteTrace st.spanBatch }
    let st := { st with spanBatch := [], pendingTraceCount := 0 }
    st.statsAdd batchTraces batchSpans

/-- One iteration of the `select` loop of `consumeTraces` for `cfg.Format = "jsonl"`. -/
def consumeStepJSONL (cfg : Config F) (st : ConsumerState F) (ev : ConsumerEvent F) :
    ConsumerState F :=
  match ev with
  | .trace trace =>
    if cfg.Output = "noop" then st.statsAdd 1 (Int.ofNat trace.Spans.length)
    else
      let st := { st with spanBatch := st.spanBatch ++ trace.Spans,
                          pendingTraceCount := st.pendingTraceCount + 1 }
      if Int.ofNat st.spanBatch.length ≥ cfg.BatchSize then flushJSONL st else st
  | .flushTick => flushJSONL st

/-- The closure `finalize` for `cfg.Format = "jsonl"`. -/
def finalizeJSONL (cfg : Config F) (st : ConsumerState F) : ConsumerState F :=
  if cfg.Output = "noop" then st else flushJSONL st

/-- The function `consumeTraces` for `cfg.Format = "jsonl"`, run on the events it
receives until the trace channel is closed. -/
def consumeTracesJSONL (cfg : Config F) (events : List (ConsumerEvent F)) : ConsumerState F :=
  finalizeJSONL cfg (events.foldl (consumeStepJSONL cfg) {})

/-- The events of a run: before trace number `i` arrives the flush ticker fires
`ticks i` times, and `ticks n` times after the last of the `n` traces. -/
def consumerEvents (ticks : Nat → Nat) : Nat → List (Trace F) → List (ConsumerEvent F)
  | i, [] => List.replicate (ticks i) .flushTick
  | i, t :: rest => List.replicate (ticks i) .flushTick ++ .trace t :: consumerEvents ticks (i + 1) rest

/-- The function `Run` for the JSONL format when no error occurs: the lines written to
the output, or `none` when the producer was cancelled or is still running. -/
def RunJSONL {σ : Type} (R : RandLib F σ) (M : MathLib F) (cfg : Config F) (env : ProducerEnv)
    (fuel : Nat) (assign : Nat → Nat) (ticks : Nat → Nat) : Option (List (SpanLine F)) :=
  match produceTraces cfg env fuel with
  | .returned st =>
    let traces := poolTraces R M cfg assign st.jobs 0 (poolStates R M cfg)
    some (consumeTracesJSONL cfg (consumerEvents ticks 0 traces)).written
  | .cancelled _ => none
  | .outOfFuel _ => none

end consumer

/-! ## A concrete instance for evaluating the definitions -/

/-- Exact fractions `num / den`, not normalised. A zero denominator compares false
with everything, like a NaN. -/
structure DecFloat where
  num : Int
  den : Nat
  deriving DecidableEq

def DecFloat.ofScientific (mantissa : Nat) (exponentSign : Bool) (decimalExponent : Nat) : DecFloat :=
  if exponentSign then { num := Int.ofNat mantissa, den := 10 ^ decimalExponent }
  else { num := Int.ofNat (mantissa * 10 ^ decimalExponent), den := 1 }

def DecFloat.add (a b : DecFloat) : DecFloat :=
  { num := a.num * Int.ofNat b.den + b.num * Int.ofNat a.den, den := a.den * b.den }

def DecFloat.neg (a : DecFloat) : DecFloat :=
  { num := - a.num, den := a.den }

def DecFloat.mul (a b : DecFloat) : DecFloat :=
  { num := a.num * b.num, den := a.den * b.den }

def DecFloat.div (a b : DecFloat) : DecFloat :=
  { num := a.num * Int.ofNat b.den * Int.sign b.num, den := a.den * b.num.natAbs }

def DecFloat.blt (a b : DecFloat) : Bool :=
  a.den != 0 && b.den != 0 && decide (a.num * Int.ofNat b.den < b.num * Int.ofNat a.den)

def DecFloat.ble (a b : DecFloat) : Bool :=
  a.den != 0 && b.den != 0 && decide (a.num * Int.ofNat b.den ≤ b.num * Int.ofNat a.den)

/-- Truncation toward zero; a value outside the 64-bit range gives the smallest
integer, as the conversion does on amd64. -/
def DecFloat.toInt64 (a : DecFloat) : Int :=
  let q := Int.tdiv a.num (Int.ofNat a.den)
  if a.den = 0 ∨ q < -9223372036854775808 ∨ 9223372036854775807 < q then -9223372036854775808 else q

instance instGoFloat64DecFloat : GoFloat64 DecFloat where
  ofScientific := DecFloat.ofScientific
  add := DecFloat.add
  sub := fun a b => DecFloat.add a (DecFloat.neg b)
  mul := DecFloat.mul
  div := DecFloat.div
  neg := DecFloat.neg
  lt := fun a b => DecFloat.blt a b = true
  le := fun a b => DecFloat.ble a b = true
  ofInt := fun i => { num := i, den := 1 }
  toInt64 := DecFloat.toInt64
  decLt := fun a b => inferInstanceAs (Decidable (DecFloat.blt a b = true))
  decLe := fun a b => inferInstanceAs (Decidable (DecFloat.ble a b = true))

/-- A stand-in for the `math` package on `DecFloat`: the first terms of the power
series of each function. The evaluations below use it only where the sample falls
under the one-microsecond floor of `sampleDuration` for every `math` package whose
`Exp (0.01 * z)` is below 1000. -/
def seriesMath : MathLib DecFloat where
  Log := fun x => DecFloat.add x { num := -1, den := 1 }
  Exp := fun x => DecFloat.add { num := 1, den := 1 } x
  Sqrt := fun x => DecFloat.mul (DecFloat.add { num := 1, den := 1 } x) { num := 1, den := 2 }
  Cos := fun x => DecFloat.add { num := 1, den := 1 } (DecFloat.neg (DecFloat.mul (DecFloat.mul x x) { num := 1, den := 2 }))
  Pi := { num := 3141592653589793, den := 1000000000000000 }

/-- A scripted random source: the state is the list of raw draws still to come.
`Float64` turns a draw `v` into `(v mod 1000) / 1000`, `Intn n` into `v mod n`; an
exhausted script keeps answering with the draw 0. -/
def scriptedRand (script : Int → List Nat) : RandLib DecFloat (List Nat) where
  NewSource := script
  Float64 := fun r => ({ num := Int.ofNat (r.headD 0 % 1000), den := 1000 }, r.tail)
  Intn := fun n r => (Int.ofNat (r.headD 0) % n, r.tail)

/-- Every span of the list has a parent whose id is in `seen` or belongs to a span
earlier in the list. -/
def wellParentedFrom {F : Type} (seen : List model.SpanID) : List (Span F) → Prop
  | [] => True
  | s :: rest =>
    s.HasParent = true ∧ s.ParentSpanID ∈ seen ∧ wellParentedFrom (seen ++ [s.SpanID]) rest

/-! ## Predicates used to state the properties of generated traces -/

/-- A span is either marked as an error (status `ERROR` and attribute `error = true`)
or not at all (status `OK` and no attribute `error`). -/
def StatusOk {F : Type} (s : Span F) : Prop :=
  (s.Status.Code = "ERROR" ∧ s.Attributes.get "error" = some (.bool true)) ∨
  (s.Status.Code = "OK" ∧ s.Attributes.get "error" = none)

/-- The span `c` was built as a child of `parent` in the trace `tid`. -/
def ChildOf {F : Type} (tid : model.TraceID) (parent c : Span F) : Prop :=
  c.TraceID = tid ∧ c.HasParent = true ∧ c.ParentSpanID = parent.SpanID ∧ StatusOk c

/-- The span `rs` is the retry span emitted for `x`. -/
def RetryOf {F : Type} (x rs : Span F) : Prop :=
  rs.TraceID = x.TraceID ∧ rs.HasParent = true ∧ rs.ParentSpanID = x.SpanID ∧
  rs.Kind = "INTERNAL" ∧ rs.Links = [] ∧ rs.Status.Code = "OK" ∧ rs.Attributes.get "error" = none

/-- What one iteration of the loop of `generateChildren` appends (`block`) and the span it
recurses from (`last`): a child and its optional retry span, or for the queue
profile a producer, its consumer and their optional retry spans. -/
def BlockSpec {F σ : Type} (g : Generator F σ) (tid : model.TraceID) (parent : Span F)
    (block : List (Span F)) (last : Span F) : Prop :=
  (g.cfg.Profile ≠ "queue" ∧ ∃ (child : Span F) (retry : Option (Span F)),
    block = child :: retry.toList ∧ last = child ∧ ChildOf tid parent child ∧
    (child.Kind = "CLIENT" ∨ child.Kind = "INTERNAL") ∧ child.Links = [] ∧
    ∀ rs ∈ retry, RetryOf child rs) ∨
  (g.cfg.Profile = "queue" ∧ ∃ (p c : Span F) (pr cr : Option (Span F)),
    block = p :: c :: (pr.toList ++ cr.toList) ∧ last = c ∧
    ChildOf tid parent p ∧ ChildOf tid parent c ∧
    p.Kind = "PRODUCER" ∧ c.Kind = "CONSUMER" ∧
    (∃ l : Link F, p.Links = [l] ∧ l.TraceID = tid ∧ l.SpanID = c.SpanID ∧
      l.Attributes.get "link.type" = some (.str "follows_from")) ∧
    c.Links = [] ∧ (∀ rs ∈ pr, RetryOf p rs) ∧ (∀ rs ∈ cr, RetryOf c rs))

/-- Every `PRODUCER` span of the list is immediately followed by a `CONSUMER` span and
carries exactly one link, to that consumer, in the trace `tid`, of type
`follows_from`. -/
def producersLinked {F : Type} (tid : model.TraceID) : List (Span F) → Prop
  | [] => True
  | s :: rest =>
    (s.Kind = "PRODUCER" → ∃ (c : Span F) (rest2 : List (Span F)) (l : Link F),
      rest = c :: rest2 ∧ c.Kind = "CONSUMER" ∧ s.Links = [l] ∧ l.TraceID = tid ∧
      l.SpanID = c.SpanID ∧ l.Attributes.get "link.type" = some (.str "follows_from")) ∧
    producersLinked tid rest

/-! ## Concrete inputs used to evaluate the definitions -/

/-- A valid configuration: queue profile, depth 2, fanout 1, all three latency
percentiles at one nanosecond, no errors. -/
def queueNanoConfig : Config DecFloat :=
  { RateValue := 100.0, RateUnit := "traces", RateInterval := time.Second, Duration := 0,
    Count := 1, Seed := 1, Workers := 1, Profile := "queue", Routes := 1, Services := 1,
    Depth := 2, Fanout := 1.0, ServicePrefix := "svc-", P50 := 1, P95 := 1, P99 := 1,
    Errors := 0.0, Retries := 0.0, DBHeavy := 0.0, CacheHitRate := 0.0, Variety := "",
    HighCardinality := false, Format := "jsonl", Output := "stdout", File := "",
    OTLPEndpoint := "", ZipkinEndpoint := "", OTLPInsecure := false, Headers := [],
    Compress := "", BatchSize := 1, FlushInterval := 1, SinkRetries := 0,
    SinkRetryBackoff := 1, SinkTimeout := 1, SinkMaxInFlight := 1, ReportFile := "",
    HTTPListen := "", Debug := false }

/-- A valid configuration: web profile, depth 2, fanout 1, all three latency
percentiles at one nanosecond, every span an error, every error retried. -/
def webRetryConfig : Config DecFloat :=
  { queueNanoConfig with Profile := "web", Errors := 1.0, Retries := 1.0 }

/-- The scripted source whose raw draws are all 500: `Float64` returns 0.5 and
`Intn n` returns `500 mod n`. -/
def halfSource : RandLib DecFloat (List Nat) :=
  scriptedRand (fun _ => List.replicate 400 500)

/-- The trace generated first by a fresh generator for `cfg` at start time 0. -/
def firstTrace (cfg : Config DecFloat) : Trace DecFloat :=
  ((New halfSource seriesMath cfg).1.GenerateTrace 0 (New halfSource seriesMath cfg).2).1

/-- A stand-in for the formatting functions on `DecFloat`: a fraction is rendered as
`num/den`, a duration as its number of nanoseconds. -/
def fractionFormat : FormatLib DecFloat where
  FormatFloat64 := fun x => strconvItoa x.num ++ "/" ++ itoa (Int.ofNat x.den)
  FormatFloat32 := fun x => strconvItoa x.num ++ "/" ++ itoa (Int.ofNat x.den)
  DurationString := fun d => strconvItoa d ++ "ns"

/-- A span with a negative duration, which the OTLP encoder rejects. -/
def negativeDurationSpan : Span DecFloat :=
  { Name := "bad", Kind := "INTERNAL", StartTime := 1700000000000000000, Duration := -1,
    Attributes := [("service.name", .str "svc")], Status := { Code := "OK" } }

/-- A span with the zero start time, which the Zipkin encoder rejects. -/
def zeroStartSpan : Span DecFloat :=
  { Name := "bad", Kind := "INTERNAL", StartTime := zeroTime, Duration := 1000,
    Attributes := [("service.name", .str "svc")], Status := { Code := "OK" } }

/-- A send function that fails with `e` on its first `n` calls and succeeds afterwards. -/
def failFirst (n : Nat) (e : String) : time.Duration → Nat → Outcome Unit String :=
  fun _ k => if k < n then .error e else .ok ()

/-- The state carried by a result of the inner loop. -/
def InnerResult.state {F : Type} : InnerResult F → ProducerState F
  | .exit st _ => st
  | .cancelled st => st
  | .outOfFuel st => st

/-- The state carried by a result of the scheduler. -/
def ProducerResult.state {F : Type} : ProducerResult F → ProducerState F
  | .returned st => st
  | .cancelled st => st
  | .outOfFuel st => st

/-- The bookkeeping invariant of the scheduler: `sent` counts the jobs sent, job number
`k` carries the timestamp computed from `k`, and in count mode `sent` never exceeds
the count. -/
def ProducerInv {F : Type} [GoFloat64 F] (p : ProducerParams F) (st : ProducerState F) : Prop :=
  0 ≤ st.sent ∧
  st.jobs = (List.range st.sent.toNat).map (fun k => scheduledAt p (Int.ofNat k)) ∧
  (0 < p.cfg.Count → st.sent ≤ p.cfg.Count)

/-! ## Exact arithmetic: the rationals as an instance of `GoFloat64` -/

/-- The rationals with exact arithmetic: `float64` without rounding, infinities or
NaN. The conversion to an integer truncates toward zero and maps a value outside
the 64-bit range to the smallest integer. -/
instance instGoFloat64Rat : GoFloat64 ℚ where
  ofScientific := fun m s e => (OfScientific.ofScientific m s e : ℚ)
  add := fun a b => a + b
  sub := fun a b => a - b
  mul := fun a b => a * b
  div := fun a b => a / b
  neg := fun a => - a
  lt := fun a b => a < b
  le := fun a b => a ≤ b
  ofInt := fun i => (i : ℚ)
  toInt64 := fun a =>
    let q := Int.tdiv a.num (Int.ofNat a.den)
    if q < -9223372036854775808 ∨ 9223372036854775807 < q then -9223372036854775808 else q
  decLt := fun a b => inferInstanceAs (Decidable (a < b))
  decLe := fun a b => inferInstanceAs (Decidable (a ≤ b))

/-- A clock that advances by ten milliseconds between two readings, on both the wall
and the monotonic scale. -/
def tickingClock (n : Nat) : Instant :=
  { wall := 1700000000000000000 + 10000000 * Int.ofNat n, mono := 10000000 * Int.ofNat n }

/-- An environment without cancellation in which the jobs channel always has room. -/
def idealEnv : ProducerEnv :=
  { now := tickingClock, trySend := fun _ => .sent, wait := fun _ => .tick }

/-- The same environment started one second later on the wall clock. -/
def laterEnv : ProducerEnv :=
  { now := fun n => { wall := (tickingClock n).wall + 1000000000, mono := (tickingClock n).mono }
    trySend := fun _ => .sent
    wait := fun _ => .tick }

/-- The configuration of the determinism scenario: seed 1, web profile, depth 2,
fanout 1, count 1, three services, JSONL to the standard output, one worker. -/
def scenarioConfig : Config DecFloat :=
  { RateValue := 100.0, RateUnit := "traces", RateInterval := time.Second, Duration := 0,
    Count := 1, Seed := 1, Workers := 1, Profile := "web", Routes := 8, Services := 3,
    Depth := 2, Fanout := 1.0, ServicePrefix := "svc-", P50 := 1, P95 := 1, P99 := 1,
    Errors := 0.0, Retries := 0.0, DBHeavy := 0.0, CacheHitRate := 0.0, Variety := "",
    HighCardinality := false, Format := "jsonl", Output := "stdout", File := "",
    OTLPEndpoint := "", ZipkinEndpoint := "", OTLPInsecure := false, Headers := [],
    Compress := "", BatchSize := 256, FlushInterval := 100000000, SinkRetries := 0,
    SinkRetryBackoff := 100000000, SinkTimeout := 1000000000, SinkMaxInFlight := 1,
    ReportFile := "", HTTPListen := "", Debug := false }

/-- The same scenario with a count of three traces. -/
def countThreeConfig : Config DecFloat :=
  { scenarioConfig with Count := 3 }

/-- A configuration over the rationals: 100 traces per second, count 3. -/
def exactConfig : Config ℚ :=
  { RateValue := 100, RateUnit := "traces", RateInterval := time.Second, Duration := 0,
    Count := 3, Seed := 1, Workers := 1, Profile := "web", Routes := 8, Services := 3,
    Depth := 2, Fanout := 1, ServicePrefix := "svc-", P50 := 1, P95 := 1, P99 := 1,
    Errors := 0, Retries := 0, DBHeavy := 0, CacheHitRate := 0, Variety := "",
    HighCardinality := false, Format := "jsonl", Output := "stdout", File := "",
    OTLPEndpoint := "", ZipkinEndpoint := "", OTLPInsecure := false, Headers := [],
    Compress := "", BatchSize := 256, FlushInterval := 100000000, SinkRetries := 0,
    SinkRetryBackoff := 100000000, SinkTimeout := 1000000000, SinkMaxInFlight := 1,
    ReportFile := "", HTTPListen := "", Debug := false }

/-- An environment with the same clock as `idealEnv` in which the jobs channel is full
at the first attempt. -/
def busyEnv : ProducerEnv :=
  { idealEnv with trySend := fun n => if n = 0 then .full else .sent }

/-- The scripted source whose raw draws are all 10: `Float64` returns 0.01 and
`Intn n` returns `10 mod n`. -/
def lowSource : RandLib DecFloat (List Nat) :=
  scriptedRand (fun _ => List.replicate 400 10)

/-- A source whose `Float64` draws are all 0.5; the state counts the draws. -/
def steadySource : RandLib DecFloat Nat where
  NewSource := fun seed => seed.toNat
  Float64 := fun r => ({ num := 500, den := 1000 }, r + 1)
  Intn := fun n r => (Int.tmod (Int.ofNat r) n, r + 1)

/-- Four spans of three services, out of order; the last one has no `service.name`. -/
def groupingSpans : List (Span DecFloat) :=
  [ { Name := "b1", StartTime := 1700000000000000000, Duration := 2000,
      Attributes := [("service.name", .str "svc-b")], Status := { Code := "OK" } },
    { Name := "a1", StartTime := 1700000000000000000, Duration := 0,
      Attributes := [("service.name", .str "svc-a")], Status := { Code := "OK" } },
    { Name := "b2", StartTime := 1700000000000000000, Duration := 5,
      Attributes := [("service.name", .str "svc-b")], Status := { Code := "ERROR" } },
    { Name := "u1", StartTime := 1700000000000000000, Duration := 1,
      Attributes := [("service.name", .int 7)], Status := { Code := "OK" } } ]

/-- An error span with a start time and no attributes at all. -/
def errorBareSpan : Span DecFloat :=
  { SpanID := [0, 0, 0, 0, 0, 0, 0, 7], Name := "failed", Kind := "INTERNAL",
    StartTime := 1700000000000000000, Duration := 2500,
    Status := { Code := "ERROR", Message := "boom" } }

/-- An error span with attributes and an empty status message, child of another span. -/
def errorTaggedSpan : Span DecFloat :=
  { SpanID := [0, 0, 0, 0, 0, 0, 0, 8], ParentSpanID := [0, 0, 0, 0, 0, 0, 0, 7], HasParent := true,
    Name := "child", Kind := "CLIENT",
    StartTime := 1700000000000000000, Duration := 999,
    Attributes := [("service.name", .str "svc-a"), ("cache.hit", .bool true)],
    Status := { Code := "ERROR" } }

/-- The scenario configuration with the variety written in capitals between blanks. -/
def paddedVarietyConfig : Config DecFloat :=
  { scenarioConfig with Variety := " LOW " }

/-- The scenario configuration sent to an OTLP/HTTP collector with an unknown
compression name. -/
def zstdConfig : Config DecFloat :=
  { scenarioConfig with Format := "otlp-http", Output := "otlp",
                        OTLPEndpoint := "http://localhost:4318/v1/traces", Compress := "zstd" }

/-- The scenario configuration sent to an OTLP collector whose endpoint is blank. -/
def blankOTLPEndpointConfig : Config DecFloat :=
  { scenarioConfig with Format := "otlp-http", Output := "otlp", OTLPEndpoint := "  " }

/-- The scenario configuration sent to Zipkin without an endpoint. -/
def noZipkinEndpointConfig : Config DecFloat :=
  { scenarioConfig with Format := "zipkin-json", Output := "zipkin", ZipkinEndpoint := "" }

/-- The value of `0.0 / 0.0`: a NaN, which compares false with everything. -/
def nanValue : DecFloat := 0.0 / 0.0

/-- The scenario configuration with a NaN rate. -/
def nanRateConfig : Config DecFloat :=
  { scenarioConfig with RateValue := nanValue }

/-- The scenario configuration with NaN as fanout and as the four probabilities. -/
def nanRatiosConfig : Config DecFloat :=
  { scenarioConfig with Fanout := nanValue, Errors := nanValue, Retries := nanValue,
                        DBHeavy := nanValue, CacheHitRate := nanValue }

/-! ## internal/config: flags.go -/

/-- The struct `FlagValues`: the values of the command-line flags, defaults included. -/
structure FlagValues (F : Type) where
  ConfigFile : String
  Rate : F
  RateUnit : String
  RateInterval : time.Duration
  Duration : time.Duration
  Count : Int
  Seed : Int
  Workers : Int
  Profile : String
  Routes : Int
  Services : Int
  Depth : Int
  Fanout : F
  ServicePrefix : String
  P50 : time.Duration
  P95 : time.Duration
  P99 : time.Duration
  Errors : String
  Retries : String
  DBHeavy : String
  CacheHitRate : String
  Variety : String
  HighCardinality : Bool
  Format : String
  Output : String
  File : String
  OTLPEndpoint : String
  ZipkinEndpoint : String
  OTLPInsecure : Bool
  Headers : List String
  Compress : String
  BatchSize : Int
  FlushInterval : time.Duration
  SinkRetries : Int
  SinkRetryBackoff : time.Duration
  SinkTimeout : time.Duration
  SinkMaxInFlight : Int
  ReportFile : String
  HTTPListen : String
  Debug : Bool

/-- The struct `yamlFlagValues`: a nil pointer is `none`. -/
structure yamlFlagValues (F : Type) where
  Rate : Option F := none
  RateUnit : Option String := none
  RateInterval : Option String := none
  Duration : Option String := none
  Count : Option Int := none
  Seed : Option Int := none
  Workers : Option Int := none
  Profile : Option String := none
  Routes : Option Int := none
  Services : Option Int := none
  Depth : Option Int := none
  Fanout : Option F := none
  ServicePrefix : Option String := none
  P50 : Option String := none
  P95 : Option String := none
  P99 : Option String := none
  Errors : Option String := none
  Retries : Option String := none
  DBHeavy : Option String := none
  CacheHitRate : Option String := none
  Variety : Option String := none
  HighCardinality : Option Bool := none
  Format : Option String := none
  Output : Option String := none
  File : Option String := none
  OTLPEndpoint : Option String := none
  ZipkinEndpoint : Option String := none
  OTLPInsecure : Option Bool := none
  Headers : List String := []
  Compress : Option String := none
  BatchSize : Option Int := none
  FlushInterval : Option String := none
  SinkRetries : Option Int := none
  SinkRetryBackoff : Option String := none
  SinkTimeout : Option String := none
  SinkMaxInFlight : Option Int := none
  ReportFile : Option String := none
  HTTPListen : Option String := none
  Debug : Option Bool := none

/-- What `FromFlagsWithOverrides` reads from outside the repository: the environment
(`os.LookupEnv`), the file system (`os.ReadFile`, `none` for an error), the YAML
decoder (`yaml.Unmarshal` into a `yamlFlagValues`) and the parsers of `strconv` and
`time` (`none` for an error). -/
structure HostEnv (F : Type) where
  LookupEnv : String → Option String
  ReadFile : String → Option String
  yamlUnmarshal : String → Option (yamlFlagValues F)
  Atoi : String → Option Int
  ParseInt : String → Option Int
  ParseFloat : String → Option F
  ParseBool : String → Option Bool
  ParseDuration : String → Option time.Duration

/-- The errors of `FromFlagsWithOverrides`, one constructor per `fmt.Errorf`. -/
inductive FlagsError where
  | readConfigFile
  | parseConfigYAML
  | invalidYAMLDuration (flag raw : String)
  | invalidEnv (env raw : String)
  | invalidRateUnit (raw : String)
  | invalidPercent (raw : String)
  | percentOutOfRange (raw : String)
  | invalidHeader (item : String)
  | invalidConfig (e : ValidateError)
  deriving DecidableEq

/-- The function `ParseRateUnit`. -/
def ParseRateUnit (raw : String) : Except FlagsError String :=
  let s := ToLower (TrimSpace raw)
  if s = RateUnitSpans then .ok RateUnitSpans
  else if s = RateUnitTraces then .ok RateUnitTraces
  else .error (.invalidRateUnit raw)

/-- The statements `if strings.HasSuffix(s, "%") { s = strings.TrimSuffix(s, "%") }`. -/
def trimPercentSuffix (s : String) : String :=
  match s.data.reverse with
  | '%' :: rest => String.mk rest.reverse
  | _ => s

/-- The function `ParsePercent`. -/
def ParsePercent {F : Type} [GoFloat64 F] (H : HostEnv F) (raw : String) : Except FlagsError F :=
  let s := trimPercentSuffix (TrimSpace raw)
  match H.ParseFloat (TrimSpace s) with
  | none => .error (.invalidPercent raw)
  | some v =>
    if v < 0.0 ∨ v > 100.0 then .error (.percentOutOfRange raw)
    else .ok (v / 100.0)

/-- The call `strings.SplitN(item, "=", 2)` on the characters of `item`: `none` when
there is no `=`, otherwise the text before the first `=` and the text after it. -/
def splitKeyValue : List Char → Option (List Char × List Char)
  | [] => none
  | c :: rest =>
    if c = '=' then some ([], rest)
    else
      match splitKeyValue rest with
      | none => none
      | some (k, v) => some (c :: k, v)

/-- The loop of `ParseHeaders` over the items, with the map built so far. -/
def parseHeadersLoop : List String → List (String × String) → Except FlagsError (List (String × String))
  | [], out => .ok out
  | item :: rest, out =>
    match splitKeyValue item.data with
    | none => .error (.invalidHeader item)
    | some (k, v) =>
      if TrimSpace (String.mk k) = "" then .error (.invalidHeader item)
      else parseHeadersLoop rest (tagsSet out (TrimSpace (String.mk k)) (TrimSpace (String.mk v)))

/-- The function `ParseHeaders`. -/
def ParseHeaders (items : List String) : Except FlagsError (List (String × String)) :=
  parseHeadersLoop items []


/-- The closure `overridden` of `mergeFromYAML` and `mergeFromEnv`; `none` is the nil
map. -/
def overridden (cliOverrides : Option (String → Bool)) (name : String) : Bool :=
  match cliOverrides with
  | none => false
  | some m => m name

/-- The closures `setString`, `setInt`, `setInt64`, `setFloat` and `setBool` of
`mergeFromYAML`, returning the new value of `*dst`. -/
def yamlSet {α : Type} (cliOverrides : Option (String → Bool)) (flag : String) (src : Option α)
    (dst : α) : α :=
  match src with
  | some x => if ¬ overridden cliOverrides flag then x else dst
  | none => dst

/-- The closure `setDuration` of `mergeFromYAML`. -/
def yamlSetDuration {F : Type} (H : HostEnv F) (cliOverrides : Option (String → Bool))
    (flag : String) (src : Option String) (dst : time.Duration) : Except FlagsError time.Duration :=
  match src with
  | none => .ok dst
  | some raw =>
    if overridden cliOverrides flag then .ok dst
    else
      match H.ParseDuration raw with
      | none => .error (.invalidYAMLDuration flag raw)
      | some d => .ok d

/-- The statements of `mergeFromYAML` that follow the decoding of the file. Every
statement assigns one field of `v` from the same field of `y`, so the new values are
computed in the order of the source and the struct is built at the end. -/
def applyYAML {F : Type} (H : HostEnv F) (y : yamlFlagValues F) (v : FlagValues F)
    (cliOverrides : Option (String → Bool)) : Except FlagsError (FlagValues F) := do
  let xRate := yamlSet cliOverrides "rate" y.Rate v.Rate
  let xRateUnit := yamlSet cliOverrides "rate-unit" y.RateUnit v.RateUnit
  let xRateInterval ← yamlSetDuration H cliOverrides "rate-interval" y.RateInterval v.RateInterval
  let xDuration ← yamlSetDuration H cliOverrides "duration" y.Duration v.Duration
  let xCount := yamlSet cliOverrides "count" y.Count v.Count
  let xSeed := yamlSet cliOverrides "seed" y.Seed v.Seed
  let xWorkers := yamlSet cliOverrides "workers" y.Workers v.Workers
  let xProfile := yamlSet cliOverrides "profile" y.Profile v.Profile
  let xRoutes := yamlSet cliOverrides "routes" y.Routes v.Routes
  let xServices := yamlSet cliOverrides "services" y.Services v.Services
  let xDepth := yamlSet cliOverrides "depth" y.Depth v.Depth
  let xFanout := yamlSet cliOverrides "fanout" y.Fanout v.Fanout
  let xServicePrefix := yamlSet cliOverrides "service-prefix" y.ServicePrefix v.ServicePrefix
  let xP50 ← yamlSetDuration H cliOverrides "p50" y.P50 v.P50
  let xP95 ← yamlSetDuration H cliOverrides "p95" y.P95 v.P95
  let xP99 ← yamlSetDuration H cliOverrides "p99" y.P99 v.P99
  let xErrors := yamlSet cliOverrides "errors" y.Errors v.Errors
  let xRetries := yamlSet cliOverrides "retries" y.Retries v.Retries
  let xDBHeavy := yamlSet cliOverrides "db-heavy" y.DBHeavy v.DBHeavy
  let xCacheHitRate := yamlSet cliOverrides "cache-hit-rate" y.CacheHitRate v.CacheHitRate
  let xVariety := yamlSet cliOverrides "variety" y.Variety v.Variety
  let xHighCardinality := yamlSet cliOverrides "high-cardinality" y.HighCardinality v.HighCardinality
  let xFormat := yamlSet cliOverrides "format" y.Format v.Format
  let xOutput := yamlSet cliOverrides "output" y.Output v.Output
  let xFile := yamlSet cliOverrides "file" y.File v.File
  let xOTLPEndpoint := yamlSet cliOverrides "otlp-endpoint" y.OTLPEndpoint v.OTLPEndpoint
  let xZipkinEndpoint := yamlSet cliOverrides "zipkin-endpoint" y.ZipkinEndpoint v.ZipkinEndpoint
  let xOTLPInsecure := yamlSet cliOverrides "otlp-insecure" y.OTLPInsecure v.OTLPInsecure
  let xHeaders := if y.Headers.length > 0 ∧ ¬ overridden cliOverrides "headers" then y.Headers else v.Headers
  let xCompress := yamlSet cliOverrides "compress" y.Compress v.Compress
  let xBatchSize := yamlSet cliOverrides "batch-size" y.BatchSize v.BatchSize
  let xFlushInterval ← yamlSetDuration H cliOverrides "flush-interval" y.FlushInterval v.FlushInterval
  let xSinkRetries := yamlSet cliOverrides "sink-retries" y.SinkRetries v.SinkRetries
  let xSinkRetryBackoff ← yamlSetDuration H cliOverrides "sink-retry-backoff" y.SinkRetryBackoff v.SinkRetryBackoff
  let xSinkTimeout ← yamlSetDuration H cliOverrides "sink-timeout" y.SinkTimeout v.SinkTimeout
  let xSinkMaxInFlight := yamlSet cliOverrides "sink-max-in-flight" y.SinkMaxInFlight v.SinkMaxInFlight
  let xReportFile := yamlSet cliOverrides "report-file" y.ReportFile v.ReportFile
  let xHTTPListen := yamlSet cliOverrides "http-listen" y.HTTPListen v.HTTPListen
  let xDebug := yamlSet cliOverrides "debug" y.Debug v.Debug
  pure { ConfigFile := v.ConfigFile
         Rate := xRate
         RateUnit := xRateUnit
         RateInterval := xRateInterval
         Duration := xDuration
         Count := xCount
         Seed := xSeed
         Workers := xWorkers
         Profile := xProfile
         Routes := xRoutes
         Services := xServices
         Depth := xDepth
         Fanout := xFanout
         ServicePrefix := xServicePrefix
         P50 := xP50
         P95 := xP95
         P99 := xP99
         Errors := xErrors
         Retries := xRetries
         DBHeavy := xDBHeavy
         CacheHitRate := xCacheHitRate
         Variety := xVariety
         HighCardinality := xHighCardinality
         Format := xFormat
         Output := xOutput
         File := xFile
         OTLPEndpoint := xOTLPEndpoint
         ZipkinEndpoint := xZipkinEndpoint
         OTLPInsecure := xOTLPInsecure
         Headers := xHeaders
         Compress := xCompress
         BatchSize := xBatchSize
         FlushInterval := xFlushInterval
         SinkRetries := xSinkRetries
         SinkRetryBackoff := xSinkRetryBackoff
         SinkTimeout := xSinkTimeout
         SinkMaxInFlight := xSinkMaxInFlight
         ReportFile := xReportFile
         HTTPListen := xHTTPListen
         Debug := xDebug }

/-- The function `mergeFromYAML`. -/
def mergeFromYAML {F : Type} (H : HostEnv F) (v : FlagValues F)
    (cliOverrides : Option (String → Bool)) : Except FlagsError (FlagValues F) :=
  match H.ReadFile v.ConfigFile with
  | none => .error .readConfigFile
  | some data =>
    match H.yamlUnmarshal data with
    | none => .error .parseConfigYAML
    | some y => applyYAML H y v cliOverrides

/-- The closure `setString` of `mergeFromEnv`, returning the new value of `*dst`. -/
def envSetString {F : Type} (H : HostEnv F) (cliOverrides : Option (String → Bool))
    (flag env : String) (dst : String) : String :=
  if overridden cliOverrides flag then dst
  else
    match H.LookupEnv env with
    | some raw => raw
    | none => dst

/-- The closures `setInt`, `setInt64`, `setFloat`, `setBool` and `setDuration` of
`mergeFromEnv`, which differ in the parser applied to the trimmed variable. -/
def envSet {F α : Type} (H : HostEnv F) (cliOverrides : Option (String → Bool))
    (parse : String → Option α) (flag env : String) (dst : α) : Except FlagsError α :=
  if overridden cliOverrides flag then .ok dst
  else
    match H.LookupEnv env with
    | none => .ok dst
    | some raw =>
      match parse (TrimSpace raw) with
      | none => .error (.invalidEnv env raw)
      | some n => .ok n

/-- The call `strings.Split(raw, ",")` on the characters of `raw`. -/
def splitComma : List Char → List (List Char)
  | [] => [[]]
  | c :: rest =>
    match splitComma rest with
    | [] => [[c]]
    | part :: parts => if c = ',' then [] :: part :: parts else (c :: part) :: parts

/-- The header block of `mergeFromEnv`: the trimmed, non-empty parts of the variable. -/
def envHeaders {F : Type} (H : HostEnv F) (cliOverrides : Option (String → Bool))
    (dst : List String) : List String :=
  if ¬ overridden cliOverrides "headers" then
    match H.LookupEnv "SPANFORGE_HEADERS" with
    | some raw =>
      if TrimSpace raw ≠ "" then
        ((splitComma raw.data).map (fun p => TrimSpace (String.mk p))).filter (fun p => p ≠ "")
      else dst
    | none => dst
  else dst

/-- The function `mergeFromEnv`. Every statement assigns one field of `v` from its own
variable, so the new values are computed in the order of the source and the struct
is built at the end. -/
def mergeFromEnv {F : Type} (H : HostEnv F) (v : FlagValues F)
    (cliOverrides : Option (String → Bool)) : Except FlagsError (FlagValues F) := do
  let xRate ← envSet H cliOverrides H.ParseFloat "rate" "SPANFORGE_RATE" v.Rate
  let xRateUnit := envSetString H cliOverrides "rate-unit" "SPANFORGE_RATE_UNIT" v.RateUnit
  let xRateInterval ← envSet H cliOverrides H.ParseDuration "rate-interval" "SPANFORGE_RATE_INTERVAL" v.RateInterval
  let xDuration ← envSet H cliOverrides H.ParseDuration "duration" "SPANFORGE_DURATION" v.Duration
  let xCount ← envSet H cliOverrides H.Atoi "count" "SPANFORGE_COUNT" v.Count
  let xSeed ← envSet H cliOverrides H.ParseInt "seed" "SPANFORGE_SEED" v.Seed
  let xWorkers ← envSet H cliOverrides H.Atoi "workers" "SPANFORGE_WORKERS" v.Workers
  let xProfile := envSetString H cliOverrides "profile" "SPANFORGE_PROFILE" v.Profile
  let xRoutes ← envSet H cliOverrides H.Atoi "routes" "SPANFORGE_ROUTES" v.Routes
  let xServices ← envSet H cliOverrides H.Atoi "services" "SPANFORGE_SERVICES" v.Services
  let xDepth ← envSet H cliOverrides H.Atoi "depth" "SPANFORGE_DEPTH" v.Depth
  let xFanout ← envSet H cliOverrides H.ParseFloat "fanout" "SPANFORGE_FANOUT" v.Fanout
  let xServicePrefix := envSetString H cliOverrides "service-prefix" "SPANFORGE_SERVICE_PREFIX" v.ServicePrefix
  let xP50 ← envSet H cliOverrides H.ParseDuration "p50" "SPANFORGE_P50" v.P50
  let xP95 ← envSet H cliOverrides H.ParseDuration "p95" "SPANFORGE_P95" v.P95
  let xP99 ← envSet H cliOverrides H.ParseDuration "p99" "SPANFORGE_P99" v.P99
  let xErrors := envSetString H cliOverrides "errors" "SPANFORGE_ERRORS" v.Errors
  let xRetries := envSetString H cliOverrides "retries" "SPANFORGE_RETRIES" v.Retries
  let xDBHeavy := envSetString H cliOverrides "db-heavy" "SPANFORGE_DB_HEAVY" v.DBHeavy
  let xCacheHitRate := envSetString H cliOverrides "cache-hit-rate" "SPANFORGE_CACHE_HIT_RATE" v.CacheHitRate
  let xVariety := envSetString H cliOverrides "variety" "SPANFORGE_VARIETY" v.Variety
  let xHighCardinality ← envSet H cliOverrides H.ParseBool "high-cardinality" "SPANFORGE_HIGH_CARDINALITY" v.HighCardinality
  let xFormat := envSetString H cliOverrides "format" "SPANFORGE_FORMAT" v.Format
  let xOutput := envSetString H cliOverrides "output" "SPANFORGE_OUTPUT" v.Output
  let xFile := envSetString H cliOverrides "file" "SPANFORGE_FILE" v.File
  let xOTLPEndpoint := envSetString H cliOverrides "otlp-endpoint" "SPANFORGE_OTLP_ENDPOINT" v.OTLPEndpoint
  let xZipkinEndpoint := envSetString H cliOverrides "zipkin-endpoint" "SPANFORGE_ZIPKIN_ENDPOINT" v.ZipkinEndpoint
  let xOTLPInsecure ← envSet H cliOverrides H.ParseBool "otlp-insecure" "SPANFORGE_OTLP_INSECURE" v.OTLPInsecure
  let xHeaders := envHeaders H cliOverrides v.Headers
  let xCompress := envSetString H cliOverrides "compress" "SPANFORGE_COMPRESS" v.Compress
  let xBatchSize ← envSet H cliOverrides H.Atoi "batch-size" "SPANFORGE_BATCH_SIZE" v.BatchSize
  let xFlushInterval ← envSet H cliOverrides H.ParseDuration "flush-interval" "SPANFORGE_FLUSH_INTERVAL" v.FlushInterval
  let xSinkRetries ← envSet H cliOverrides H.Atoi "sink-retries" "SPANFORGE_SINK_RETRIES" v.SinkRetries
  let xSinkRetryBackoff ← envSet H cliOverrides H.ParseDuration "sink-retry-backoff" "SPANFORGE_SINK_RETRY_BACKOFF" v.SinkRetryBackoff
  let xSinkTimeout ← envSet H cliOverrides H.ParseDuration "sink-timeout" "SPANFORGE_SINK_TIMEOUT" v.SinkTimeout
  let xSinkMaxInFlight ← envSet H cliOverrides H.Atoi "sink-max-in-flight" "SPANFORGE_SINK_MAX_IN_FLIGHT" v.SinkMaxInFlight
  let xReportFile := envSetString H cliOverrides "report-file" "SPANFORGE_REPORT_FILE" v.ReportFile
  let xHTTPListen := envSetString H cliOverrides "http-listen" "SPANFORGE_HTTP_LISTEN" v.HTTPListen
  let xDebug ← envSet H cliOverrides H.ParseBool "debug" "SPANFORGE_DEBUG" v.Debug
  pure { ConfigFile := v.ConfigFile
         Rate := xRate
         RateUnit := xRateUnit
         RateInterval := xRateInterval
         Duration := xDuration
         Count := xCount
         Seed := xSeed
         Workers := xWorkers
         Profile := xProfile
         Routes := xRoutes
         Services := xServices
         Depth := xDepth
         Fanout := xFanout
         ServicePrefix := xServicePrefix
         P50 := xP50
         P95 := xP95
         P99 := xP99
         Errors := xErrors
         Retries := xRetries
         DBHeavy := xDBHeavy
         CacheHitRate := xCacheHitRate
         Variety := xVariety
         HighCardinality := xHighCardinality
         Format := xFormat
         Output := xOutput
         File := xFile
         OTLPEndpoint := xOTLPEndpoint
         ZipkinEndpoint := xZipkinEndpoint
         OTLPInsecure := xOTLPInsecure
         Headers := xHeaders
         Compress := xCompress
         BatchSize := xBatchSize
         FlushInterval := xFlushInterval
         SinkRetries := xSinkRetries
         SinkRetryBackoff := xSinkRetryBackoff
         SinkTimeout := xSinkTimeout
         SinkMaxInFlight := xSinkMaxInFlight
         ReportFile := xReportFile
         HTTPListen := xHTTPListen
         Debug := xDebug }

/-- The first statement of `FromFlagsWithOverrides`: the configuration file named by
`SPANFORGE_CONFIG` when the flag `config` is neither given nor set. -/
def resolveConfigFile {F : Type} (H : HostEnv F) (v : FlagValues F)
    (cliOverrides : Option (String → Bool)) : FlagValues F :=
  if ¬ overridden cliOverrides "config" ∧ v.ConfigFile = "" then
    match H.LookupEnv "SPANFORGE_CONFIG" with
    | some raw => { v with ConfigFile := TrimSpace raw }
    | none => v
  else v

/-- The function `FromFlagsWithOverrides`. -/
def FromFlagsWithOverrides {F : Type} [GoFloat64 F] (H : HostEnv F) (v : FlagValues F)
    (cliOverrides : Option (String → Bool)) : Except FlagsError (Config F) := do
  let v := resolveConfigFile H v cliOverrides
  let v ← (if v.ConfigFile ≠ "" then mergeFromYAML H v cliOverrides else .ok v)
  let v ← mergeFromEnv H v cliOverrides
  let rateUnit ← ParseRateUnit v.RateUnit
  let errorsRate ← ParsePercent H v.Errors
  let retriesRate ← ParsePercent H v.Retries
  let dbHeavyRate ← ParsePercent H v.DBHeavy
  let cacheHitRate ← ParsePercent H v.CacheHitRate
  let headers ← ParseHeaders v.Headers
  let cfg : Config F :=
    { RateValue := v.Rate
      RateUnit := rateUnit
      RateInterval := v.RateInterval
      Duration := v.Duration
      Count := v.Count
      Seed := v.Seed
      Workers := v.Workers
      Profile := v.Profile
      Routes := v.Routes
      Services := v.Services
      Depth := v.Depth
      Fanout := v.Fanout
      ServicePrefix := v.ServicePrefix
      P50 := v.P50
      P95 := v.P95
      P99 := v.P99
      Errors := errorsRate
      Retries := retriesRate
      DBHeavy := dbHeavyRate
      CacheHitRate := cacheHitRate
      Variety := v.Variety
      HighCardinality := v.HighCardinality
      Format := v.Format
      Output := v.Output
      File := v.File
      OTLPEndpoint := v.OTLPEndpoint
      ZipkinEndpoint := v.ZipkinEndpoint
      OTLPInsecure := v.OTLPInsecure
      Headers := headers
      Compress := v.Compress
      BatchSize := v.BatchSize
      FlushInterval := v.FlushInterval
      SinkRetries := v.SinkRetries
      SinkRetryBackoff := v.SinkRetryBackoff
      SinkTimeout := v.SinkTimeout
      SinkMaxInFlight := v.SinkMaxInFlight
      ReportFile := v.ReportFile
      HTTPListen := v.HTTPListen
      Debug := v.Debug }
  match cfg.Validate with
  | some e => .error (.invalidConfig e)
  | none => pure cfg

/-- The function `FromFlags`. -/
def FromFlags {F : Type} [GoFloat64 F] (H : HostEnv F) (v : FlagValues F) :
    Except FlagsError (Config F) :=
  FromFlagsWithOverrides H v none
/-- The precedence of the specification for one setting: the flag value when the
flag is given on the command line, otherwise the value of the environment variable
when there is one, otherwise the value of the configuration file when it gives one,
otherwise the flag value (its default). -/
def precedence {α : Type} (cli : Bool) (flagValue : α) (envValue yamlValue : Option α) : α :=
  if cli then flagValue
  else
    match envValue with
    | some e => e
    | none =>
      match yamlValue with
      | some y => y
      | none => flagValue

/-- The headers that reach `ParseHeaders`: the flag values when `headers` is given on
the command line; otherwise the parts of `SPANFORGE_HEADERS` when the variable is set
and not blank; otherwise the list of the configuration file when it is not empty;
otherwise the flag values. -/
def resolvedHeaders (cli : Bool) (flagValue : List String) (envValue : Option String)
    (yamlValue : List String) : List String :=
  if cli then flagValue
  else
    match envValue with
    | some raw =>
      if TrimSpace raw ≠ "" then
        ((splitComma raw.data).map (fun p => TrimSpace (String.mk p))).filter (fun p => p ≠ "")
      else if yamlValue.length > 0 then yamlValue else flagValue
    | none => if yamlValue.length > 0 then yamlValue else flagValue

/-- The flag defaults registered by `AddFlags`. -/
def defaultFlagValues {F : Type} [GoFloat64 F] : FlagValues F :=
  { ConfigFile := "", Rate := GoFloat64.ofInt 200, RateUnit := "spans", RateInterval := 1 * time.Second,
    Duration := 30 * time.Second, Count := 0, Seed := 1, Workers := 1, Profile := "web",
    Routes := 8, Services := 8, Depth := 4, Fanout := 2.0, ServicePrefix := "svc-",
    P50 := 30 * time.Millisecond, P95 := 120 * time.Millisecond, P99 := 350 * time.Millisecond,
    Errors := "0.5%", Retries := "1%", DBHeavy := "20%", CacheHitRate := "85%",
    Variety := "medium", HighCardinality := false, Format := "jsonl", Output := "stdout",
    File := "", OTLPEndpoint := "", ZipkinEndpoint := "", OTLPInsecure := true, Headers := [],
    Compress := "", BatchSize := 512, FlushInterval := 200 * time.Millisecond, SinkRetries := 2,
    SinkRetryBackoff := 300 * time.Millisecond, SinkTimeout := 10 * time.Second,
    SinkMaxInFlight := 2, ReportFile := "", HTTPListen := "127.0.0.1:8080", Debug := false }

/-- The value of a string of decimal digits. -/
def digitsValue : List Char → Nat → Option Nat
  | [], acc => some acc
  | c :: rest, acc =>
    if '0' ≤ c ∧ c ≤ '9' then digitsValue rest (acc * 10 + (c.toNat - 48)) else none

/-- A stand-in for `strconv.Atoi` and `strconv.ParseInt` on strings of decimal digits. -/
def decimalAtoi (s : String) : Option Int :=
  if s.data = [] then none else (digitsValue s.data 0).map Int.ofNat

/-- A stand-in for `strconv.ParseFloat` on decimal numerals `digits` and
`digits.digits`. -/
def decimalParseFloat (s : String) : Option DecFloat :=
  let whole := s.data.takeWhile (fun c => c ≠ '.')
  let frac := (s.data.dropWhile (fun c => c ≠ '.')).drop 1
  if whole = [] then none
  else
    match digitsValue (whole ++ frac) 0 with
    | none => none
    | some m => some { num := Int.ofNat m, den := 10 ^ frac.length }

/-- A stand-in for `strconv.ParseBool` on `true` and `false`. -/
def wordParseBool (s : String) : Option Bool :=
  if s = "true" then some true else if s = "false" then some false else none

/-- A stand-in for `time.ParseDuration` on whole numbers of seconds, `<digits>s`. -/
def secondsParseDuration (s : String) : Option time.Duration :=
  match s.data.reverse with
  | 's' :: rest => if rest = [] then none else (digitsValue rest.reverse 0).map (fun n => Int.ofNat n * time.Second)
  | _ => none

/-- The setting of the test of the precedence: `SPANFORGE_PROFILE=queue`,
`SPANFORGE_SERVICES=11` and a configuration file with `profile: batch` and
`services: 7`. -/
def precedenceHost : HostEnv DecFloat :=
  { LookupEnv := fun name =>
      if name = "SPANFORGE_PROFILE" then some "queue"
      else if name = "SPANFORGE_SERVICES" then some "11" else none
    ReadFile := fun path => if path = "spanforge.yaml" then some "profile: batch, services: 7" else none
    yamlUnmarshal := fun data =>
      if data = "profile: batch, services: 7" then some { Profile := some "batch", Services := some 7 }
      else none
    Atoi := decimalAtoi
    ParseInt := decimalAtoi
    ParseFloat := decimalParseFloat
    ParseBool := wordParseBool
    ParseDuration := secondsParseDuration }

/-- The flag values of that test: the defaults, the configuration file and
`--services 5`. -/
def precedenceFlags : FlagValues DecFloat :=
  { (defaultFlagValues : FlagValues DecFloat) with ConfigFile := "spanforge.yaml", Services := 5 }

/-- A setting in which `SPANFORGE_HEADERS` is set to the empty string and the
configuration file lists one header. -/
def clearedHeadersHost : HostEnv DecFloat :=
  { precedenceHost with
    LookupEnv := fun name => if name = "SPANFORGE_HEADERS" then some "" else none
    ReadFile := fun path => if path = "spanforge.yaml" then some "headers: [X-Tenant=a]" else none
    yamlUnmarshal := fun data =>
      if data = "headers: [X-Tenant=a]" then some { Headers := ["X-Tenant=a"] } else none }

/-- The spans the profile module builds for the trace `tid`: the result of
`buildRoot`, of `buildChild`, or, for the queue profile, one of the two results of
`buildQueuePair`. -/
inductive Built {F σ : Type} (g : Generator F σ) (tid : model.TraceID) : Span F → Prop where
  | root (routeIdx : Int) (start : time.Time) (spanID : model.SpanID) (dur : time.Duration) :
      Built g tid (g.profile.buildRoot g.topology.Frontdoor routeIdx start spanID tid dur)
  | child (parent : Span F) (service : String) (routeIdx : Int) (start : time.Time)
      (spanID : model.SpanID) (dur : time.Duration) (dbHeavy cacheHit : Bool) :
      Built g tid (g.profile.buildChild parent service routeIdx start spanID tid dur dbHeavy cacheHit)
  | producer (hq : g.cfg.Profile = "queue") (parent : Span F) (service : String)
      (routeIdx : Int) (start : time.Time) (producerID consumerID : model.SpanID)
      (dur : time.Duration) :
      Built g tid
        (g.profile.buildQueuePair parent service routeIdx start producerID consumerID tid dur).1
  | consumer (hq : g.cfg.Profile = "queue") (parent : Span F) (service : String)
      (routeIdx : Int) (start : time.Time) (producerID consumerID : model.SpanID)
      (dur : time.Duration) :
      Built g tid
        (g.profile.buildQueuePair parent service routeIdx start producerID consumerID tid dur).2

/-- The spans a trace `tid` can hold: a built span after `applyCardinalityAttrs`,
`maybeAddProfileEvent` and `maybeErrorAndRetry`, or the retry span returned by
`maybeErrorAndRetry` for such a span, after `applyCardinalityAttrs`. -/
inductive Emitted {F σ : Type} [GoFloat64 F] (g : Generator F σ) (tid : model.TraceID) :
    Span F → Prop where
  | span (s0 : Span F) (r1 r2 : σ) : Built g tid s0 →
      Emitted g tid
        (g.maybeErrorAndRetry (g.maybeAddProfileEvent (g.applyCardinalityAttrs s0) r1).1 r2).1
  | retry (s0 : Span F) (r1 r2 : σ) (rs : Span F) : Built g tid s0 →
      (g.maybeErrorAndRetry (g.maybeAddProfileEvent (g.applyCardinalityAttrs s0) r1).1 r2).2.1
        = some rs →
      Emitted g tid (g.applyCardinalityAttrs rs)
/-- The scenario configuration with the cardinality attributes enabled and every span
an error that is retried. -/
def highCardinalityConfig : Config DecFloat :=
  { webRetryConfig with HighCardinality := true }

/-! ## internal/app: the noop output and the benchmark summary of Run -/

/-- One iteration of the `select` loop of `consumeTraces` for `cfg.Output = "noop"`: a
trace is only counted, whatever the format; a tick of the flush ticker finds the span
buffer empty, so the flush closure returns at once. -/
def consumeStepNoop {F : Type} [GoFloat64 F] (st : ConsumerState F) (ev : ConsumerEvent F) :
    ConsumerState F :=
  match ev with
  | .trace trace => st.statsAdd 1 (Int.ofNat trace.Spans.length)
  | .flushTick => st

/-- The function `consumeTraces` for `cfg.Output = "noop"`, run on the events it
receives until the trace channel is closed; `finalize` only waits for the network. -/
def consumeTracesNoop {F : Type} [GoFloat64 F] (events : List (ConsumerEvent F)) :
    ConsumerState F :=
  events.foldl consumeStepNoop {}

/-- The struct `runReport`. -/
structure runReport (F : Type) where
  StartedAt : time.Time
  FinishedAt : time.Time
  DurationSeconds : F
  Format : String
  Output : String
  EmittedTraces : Nat
  EmittedSpans : Nat
  TracesPerSecond : F
  SpansPerSecond : F

/-- The function `buildRunReport`; both instants come from `time.Now().UTC()`, which
drops the monotonic reading, so `Sub` is the difference of the wall clocks. -/
def buildRunReport {F : Type} [GoFloat64 F] (startedAt finishedAt : time.Time) (cfg : Config F)
    (emittedTraces emittedSpans : Nat) : runReport F :=
  let duration : F := time.Duration.Seconds (finishedAt - startedAt)
  let duration : F := if duration ≤ 0.0 then 1e-9 else duration
  { StartedAt := startedAt
    FinishedAt := finishedAt
    DurationSeconds := duration
    Format := cfg.Format
    Output := cfg.Output
    EmittedTraces := emittedTraces
    EmittedSpans := emittedSpans
    TracesPerSecond := GoFloat64.ofInt (Int.ofNat emittedTraces) / duration
    SpansPerSecond := GoFloat64.ofInt (Int.ofNat emittedSpans) / duration }

/-- The line written by the `fmt.Fprintf` of `Run`, with the format
`benchmark summary: traces=%d spans=%d duration=%.2fs traces/sec=%.2f spans/sec=%.2f\n`;
`fixed2` is the rendering of the verb `%.2f`. -/
def summaryLine {F : Type} (fixed2 : F → String) (report : runReport F) : String :=
  "benchmark summary: traces=" ++ strconvItoa (Int.ofNat report.EmittedTraces) ++
  " spans=" ++ strconvItoa (Int.ofNat report.EmittedSpans) ++
  " duration=" ++ fixed2 report.DurationSeconds ++
  "s traces/sec=" ++ fixed2 report.TracesPerSecond ++
  " spans/sec=" ++ fixed2 report.SpansPerSecond ++ "\n"

/-- The function `Run` for `cfg.Output = "noop"` when no error occurs: what is written
to `out`, or `none` when the producer was cancelled or is still running. Nothing but
the summary line reaches `out`. -/
def RunNoop {F σ : Type} [GoFloat64 F] (R : RandLib F σ) (M : MathLib F) (cfg : Config F)
    (env : ProducerEnv) (fuel : Nat) (assign : Nat → Nat) (ticks : Nat → Nat)
    (runStarted finishedAt : time.Time) (fixed2 : F → String) : Option String :=
  match produceTraces cfg env fuel with
  | .returned st =>
    let traces := poolTraces R M cfg assign st.jobs 0 (poolStates R M cfg)
    let stats := consumeTracesNoop (consumerEvents ticks 0 traces)
    let report := buildRunReport runStarted finishedAt cfg stats.statsTraces stats.statsSpans
    if cfg.Output = "noop" then some (summaryLine fixed2 report) else some ""
  | .cancelled _ => none
  | .outOfFuel _ => none

/-- The configuration of the benchmark test: count 3, format `otlp-http`, output
`noop`. -/
def noopBenchmarkConfig : Config DecFloat :=
  { countThreeConfig with Format := "otlp-http", Output := "noop" }

/-! ## internal/encode/pretty -/

/-- The function `sort.Slice` of Go's `sort` package, taken as a parameter: the sort is
not stable, so the order it gives to elements that compare equal is not fixed by its
contract. -/
structure SortLib (α : Type) where
  Slice : (α → α → Bool) → List α → List α

/-- What `sort.Slice` guarantees for the comparison `less`: the result is a
rearrangement of the slice in which no element is followed by one that is `less`. -/
def SortLib.Sorts {α : Type} (S : SortLib α) (less : α → α → Bool) : Prop :=
  ∀ xs, (S.Slice less xs).Perm xs ∧ (S.Slice less xs).Pairwise (fun a b => less b a = false)

/-- The comparison `roots[i].StartTime.Before(roots[j].StartTime)` passed to both calls
of `sort.Slice`. -/
def startsBefore {F : Type} (a b : Span F) : Bool :=
  decide (a.StartTime < b.StartTime)

/-- The first loop of `RenderTrace`: the map `children`, keyed by the hex text of the
parent id (a missing key reads as the empty slice), and the slice `roots`. -/
def collectSpans {F : Type} (spans : List (Span F)) :
    (String → List (Span F)) × List (Span F) :=
  spans.foldl (fun acc span =>
    if span.HasParent then
      (fun k => if k = hexEncode span.ParentSpanID then acc.1 k ++ [span] else acc.1 k, acc.2)
    else (acc.1, acc.2 ++ [span])) (fun _ => [], [])

/-- The loop `for i := 0; i < level; i++ \x7b b.WriteString("  ") \x7d`. -/
def writeIndent : Nat → String → String
  | 0, b => b
  | n + 1, b => writeIndent n (b ++ "  ")

/-- The text written by `fmt.Fprintf(b, "- %s [%s] (%s, %0.2fms, %s)\n", ...)` in
`renderSpan`; `fixed2` is the verb `%0.2f`. -/
def spanText {F : Type} [GoFloat64 F] (fixed2 : F → String) (span : Span F) : String :=
  "- " ++ span.Name ++ " [" ++ span.Kind ++ "] (" ++
    (span.Attributes.getString "service.name").1 ++ ", " ++
    fixed2 (GoFloat64.ofInt span.Duration / 1e6) ++ "ms, " ++ span.Status.Code ++ ")\n"

/-- The function `renderSpan`, writing to the builder `b`. `fuel` bounds the depth of the
recursion; `none` means the bound was reached. The slice `next` is sorted in place in
Go, which changes what `children[k]` holds; the key `k` is read again only when a
second rendered span has the same id. -/
def renderSpan {F : Type} [GoFloat64 F] (S : SortLib (Span F)) (fixed2 : F → String)
    (children : String → List (Span F)) : Nat → String → Span F → Nat → Option String
  | 0, _, _, _ => none
  | fuel + 1, b, span, level =>
    let b := writeIndent level b
    let b := b ++ spanText fixed2 span
    let k := hexEncode span.SpanID
    let next := S.Slice startsBefore (children k)
    next.foldlM (fun b c => renderSpan S fixed2 children fuel b c (level + 1)) b

/-- The function `RenderTrace`; `fuel` bounds the depth of the recursion of
`renderSpan`. -/
def RenderTrace {F : Type} [GoFloat64 F] (S : SortLib (Span F)) (fixed2 : F → String)
    (fuel : Nat) (trace : Trace F) : Option String :=
  let b := "trace " ++ hexEncode trace.TraceID ++ "\n"
  let roots := S.Slice startsBefore (collectSpans trace.Spans).2
  roots.foldlM (fun b r => renderSpan S fixed2 (collectSpans trace.Spans).1 fuel b r 0) b

/-- A chain of parent links inside `spans`: a span, its parent, the parent of that one,
and so on up to a span without parent. Ids are compared through their hex text, as
`RenderTrace` does. -/
inductive ParentChain {F : Type} (spans : List (Span F)) : List (Span F) → Prop where
  | root (r : Span F) : r ∈ spans → r.HasParent = false → ParentChain spans [r]
  | child (c p : Span F) (anc : List (Span F)) : ParentChain spans (p :: anc) → c ∈ spans →
      c.HasParent = true → hexEncode c.ParentSpanID = hexEncode p.SpanID →
      ParentChain spans (c :: p :: anc)

/-- A span is reachable from a root when a chain of parent links leads from it to a span
without parent. -/
def Reachable {F : Type} (spans : List (Span F)) (s : Span F) : Prop :=
  ∃ anc, ParentChain spans (s :: anc)

/-- The rows of the tree below `span` in depth-first order, each row given as a span and
its ancestors `anc`, nearest first: the row of `span`, then the rows of the trees of its
children in sorted order. -/
def treeRows {F : Type} (S : SortLib (Span F)) (children : String → List (Span F)) :
    Nat → Span F → List (Span F) → List (Span F × List (Span F))
  | 0, _, _ => []
  | fuel + 1, span, anc =>
    (span, anc) :: (S.Slice startsBefore (children (hexEncode span.SpanID))).flatMap
      (fun c => treeRows S children fuel c (span :: anc))

/-- The rows of a whole trace: the trees of the roots in sorted order. -/
def traceRows {F : Type} (S : SortLib (Span F)) (fuel : Nat) (spans : List (Span F)) :
    List (Span F × List (Span F)) :=
  (S.Slice startsBefore (collectSpans spans).2).flatMap
    (fun r => treeRows S (collectSpans spans).1 fuel r [])

/-- The line of a row: two spaces for each ancestor, then the text of the span. -/
def rowLine {F : Type} [GoFloat64 F] (fixed2 : F → String) (row : Span F × List (Span F)) :
    String :=
  String.mk (List.replicate (2 * row.2.length) ' ') ++ spanText fixed2 row.1

/-- The concatenation of a list of lines. -/
def concatLines (lines : List String) : String :=
  lines.foldr (fun line rest => line ++ rest) ""

/-- The sort used to evaluate the definitions: insertion by start time. -/
def insertionSlice {F : Type} : SortLib (Span F) where
  Slice := fun less xs => xs.insertionSort (fun a b => less b a = false)

/-- A trace of two spans that name each other as parent. -/
def cycleTrace : Trace DecFloat :=
  { TraceID := List.replicate 16 171,
    Spans := [
      { SpanID := [0, 0, 0, 0, 0, 0, 0, 1], ParentSpanID := [0, 0, 0, 0, 0, 0, 0, 2],
        HasParent := true, Name := "a", Kind := "INTERNAL", StartTime := 1700000000000000000,
        Duration := 1000000, Attributes := [("service.name", .str "svc")],
        Status := { Code := "OK" } },
      { SpanID := [0, 0, 0, 0, 0, 0, 0, 2], ParentSpanID := [0, 0, 0, 0, 0, 0, 0, 1],
        HasParent := true, Name := "b", Kind := "INTERNAL", StartTime := 1700000000000000001,
        Duration := 1000000, Attributes := [("service.name", .str "svc")],
        Status := { Code := "OK" } }] }

/-- The spans of `familyTrace`: a root, its two children and a grandchild. -/
def familyRoot : Span DecFloat :=
  { SpanID := [0, 0, 0, 0, 0, 0, 0, 1], Name := "GET /", Kind := "SERVER",
    StartTime := 1700000000000000000, Duration := 9000000,
    Attributes := [("service.name", .str "gw")], Status := { Code := "OK" } }

def familyLate : Span DecFloat :=
  { SpanID := [0, 0, 0, 0, 0, 0, 0, 2], ParentSpanID := [0, 0, 0, 0, 0, 0, 0, 1],
    HasParent := true, Name := "late", Kind := "CLIENT", StartTime := 1700000000000000500,
    Duration := 2000000, Attributes := [("service.name", .str "a")],
    Status := { Code := "OK" } }

def familyEarly : Span DecFloat :=
  { SpanID := [0, 0, 0, 0, 0, 0, 0, 3], ParentSpanID := [0, 0, 0, 0, 0, 0, 0, 1],
    HasParent := true, Name := "early", Kind := "CLIENT", StartTime := 1700000000000000100,
    Duration := 3000000, Attributes := [("service.name", .str "b")],
    Status := { Code := "ERROR" } }

def familyGrandchild : Span DecFloat :=
  { SpanID := [0, 0, 0, 0, 0, 0, 0, 4], ParentSpanID := [0, 0, 0, 0, 0, 0, 0, 2],
    HasParent := true, Name := "db", Kind := "CLIENT", StartTime := 1700000000000000600,
    Duration := 1000000, Attributes := [("service.name", .str "a")],
    Status := { Code := "OK" } }

def familyTrace : Trace DecFloat :=
  { TraceID := List.replicate 16 171,
    Spans := [familyGrandchild, familyLate, familyRoot, familyEarly] }

/-- A span whose parent id is the id of no span. -/
def orphanSpan : Span DecFloat :=
  { SpanID := [0, 0, 0, 0, 0, 0, 0, 9], ParentSpanID := [0, 0, 0, 0, 0, 0, 0, 7],
    HasParent := true, Name := "orphan", Kind := "INTERNAL", StartTime := 1700000000000000050,
    Duration := 1000000, Attributes := [("service.name", .str "x")],
    Status := { Code := "OK" } }

def orphanTrace : Trace DecFloat :=
  { TraceID := List.replicate 16 171, Spans := [orphanSpan, familyLate, familyRoot] }

/-! ## The shape of a trace without retry spans -/

/-- The spans below `p` in a full tree, in the order `generateChildren` appends them:
`FullTree k d n p out` says that `out` lists `n` children of `p`, each followed by the
spans below it, where `d` levels lie below `p` and every span above the last level has
`k` children. A span names its parent by `ParentSpanID`. -/
inductive FullTree {F : Type} (k : Nat) : Nat → Nat → Span F → List (Span F) → Prop where
  | done (d : Nat) (p : Span F) : FullTree k d 0 p []
  | child (d n : Nat) (p c : Span F) (sub rest : List (Span F)) :
      c.HasParent = true → c.ParentSpanID = p.SpanID →
      FullTree k d (if d = 0 then 0 else k) c sub →
      FullTree k (d + 1) n p rest →
      FullTree k (d + 1) (n + 1) p (c :: (sub ++ rest))

/-- The scenario with a fanout of 2^63, an integer that does not fit `int`. -/
def hugeFanoutConfig : Config DecFloat :=
  { scenarioConfig with Fanout := { num := 9223372036854775808, den := 1 } }

/-- A random source over the rationals whose every draw is one half. -/
def constantRand : RandLib ℚ Nat where
  NewSource := fun _ => 0
  Float64 := fun r => (1 / 2, r)
  Intn := fun _ r => (0, r)

/-- A stand-in for the `math` package over the rationals. -/
def linearMath : MathLib ℚ where
  Log := fun x => x - 1
  Exp := fun x => 1 + x
  Sqrt := fun x => (1 + x) / 2
  Cos := fun x => 1 - x * x / 2
  Pi := 3141592653589793 / 1000000000000000

/-- Depth 3 and fanout 2 over the rationals, web profile, no retries. -/
def binaryTreeConfig : Config ℚ :=
  { exactConfig with Depth := 3, Fanout := 2 }

/-! ## internal/generator: the operations that can fail

The definitions below repeat `New`, `GenerateTrace` and `generateChildren` with the
run-time checks of Go written out: `none` stands for a run-time panic. The calls
`Intn(256)` of `RNG.Read` have a constant positive argument and carry no check; nor do
the writes into a map made by a literal of the same function (the builders,
`addStoreAttrs` on their map, the retry span) and the writes of `applyCardinalityAttrs`,
which replaces a nil map first. -/

/-- The check of `runtime.makeslice` on a 64-bit platform: `make([]T, len, cap)` panics
unless `0 <= len <= cap` and `elemSize * cap` fits a `uintptr` and is at most
`maxAlloc`, a constant of the platform. -/
def makesliceOK (maxAlloc elemSize : Nat) (len cap : Int) : Bool :=
  decide (0 ≤ len ∧ len ≤ cap ∧ elemSize * cap.toNat < 18446744073709551616 ∧
    elemSize * cap.toNat ≤ maxAlloc)

/-- The function `BuildTopology` with `make([]string, 0, n)` (a string header has 16
bytes) and the index `services[0]` checked. -/
def BuildTopologyChecked (maxAlloc : Nat) (pfx : String) (n : Int) : Option Topology :=
  if ¬ makesliceOK maxAlloc 16 0 n then none
  else
    let services := "api-gateway" ::
      (List.range (n.toNat - 1)).map (fun j => pfx ++ itoa (Int.ofNat j + 1))
    match services[0]? with
    | none => none
    | some frontdoor => some { Frontdoor := frontdoor, Services := services }

/-- The function `New` with the checks of `BuildTopology`. -/
def NewChecked {F σ : Type} [GoFloat64 F] (maxAlloc : Nat) (R : RandLib F σ) (M : MathLib F)
    (cfg : Config F) : Option (Generator F σ × σ) :=
  let mu := M.Log (GoFloat64.ofInt cfg.P50)
  let sigma := (M.Log (GoFloat64.ofInt cfg.P95) - mu) / 1.6448536269514722
  let sigma := if sigma < 0.01 then 0.01 else sigma
  match BuildTopologyChecked maxAlloc cfg.ServicePrefix cfg.Services with
  | none => none
  | some topology =>
    some ({ cfg := cfg
            rand := R
            math := M
            topology := topology
            profile := moduleFor cfg.Profile
            mu := mu
            sigma := sigma },
          R.NewSource cfg.Seed)

/-- The number of entries of the table a profile indexes with `idx % len(table)`:
`webOperation` and `grpcMethod` have 8, `queueTopic` and `batchJob` have 6. -/
def profileModule.tableLength : profileModule → Nat
  | .webProfile => 8
  | .grpcProfile => 8
  | .queueProfile => 6
  | .batchProfile => 6

/-- Whether `table[idx % len(table)]` is inside the table of the profile. The remainder
of Go has the sign of `idx`, so the index is never too large. -/
def profileModule.lookupOK (p : profileModule) (idx : Int) : Bool :=
  decide (0 ≤ Int.tmod idx (Int.ofNat p.tableLength) ∧
    Int.tmod idx (Int.ofNat p.tableLength) < Int.ofNat p.tableLength)

section generatorChecked

variable {F σ : Type} [GoFloat64 F]

/-- Whether `maybeErrorAndRetry` writes `span.Attributes["error"]` into a map that may
be nil: the error branch is taken and the span has no attribute. (An empty attribute
list stands for an empty map and for a nil map alike.) -/
def Generator.errorWriteFails (g : Generator F σ) (span : Span F) (r : σ) : Bool :=
  decide (¬ (RNG.Float64 g.rand r).1 ≥ g.errorProbability span) && span.Attributes.isEmpty

/-- One iteration of the loop of `generateChildren` with its checks: the argument of
`Intn`, the index into `g.topology.Services`, the table lookup of the builders and the
map written by `maybeErrorAndRetry`. -/
def Generator.generateChildChecked (g : Generator F σ)
    (recurse : List (Span F) → Span F → σ → Option (List (Span F) × σ))
    (traceID : model.TraceID) (parent : Span F) (i : Int) (spans : List (Span F)) (r : σ) :
    Option (List (Span F) × σ) :=
  if Int.ofNat g.topology.Services.length ≤ 0 then none else
  let (si, r) := RNG.Intn g.rand (Int.ofNat g.topology.Services.length) r
  if si < 0 ∨ Int.ofNat g.topology.Services.length ≤ si then none else
  let service := g.topology.Services.getD si.toNat ""
  let start := parent.StartTime.Add ((i + 1) * time.Millisecond)
  if max 1 g.cfg.Routes ≤ 0 then none else
  let (routeIdx, r) := RNG.Intn g.rand (max 1 g.cfg.Routes) r
  if ¬ g.profile.lookupOK routeIdx then none else
  if g.cfg.Profile = "queue" then
    let (producerID, r) := g.newSpanID r
    let (consumerID, r) := g.newSpanID r
    let (dur, r) := g.sampleDurationForProfile r
    let (producer, consumer) :=
      g.profile.buildQueuePair parent service routeIdx start producerID consumerID traceID dur
    let producer := g.applyCardinalityAttrs producer
    let consumer := g.applyCardinalityAttrs consumer
    let (producer, r) := g.maybeAddProfileEvent producer r
    let (consumer, r) := g.maybeAddProfileEvent consumer r
    if g.errorWriteFails producer r then none else
    let (producer, producerRetry, r) := g.maybeErrorAndRetry producer r
    if g.errorWriteFails consumer r then none else
    let (consumer, consumerRetry, r) := g.maybeErrorAndRetry consumer r
    let spans := spans ++ [producer, consumer]
    let spans := g.appendRetry spans producerRetry
    let spans := g.appendRetry spans consumerRetry
    recurse spans consumer r
  else
    let (spanID, r) := g.newSpanID r
    let (dur, r) := g.sampleDurationForProfile r
    let (u1, r) := RNG.Float64 g.rand r
    let (u2, r) := RNG.Float64 g.rand r
    let child := g.profile.buildChild parent service routeIdx start spanID traceID dur
      (u1 < g.cfg.DBHeavy) (u2 < g.cfg.CacheHitRate)
    let child := g.applyCardinalityAttrs child
    let (child, r) := g.maybeAddProfileEvent child r
    if g.errorWriteFails child r then none else
    let (child, retrySpan, r) := g.maybeErrorAndRetry child r
    let spans := spans ++ [child]
    let spans := g.appendRetry spans retrySpan
    recurse spans child r

/-- The loop of `generateChildren` over the checked iteration. -/
def Generator.childLoopChecked (g : Generator F σ)
    (recurse : List (Span F) → Span F → σ → Option (List (Span F) × σ))
    (traceID : model.TraceID) (parent : Span F) :
    Nat → Int → List (Span F) → σ → Option (List (Span F) × σ)
  | 0, _, spans, r => some (spans, r)
  | n + 1, i, spans, r =>
    match g.generateChildChecked recurse traceID parent i spans r with
    | none => none
    | some (spans, r) => Generator.childLoopChecked g recurse traceID parent n (i + 1) spans r

/-- The method `generateChildren` with its checks. -/
def Generator.generateChildrenFuelChecked (g : Generator F σ) (traceID : model.TraceID) :
    Nat → Int → List (Span F) → Span F → σ → Option (List (Span F) × σ)
  | 0, _, spans, _, r => some (spans, r)
  | fuel + 1, level, spans, parent, r =>
    if level ≥ g.cfg.Depth then some (spans, r)
    else
      let (childCount, r) := g.childCount r
      g.childLoopChecked (Generator.generateChildrenFuelChecked g traceID fuel (level + 1))
        traceID parent childCount.toNat 0 spans r

/-- The method `GenerateTrace` with its checks. -/
def Generator.GenerateTraceChecked (g : Generator F σ) (start : time.Time) (r : σ) :
    Option (Trace F × σ) :=
  let (traceID, r) := g.newTraceID r
  let (rootID, r) := g.newSpanID r
  if max 1 g.cfg.Routes ≤ 0 then none else
  let (routeIdx, r) := RNG.Intn g.rand (max 1 g.cfg.Routes) r
  if ¬ g.profile.lookupOK routeIdx then none else
  let (dur, r) := g.sampleDurationForProfile r
  let root : Span F := g.profile.buildRoot g.topology.Frontdoor routeIdx start rootID traceID dur
  let root := g.applyCardinalityAttrs root
  let (root, r) := g.maybeAddProfileEvent root r
  if g.errorWriteFails root r then none else
  let (root, retrySpan, r) := g.maybeErrorAndRetry root r
  let spans := [root]
  let spans := g.appendRetry spans retrySpan
  match g.generateChildrenFuelChecked traceID (g.cfg.Depth - 1).toNat 1 spans root r with
  | none => none
  | some (spans, r) =>
    let trace : Trace F :=
      { TraceID := traceID
        Resource := { Attributes := [("deployment.environment", .str "dev")] }
        Spans := spans }
    some (trace, r)

end generatorChecked

/-- The scenario with the largest `int` as number of services. -/
def hugeServicesConfig : Config DecFloat :=
  { scenarioConfig with Services := 9223372036854775807 }

/-- A span whose attribute `service.name` is the empty string and whose resource has no
`service.name`. -/
def emptyServiceSpan : Span DecFloat :=
  { SpanID := [0, 0, 0, 0, 0, 0, 0, 5], Name := "work", Kind := "INTERNAL",
    StartTime := 1700000000000000000, Duration := 2500,
    Attributes := [("service.name", .str "")], Status := { Code := "OK" } }

/-- A span with a resource name, and a span whose only `service.name` is a number. -/
def resourceNamedSpan : Span DecFloat :=
  { SpanID := [0, 0, 0, 0, 0, 0, 0, 5], Name := "work", Kind := "INTERNAL",
    StartTime := 1700000000000000000, Duration := 2500,
    Attributes := [("service.name", .str "attr")], Status := { Code := "OK" },
    Resource := { Attributes := [("service.name", .str "res")] } }

def numberNamedSpan : Span DecFloat :=
  { emptyServiceSpan with Attributes := [("service.name", .int 7)] }

/-- A span whose only attribute is a `float32`, with an event of the same kind. -/
def float32Span : Span DecFloat :=
  { SpanID := [0, 0, 0, 0, 0, 0, 0, 6], Name := "mixed", Kind := "INTERNAL",
    StartTime := 1700000000000000000, Duration := 2500,
    Attributes := [("ratio", .float32 0.5)],
    Events := [{ Name := "tick", Time := 1700000000000000001,
                 Attributes := [("ratio", .float32 0.5)] }],
    Status := { Code := "OK" } }

/-- The span written for `float32Span` and the request that holds it. -/
def float32Encoded : OTLPSpan DecFloat :=
  { TraceId := zeroTraceID
    SpanId := [0, 0, 0, 0, 0, 0, 0, 6]
    ParentSpanId := []
    Name := "mixed"
    Kind := .SPAN_KIND_INTERNAL
    StartTimeUnixNano := 1700000000000000000
    EndTimeUnixNano := 1700000000000002500
    Attributes := [{ Key := "ratio", Value := .DoubleValue 0.5 }]
    Events := [
      { Name := "tick"
        TimeUnixNano := 1700000000000000001
        Attributes := [{ Key := "ratio", Value := .DoubleValue 0.5 }]
        DroppedAttributesCount := 0 }]
    Status := { Message := "", Code := .STATUS_CODE_OK } }

def float32Request : ExportTraceServiceRequest DecFloat :=
  { ResourceSpans := [
      { Resource := [{ Key := "service.name", Value := .StringValue "unknown-service" }]
        ScopeSpans := [{ Spans := [float32Encoded] }] }] }

/-- The event `exception` that `maybeErrorAndRetry` appends to a span. -/
def exceptionEventOf {F : Type} (span : Span F) : Event F :=
  { Name := "exception"
    Time := span.StartTime.Add (Int.tdiv span.Duration 2)
    Attributes := [
      ("exception.type", .str "SyntheticError"),
      ("exception.message", .str "generated error")] }

/-- The event `retry` that `maybeErrorAndRetry` appends to a span that is retried. -/
def retryEventOf {F : Type} (span : Span F) : Event F :=
  { Name := "retry"
    Time := span.StartTime.Add span.Duration
    Attributes := [("retry.attempt", .int 1)] }

/-- A span that starts at 0 and lasts `math.MaxInt64` nanoseconds. -/
def longestSpan : Span DecFloat :=
  { Name := "GET /", Kind := "SERVER", StartTime := 0, Duration := 9223372036854775807,
    Attributes := [("service.name", .str "svc-0")], Status := { Code := "OK" } }

/-- Every event of the span is stamped within the interval of the span. -/
def eventsWithin {F : Type} (s : Span F) : Prop :=
  ∀ e ∈ s.Events, s.StartTime ≤ e.Time ∧ e.Time ≤ s.StartTime.Add s.Duration

/-- The list holds a span of negative duration, or every event of every span of the
list is stamped within the interval of its span. -/
def Fits {F : Type} (spans : List (Span F)) : Prop :=
  (∃ s ∈ spans, s.Duration < 0) ∨ ∀ s ∈ spans, eventsWithin s

/-- The web scenario with errors and retries and the three latency percentiles at
7000000000000000000 ns, about 222 years. -/
def centuryConfig : Config DecFloat :=
  { webRetryConfig with P50 := 7000000000000000000, P95 := 7000000000000000000,
                        P99 := 7000000000000000000 }

/-- A fanout of 2.75 over the rationals, web profile, depth 2. -/
def fractionalFanoutConfig : Config ℚ :=
  { exactConfig with Fanout := 11 / 4 }

/-- The span `s` of the list was built below the root or below a `CONSUMER` span: it
is a `PRODUCER` or a `CONSUMER` span whose parent id is the id of a span of the list
that is the root or a `CONSUMER` span. -/
def BelowConsumer {F : Type} (root : Span F) (spans : List (Span F)) (s : Span F) : Prop :=
  (s.Kind = "PRODUCER" ∨ s.Kind = "CONSUMER") ∧ s.HasParent = true ∧
  ∃ x ∈ spans, x.SpanID = s.ParentSpanID ∧ (x = root ∨ x.Kind = "CONSUMER")

/-- Every span of the list is the root, a span built below the root or below a
`CONSUMER` span, or the retry span of a span of the list. -/
def QueueShape {F : Type} (root : Span F) (spans : List (Span F)) : Prop :=
  ∀ s ∈ spans, s = root ∨ BelowConsumer root spans s ∨ ∃ x ∈ spans, RetryOf x s

/-- Every `PRODUCER` span of the list has one link, to a `CONSUMER` span of the list
with the same parent id. -/
def ProducersPaired {F : Type} (spans : List (Span F)) : Prop :=
  ∀ p ∈ spans, p.Kind = "PRODUCER" →
    ∃ c ∈ spans, ∃ l : Link F, p.Links = [l] ∧ l.SpanID = c.SpanID ∧ c.Kind = "CONSUMER" ∧
      p.HasParent = true ∧ c.HasParent = true ∧ c.ParentSpanID = p.ParentSpanID

/-- A scripted source whose raw draws are 0, 1, 2, ...: the ids it produces are
pairwise different. -/
def countingSource : RandLib DecFloat (List Nat) :=
  scriptedRand (fun _ => List.range 400)

/-- The queue scenario with depth 3, every span an error and every error retried. -/
def queueRetryConfig : Config DecFloat :=
  { queueNanoConfig with Depth := 3, Errors := 1.0, Retries := 1.0 }

/-- The traces among the events a consumer receives, in order of arrival. -/
def receivedTraces {F : Type} : List (ConsumerEvent F) → List (Trace F)
  | [] => []
  | .trace t :: rest => t :: receivedTraces rest
  | .flushTick :: rest => receivedTraces rest

/-- The spans of a list of traces, in order. -/
def spansOf {F : Type} : List (Trace F) → List (Span F)
  | [] => []
  | t :: rest => t.Spans ++ spansOf rest

/-- What the variables of `consumeTraces` record, for the JSONL format, about the
traces `seen` so far: the traces and spans counted by the stats and those still
pending add up to the traces and spans seen, the lines written followed by the lines of
the buffer are the lines of the spans seen, and an empty buffer has no pending trace. -/
def ConsumerInv {F : Type} [GoFloat64 F] (st : ConsumerState F) (seen : List (Trace F)) : Prop :=
  st.statsTraces + st.pendingTraceCount.toNat = seen.length ∧
  st.statsSpans + st.spanBatch.length = (spansOf seen).length ∧
  st.written ++ jsonl.WriteTrace st.spanBatch = jsonl.WriteTrace (spansOf seen) ∧
  (st.spanBatch = [] → st.pendingTraceCount = 0) ∧
  0 ≤ st.pendingTraceCount

/-- Three traces of one, two and three spans, with a tick of the flush ticker after
the second. -/
def threeTraceEvents : List (ConsumerEvent DecFloat) :=
  [.trace { Spans := [{ Name := "a" }] },
   .trace { Spans := [{ Name := "b" }, { Name := "c" }] },
   .flushTick,
   .trace { Spans := [{ Name := "d" }, { Name := "e" }, { Name := "f" }] }]

/-- One step of the token bucket as the specification words it, on the variables of
`produceTraces`: a refill reads the clock, adds `elapsed_seconds * T` and clips to the
capacity; a dispatch needs a token, appends the job stamped for `sent`, removes one
token and increments `sent`; a full jobs channel empties the bucket; the other steps
only count a `select` or a reading of the clock. -/
inductive BucketStepSpec {F : Type} [GoFloat64 F] (p : ProducerParams F) (env : ProducerEnv) :
    ProducerState F → ProducerState F → Prop where
  | refill (st : ProducerState F) :
      BucketStepSpec p env st
        { st with nows := st.nows + 1, lastRefill := env.now st.nows,
                  tokens := if st.tokens + (time.Duration.Seconds
                        ((env.now st.nows).Sub st.lastRefill) : F) * p.ratePerSecond > p.capacity
                      then p.capacity
                      else st.tokens + (time.Duration.Seconds
                        ((env.now st.nows).Sub st.lastRefill) : F) * p.ratePerSecond }
  | dispatch (st : ProducerState F) (h : st.tokens ≥ 1.0) :
      BucketStepSpec p env st
        { st with sends := st.sends + 1, jobs := st.jobs ++ [scheduledAt p st.sent],
                  sent := st.sent + 1, tokens := st.tokens - 1.0 }
  | full (st : ProducerState F) (h : st.tokens ≥ 1.0) :
      BucketStepSpec p env st { st with sends := st.sends + 1, tokens := 0.0 }
  | cancelled (st : ProducerState F) :
      BucketStepSpec p env st { st with sends := st.sends + 1 }
  | clock (st : ProducerState F) :
      BucketStepSpec p env st { st with nows := st.nows + 1 }
  | wait (st : ProducerState F) :
      BucketStepSpec p env st { st with waits := st.waits + 1 }

/-- The variables of `produceTraces` when its loop is entered: a full bucket. -/
def producerStart {F : Type} [GoFloat64 F] (cfg : Config F) (env : ProducerEnv) :
    ProducerState F :=
  { tokens := (producerParams cfg env).capacity, lastRefill := env.now 0, sent := 0, jobs := [],
    nows := 1, sends := 0, waits := 0 }

/-- The invariant of the token bucket in exact arithmetic: the tokens lie between 0
and the capacity, the last refill was read from the clock, and job number `k` carries
the timestamp computed from `k`. -/
def BucketInv (p : ProducerParams ℚ) (env : ProducerEnv) (st : ProducerState ℚ) : Prop :=
  (0 : ℚ) ≤ st.tokens ∧ st.tokens ≤ p.capacity ∧
  (∃ j, j < st.nows ∧ st.lastRefill = env.now j) ∧
  0 ≤ st.sent ∧
  st.jobs = (List.range st.sent.toNat).map (fun k => scheduledAt p (Int.ofNat k))

/-- From the state `st` at the head of its loop the scheduler returns, with
`sent = Count`, once it is given enough iterations. -/
def ReturnsWithCount {F : Type} [GoFloat64 F] (p : ProducerParams F) (env : ProducerEnv)
    (st : ProducerState F) : Prop :=
  ∃ (st2 : ProducerState F) (fuel0 : Nat), ∀ fuel, fuel0 ≤ fuel →
    producerOuter p env fuel st = .returned st2 ∧ st2.sent = p.cfg.Count

/-- The scenario with a count of three traces and a rate of zero, which `Validate`
rejects. -/
def zeroRateConfig : Config DecFloat :=
  { countThreeConfig with RateValue := 0.0 }

/-! # Theorems -/

/-! ## Attribute maps -/

theorem Attrs.get_set_self {F : Type} (attrs : Attrs F) (k : String) (v : AttrValue F) :
    (attrs.set k v).get k = some v := by
  induction attrs with
  | nil => simp [Attrs.set, Attrs.get]
  | cons kv rest ih =>
    obtain ⟨k1, v1⟩ := kv
    by_cases h : k1 = k
    · simp [Attrs.set, Attrs.get, h]
    · simp [Attrs.set, Attrs.get, h, ih]

theorem Attrs.get_set_ne {F : Type} (attrs : Attrs F) (k k2 : String) (v : AttrValue F)
    (h : k ≠ k2) : (attrs.set k v).get k2 = attrs.get k2 := by
  induction attrs with
  | nil => simp [Attrs.set, Attrs.get, h]
  | cons kv rest ih =>
    obtain ⟨k1, v1⟩ := kv
    by_cases h1 : k1 = k
    · subst h1
      simp [Attrs.set, Attrs.get, h]
    · by_cases h2 : k1 = k2
      · subst h2
        simp [Attrs.set, Attrs.get, h1]
      · simp [Attrs.set, Attrs.get, h1, h2, ih]

theorem Attrs.get_ite_set {F : Type} (c : Prop) [Decidable c] (attrs : Attrs F) (k k2 : String)
    (v : AttrValue F) (h : k ≠ k2) :
    (if c then attrs.set k v else attrs).get k2 = attrs.get k2 := by
  split_ifs
  · exact Attrs.get_set_ne attrs k k2 v h
  · rfl

section generatorFacts

variable {F σ : Type} [GoFloat64 F]

/-! ## What each step of the generator leaves unchanged -/

theorem applyCardinalityAttrs_frame (g : Generator F σ) (s : Span F) :
    (g.applyCardinalityAttrs s).TraceID = s.TraceID ∧
    (g.applyCardinalityAttrs s).SpanID = s.SpanID ∧
    (g.applyCardinalityAttrs s).ParentSpanID = s.ParentSpanID ∧
    (g.applyCardinalityAttrs s).HasParent = s.HasParent ∧
    (g.applyCardinalityAttrs s).Kind = s.Kind ∧
    (g.applyCardinalityAttrs s).Duration = s.Duration ∧
    (g.applyCardinalityAttrs s).Links = s.Links ∧
    (g.applyCardinalityAttrs s).Status = s.Status ∧
    (g.applyCardinalityAttrs s).Attributes.get "error" = s.Attributes.get "error" := by
  unfold Generator.applyCardinalityAttrs
  split_ifs <;> simp [Attrs.get_set_ne, Attrs.get_ite_set]

theorem maybeAddProfileEvent_frame (g : Generator F σ) (s : Span F) (r : σ) :
    (g.maybeAddProfileEvent s r).1.TraceID = s.TraceID ∧
    (g.maybeAddProfileEvent s r).1.SpanID = s.SpanID ∧
    (g.maybeAddProfileEvent s r).1.ParentSpanID = s.ParentSpanID ∧
    (g.maybeAddProfileEvent s r).1.HasParent = s.HasParent ∧
    (g.maybeAddProfileEvent s r).1.Kind = s.Kind ∧
    (g.maybeAddProfileEvent s r).1.Duration = s.Duration ∧
    (g.maybeAddProfileEvent s r).1.Links = s.Links ∧
    (g.maybeAddProfileEvent s r).1.Status = s.Status ∧
    (g.maybeAddProfileEvent s r).1.Attributes = s.Attributes := by
  unfold Generator.maybeAddProfileEvent
  repeat' split
  all_goals simp

theorem maybeErrorAndRetry_frame (g : Generator F σ) (s : Span F) (r : σ) :
    (g.maybeErrorAndRetry s r).1.TraceID = s.TraceID ∧
    (g.maybeErrorAndRetry s r).1.SpanID = s.SpanID ∧
    (g.maybeErrorAndRetry s r).1.ParentSpanID = s.ParentSpanID ∧
    (g.maybeErrorAndRetry s r).1.HasParent = s.HasParent ∧
    (g.maybeErrorAndRetry s r).1.Kind = s.Kind ∧
    (g.maybeErrorAndRetry s r).1.Links = s.Links := by
  unfold Generator.maybeErrorAndRetry
  repeat' split
  all_goals (simp; try (split_ifs <;> simp))

theorem maybeErrorAndRetry_status (g : Generator F σ) (s : Span F) (r : σ) :
    ((g.maybeErrorAndRetry s r).1.Status.Code = "ERROR" ∧
      (g.maybeErrorAndRetry s r).1.Attributes.get "error" = some (.bool true)) ∨
    ((g.maybeErrorAndRetry s r).1.Status = s.Status ∧
      (g.maybeErrorAndRetry s r).1.Attributes = s.Attributes) := by
  unfold Generator.maybeErrorAndRetry
  repeat' split
  all_goals (simp; try (split_ifs <;> simp [Attrs.get_set_ne, Attrs.get_set_self]))

theorem maybeErrorAndRetry_retry (g : Generator F σ) (s : Span F) (r : σ) (rs : Span F)
    (h : (g.maybeErrorAndRetry s r).2.1 = some rs) :
    rs.TraceID = s.TraceID ∧ rs.HasParent = true ∧ rs.ParentSpanID = s.SpanID ∧
    rs.Kind = "INTERNAL" ∧ rs.Links = [] ∧ rs.Status.Code = "OK" ∧
    rs.Attributes.get "error" = none := by
  unfold Generator.maybeErrorAndRetry at h
  repeat' split at h
  all_goals simp at h
  all_goals subst h
  all_goals (split_ifs <;> simp [Attrs.get, Attrs.set])

theorem appendRetry_eq (g : Generator F σ) (spans : List (Span F)) (retry : Option (Span F)) :
    g.appendRetry spans retry = spans ++ (retry.map g.applyCardinalityAttrs).toList := by
  cases retry <;> simp [Generator.appendRetry]

/-- The span left by the three post-processing steps keeps the identity of the span
that was built, and its error marking is consistent. -/
theorem finish_facts (g : Generator F σ) (s0 : Span F) (r1 r2 : σ)
    (h0 : s0.Status.Code = "OK") (h0e : s0.Attributes.get "error" = none) :
    (g.maybeErrorAndRetry (g.maybeAddProfileEvent (g.applyCardinalityAttrs s0) r1).1 r2).1.TraceID
      = s0.TraceID ∧
    (g.maybeErrorAndRetry (g.maybeAddProfileEvent (g.applyCardinalityAttrs s0) r1).1 r2).1.SpanID
      = s0.SpanID ∧
    (g.maybeErrorAndRetry (g.maybeAddProfileEvent (g.applyCardinalityAttrs s0) r1).1 r2).1.ParentSpanID
      = s0.ParentSpanID ∧
    (g.maybeErrorAndRetry (g.maybeAddProfileEvent (g.applyCardinalityAttrs s0) r1).1 r2).1.HasParent
      = s0.HasParent ∧
    (g.maybeErrorAndRetry (g.maybeAddProfileEvent (g.applyCardinalityAttrs s0) r1).1 r2).1.Kind
      = s0.Kind ∧
    (g.maybeErrorAndRetry (g.maybeAddProfileEvent (g.applyCardinalityAttrs s0) r1).1 r2).1.Links
      = s0.Links ∧
    StatusOk (g.maybeErrorAndRetry (g.maybeAddProfileEvent (g.applyCardinalityAttrs s0) r1).1 r2).1 := by
  obtain ⟨a1, a2, a3, a4, a5, _, a7, a8, a9⟩ := applyCardinalityAttrs_frame g s0
  obtain ⟨b1, b2, b3, b4, b5, _, b7, b8, b9⟩ :=
    maybeAddProfileEvent_frame g (g.applyCardinalityAttrs s0) r1
  obtain ⟨c1, c2, c3, c4, c5, c6⟩ :=
    maybeErrorAndRetry_frame g (g.maybeAddProfileEvent (g.applyCardinalityAttrs s0) r1).1 r2
  refine ⟨by rw [c1, b1, a1], by rw [c2, b2, a2], by rw [c3, b3, a3], by rw [c4, b4, a4],
    by rw [c5, b5, a5], by rw [c6, b7, a7], ?_⟩
  rcases maybeErrorAndRetry_status g (g.maybeAddProfileEvent (g.applyCardinalityAttrs s0) r1).1 r2
    with h | ⟨hs, ha⟩
  · exact Or.inl h
  · refine Or.inr ⟨?_, ?_⟩
    · rw [hs, b8, a8]; exact h0
    · rw [ha, b9, a9]; exact h0e

/-- The retry span, once it has received its cardinality attributes, is a retry span
of the span left by `maybeErrorAndRetry`. -/
theorem finish_retry (g : Generator F σ) (x : Span F) (r : σ) (rs : Span F)
    (h : (g.maybeErrorAndRetry x r).2.1 = some rs) :
    RetryOf (g.maybeErrorAndRetry x r).1 (g.applyCardinalityAttrs rs) := by
  obtain ⟨h1, h2, h3, h4, h5, h6, h7⟩ := maybeErrorAndRetry_retry g x r rs h
  obtain ⟨a1, a2, a3, a4, a5, _, a7, a8, a9⟩ := applyCardinalityAttrs_frame g rs
  obtain ⟨c1, c2, _, _, _, _⟩ := maybeErrorAndRetry_frame g x r
  refine ⟨by rw [a1, h1, c1], by rw [a4, h2], by rw [a3, h3, c2], by rw [a5, h4],
    by rw [a7, h5], by rw [a8, h6], by rw [a9, h7]⟩

theorem addStoreAttrs_get_error (attrs : Attrs F) (dbHeavy cacheHit : Bool) :
    (addStoreAttrs attrs dbHeavy cacheHit).get "error" = attrs.get "error" := by
  unfold addStoreAttrs
  cases dbHeavy <;> simp [Attrs.get_set_ne]

theorem buildChild_facts (p : profileModule) (parent : Span F) (service : String) (routeIdx : Int)
    (start : time.Time) (spanID : model.SpanID) (traceID : model.TraceID) (dur : time.Duration)
    (dbHeavy cacheHit : Bool) :
    (p.buildChild parent service routeIdx start spanID traceID dur dbHeavy cacheHit).TraceID = traceID ∧
    (p.buildChild parent service routeIdx start spanID traceID dur dbHeavy cacheHit).SpanID = spanID ∧
    (p.buildChild parent service routeIdx start spanID traceID dur dbHeavy cacheHit).ParentSpanID
      = parent.SpanID ∧
    (p.buildChild parent service routeIdx start spanID traceID dur dbHeavy cacheHit).HasParent = true ∧
    ((p.buildChild parent service routeIdx start spanID traceID dur dbHeavy cacheHit).Kind = "CLIENT" ∨
      (p.buildChild parent service routeIdx start spanID traceID dur dbHeavy cacheHit).Kind = "INTERNAL") ∧
    (p.buildChild parent service routeIdx start spanID traceID dur dbHeavy cacheHit).Links = [] ∧
    (p.buildChild parent service routeIdx start spanID traceID dur dbHeavy cacheHit).Status.Code = "OK" ∧
    (p.buildChild parent service routeIdx start spanID traceID dur dbHeavy cacheHit).Attributes.get "error"
      = none := by
  cases p <;> simp [profileModule.buildChild, addStoreAttrs_get_error, Attrs.get]

theorem buildQueuePair_facts (parent : Span F) (service : String) (routeIdx : Int)
    (start : time.Time) (producerID consumerID : model.SpanID) (traceID : model.TraceID)
    (dur : time.Duration) :
    ((profileModule.queueProfile.buildQueuePair parent service routeIdx start producerID
        consumerID traceID dur).1.TraceID = traceID ∧
      (profileModule.queueProfile.buildQueuePair parent service routeIdx start producerID
        consumerID traceID dur).1.ParentSpanID = parent.SpanID ∧
      (profileModule.queueProfile.buildQueuePair parent service routeIdx start producerID
        consumerID traceID dur).1.HasParent = true ∧
      (profileModule.queueProfile.buildQueuePair parent service routeIdx start producerID
        consumerID traceID dur).1.Kind = "PRODUCER" ∧
      (profileModule.queueProfile.buildQueuePair parent service routeIdx start producerID
        consumerID traceID dur).1.Links =
          [{ TraceID := traceID,
             SpanID := (profileModule.queueProfile.buildQueuePair parent service routeIdx start
               producerID consumerID traceID dur).2.SpanID,
             Attributes := [("link.type", .str "follows_from")] }] ∧
      (profileModule.queueProfile.buildQueuePair parent service routeIdx start producerID
        consumerID traceID dur).1.Status.Code = "OK" ∧
      (profileModule.queueProfile.buildQueuePair parent service routeIdx start producerID
        consumerID traceID dur).1.Attributes.get "error" = none) ∧
    ((profileModule.queueProfile.buildQueuePair parent service routeIdx start producerID
        consumerID traceID dur).2.TraceID = traceID ∧
      (profileModule.queueProfile.buildQueuePair parent service routeIdx start producerID
        consumerID traceID dur).2.ParentSpanID = parent.SpanID ∧
      (profileModule.queueProfile.buildQueuePair parent service routeIdx start producerID
        consumerID traceID dur).2.HasParent = true ∧
      (profileModule.queueProfile.buildQueuePair parent service routeIdx start producerID
        consumerID traceID dur).2.Kind = "CONSUMER" ∧
      (profileModule.queueProfile.buildQueuePair parent service routeIdx start producerID
        consumerID traceID dur).2.Links = [] ∧
      (profileModule.queueProfile.buildQueuePair parent service routeIdx start producerID
        consumerID traceID dur).2.Status.Code = "OK" ∧
      (profileModule.queueProfile.buildQueuePair parent service routeIdx start producerID
        consumerID traceID dur).2.Attributes.get "error" = none) := by
  simp [profileModule.buildQueuePair, Attrs.get]

theorem moduleFor_queue : moduleFor "queue" = profileModule.queueProfile := by decide

/-- The block appended by one iteration for the queue profile. -/
theorem queueBlock (g : Generator F σ) (hq : g.cfg.Profile = "queue") (tid : model.TraceID)
    (parent p0 c0 : Span F) (r1 r2 r3 r4 : σ)
    (hp0 : p0.TraceID = tid ∧ p0.ParentSpanID = parent.SpanID ∧ p0.HasParent = true ∧
      p0.Kind = "PRODUCER" ∧
      p0.Links = [{ TraceID := tid, SpanID := c0.SpanID,
                    Attributes := [("link.type", .str "follows_from")] }] ∧
      p0.Status.Code = "OK" ∧ p0.Attributes.get "error" = none)
    (hc0 : c0.TraceID = tid ∧ c0.ParentSpanID = parent.SpanID ∧ c0.HasParent = true ∧
      c0.Kind = "CONSUMER" ∧ c0.Links = [] ∧
      c0.Status.Code = "OK" ∧ c0.Attributes.get "error" = none) :
    BlockSpec g tid parent
      ((g.maybeErrorAndRetry (g.maybeAddProfileEvent (g.applyCardinalityAttrs p0) r1).1 r3).1 ::
        (g.maybeErrorAndRetry (g.maybeAddProfileEvent (g.applyCardinalityAttrs c0) r2).1 r4).1 ::
        (((g.maybeErrorAndRetry (g.maybeAddProfileEvent (g.applyCardinalityAttrs p0) r1).1 r3).2.1.map
            g.applyCardinalityAttrs).toList ++
         ((g.maybeErrorAndRetry (g.maybeAddProfileEvent (g.applyCardinalityAttrs c0) r2).1 r4).2.1.map
            g.applyCardinalityAttrs).toList))
      (g.maybeErrorAndRetry (g.maybeAddProfileEvent (g.applyCardinalityAttrs c0) r2).1 r4).1 := by
  obtain ⟨p1, p2, p3, p4, p5, p6, p7⟩ := hp0
  obtain ⟨c1, c2, c3, c4, c5, c6, c7⟩ := hc0
  obtain ⟨fp1, fp2, fp3, fp4, fp5, fp6, fp7⟩ := finish_facts g p0 r1 r3 p6 p7
  obtain ⟨fc1, fc2, fc3, fc4, fc5, fc6, fc7⟩ := finish_facts g c0 r2 r4 c6 c7
  refine Or.inr ⟨hq, _, _, _, _, rfl, rfl, ⟨?_, ?_, ?_, fp7⟩, ⟨?_, ?_, ?_, fc7⟩, ?_, ?_, ?_, ?_, ?_, ?_⟩
  · rw [fp1, p1]
  · rw [fp4, p3]
  · rw [fp3, p2]
  · rw [fc1, c1]
  · rw [fc4, c3]
  · rw [fc3, c2]
  · rw [fp5, p4]
  · rw [fc5, c4]
  · refine ⟨_, by rw [fp6, p5], rfl, ?_, ?_⟩
    · exact fc2.symm
    · simp [Attrs.get]
  · rw [fc6, c5]
  · intro rs hrs
    obtain ⟨x, hx, rfl⟩ := Option.mem_map.mp hrs
    exact finish_retry g _ r3 x hx
  · intro rs hrs
    obtain ⟨x, hx, rfl⟩ := Option.mem_map.mp hrs
    exact finish_retry g _ r4 x hx

/-- The block appended by one iteration for the other profiles. -/
theorem childBlock (g : Generator F σ) (hq : g.cfg.Profile ≠ "queue") (tid : model.TraceID)
    (parent c0 : Span F) (r1 r2 : σ)
    (hc0 : c0.TraceID = tid ∧ c0.ParentSpanID = parent.SpanID ∧ c0.HasParent = true ∧
      (c0.Kind = "CLIENT" ∨ c0.Kind = "INTERNAL") ∧ c0.Links = [] ∧
      c0.Status.Code = "OK" ∧ c0.Attributes.get "error" = none) :
    BlockSpec g tid parent
      ((g.maybeErrorAndRetry (g.maybeAddProfileEvent (g.applyCardinalityAttrs c0) r1).1 r2).1 ::
        ((g.maybeErrorAndRetry (g.maybeAddProfileEvent (g.applyCardinalityAttrs c0) r1).1 r2).2.1.map
            g.applyCardinalityAttrs).toList)
      (g.maybeErrorAndRetry (g.maybeAddProfileEvent (g.applyCardinalityAttrs c0) r1).1 r2).1 := by
  obtain ⟨c1, c2, c3, c4, c5, c6, c7⟩ := hc0
  obtain ⟨fc1, fc2, fc3, fc4, fc5, fc6, fc7⟩ := finish_facts g c0 r1 r2 c6 c7
  refine Or.inl ⟨hq, _, _, rfl, rfl, ⟨?_, ?_, ?_, fc7⟩, ?_, ?_, ?_⟩
  · rw [fc1, c1]
  · rw [fc4, c3]
  · rw [fc3, c2]
  · rw [fc5]; exact c4
  · rw [fc6, c5]
  · intro rs hrs
    obtain ⟨x, hx, rfl⟩ := Option.mem_map.mp hrs
    exact finish_retry g _ r2 x hx

/-- One iteration of the loop of `generateChildren` appends a block of spans and
recurses from one of them. -/
theorem generateChild_shape (g : Generator F σ) (hp : g.profile = moduleFor g.cfg.Profile)
    (recurse : List (Span F) → Span F → σ → List (Span F) × σ)
    (tid : model.TraceID) (parent : Span F) (i : Int) (spans : List (Span F)) (r : σ) :
    ∃ (block : List (Span F)) (last : Span F) (r2 : σ),
      g.generateChild recurse tid parent i spans r = recurse (spans ++ block) last r2 ∧
      BlockSpec g tid parent block last := by
  unfold Generator.generateChild
  by_cases hq : g.cfg.Profile = "queue"
  · have hprof : g.profile = profileModule.queueProfile := by rw [hp, hq]; exact moduleFor_queue
    simp only [hq, if_true, hprof, appendRetry_eq, List.append_assoc, List.cons_append,
      List.nil_append]
    refine ⟨_, _, _, rfl, ?_⟩
    obtain ⟨h1, h2⟩ := buildQueuePair_facts (F := F) parent
      (g.topology.Services.getD
        (RNG.Intn g.rand (Int.ofNat g.topology.Services.length) r).1.toNat "")
      (RNG.Intn g.rand (max 1 g.cfg.Routes)
        (RNG.Intn g.rand (Int.ofNat g.topology.Services.length) r).2).1
      (parent.StartTime.Add ((i + 1) * time.Millisecond))
      (g.newSpanID (RNG.Intn g.rand (max 1 g.cfg.Routes)
        (RNG.Intn g.rand (Int.ofNat g.topology.Services.length) r).2).2).1
      (g.newSpanID (g.newSpanID (RNG.Intn g.rand (max 1 g.cfg.Routes)
        (RNG.Intn g.rand (Int.ofNat g.topology.Services.length) r).2).2).2).1
      tid
      (g.sampleDurationForProfile (g.newSpanID (g.newSpanID (RNG.Intn g.rand (max 1 g.cfg.Routes)
        (RNG.Intn g.rand (Int.ofNat g.topology.Services.length) r).2).2).2).2).1
    exact queueBlock g hq tid parent _ _ _ _ _ _ h1 h2
  · simp only [hq, if_false, appendRetry_eq, List.append_assoc, List.cons_append,
      List.nil_append]
    refine ⟨_, _, _, rfl, ?_⟩
    obtain ⟨h1, _, h3, h4, h5, h6, h7, h8⟩ := buildChild_facts (F := F) g.profile parent
      (g.topology.Services.getD
        (RNG.Intn g.rand (Int.ofNat g.topology.Services.length) r).1.toNat "")
      (RNG.Intn g.rand (max 1 g.cfg.Routes)
        (RNG.Intn g.rand (Int.ofNat g.topology.Services.length) r).2).1
      (parent.StartTime.Add ((i + 1) * time.Millisecond))
      (g.newSpanID (RNG.Intn g.rand (max 1 g.cfg.Routes)
        (RNG.Intn g.rand (Int.ofNat g.topology.Services.length) r).2).2).1
      tid
      (g.sampleDurationForProfile (g.newSpanID (RNG.Intn g.rand (max 1 g.cfg.Routes)
        (RNG.Intn g.rand (Int.ofNat g.topology.Services.length) r).2).2).2).1
      (decide ((RNG.Float64 g.rand (g.sampleDurationForProfile (g.newSpanID
        (RNG.Intn g.rand (max 1 g.cfg.Routes)
        (RNG.Intn g.rand (Int.ofNat g.topology.Services.length) r).2).2).2).2).1 < g.cfg.DBHeavy))
      (decide ((RNG.Float64 g.rand (RNG.Float64 g.rand (g.sampleDurationForProfile (g.newSpanID
        (RNG.Intn g.rand (max 1 g.cfg.Routes)
        (RNG.Intn g.rand (Int.ofNat g.topology.Services.length) r).2).2).2).2).2).1
          < g.cfg.CacheHitRate))
    exact childBlock g hq tid parent _ _ _ ⟨h1, h3, h4, h5, h6, h7, h8⟩

/-! ## Induction over the recursion of `generateChildren` -/

theorem childLoop_preserves (g : Generator F σ) (tid : model.TraceID)
    (P : List (Span F) → Span F → Prop)
    (recurse : List (Span F) → Span F → σ → List (Span F) × σ)
    (parent : Span F)
    (hchild : ∀ i spans r, P spans parent →
      P (g.generateChild recurse tid parent i spans r).1 parent ∧
      spans <+: (g.generateChild recurse tid parent i spans r).1) :
    ∀ (n : Nat) (i : Int) (spans : List (Span F)) (r : σ), P spans parent →
      P (g.childLoop recurse tid parent n i spans r).1 parent ∧
      spans <+: (g.childLoop recurse tid parent n i spans r).1 := by
  intro n
  induction n with
  | zero =>
    intro i spans r h
    exact ⟨h, List.prefix_refl _⟩
  | succ n ih =>
    intro i spans r h
    obtain ⟨h1, h2⟩ := hchild i spans r h
    obtain ⟨h3, h4⟩ := ih (i + 1) (g.generateChild recurse tid parent i spans r).1
      (g.generateChild recurse tid parent i spans r).2 h1
    exact ⟨h3, h2.trans h4⟩

/-- An invariant `P spans parent` of the span list is kept by `generateChildren` when
it is kept by appending a block (`hblock`) and, after the recursion below the last
span of the block, can be restored for the parent (`hback`). The result extends the
list it started from. -/
theorem generateChildrenFuel_preserves (g : Generator F σ)
    (hp : g.profile = moduleFor g.cfg.Profile) (tid : model.TraceID)
    (P : List (Span F) → Span F → Prop)
    (hblock : ∀ spans parent block last, P spans parent → BlockSpec g tid parent block last →
      P (spans ++ block) last)
    (hback : ∀ spans parent block last out, P spans parent → BlockSpec g tid parent block last →
      P out last → (spans ++ block) <+: out → P out parent) :
    ∀ (fuel : Nat) (level : Int) (spans : List (Span F)) (parent : Span F) (r : σ),
      P spans parent →
      P (g.generateChildrenFuel tid fuel level spans parent r).1 parent ∧
      spans <+: (g.generateChildrenFuel tid fuel level spans parent r).1 := by
  intro fuel
  induction fuel with
  | zero =>
    intro level spans parent r h
    exact ⟨h, List.prefix_refl _⟩
  | succ fuel ih =>
    intro level spans parent r h
    unfold Generator.generateChildrenFuel
    split_ifs with hl
    · exact ⟨h, List.prefix_refl _⟩
    · refine childLoop_preserves g tid P _ parent ?_ _ _ _ _ h
      intro i spans1 r1 h1
      obtain ⟨block, last, r2, heq, hspec⟩ :=
        generateChild_shape g hp (g.generateChildrenFuel tid fuel (level + 1)) tid parent i spans1 r1
      rw [heq]
      obtain ⟨h2, h3⟩ := ih (level + 1) (spans1 ++ block) last r2 (hblock _ _ _ _ h1 hspec)
      exact ⟨hback _ _ _ _ _ h1 hspec h2 h3, (List.prefix_append _ _).trans h3⟩

/-- The same for an invariant that does not mention the parent. -/
theorem generateChildrenFuel_forall (g : Generator F σ)
    (hp : g.profile = moduleFor g.cfg.Profile) (tid : model.TraceID)
    (Q : List (Span F) → Prop)
    (hblock : ∀ spans parent block last, Q spans → BlockSpec g tid parent block last →
      Q (spans ++ block))
    (fuel : Nat) (level : Int) (spans : List (Span F)) (parent : Span F) (r : σ)
    (h : Q spans) :
    Q (g.generateChildrenFuel tid fuel level spans parent r).1 :=
  (generateChildrenFuel_preserves g hp tid (fun s _ => Q s)
    (fun spans parent block last h1 h2 => hblock spans parent block last h1 h2)
    (fun _ _ _ _ _ _ _ h3 _ => h3) fuel level spans parent r h).1

theorem New_profile {F σ : Type} [GoFloat64 F] (R : RandLib F σ) (M : MathLib F) (cfg : Config F) :
    (New R M cfg).1.profile = moduleFor (New R M cfg).1.cfg.Profile := rfl

theorem New_cfg {F σ : Type} [GoFloat64 F] (R : RandLib F σ) (M : MathLib F) (cfg : Config F) :
    (New R M cfg).1.cfg = cfg := rfl

/-! ## The root span and the shape of `GenerateTrace` -/

theorem buildRoot_facts (p : profileModule) (frontdoor : String) (routeIdx : Int)
    (start : time.Time) (spanID : model.SpanID) (traceID : model.TraceID) (dur : time.Duration) :
    (p.buildRoot (F := F) frontdoor routeIdx start spanID traceID dur).TraceID = traceID ∧
    (p.buildRoot (F := F) frontdoor routeIdx start spanID traceID dur).SpanID = spanID ∧
    (p.buildRoot (F := F) frontdoor routeIdx start spanID traceID dur).HasParent = false ∧
    ((p.buildRoot (F := F) frontdoor routeIdx start spanID traceID dur).Kind = "SERVER" ∨
      (p.buildRoot (F := F) frontdoor routeIdx start spanID traceID dur).Kind = "INTERNAL") ∧
    (p.buildRoot (F := F) frontdoor routeIdx start spanID traceID dur).Links = [] ∧
    (p.buildRoot (F := F) frontdoor routeIdx start spanID traceID dur).Status.Code = "OK" ∧
    (p.buildRoot (F := F) frontdoor routeIdx start spanID traceID dur).Attributes.get "error"
      = none := by
  cases p <;> simp [profileModule.buildRoot, Attrs.get]

/-- A trace is the root span, its optional retry span, and what `generateChildren`
appends below the root. -/
theorem GenerateTrace_shape (g : Generator F σ) (start : time.Time) (r : σ) :
    ∃ (root : Span F) (retry : Option (Span F)) (r2 : σ),
      (g.GenerateTrace start r).1.Spans =
        (g.generateChildren (g.GenerateTrace start r).1.TraceID (root :: retry.toList) root 1 r2).1 ∧
      root.TraceID = (g.GenerateTrace start r).1.TraceID ∧
      root.HasParent = false ∧
      (root.Kind = "SERVER" ∨ root.Kind = "INTERNAL") ∧
      root.Links = [] ∧
      StatusOk root ∧
      ∀ rs ∈ retry, RetryOf root rs := by
  unfold Generator.GenerateTrace
  simp only [appendRetry_eq, List.cons_append, List.nil_append]
  obtain ⟨h1, _, h3, h4, h5, h6, h7⟩ := buildRoot_facts (F := F) g.profile g.topology.Frontdoor
    (RNG.Intn g.rand (max 1 g.cfg.Routes) (g.newSpanID (g.newTraceID r).2).2).1
    start (g.newSpanID (g.newTraceID r).2).1 (g.newTraceID r).1
    (g.sampleDurationForProfile
      (RNG.Intn g.rand (max 1 g.cfg.Routes) (g.newSpanID (g.newTraceID r).2).2).2).1
  obtain ⟨f1, _, _, f4, f5, f6, f7⟩ := finish_facts g _
    (g.sampleDurationForProfile
      (RNG.Intn g.rand (max 1 g.cfg.Routes) (g.newSpanID (g.newTraceID r).2).2).2).2
    (g.maybeAddProfileEvent (g.applyCardinalityAttrs
      (g.profile.buildRoot g.topology.Frontdoor
        (RNG.Intn g.rand (max 1 g.cfg.Routes) (g.newSpanID (g.newTraceID r).2).2).1
        start (g.newSpanID (g.newTraceID r).2).1 (g.newTraceID r).1
        (g.sampleDurationForProfile
          (RNG.Intn g.rand (max 1 g.cfg.Routes) (g.newSpanID (g.newTraceID r).2).2).2).1))
      (g.sampleDurationForProfile
        (RNG.Intn g.rand (max 1 g.cfg.Routes) (g.newSpanID (g.newTraceID r).2).2).2).2).2
    h6 h7
  refine ⟨_, _, _, rfl, ?_, ?_, ?_, ?_, f7, ?_⟩
  · rw [f1, h1]
  · rw [f4, h3]
  · rw [f5]; exact h4
  · rw [f6, h5]
  · intro rs hrs
    obtain ⟨x, hx, rfl⟩ := Option.mem_map.mp hrs
    exact finish_retry g _ _ x hx

theorem RetryOf.statusOk {x rs : Span F} (h : RetryOf x rs) : StatusOk rs :=
  Or.inr ⟨h.2.2.2.2.2.1, h.2.2.2.2.2.2⟩

/-- Every span of a block belongs to the trace, has a parent and a consistent error
marking. -/
theorem BlockSpec_mem (g : Generator F σ) (tid : model.TraceID) (parent : Span F)
    (block : List (Span F)) (last : Span F) (h : BlockSpec g tid parent block last) :
    ∀ s ∈ block, s.TraceID = tid ∧ s.HasParent = true ∧ StatusOk s := by
  intro s hs
  rcases h with ⟨_, child, retry, rfl, _, hc, _, _, hr⟩ | ⟨_, p, c, pr, cr, rfl, _, hpp, hcc, _, _, _, _, hpr, hcr⟩
  · rcases List.mem_cons.mp hs with rfl | hs
    · exact ⟨hc.1, hc.2.1, hc.2.2.2⟩
    · have h1 := hr s (Option.mem_toList.mp hs)
      exact ⟨h1.1.trans hc.1, h1.2.1, h1.statusOk⟩
  · rcases List.mem_cons.mp hs with rfl | hs
    · exact ⟨hpp.1, hpp.2.1, hpp.2.2.2⟩
    · rcases List.mem_cons.mp hs with rfl | hs
      · exact ⟨hcc.1, hcc.2.1, hcc.2.2.2⟩
      · rcases List.mem_append.mp hs with hs | hs
        · have h1 := hpr s (Option.mem_toList.mp hs)
          exact ⟨h1.1.trans hpp.1, h1.2.1, h1.statusOk⟩
        · have h1 := hcr s (Option.mem_toList.mp hs)
          exact ⟨h1.1.trans hcc.1, h1.2.1, h1.statusOk⟩

/-! ## C5 and C4: the root is the only parentless span; error marking -/

/-- C5. Every trace returned by `GenerateTrace` has at least one span: its span list is
a first span `root` with `HasParent = false` followed by spans that all have
`HasParent = true`, so the first span is the only one without a parent. -/
theorem C5_root_is_the_only_parentless_span (R : RandLib F σ) (M : MathLib F) (cfg : Config F)
    (start : time.Time) (r : σ) :
    ∃ (root : Span F) (rest : List (Span F)),
      ((New R M cfg).1.GenerateTrace start r).1.Spans = root :: rest ∧
      root.HasParent = false ∧
      ∀ s ∈ rest, s.HasParent = true := by
  obtain ⟨root, retry, r2, hspans, _, hroot, _, _, _, hretry⟩ :=
    GenerateTrace_shape (New R M cfg).1 start r
  rw [hspans]
  unfold Generator.generateChildren
  refine generateChildrenFuel_forall (New R M cfg).1 (New_profile R M cfg) _
    (fun spans => ∃ (root : Span F) (rest : List (Span F)), spans = root :: rest ∧
      root.HasParent = false ∧ ∀ s ∈ rest, s.HasParent = true) ?_ _ _ _ _ _ ?_
  · rintro spans parent block last ⟨root1, rest1, rfl, h1, h2⟩ hspec
    refine ⟨root1, rest1 ++ block, rfl, h1, ?_⟩
    intro s hs
    rcases List.mem_append.mp hs with hs | hs
    · exact h2 s hs
    · exact (BlockSpec_mem _ _ _ _ _ hspec s hs).2.1
  · refine ⟨root, retry.toList, rfl, hroot, ?_⟩
    intro s hs
    exact (hretry s (Option.mem_toList.mp hs)).2.1

/-- C4. In every trace returned by `GenerateTrace`, a span has `Status.Code = "ERROR"` if
and only if its attribute `error` is the boolean `true`, and every span is either such
an error span or has `Status.Code = "OK"` and no attribute `error`. -/
theorem C4_error_status_iff_error_attribute (R : RandLib F σ) (M : MathLib F) (cfg : Config F)
    (start : time.Time) (r : σ) :
    ∀ s ∈ ((New R M cfg).1.GenerateTrace start r).1.Spans,
      (s.Status.Code = "ERROR" ↔ s.Attributes.get "error" = some (.bool true)) ∧
      ((s.Status.Code = "ERROR" ∧ s.Attributes.get "error" = some (.bool true)) ∨
        (s.Status.Code = "OK" ∧ s.Attributes.get "error" = none)) := by
  have key : ∀ s ∈ ((New R M cfg).1.GenerateTrace start r).1.Spans, StatusOk s := by
    obtain ⟨root, retry, r2, hspans, _, _, _, _, hroot, hretry⟩ :=
      GenerateTrace_shape (New R M cfg).1 start r
    rw [hspans]
    unfold Generator.generateChildren
    refine generateChildrenFuel_forall (New R M cfg).1 (New_profile R M cfg) _
      (fun spans => ∀ s ∈ spans, StatusOk s) ?_ _ _ _ _ _ ?_
    · intro spans parent block last h1 hspec s hs
      rcases List.mem_append.mp hs with hs | hs
      · exact h1 s hs
      · exact (BlockSpec_mem _ _ _ _ _ hspec s hs).2.2
    · intro s hs
      rcases List.mem_cons.mp hs with rfl | hs
      · exact hroot
      · exact (hretry s (Option.mem_toList.mp hs)).statusOk
  intro s hs
  have h := key s hs
  refine ⟨?_, h⟩
  rcases h with ⟨h1, h2⟩ | ⟨h1, h2⟩
  · exact ⟨fun _ => h2, fun _ => h1⟩
  · constructor
    · intro h3
      rw [h1] at h3
      exact absurd h3 (by decide)
    · intro h3
      rw [h2] at h3
      exact absurd h3 (by simp)

/-! ## C3: every non-root span names an earlier span as its parent -/

theorem wellParentedFrom_mono (xs : List (Span F)) :
    ∀ (seen seen2 : List model.SpanID), seen ⊆ seen2 →
      wellParentedFrom seen xs → wellParentedFrom seen2 xs := by
  induction xs with
  | nil => intro _ _ _ _; trivial
  | cons x xs ih =>
    intro seen seen2 hsub h
    obtain ⟨h1, h2, h3⟩ := h
    refine ⟨h1, hsub h2, ih _ _ ?_ h3⟩
    intro a ha
    rcases List.mem_append.mp ha with ha | ha
    · exact List.mem_append_left _ (hsub ha)
    · exact List.mem_append_right _ ha

theorem wellParentedFrom_append (xs ys : List (Span F)) :
    ∀ (seen : List model.SpanID), wellParentedFrom seen xs →
      wellParentedFrom (seen ++ xs.map (fun s => s.SpanID)) ys →
      wellParentedFrom seen (xs ++ ys) := by
  induction xs with
  | nil =>
    intro seen _ h
    simpa using h
  | cons x xs ih =>
    intro seen h1 h2
    obtain ⟨a, b, c⟩ := h1
    refine ⟨a, b, ih _ c ?_⟩
    simpa [List.append_assoc] using h2

theorem wellParentedFrom_getElem (xs : List (Span F)) :
    ∀ (seen : List model.SpanID), wellParentedFrom seen xs →
      ∀ (j : Nat) (hj : j < xs.length),
        (xs.get ⟨j, hj⟩).HasParent = true ∧
        (xs.get ⟨j, hj⟩).ParentSpanID ∈ seen ++ (xs.take j).map (fun s => s.SpanID) := by
  induction xs with
  | nil => intro _ _ j hj; exact absurd hj (Nat.not_lt_zero _)
  | cons x xs ih =>
    intro seen h j hj
    obtain ⟨a, b, c⟩ := h
    cases j with
    | zero => exact ⟨a, by simpa using b⟩
    | succ j =>
      have hj2 : j < xs.length := Nat.lt_of_succ_lt_succ hj
      obtain ⟨h1, h2⟩ := ih _ c j hj2
      refine ⟨h1, ?_⟩
      simpa [List.append_assoc] using h2

theorem wellParentedFrom_block (g : Generator F σ) (tid : model.TraceID) (parent : Span F)
    (block : List (Span F)) (last : Span F) (h : BlockSpec g tid parent block last)
    (seen : List model.SpanID) (hparent : parent.SpanID ∈ seen) :
    wellParentedFrom seen block ∧ last.SpanID ∈ block.map (fun s => s.SpanID) := by
  rcases h with ⟨_, child, retry, rfl, rfl, hc, _, _, hr⟩ |
    ⟨_, p, c, pr, cr, rfl, rfl, hpp, hcc, _, _, _, _, hpr, hcr⟩
  · refine ⟨⟨hc.2.1, by rw [hc.2.2.1]; exact hparent, ?_⟩, by simp⟩
    cases retry with
    | none => trivial
    | some rs =>
      have h1 := hr rs rfl
      exact ⟨h1.2.1, by rw [h1.2.2.1]; simp, trivial⟩
  · refine ⟨⟨hpp.2.1, by rw [hpp.2.2.1]; exact hparent, hcc.2.1,
      by rw [hcc.2.2.1]; exact List.mem_append_left _ hparent, ?_⟩, by simp⟩
    cases pr with
    | none =>
      cases cr with
      | none => trivial
      | some rs =>
        have h1 := hcr rs rfl
        exact ⟨h1.2.1, by rw [h1.2.2.1]; simp, trivial⟩
    | some rp =>
      have h0 := hpr rp rfl
      cases cr with
      | none => exact ⟨h0.2.1, by rw [h0.2.2.1]; simp, trivial⟩
      | some rs =>
        have h1 := hcr rs rfl
        exact ⟨h0.2.1, by rw [h0.2.2.1]; simp, h1.2.1, by rw [h1.2.2.1]; simp, trivial⟩

/-- C3. In every trace returned by `GenerateTrace`, every span at an index `j > 0` has
`HasParent = true`, and its `ParentSpanID` is the `SpanID` of a span at an earlier
index `i < j` of the same trace. -/
theorem C3_parent_is_an_earlier_span (R : RandLib F σ) (M : MathLib F) (cfg : Config F)
    (start : time.Time) (r : σ) (j : Nat)
    (hj : j < ((New R M cfg).1.GenerateTrace start r).1.Spans.length) (hpos : 0 < j) :
    (((New R M cfg).1.GenerateTrace start r).1.Spans.get ⟨j, hj⟩).HasParent = true ∧
    ∃ (i : Nat) (hi : i < ((New R M cfg).1.GenerateTrace start r).1.Spans.length), i < j ∧
      (((New R M cfg).1.GenerateTrace start r).1.Spans.get ⟨i, hi⟩).SpanID =
        (((New R M cfg).1.GenerateTrace start r).1.Spans.get ⟨j, hj⟩).ParentSpanID := by
  have key : ∃ (root : Span F) (rest : List (Span F)),
      ((New R M cfg).1.GenerateTrace start r).1.Spans = root :: rest ∧
      wellParentedFrom [root.SpanID] rest := by
    obtain ⟨root, retry, r2, hspans, _, _, _, _, _, hretry⟩ :=
      GenerateTrace_shape (New R M cfg).1 start r
    rw [hspans]
    unfold Generator.generateChildren
    have h := (generateChildrenFuel_preserves (New R M cfg).1 (New_profile R M cfg)
      ((New R M cfg).1.GenerateTrace start r).1.TraceID
      (fun spans parent => (∃ (root : Span F) (rest : List (Span F)), spans = root :: rest ∧
        wellParentedFrom [root.SpanID] rest) ∧ parent.SpanID ∈ spans.map (fun s => s.SpanID))
      ?_ ?_ ((New R M cfg).1.cfg.Depth - 1).toNat 1 (root :: retry.toList) root r2 ?_).1
    · exact h.1
    · rintro spans parent block last ⟨⟨root1, rest1, rfl, h1⟩, h2⟩ hspec
      obtain ⟨h3, h4⟩ := wellParentedFrom_block _ _ _ _ _ hspec
        ((root1 :: rest1).map (fun s => s.SpanID)) h2
      refine ⟨⟨root1, rest1 ++ block, rfl, wellParentedFrom_append _ _ _ h1 ?_⟩, ?_⟩
      · simpa using h3
      · rw [List.map_append]
        exact List.mem_append_right _ h4
    · rintro spans parent block last out ⟨_, h2⟩ _ ⟨h3, _⟩ hpre
      refine ⟨h3, ?_⟩
      have hsub : spans <+: out := (List.prefix_append _ _).trans hpre
      exact (List.map_subset _ hsub.subset) h2
    · refine ⟨⟨root, retry.toList, rfl, ?_⟩, by simp⟩
      cases retry with
      | none => trivial
      | some rs =>
        have h1 := hretry rs rfl
        exact ⟨h1.2.1, by rw [h1.2.2.1]; simp, trivial⟩
  obtain ⟨root, rest, hspans, hwp⟩ := key
  generalize ((New R M cfg).1.GenerateTrace start r).1.Spans = spans at hj hspans ⊢
  subst hspans
  cases j with
  | zero => exact absurd hpos (Nat.lt_irrefl 0)
  | succ k =>
    have hk : k < rest.length := Nat.lt_of_succ_lt_succ hj
    obtain ⟨h1, h2⟩ := wellParentedFrom_getElem rest _ hwp k hk
    refine ⟨h1, ?_⟩
    have h3 : (rest.get ⟨k, hk⟩).ParentSpanID ∈
        ((root :: rest).take (k + 1)).map (fun s => s.SpanID) := by
      simpa using h2
    obtain ⟨s, hs, hsid⟩ := List.mem_map.mp h3
    obtain ⟨i, hi, hget⟩ := List.getElem_of_mem hs
    have hi2 : i < k + 1 := by
      have := hi
      rw [List.length_take] at this
      exact lt_of_lt_of_le this (Nat.min_le_left _ _)
    have hi3 : i < (root :: rest).length := lt_trans hi2 hj
    refine ⟨i, hi3, hi2, ?_⟩
    rw [List.getElem_take] at hget
    simp only [List.get_eq_getElem]
    rw [hget]
    exact hsid

/-! ## C10: producers are linked to the consumer that follows them -/

theorem producersLinked_append (tid : model.TraceID) (xs ys : List (Span F))
    (hx : producersLinked tid xs)
    (hlast : ∀ l, xs.getLast? = some l → l.Kind ≠ "PRODUCER")
    (hy : producersLinked tid ys) : producersLinked tid (xs ++ ys) := by
  induction xs with
  | nil => simpa using hy
  | cons x xs ih =>
    obtain ⟨h1, h2⟩ := hx
    cases xs with
    | nil =>
      refine ⟨?_, by simpa using hy⟩
      intro hk
      exact absurd hk (hlast x rfl)
    | cons x2 xs2 =>
      refine ⟨?_, ih h2 ?_⟩
      · intro hk
        obtain ⟨c, rest2, l, heq, hrest⟩ := h1 hk
        refine ⟨c, rest2 ++ ys, l, ?_, hrest⟩
        rw [heq]
        rfl
      · intro l hl
        apply hlast l
        rw [List.getLast?_cons_cons]
        exact hl

theorem producersLinked_getElem (tid : model.TraceID) (xs : List (Span F)) :
    producersLinked tid xs →
      ∀ (j : Nat) (hj : j < xs.length), (xs.get ⟨j, hj⟩).Kind = "PRODUCER" →
        ∃ (hj1 : j + 1 < xs.length) (l : Link F),
          (xs.get ⟨j + 1, hj1⟩).Kind = "CONSUMER" ∧ (xs.get ⟨j, hj⟩).Links = [l] ∧
          l.TraceID = tid ∧ l.SpanID = (xs.get ⟨j + 1, hj1⟩).SpanID ∧
          l.Attributes.get "link.type" = some (.str "follows_from") := by
  induction xs with
  | nil => intro _ j hj; exact absurd hj (Nat.not_lt_zero _)
  | cons x xs ih =>
    intro h j hj hk
    obtain ⟨h1, h2⟩ := h
    cases j with
    | zero =>
      obtain ⟨c, rest2, l, heq, hc, hl⟩ := h1 hk
      subst heq
      exact ⟨by simp, l, hc, hl⟩
    | succ j =>
      have hj2 : j < xs.length := Nat.lt_of_succ_lt_succ hj
      obtain ⟨hj1, l, hl⟩ := ih h2 j hj2 hk
      exact ⟨Nat.succ_lt_succ hj1, l, hl⟩

theorem producersLinked_block (g : Generator F σ) (tid : model.TraceID) (parent : Span F)
    (block : List (Span F)) (last : Span F) (h : BlockSpec g tid parent block last) :
    producersLinked tid block ∧ ∀ l, block.getLast? = some l → l.Kind ≠ "PRODUCER" := by
  have hne : ∀ (s : Span F), (s.Kind = "CLIENT" ∨ s.Kind = "INTERNAL" ∨ s.Kind = "CONSUMER") →
      s.Kind ≠ "PRODUCER" := by
    intro s hs hk
    rw [hk] at hs
    revert hs
    decide
  have hall : ∀ (xs : List (Span F)), (∀ s ∈ xs, s.Kind ≠ "PRODUCER") →
      producersLinked tid xs := by
    intro xs
    induction xs with
    | nil => intro _; trivial
    | cons x xs ih =>
      intro hx
      exact ⟨fun hk => absurd hk (hx x (List.mem_cons_self _ _)),
        ih (fun s hs => hx s (List.mem_cons_of_mem _ hs))⟩
  rcases h with ⟨_, child, retry, rfl, _, _, hk, _, hr⟩ |
    ⟨_, p, c, pr, cr, rfl, _, _, hcc, hpk, hck, hl, _, hpr, hcr⟩
  · have hmem : ∀ s ∈ child :: retry.toList, s.Kind ≠ "PRODUCER" := by
      intro s hs
      rcases List.mem_cons.mp hs with rfl | hs
      · exact hne _ (by rcases hk with h | h <;> simp [h])
      · exact hne _ (Or.inr (Or.inl (hr s (Option.mem_toList.mp hs)).2.2.2.1))
    exact ⟨hall _ hmem, fun l hl => hmem l (List.mem_of_getLast?_eq_some hl)⟩
  · have hmem : ∀ s ∈ c :: (pr.toList ++ cr.toList), s.Kind ≠ "PRODUCER" := by
      intro s hs
      rcases List.mem_cons.mp hs with rfl | hs
      · exact hne _ (Or.inr (Or.inr hck))
      · rcases List.mem_append.mp hs with hs | hs
        · exact hne _ (Or.inr (Or.inl (hpr s (Option.mem_toList.mp hs)).2.2.2.1))
        · exact hne _ (Or.inr (Or.inl (hcr s (Option.mem_toList.mp hs)).2.2.2.1))
    refine ⟨⟨?_, hall _ hmem⟩, ?_⟩
    · intro _
      obtain ⟨l, h1, h2, h3, h4⟩ := hl
      exact ⟨c, _, l, rfl, hck, h1, h2, h3, h4⟩
    · intro l hl2
      rw [List.getLast?_cons_cons] at hl2
      exact hmem l (List.mem_of_getLast?_eq_some hl2)

theorem childCount_pos (g : Generator F σ) (r : σ) : 1 ≤ (g.childCount r).1 := by
  unfold Generator.childCount
  simp only
  split_ifs <;> omega

/-- The list returned by `generateChildren` extends the list it was given. -/
theorem generateChildrenFuel_extends (g : Generator F σ)
    (hp : g.profile = moduleFor g.cfg.Profile) (tid : model.TraceID)
    (fuel : Nat) (level : Int) (spans : List (Span F)) (parent : Span F) (r : σ) :
    spans <+: (g.generateChildrenFuel tid fuel level spans parent r).1 :=
  (generateChildrenFuel_preserves g hp tid (fun _ _ => True) (fun _ _ _ _ _ _ => trivial)
    (fun _ _ _ _ _ _ _ _ _ => trivial) fuel level spans parent r trivial).2

/-- Below the depth limit `generateChildren` appends at least one block. -/
theorem generateChildrenFuel_first_block (g : Generator F σ)
    (hp : g.profile = moduleFor g.cfg.Profile) (tid : model.TraceID)
    (fuel : Nat) (level : Int) (spans : List (Span F)) (parent : Span F) (r : σ)
    (hl : level < g.cfg.Depth) :
    ∃ (block : List (Span F)) (last : Span F), BlockSpec g tid parent block last ∧
      (spans ++ block) <+: (g.generateChildrenFuel tid (fuel + 1) level spans parent r).1 := by
  unfold Generator.generateChildrenFuel
  rw [if_neg (not_le.mpr hl)]
  simp only
  obtain ⟨n, hn⟩ : ∃ n, (g.childCount r).1.toNat = n + 1 := by
    have := childCount_pos g r
    exact ⟨(g.childCount r).1.toNat - 1, by omega⟩
  rw [hn]
  unfold Generator.childLoop
  simp only
  obtain ⟨block, last, r2, heq, hspec⟩ :=
    generateChild_shape g hp (g.generateChildrenFuel tid fuel (level + 1)) tid parent 0 spans
      (g.childCount r).2
  refine ⟨block, last, hspec, ?_⟩
  have h1 : (spans ++ block) <+:
      (g.generateChild (g.generateChildrenFuel tid fuel (level + 1)) tid parent 0 spans
        (g.childCount r).2).1 := by
    rw [heq]
    exact generateChildrenFuel_extends g hp tid fuel (level + 1) _ last r2
  refine h1.trans ?_
  refine (childLoop_preserves g tid (fun _ _ => True) _ parent ?_ n _ _ _ trivial).2
  intro i spans1 r1 _
  obtain ⟨block1, last1, r3, heq1, _⟩ :=
    generateChild_shape g hp (g.generateChildrenFuel tid fuel (level + 1)) tid parent i spans1 r1
  rw [heq1]
  exact ⟨trivial, (List.prefix_append _ _).trans
    (generateChildrenFuel_extends g hp tid fuel (level + 1) _ last1 r3)⟩

/-- C10. For the queue profile with `Depth >= 2`, every trace returned by
`GenerateTrace` contains a `PRODUCER` span and a `CONSUMER` span, and every `PRODUCER`
span (at index `j`) has exactly one link, whose `TraceID` is the trace's id, whose
attribute `link.type` is `follows_from` and whose `SpanID` is the `SpanID` of the span
at index `j + 1`, which is a `CONSUMER` span. -/
theorem C10_queue_producer_links_to_next_consumer (R : RandLib F σ) (M : MathLib F)
    (cfg : Config F) (start : time.Time) (r : σ)
    (hq : cfg.Profile = "queue") (hd : 2 ≤ cfg.Depth) :
    (∃ s ∈ ((New R M cfg).1.GenerateTrace start r).1.Spans, s.Kind = "PRODUCER") ∧
    (∃ s ∈ ((New R M cfg).1.GenerateTrace start r).1.Spans, s.Kind = "CONSUMER") ∧
    ∀ (j : Nat) (hj : j < ((New R M cfg).1.GenerateTrace start r).1.Spans.length),
      (((New R M cfg).1.GenerateTrace start r).1.Spans.get ⟨j, hj⟩).Kind = "PRODUCER" →
      ∃ (hj1 : j + 1 < ((New R M cfg).1.GenerateTrace start r).1.Spans.length) (l : Link F),
        (((New R M cfg).1.GenerateTrace start r).1.Spans.get ⟨j + 1, hj1⟩).Kind = "CONSUMER" ∧
        (((New R M cfg).1.GenerateTrace start r).1.Spans.get ⟨j, hj⟩).Links = [l] ∧
        l.TraceID = ((New R M cfg).1.GenerateTrace start r).1.TraceID ∧
        l.SpanID = (((New R M cfg).1.GenerateTrace start r).1.Spans.get ⟨j + 1, hj1⟩).SpanID ∧
        l.Attributes.get "link.type" = some (.str "follows_from") := by
  obtain ⟨root, retry, r2, hspans, _, _, hrk, _, _, hretry⟩ :=
    GenerateTrace_shape (New R M cfg).1 start r
  have hne : ∀ (s : Span F), (s.Kind = "SERVER" ∨ s.Kind = "INTERNAL") → s.Kind ≠ "PRODUCER" := by
    intro s hs hk
    rw [hk] at hs
    revert hs
    decide
  have hfuel : ∃ fuel, ((New R M cfg).1.cfg.Depth - 1).toNat = fuel + 1 := by
    have : 2 ≤ (New R M cfg).1.cfg.Depth := hd
    exact ⟨((New R M cfg).1.cfg.Depth - 1).toNat - 1, by omega⟩
  obtain ⟨fuel, hfuel⟩ := hfuel
  have hblock : ∃ (block : List (Span F)) (last : Span F),
      BlockSpec (New R M cfg).1 ((New R M cfg).1.GenerateTrace start r).1.TraceID root block last ∧
      ((root :: retry.toList) ++ block) <+: ((New R M cfg).1.GenerateTrace start r).1.Spans := by
    rw [hspans]
    unfold Generator.generateChildren
    rw [hfuel]
    exact generateChildrenFuel_first_block (New R M cfg).1 (New_profile R M cfg) _ fuel 1 _ root r2
      (by have : 2 ≤ (New R M cfg).1.cfg.Depth := hd; omega)
  have hlinked : producersLinked ((New R M cfg).1.GenerateTrace start r).1.TraceID
      ((New R M cfg).1.GenerateTrace start r).1.Spans := by
    have hmem : ∀ s ∈ root :: retry.toList, s.Kind ≠ "PRODUCER" := by
      intro s hs
      rcases List.mem_cons.mp hs with rfl | hs
      · exact hne _ hrk
      · exact hne _ (Or.inr (hretry s (Option.mem_toList.mp hs)).2.2.2.1)
    have h := generateChildrenFuel_forall (New R M cfg).1 (New_profile R M cfg)
      ((New R M cfg).1.GenerateTrace start r).1.TraceID
      (fun spans => producersLinked ((New R M cfg).1.GenerateTrace start r).1.TraceID spans ∧
        ∀ l, spans.getLast? = some l → l.Kind ≠ "PRODUCER")
      ?_ ((New R M cfg).1.cfg.Depth - 1).toNat 1 (root :: retry.toList) root r2 ?_
    · rw [hspans]
      exact h.1
    · rintro spans parent block last ⟨h1, h2⟩ hspec
      obtain ⟨h3, h4⟩ := producersLinked_block _ _ _ _ _ hspec
      refine ⟨producersLinked_append _ _ _ h1 h2 h3, ?_⟩
      intro l hl
      cases block with
      | nil =>
        rcases hspec with ⟨_, _, _, hb, _⟩ | ⟨_, _, _, _, _, hb, _⟩ <;> cases hb
      | cons b bs =>
        rw [List.getLast?_append_of_ne_nil _ (List.cons_ne_nil b bs)] at hl
        exact h4 l hl
    · refine ⟨?_, fun l hl => hmem l (List.mem_of_getLast?_eq_some hl)⟩
      refine ⟨fun hk => absurd hk (hne _ hrk), ?_⟩
      cases retry with
      | none => trivial
      | some rs => exact ⟨fun hk => absurd hk (hmem rs (by simp)), trivial⟩
  obtain ⟨block, last, hspec, hpre⟩ := hblock
  rcases hspec with ⟨hnq, _⟩ | ⟨_, p, c, pr, cr, hb, _, _, _, hpk, hck, _⟩
  · exact absurd hq hnq
  · subst hb
    refine ⟨⟨p, hpre.subset (by simp), hpk⟩, ⟨c, hpre.subset (by simp), hck⟩, ?_⟩
    intro j hj hk
    exact producersLinked_getElem _ _ hlinked j hj hk

/-! ## Evaluations on concrete inputs -/

theorem C3_parent_is_an_earlier_span_witness :
    ∃ (hj : 1 < (firstTrace webRetryConfig).Spans.length),
      ((firstTrace webRetryConfig).Spans.get ⟨1, hj⟩).HasParent = true ∧
      ∃ (i : Nat) (hi : i < (firstTrace webRetryConfig).Spans.length), i < 1 ∧
        ((firstTrace webRetryConfig).Spans.get ⟨i, hi⟩).SpanID =
          ((firstTrace webRetryConfig).Spans.get ⟨1, hj⟩).ParentSpanID :=
  ⟨by decide, C3_parent_is_an_earlier_span halfSource seriesMath webRetryConfig 0
    (New halfSource seriesMath webRetryConfig).2 1 (by decide) (by decide)⟩

theorem C10_queue_producer_links_to_next_consumer_witness :
    queueNanoConfig.Profile = "queue" ∧ 2 ≤ queueNanoConfig.Depth ∧
    (firstTrace queueNanoConfig).Spans.map (fun s => s.Kind) = ["SERVER", "PRODUCER", "CONSUMER"] ∧
    (∃ s ∈ (firstTrace queueNanoConfig).Spans, s.Kind = "PRODUCER") :=
  ⟨by decide, by decide, by decide,
    (C10_queue_producer_links_to_next_consumer halfSource seriesMath queueNanoConfig 0
      (New halfSource seriesMath queueNanoConfig).2 (by decide) (by decide)).1⟩

theorem C4_error_status_iff_error_attribute_witness :
    (firstTrace webRetryConfig).Spans.map (fun s => s.Status.Code) = ["ERROR", "OK", "ERROR", "OK"] ∧
    ∃ (s : Span DecFloat), s ∈ (firstTrace webRetryConfig).Spans ∧ s.Status.Code = "ERROR" ∧
      ((s.Status.Code = "ERROR" ↔ s.Attributes.get "error" = some (.bool true)) ∧
        ((s.Status.Code = "ERROR" ∧ s.Attributes.get "error" = some (.bool true)) ∨
          (s.Status.Code = "OK" ∧ s.Attributes.get "error" = none))) :=
  ⟨by decide, (firstTrace webRetryConfig).Spans.headD {}, by decide, by decide,
    C4_error_status_iff_error_attribute halfSource seriesMath webRetryConfig 0
      (New halfSource seriesMath webRetryConfig).2 ((firstTrace webRetryConfig).Spans.headD {})
      (by decide)⟩

/-! ## C2 and C6: durations below one microsecond; determinism -/

/-- C2, evaluated at two failing inputs. Both configurations are accepted by
`Validate`. For the queue profile the producer and consumer spans receive a third
and a half of the sampled duration (here 1400 ns) and fall below one microsecond;
for the web profile with retries the retry spans last half a raw sample (here
1000 ns), 500 ns. -/
theorem C2_spans_shorter_than_a_microsecond :
    queueNanoConfig.Validate = none ∧
    (firstTrace queueNanoConfig).Spans.map (fun s => (s.Kind, s.Duration))
      = [("SERVER", 1400), ("PRODUCER", 466), ("CONSUMER", 700)] ∧
    webRetryConfig.Validate = none ∧
    (firstTrace webRetryConfig).Spans.map (fun s => (s.Name, s.Duration))
      = [("GET /catalog", 1500), ("retry attempt", 500), ("GET /catalog", 1500),
         ("retry attempt", 500)] ∧
    (∃ s ∈ (firstTrace queueNanoConfig).Spans, s.Duration < time.Microsecond) ∧
    (∃ s ∈ (firstTrace webRetryConfig).Spans, s.Duration < time.Microsecond) := by
  decide

/-- C6. Two generators built by `New` from equal configurations (with the same `math`
and `math/rand` packages) return equal traces for equal sequences of start times:
the two lists of traces are equal, hence trace by trace the same `TraceID` and the
same spans with the same ids, parents, timings, attributes, events and links. -/
theorem C6_same_config_same_traces (R : RandLib F σ) (M : MathLib F) (cfg1 cfg2 : Config F)
    (starts : List time.Time) (h : cfg1 = cfg2) :
    (workerTraces (New R M cfg1).1 starts (New R M cfg1).2).1 =
      (workerTraces (New R M cfg2).1 starts (New R M cfg2).2).1 ∧
    (workerTraces (New R M cfg1).1 starts (New R M cfg1).2).1.map (fun t => t.TraceID) =
      (workerTraces (New R M cfg2).1 starts (New R M cfg2).2).1.map (fun t => t.TraceID) ∧
    (workerTraces (New R M cfg1).1 starts (New R M cfg1).2).1.map (fun t => t.Spans.length) =
      (workerTraces (New R M cfg2).1 starts (New R M cfg2).2).1.map (fun t => t.Spans.length) ∧
    (workerTraces (New R M cfg1).1 starts (New R M cfg1).2).1.map
        (fun t => t.Spans.map (fun s =>
          (s.SpanID, s.HasParent, s.ParentSpanID, s.StartTime, s.Duration, s.Attributes,
            s.Events, s.Links))) =
      (workerTraces (New R M cfg2).1 starts (New R M cfg2).2).1.map
        (fun t => t.Spans.map (fun s =>
          (s.SpanID, s.HasParent, s.ParentSpanID, s.StartTime, s.Duration, s.Attributes,
            s.Events, s.Links))) := by
  subst h
  exact ⟨rfl, rfl, rfl, rfl⟩

theorem C6_same_config_same_traces_witness :
    (workerTraces (New halfSource seriesMath webRetryConfig).1 [0, 5]
        (New halfSource seriesMath webRetryConfig).2).1.map (fun t => t.Spans.length) = [4, 4] ∧
    (workerTraces (New halfSource seriesMath webRetryConfig).1 [0, 5]
        (New halfSource seriesMath webRetryConfig).2).1 =
      (workerTraces (New halfSource seriesMath (withSeed webRetryConfig 1)).1 [0, 5]
        (New halfSource seriesMath (withSeed webRetryConfig 1)).2).1 :=
  ⟨by decide,
    (C6_same_config_same_traces halfSource seriesMath webRetryConfig (withSeed webRetryConfig 1)
      [0, 5] rfl).1⟩

/-- The fuel of `generateChildren` is adequate: once it covers the levels that remain
below the depth limit, more fuel does not change the result. -/
theorem generateChildrenFuel_adequate (g : Generator F σ) (tid : model.TraceID) :
    ∀ (fuel : Nat) (level : Int), (g.cfg.Depth - level).toNat ≤ fuel →
      ∀ (spans : List (Span F)) (parent : Span F) (r : σ),
        g.generateChildrenFuel tid (fuel + 1) level spans parent r =
          g.generateChildrenFuel tid fuel level spans parent r := by
  intro fuel
  induction fuel with
  | zero =>
    intro level h spans parent r
    have hl : level ≥ g.cfg.Depth := by omega
    simp [Generator.generateChildrenFuel, hl]
  | succ fuel ih =>
    intro level h spans parent r
    rw [Generator.generateChildrenFuel]
    conv_rhs => rw [Generator.generateChildrenFuel]
    by_cases hl : level ≥ g.cfg.Depth
    · simp only [hl, if_true]
    · simp only [hl, if_false]
      have hfun : g.generateChildrenFuel tid (fuel + 1) (level + 1) =
          g.generateChildrenFuel tid fuel (level + 1) := by
        funext spans1 parent1 r1
        exact ih (level + 1) (by omega) spans1 parent1 r1
      rw [hfun]

/-! ## C11: the status code of the root span of the web profile -/


/-- The list returned by `generateChildren` keeps the first span it was given. -/
theorem generateChildren_head (g : Generator F σ) (hp : g.profile = moduleFor g.cfg.Profile)
    (tid : model.TraceID) (x : Span F) (xs : List (Span F)) (parent : Span F) (level : Int) (r : σ) :
    ∃ rest, (g.generateChildren tid (x :: xs) parent level r).1 = x :: rest := by
  unfold Generator.generateChildren
  obtain ⟨t, ht⟩ := generateChildrenFuel_extends g hp tid (g.cfg.Depth - level).toNat level
    (x :: xs) parent r
  exact ⟨xs ++ t, by rw [← ht]; rfl⟩

/-- The first span of a trace is the root span built by the profile, after the three
post-processing steps. -/
theorem GenerateTrace_root (g : Generator F σ) (hp : g.profile = moduleFor g.cfg.Profile)
    (start : time.Time) (r : σ) :
    ∃ (routeIdx : Int) (rootID : model.SpanID) (traceID : model.TraceID) (dur : time.Duration)
      (r1 r2 : σ) (rest : List (Span F)),
      (g.GenerateTrace start r).1.Spans =
        (g.maybeErrorAndRetry (g.maybeAddProfileEvent (g.applyCardinalityAttrs
          (g.profile.buildRoot g.topology.Frontdoor routeIdx start rootID traceID dur)) r1).1 r2).1
          :: rest := by
  unfold Generator.GenerateTrace
  simp only [appendRetry_eq, List.cons_append, List.nil_append]
  exact ⟨_, _, _, _, _, _, generateChildren_head g hp _ _ _ _ _ _⟩

/-- A span with an `http.method` attribute leaves `maybeErrorAndRetry` unchanged when
the draw is at least its error probability, and otherwise as an error span with
`http.status_code = 500`. -/
theorem maybeErrorAndRetry_http (g : Generator F σ) (s : Span F) (r : σ)
    (hm : s.Attributes.has "http.method" = true) :
    (g.errorProbability s ≤ (RNG.Float64 g.rand r).1 → (g.maybeErrorAndRetry s r).1 = s) ∧
    (¬ g.errorProbability s ≤ (RNG.Float64 g.rand r).1 →
      (g.maybeErrorAndRetry s r).1.Status.Code = "ERROR" ∧
      (g.maybeErrorAndRetry s r).1.Attributes.get "http.status_code" = some (.int 500)) := by
  have hm2 : (s.Attributes.set "error" (.bool true)).has "http.method" = true := by
    unfold Attrs.has at hm ⊢
    rw [Attrs.get_set_ne _ _ _ _ (by decide)]
    exact hm
  constructor
  · intro h
    unfold Generator.maybeErrorAndRetry
    simp only [ge_iff_le, h, if_true]
  · intro h
    unfold Generator.maybeErrorAndRetry
    simp only [ge_iff_le, h, if_false, hm2, if_true]
    split_ifs <;> simp [Attrs.get_set_self]

/-- The cardinality attributes leave the HTTP attributes of a span alone. -/
theorem applyCardinalityAttrs_http (g : Generator F σ) (s : Span F) :
    (g.applyCardinalityAttrs s).Attributes.get "http.method" = s.Attributes.get "http.method" ∧
    (g.applyCardinalityAttrs s).Attributes.get "http.status_code" =
      s.Attributes.get "http.status_code" := by
  unfold Generator.applyCardinalityAttrs
  split_ifs <;> simp [Attrs.get_set_ne, Attrs.get_ite_set]

/-- C11, as stated, fails: for a valid web configuration with `Errors = 0` (the
scenario configuration, whose percentiles are all one nanosecond) and a random source
whose draws are all 0.01, the root span is an error span and carries
`http.status_code = 500`: its duration reaches P95 and P99, which gives it the error
probability 0.05 although `Errors` is zero. -/
theorem C11_root_status_code_can_be_500 :
    scenarioConfig.Validate = none ∧ scenarioConfig.Profile = "web" ∧
    scenarioConfig.Errors = 0.0 ∧
    (((New lowSource seriesMath scenarioConfig).1.GenerateTrace 0
        (New lowSource seriesMath scenarioConfig).2).1.Spans.head?.map
      (fun s => (s.Status.Code, s.Duration, s.Attributes.get "http.status_code"))) =
      some ("ERROR", 4000, some (.int 500)) := by
  decide

/-- C11, amended. For the web profile the root span (the first span) of every trace
carries the integer attribute `http.status_code`: 200 when its status is `OK`, 500
when its status is `ERROR`, and it is one of the two. It is 200 for every random
source whose draws never fall below the error probability of a span. -/
theorem C11_root_status_code_follows_status (R : RandLib F σ) (M : MathLib F) (cfg : Config F)
    (start : time.Time) (r : σ) (hweb : cfg.Profile = "web") :
    ∃ (root : Span F) (rest : List (Span F)),
      ((New R M cfg).1.GenerateTrace start r).1.Spans = root :: rest ∧
      ((root.Status.Code = "OK" ∧ root.Attributes.get "http.status_code" = some (.int 200)) ∨
        (root.Status.Code = "ERROR" ∧
          root.Attributes.get "http.status_code" = some (.int 500))) ∧
      ((∀ (s : Span F) (r1 : σ), (New R M cfg).1.errorProbability s ≤ (R.Float64 r1).1) →
        root.Status.Code = "OK" ∧ root.Attributes.get "http.status_code" = some (.int 200)) := by
  obtain ⟨routeIdx, rootID, traceID, dur, r1, r2, rest, h⟩ :=
    GenerateTrace_root (New R M cfg).1 (New_profile R M cfg) start r
  refine ⟨_, rest, h, ?_⟩
  have hprof : (New R M cfg).1.profile = profileModule.webProfile := by
    rw [New_profile, New_cfg, hweb]
    decide
  rw [hprof]
  generalize hroot0 : (profileModule.webProfile.buildRoot (F := F) (New R M cfg).1.topology.Frontdoor
    routeIdx start rootID traceID dur) = root0
  have b1 : root0.Status.Code = "OK" := by
    rw [← hroot0]; simp [profileModule.buildRoot]
  have b2 : root0.Attributes.has "http.method" = true := by
    rw [← hroot0]; simp [profileModule.buildRoot, Attrs.get, Attrs.has]
  have b3 : root0.Attributes.get "http.status_code" = some (.int 200) := by
    rw [← hroot0]; simp [profileModule.buildRoot, Attrs.get]
  obtain ⟨_, _, _, _, _, _, _, a8, _⟩ := applyCardinalityAttrs_frame (New R M cfg).1 root0
  obtain ⟨a1, a2⟩ := applyCardinalityAttrs_http (New R M cfg).1 root0
  obtain ⟨_, _, _, _, _, _, _, e8, e9⟩ :=
    maybeAddProfileEvent_frame (New R M cfg).1 ((New R M cfg).1.applyCardinalityAttrs root0) r1
  generalize hpre : ((New R M cfg).1.maybeAddProfileEvent
    ((New R M cfg).1.applyCardinalityAttrs root0) r1).1 = pre at e8 e9 ⊢
  have p1 : pre.Status.Code = "OK" := by rw [e8, a8]; exact b1
  have p2 : pre.Attributes.has "http.method" = true := by
    unfold Attrs.has at b2 ⊢; rw [e9, a1]; exact b2
  have p3 : pre.Attributes.get "http.status_code" = some (.int 200) := by rw [e9, a2]; exact b3
  obtain ⟨k1, k2⟩ := maybeErrorAndRetry_http (New R M cfg).1 pre r2 p2
  constructor
  · by_cases hd : (New R M cfg).1.errorProbability pre ≤ (RNG.Float64 (New R M cfg).1.rand r2).1
    · rw [k1 hd]; exact Or.inl ⟨p1, p3⟩
    · exact Or.inr (k2 hd)
  · intro hall
    rw [k1 (hall pre r2)]
    exact ⟨p1, p3⟩

/-- For the scenario configuration no span has an error probability above 0.5. -/
theorem errorProbability_steady (s : Span DecFloat) (r1 : Nat) :
    (New steadySource seriesMath scenarioConfig).1.errorProbability s ≤
      (steadySource.Float64 r1).1 := by
  have hd : (steadySource.Float64 r1).1 = ({ num := 500, den := 1000 } : DecFloat) := rfl
  rw [hd]
  unfold Generator.errorProbability
  have hv : (New steadySource seriesMath scenarioConfig).1.variety = "medium" := by decide
  simp only [hv]
  by_cases h1 : s.Duration ≥ (New steadySource seriesMath scenarioConfig).1.cfg.P95 <;>
    by_cases h2 : s.Duration ≥ (New steadySource seriesMath scenarioConfig).1.cfg.P99 <;>
    simp only [h1, h2, if_true, if_false] <;> decide

theorem C11_root_status_code_follows_status_witness :
    scenarioConfig.Profile = "web" ∧
    ∃ (root : Span DecFloat) (rest : List (Span DecFloat)),
      ((New steadySource seriesMath scenarioConfig).1.GenerateTrace 0
        (New steadySource seriesMath scenarioConfig).2).1.Spans = root :: rest ∧
      root.Status.Code = "OK" ∧ root.Attributes.get "http.status_code" = some (.int 200) :=
  ⟨by decide,
    (C11_root_status_code_follows_status steadySource seriesMath scenarioConfig 0
      (New steadySource seriesMath scenarioConfig).2 (by decide)).elim
      (fun root h => h.elim (fun rest h2 => ⟨root, rest, h2.1, h2.2.2 errorProbability_steady⟩))⟩

/-! ## Every span of a trace is a built span or a retry span -/

theorem Emitted_retry_list (g : Generator F σ) (tid : model.TraceID) (s0 : Span F) (r1 r2 : σ)
    (hb : Built g tid s0) :
    ∀ s ∈ ((g.maybeErrorAndRetry (g.maybeAddProfileEvent (g.applyCardinalityAttrs s0) r1).1
      r2).2.1.map g.applyCardinalityAttrs).toList, Emitted g tid s := by
  intro s hs
  obtain ⟨rs, hrs, rfl⟩ := Option.mem_map.mp (Option.mem_toList.mp hs)
  exact Emitted.retry s0 r1 r2 rs hb hrs

/-- One iteration of the loop of `generateChildren` appends emitted spans. -/
theorem generateChild_emitted (g : Generator F σ)
    (recurse : List (Span F) → Span F → σ → List (Span F) × σ)
    (tid : model.TraceID) (parent : Span F) (i : Int) (spans : List (Span F)) (r : σ) :
    ∃ (block : List (Span F)) (last : Span F) (r2 : σ),
      g.generateChild recurse tid parent i spans r = recurse (spans ++ block) last r2 ∧
      ∀ s ∈ block, Emitted g tid s := by
  unfold Generator.generateChild
  by_cases hq : g.cfg.Profile = "queue"
  · simp only [hq, if_true, appendRetry_eq, List.append_assoc, List.cons_append,
      List.nil_append]
    refine ⟨_, _, _, rfl, ?_⟩
    intro s hs
    rcases List.mem_cons.mp hs with rfl | hs
    · exact Emitted.span _ _ _ (Built.producer hq _ _ _ _ _ _ _)
    · rcases List.mem_cons.mp hs with rfl | hs
      · exact Emitted.span _ _ _ (Built.consumer hq _ _ _ _ _ _ _)
      · rcases List.mem_append.mp hs with hs | hs
        · exact Emitted_retry_list g tid _ _ _ (Built.producer hq _ _ _ _ _ _ _) s hs
        · exact Emitted_retry_list g tid _ _ _ (Built.consumer hq _ _ _ _ _ _ _) s hs
  · simp only [hq, if_false, appendRetry_eq, List.append_assoc, List.cons_append,
      List.nil_append]
    refine ⟨_, _, _, rfl, ?_⟩
    intro s hs
    rcases List.mem_cons.mp hs with rfl | hs
    · exact Emitted.span _ _ _ (Built.child _ _ _ _ _ _ _ _)
    · exact Emitted_retry_list g tid _ _ _ (Built.child _ _ _ _ _ _ _ _) s hs

theorem childLoop_emitted (g : Generator F σ) (tid : model.TraceID)
    (recurse : List (Span F) → Span F → σ → List (Span F) × σ) (parent : Span F)
    (hrec : ∀ spans last r, (∀ s ∈ spans, Emitted g tid s) →
      ∀ s ∈ (recurse spans last r).1, Emitted g tid s) :
    ∀ (n : Nat) (i : Int) (spans : List (Span F)) (r : σ), (∀ s ∈ spans, Emitted g tid s) →
      ∀ s ∈ (g.childLoop recurse tid parent n i spans r).1, Emitted g tid s := by
  intro n
  induction n with
  | zero => intro i spans r h; exact h
  | succ n ih =>
    intro i spans r h
    unfold Generator.childLoop
    simp only
    apply ih
    obtain ⟨block, last, r2, heq, hb⟩ := generateChild_emitted g recurse tid parent i spans r
    rw [heq]
    apply hrec
    intro s hs
    rcases List.mem_append.mp hs with hs | hs
    · exact h s hs
    · exact hb s hs

theorem generateChildrenFuel_emitted (g : Generator F σ) (tid : model.TraceID) :
    ∀ (fuel : Nat) (level : Int) (spans : List (Span F)) (parent : Span F) (r : σ),
      (∀ s ∈ spans, Emitted g tid s) →
      ∀ s ∈ (g.generateChildrenFuel tid fuel level spans parent r).1, Emitted g tid s := by
  intro fuel
  induction fuel with
  | zero => intro level spans parent r h; exact h
  | succ fuel ih =>
    intro level spans parent r h
    unfold Generator.generateChildrenFuel
    split_ifs with hl
    · exact h
    · exact childLoop_emitted g tid _ parent (fun spans1 last r1 h1 => ih (level + 1) spans1 last r1 h1)
        _ _ _ _ h

/-- Every span of a trace is emitted for the id of the trace. -/
theorem GenerateTrace_emitted (g : Generator F σ) (start : time.Time) (r : σ) :
    ∀ s ∈ (g.GenerateTrace start r).1.Spans, Emitted g (g.GenerateTrace start r).1.TraceID s := by
  unfold Generator.GenerateTrace
  simp only [appendRetry_eq, List.cons_append, List.nil_append]
  unfold Generator.generateChildren
  apply generateChildrenFuel_emitted
  intro s hs
  rcases List.mem_cons.mp hs with rfl | hs
  · exact Emitted.span _ _ _ (Built.root _ _ _ _)
  · exact Emitted_retry_list g _ _ _ _ (Built.root _ _ _ _) s hs
/-! ## C25, C23 and C24: the trace id, the cardinality attributes, the root span -/

theorem addStoreAttrs_get_other (attrs : Attrs F) (dbHeavy cacheHit : Bool) (k : String)
    (h1 : k ≠ "db.system") (h2 : k ≠ "db.operation") (h3 : k ≠ "cache.hit") :
    (addStoreAttrs attrs dbHeavy cacheHit).get k = attrs.get k := by
  unfold addStoreAttrs
  cases dbHeavy <;> simp [Attrs.get_set_ne, Ne.symm h1, Ne.symm h2, Ne.symm h3]

/-- What every span built by the profile module of a generator made by `New`
satisfies: it belongs to the trace, its links point into the trace, it is not yet
marked as an error and it has none of the cardinality attributes `span.id`,
`trace.id`, `http.request_id`, `messaging.message_id`. -/
theorem Built_facts (g : Generator F σ) (hp : g.profile = moduleFor g.cfg.Profile)
    (tid : model.TraceID) (s0 : Span F) (hb : Built g tid s0) :
    s0.TraceID = tid ∧ (∀ l ∈ s0.Links, l.TraceID = tid) ∧
    s0.Attributes.get "span.id" = none ∧ s0.Attributes.get "trace.id" = none ∧
    s0.Attributes.get "http.request_id" = none ∧
    s0.Attributes.get "messaging.message_id" = none := by
  cases hb with
  | root routeIdx start spanID dur =>
    cases g.profile <;> simp [profileModule.buildRoot, Attrs.get]
  | child parent service routeIdx start spanID dur dbHeavy cacheHit =>
    cases g.profile <;>
      simp [profileModule.buildChild, Attrs.get, addStoreAttrs_get_other]
  | producer hq parent service routeIdx start producerID consumerID dur =>
    have hprof : g.profile = profileModule.queueProfile := by rw [hp, hq]; exact moduleFor_queue
    rw [hprof]
    simp [profileModule.buildQueuePair, Attrs.get]
  | consumer hq parent service routeIdx start producerID consumerID dur =>
    have hprof : g.profile = profileModule.queueProfile := by rw [hp, hq]; exact moduleFor_queue
    rw [hprof]
    simp [profileModule.buildQueuePair, Attrs.get]

/-- The attributes other than `error` and `http.status_code` are left alone by the
error injection. -/
theorem maybeErrorAndRetry_get (g : Generator F σ) (s : Span F) (r : σ) (k : String)
    (h1 : k ≠ "error") (h2 : k ≠ "http.status_code") :
    (g.maybeErrorAndRetry s r).1.Attributes.get k = s.Attributes.get k := by
  unfold Generator.maybeErrorAndRetry
  repeat' split
  all_goals
    (simp; try (split_ifs <;> simp [Attrs.get_set_ne, Ne.symm h1, Ne.symm h2]))

/-- The attributes of a retry span before `applyCardinalityAttrs`. -/
theorem maybeErrorAndRetry_retry_get (g : Generator F σ) (s : Span F) (r : σ) (rs : Span F)
    (h : (g.maybeErrorAndRetry s r).2.1 = some rs) (k : String)
    (h1 : k ≠ "service.name") (h2 : k ≠ "retry.attempt") (h3 : k ≠ "http.status_code") :
    rs.Attributes.get k = none := by
  unfold Generator.maybeErrorAndRetry at h
  repeat' split at h
  all_goals simp at h
  all_goals subst h
  all_goals (split_ifs <;> simp [Attrs.get, Attrs.set, Ne.symm h1, Ne.symm h2, Ne.symm h3])

/-- C25. Every span of a trace returned by `GenerateTrace`, and every link it carries,
has the `TraceID` of the trace. -/
theorem C25_spans_and_links_share_trace_id (R : RandLib F σ) (M : MathLib F) (cfg : Config F)
    (start : time.Time) (r : σ) :
    ∀ s ∈ ((New R M cfg).1.GenerateTrace start r).1.Spans,
      s.TraceID = ((New R M cfg).1.GenerateTrace start r).1.TraceID ∧
      ∀ l ∈ s.Links, l.TraceID = ((New R M cfg).1.GenerateTrace start r).1.TraceID := by
  intro s hs
  have he := GenerateTrace_emitted (New R M cfg).1 start r s hs
  generalize ((New R M cfg).1.GenerateTrace start r).1.TraceID = tid at he ⊢
  cases he with
  | span s0 r1 r2 hb =>
    obtain ⟨b1, b2, _⟩ := Built_facts _ (New_profile R M cfg) tid s0 hb
    obtain ⟨a1, _, _, _, _, _, a7, _⟩ := applyCardinalityAttrs_frame (New R M cfg).1 s0
    obtain ⟨e1, _, _, _, _, _, e7, _⟩ :=
      maybeAddProfileEvent_frame (New R M cfg).1 ((New R M cfg).1.applyCardinalityAttrs s0) r1
    obtain ⟨c1, _, _, _, _, c6⟩ := maybeErrorAndRetry_frame (New R M cfg).1
      ((New R M cfg).1.maybeAddProfileEvent ((New R M cfg).1.applyCardinalityAttrs s0) r1).1 r2
    refine ⟨by rw [c1, e1, a1, b1], ?_⟩
    rw [c6, e7, a7]
    exact b2
  | retry s0 r1 r2 rs hb hrs =>
    obtain ⟨b1, _⟩ := Built_facts _ (New_profile R M cfg) tid s0 hb
    obtain ⟨a1, _, _, _, _, _, a7, _⟩ := applyCardinalityAttrs_frame (New R M cfg).1 s0
    obtain ⟨e1, _⟩ :=
      maybeAddProfileEvent_frame (New R M cfg).1 ((New R M cfg).1.applyCardinalityAttrs s0) r1
    obtain ⟨h1, _, _, _, h5, _⟩ := maybeErrorAndRetry_retry (New R M cfg).1 _ r2 rs hrs
    obtain ⟨q1, _, _, _, _, _, q7, _⟩ := applyCardinalityAttrs_frame (New R M cfg).1 rs
    refine ⟨by rw [q1, h1, e1, a1, b1], ?_⟩
    rw [q7, h5]
    intro l hl
    exact absurd hl (List.not_mem_nil _)

/-- The property C23 states for a span when `high_cardinality` is enabled. -/
theorem applyCardinalityAttrs_enabled (g : Generator F σ) (hc : g.cfg.HighCardinality = true)
    (s : Span F) :
    (g.applyCardinalityAttrs s).Attributes.get "span.id" = some (.str (hexEncode s.SpanID)) ∧
    (g.applyCardinalityAttrs s).Attributes.get "trace.id" = some (.str (hexEncode s.TraceID)) ∧
    ((g.applyCardinalityAttrs s).Attributes.has "http.method" = true →
      (g.applyCardinalityAttrs s).Attributes.get "http.request_id" =
        some (.str (hexEncode s.TraceID ++ "-" ++ hexEncode s.SpanID))) ∧
    ((g.applyCardinalityAttrs s).Attributes.has "messaging.system" = true →
      (g.applyCardinalityAttrs s).Attributes.get "messaging.message_id" =
        some (.str (hexEncode s.TraceID ++ "-" ++ hexEncode s.SpanID))) ∧
    ((g.applyCardinalityAttrs s).Attributes.has "batch.job" = true →
      (g.applyCardinalityAttrs s).Attributes.get "batch.run_id" =
        some (.str (hexEncode s.TraceID ++ "-" ++ hexEncode s.SpanID))) := by
  unfold Generator.applyCardinalityAttrs
  simp only [hc, not_true_eq_false, if_false, fmtHexID, Attrs.has]
  by_cases h1 : (s.Attributes.get "http.method").isSome = true <;>
    by_cases h2 : (s.Attributes.get "messaging.system").isSome = true <;>
    by_cases h3 : (s.Attributes.get "batch.job").isSome = true <;>
    simp [Attrs.get_set_ne, Attrs.get_set_self, h1, h2, h3]

/-- With `high_cardinality` disabled the attributes are left as they are. -/
theorem applyCardinalityAttrs_disabled (g : Generator F σ) (hc : g.cfg.HighCardinality = false)
    (s : Span F) : g.applyCardinalityAttrs s = s := by
  unfold Generator.applyCardinalityAttrs
  simp [hc]

/-- C23. With `HighCardinality` enabled, every span of every trace returned by
`GenerateTrace`, retry spans included, carries `span.id` and `trace.id`, the
hexadecimal renderings of its `SpanID` and `TraceID`, and carries `http.request_id`,
`messaging.message_id` or `batch.run_id`, equal to `hex(TraceID) + "-" + hex(SpanID)`,
when it has `http.method`, `messaging.system` or `batch.job` respectively. With it
disabled no span has any of `span.id`, `trace.id`, `http.request_id`,
`messaging.message_id`. -/
theorem C23_cardinality_attributes (R : RandLib F σ) (M : MathLib F) (cfg : Config F)
    (start : time.Time) (r : σ) :
    (cfg.HighCardinality = true → ∀ s ∈ ((New R M cfg).1.GenerateTrace start r).1.Spans,
      s.Attributes.get "span.id" = some (.str (hexEncode s.SpanID)) ∧
      s.Attributes.get "trace.id" = some (.str (hexEncode s.TraceID)) ∧
      (s.Attributes.has "http.method" = true → s.Attributes.get "http.request_id" =
        some (.str (hexEncode s.TraceID ++ "-" ++ hexEncode s.SpanID))) ∧
      (s.Attributes.has "messaging.system" = true → s.Attributes.get "messaging.message_id" =
        some (.str (hexEncode s.TraceID ++ "-" ++ hexEncode s.SpanID))) ∧
      (s.Attributes.has "batch.job" = true → s.Attributes.get "batch.run_id" =
        some (.str (hexEncode s.TraceID ++ "-" ++ hexEncode s.SpanID)))) ∧
    (cfg.HighCardinality = false → ∀ s ∈ ((New R M cfg).1.GenerateTrace start r).1.Spans,
      s.Attributes.get "span.id" = none ∧ s.Attributes.get "trace.id" = none ∧
      s.Attributes.get "http.request_id" = none ∧
      s.Attributes.get "messaging.message_id" = none) := by
  constructor
  · intro hc s hs
    have hcg : (New R M cfg).1.cfg.HighCardinality = true := hc
    have he := GenerateTrace_emitted (New R M cfg).1 start r s hs
    generalize ((New R M cfg).1.GenerateTrace start r).1.TraceID = tid at he
    cases he with
    | span s0 r1 r2 hb =>
      obtain ⟨k1, k2, k3, k4, k5⟩ := applyCardinalityAttrs_enabled (New R M cfg).1 hcg s0
      obtain ⟨a1, a2, _⟩ := applyCardinalityAttrs_frame (New R M cfg).1 s0
      obtain ⟨e1, e2, _, _, _, _, _, _, e9⟩ :=
        maybeAddProfileEvent_frame (New R M cfg).1 ((New R M cfg).1.applyCardinalityAttrs s0) r1
      obtain ⟨c1, c2, _⟩ := maybeErrorAndRetry_frame (New R M cfg).1
        ((New R M cfg).1.maybeAddProfileEvent ((New R M cfg).1.applyCardinalityAttrs s0) r1).1 r2
      have hget : ∀ k : String, k ≠ "error" → k ≠ "http.status_code" →
          ((New R M cfg).1.maybeErrorAndRetry ((New R M cfg).1.maybeAddProfileEvent
            ((New R M cfg).1.applyCardinalityAttrs s0) r1).1 r2).1.Attributes.get k =
          ((New R M cfg).1.applyCardinalityAttrs s0).Attributes.get k := by
        intro k hk1 hk2
        rw [maybeErrorAndRetry_get _ _ _ k hk1 hk2, e9]
      rw [c1, c2, e1, e2, a1, a2]
      unfold Attrs.has at k3 k4 k5 ⊢
      rw [hget _ (by decide) (by decide), hget _ (by decide) (by decide),
        hget _ (by decide) (by decide), hget _ (by decide) (by decide),
        hget _ (by decide) (by decide), hget _ (by decide) (by decide),
        hget _ (by decide) (by decide), hget _ (by decide) (by decide)]
      exact ⟨k1, k2, k3, k4, k5⟩
    | retry s0 r1 r2 rs hb hrs =>
      obtain ⟨k1, k2, k3, k4, k5⟩ := applyCardinalityAttrs_enabled (New R M cfg).1 hcg rs
      obtain ⟨a1, a2, _⟩ := applyCardinalityAttrs_frame (New R M cfg).1 rs
      rw [a1, a2]
      exact ⟨k1, k2, k3, k4, k5⟩
  · intro hc s hs
    have hcg : (New R M cfg).1.cfg.HighCardinality = false := hc
    have he := GenerateTrace_emitted (New R M cfg).1 start r s hs
    generalize ((New R M cfg).1.GenerateTrace start r).1.TraceID = tid at he
    cases he with
    | span s0 r1 r2 hb =>
      obtain ⟨_, _, b3, b4, b5, b6⟩ := Built_facts _ (New_profile R M cfg) tid s0 hb
      obtain ⟨_, _, _, _, _, _, _, _, e9⟩ :=
        maybeAddProfileEvent_frame (New R M cfg).1 ((New R M cfg).1.applyCardinalityAttrs s0) r1
      rw [maybeErrorAndRetry_get _ _ _ _ (by decide) (by decide),
        maybeErrorAndRetry_get _ _ _ _ (by decide) (by decide),
        maybeErrorAndRetry_get _ _ _ _ (by decide) (by decide),
        maybeErrorAndRetry_get _ _ _ _ (by decide) (by decide), e9,
        applyCardinalityAttrs_disabled _ hcg]
      exact ⟨b3, b4, b5, b6⟩
    | retry s0 r1 r2 rs hb hrs =>
      rw [applyCardinalityAttrs_disabled _ hcg]
      exact ⟨maybeErrorAndRetry_retry_get _ _ _ rs hrs _ (by decide) (by decide) (by decide),
        maybeErrorAndRetry_retry_get _ _ _ rs hrs _ (by decide) (by decide) (by decide),
        maybeErrorAndRetry_retry_get _ _ _ rs hrs _ (by decide) (by decide) (by decide),
        maybeErrorAndRetry_retry_get _ _ _ rs hrs _ (by decide) (by decide) (by decide)⟩

theorem C23_cardinality_attributes_witness :
    highCardinalityConfig.HighCardinality = true ∧
    ((firstTrace highCardinalityConfig).Spans.map (fun s =>
      (s.Name, s.Attributes.get "span.id", s.Attributes.get "http.request_id"))).take 2 =
      [("GET /catalog", some (.str "f4f4f4f4f4f4f4f4"),
          some (.str "f4f4f4f4f4f4f4f4f4f4f4f4f4f4f4f4-f4f4f4f4f4f4f4f4")),
        ("retry attempt", some (.str "f4f4f4f4f4f4f4f4"), none)] ∧
    ∀ s ∈ (firstTrace highCardinalityConfig).Spans,
      s.Attributes.get "span.id" = some (.str (hexEncode s.SpanID)) :=
  ⟨by decide, by decide,
    fun s hs => ((C23_cardinality_attributes halfSource seriesMath highCardinalityConfig 0
      (New halfSource seriesMath highCardinalityConfig).2).1 (by decide) s hs).1⟩

/-- The three post-processing steps leave the kind, the `service.name` attribute and
the resource of a span as they are. -/
theorem finish_kind_service (g : Generator F σ) (s0 : Span F) (r1 r2 : σ) :
    (g.maybeErrorAndRetry (g.maybeAddProfileEvent (g.applyCardinalityAttrs s0) r1).1 r2).1.Kind
      = s0.Kind ∧
    (g.maybeErrorAndRetry (g.maybeAddProfileEvent (g.applyCardinalityAttrs s0) r1).1
      r2).1.Attributes.get "service.name" = s0.Attributes.get "service.name" ∧
    (g.maybeErrorAndRetry (g.maybeAddProfileEvent (g.applyCardinalityAttrs s0) r1).1 r2).1.Resource
      = s0.Resource := by
  obtain ⟨_, _, _, _, a5, _⟩ := applyCardinalityAttrs_frame g s0
  obtain ⟨_, _, _, _, e5, _, _, _, e9⟩ :=
    maybeAddProfileEvent_frame g (g.applyCardinalityAttrs s0) r1
  obtain ⟨_, _, _, _, c5, _⟩ :=
    maybeErrorAndRetry_frame g (g.maybeAddProfileEvent (g.applyCardinalityAttrs s0) r1).1 r2
  have hres1 : ∀ (s : Span F) (r : σ), (g.maybeErrorAndRetry s r).1.Resource = s.Resource := by
    intro s r
    unfold Generator.maybeErrorAndRetry
    repeat' split
    all_goals (simp; try (split_ifs <;> simp))
  have hres2 : ∀ (s : Span F) (r : σ), (g.maybeAddProfileEvent s r).1.Resource = s.Resource := by
    intro s r
    unfold Generator.maybeAddProfileEvent
    repeat' split
    all_goals simp
  have hattr : ∀ s : Span F, (g.applyCardinalityAttrs s).Attributes.get "service.name" =
      s.Attributes.get "service.name" ∧ (g.applyCardinalityAttrs s).Resource = s.Resource := by
    intro s
    unfold Generator.applyCardinalityAttrs
    split_ifs <;> simp [Attrs.get_set_ne, Attrs.get_ite_set]
  refine ⟨by rw [c5, e5, a5], ?_, ?_⟩
  · rw [maybeErrorAndRetry_get _ _ _ _ (by decide) (by decide), e9, (hattr s0).1]
  · rw [hres1, hres2, (hattr s0).2]

/-- C24. The root span of a generated trace has kind `SERVER` for the profiles web,
grpc and queue and `INTERNAL` for batch; its attribute `service.name` and the
`service.name` of its resource are the frontdoor name `api-gateway`; and
`maybeErrorAndRetry` never changes the kind, the `service.name` attribute or the
resource of the span it is applied to. -/
theorem C24_root_kind_and_service (R : RandLib F σ) (M : MathLib F) (cfg : Config F)
    (start : time.Time) (r : σ) :
    (∃ (root : Span F) (rest : List (Span F)),
      ((New R M cfg).1.GenerateTrace start r).1.Spans = root :: rest ∧
      (cfg.Profile = "web" ∨ cfg.Profile = "grpc" ∨ cfg.Profile = "queue" →
        root.Kind = "SERVER") ∧
      (cfg.Profile = "batch" → root.Kind = "INTERNAL") ∧
      root.Attributes.get "service.name" = some (.str "api-gateway") ∧
      root.Resource.Attributes.get "service.name" = some (.str "api-gateway")) ∧
    (New R M cfg).1.topology.Frontdoor = "api-gateway" ∧
    (∀ (s : Span F) (r1 : σ),
      ((New R M cfg).1.maybeErrorAndRetry s r1).1.Kind = s.Kind ∧
      ((New R M cfg).1.maybeErrorAndRetry s r1).1.Attributes.get "service.name" =
        s.Attributes.get "service.name" ∧
      ((New R M cfg).1.maybeErrorAndRetry s r1).1.Resource = s.Resource) := by
  have hfront : (New R M cfg).1.topology.Frontdoor = "api-gateway" := rfl
  refine ⟨?_, hfront, ?_⟩
  · obtain ⟨routeIdx, rootID, traceID, dur, r1, r2, rest, h⟩ :=
      GenerateTrace_root (New R M cfg).1 (New_profile R M cfg) start r
    refine ⟨_, rest, h, ?_⟩
    obtain ⟨f1, f2, f3⟩ := finish_kind_service (New R M cfg).1
      ((New R M cfg).1.profile.buildRoot (New R M cfg).1.topology.Frontdoor routeIdx start rootID
        traceID dur) r1 r2
    rw [f1, f2, f3, hfront, New_profile, New_cfg]
    refine ⟨?_, ?_, ?_, ?_⟩
    · rintro (hw | hw | hw) <;> rw [hw] <;> rfl
    · intro hw
      rw [hw]
      rfl
    · cases moduleFor cfg.Profile <;> simp [profileModule.buildRoot, Attrs.get]
    · cases moduleFor cfg.Profile <;> simp [profileModule.buildRoot, Attrs.get]
  · intro s r1
    obtain ⟨_, _, _, _, c5, _⟩ := maybeErrorAndRetry_frame (New R M cfg).1 s r1
    refine ⟨c5, maybeErrorAndRetry_get _ _ _ _ (by decide) (by decide), ?_⟩
    unfold Generator.maybeErrorAndRetry
    repeat' split
    all_goals (simp; try (split_ifs <;> simp))

/-! ## C22 and C27: the topology and the tables of the profiles -/

/-- The loop of `itoa` writes the decimal digits of a natural number, most significant
first, in front of what the buffer already holds, when the buffer has room for them. -/
theorem itoaDigits_digits :
    ∀ (fuel : Nat) (v : Nat) (acc : List Char), (Nat.digits 10 v).length ≤ fuel →
      itoaDigits fuel (Int.ofNat v) acc =
        (Nat.digits 10 v).reverse.map (fun d => Char.ofNat (48 + d)) ++ acc := by
  intro fuel
  induction fuel with
  | zero =>
    intro v acc h
    have hv : Nat.digits 10 v = [] := List.length_eq_zero.mp (Nat.le_zero.mp h)
    simp [itoaDigits, hv]
  | succ fuel ih =>
    intro v acc h
    unfold itoaDigits
    by_cases hv : v = 0
    · subst hv
      simp
    · have hpos : 0 < v := Nat.pos_of_ne_zero hv
      have hd : Nat.digits 10 v = v % 10 :: Nat.digits 10 (v / 10) :=
        Nat.digits_def' (by decide) hpos
      have hgt : Int.ofNat v > 0 := by simpa using hpos
      rw [if_pos hgt]
      have h1 : Int.tdiv (Int.ofNat v) 10 = Int.ofNat (v / 10) := by
        rw [Int.tdiv_eq_ediv (by simp) (by decide)]
        rfl
      have h2 : (Int.tmod (Int.ofNat v) 10).toNat = v % 10 := by
        rw [Int.tmod_eq_emod (by simp) (by decide)]
        rfl
      rw [h1, h2, ih (v / 10) _ (by rw [hd] at h; simpa using h), hd]
      simp

/-- The function `itoa` on a natural number below `10^20`: its decimal digits. -/
theorem itoa_digits (v : Nat) (hv : 0 < v) (hmax : v < 10 ^ 20) :
    itoa (Int.ofNat v) = String.mk ((Nat.digits 10 v).reverse.map (fun d => Char.ofNat (48 + d))) := by
  unfold itoa
  have hne : Int.ofNat v ≠ 0 := by
    intro h
    have : v = 0 := Int.ofNat.inj h
    omega
  have hlen : (Nat.digits 10 v).length ≤ 20 := by
    rw [Nat.digits_len 10 v (by decide) (by omega)]
    have := Nat.log_lt_of_lt_pow (by omega) hmax
    omega
  rw [if_neg hne, itoaDigits_digits 20 v [] hlen]
  simp

/-- The names computed by `BuildTopology(prefix, n)` for `n >= 1` once `make` has returned:
exactly `n` service names; the first, also returned as `Frontdoor`, is `api-gateway`;
the one at index `i`, for `1 <= i <= n-1`, is the prefix followed by the decimal digits
of `i`, most significant first, without a leading zero. -/
theorem BuildTopology_names (pfx : String) (n : Int) (h1 : 1 ≤ n)
    (hint : n ≤ 9223372036854775807) :
    Int.ofNat (BuildTopology pfx n).Services.length = n ∧
    (BuildTopology pfx n).Services.head? = some "api-gateway" ∧
    (BuildTopology pfx n).Frontdoor = "api-gateway" ∧
    ∀ i : Nat, 1 ≤ i → Int.ofNat i ≤ n - 1 →
      (BuildTopology pfx n).Services[i]? =
        some (pfx ++ String.mk ((Nat.digits 10 i).reverse.map (fun d => Char.ofNat (48 + d)))) ∧
      (∀ d ∈ Nat.digits 10 i, d < 10) ∧
      (Nat.digits 10 i).reverse.head? ≠ some 0 ∧
      Nat.ofDigits 10 (Nat.digits 10 i) = i := by
  unfold BuildTopology
  simp only [List.length_cons, List.length_map, List.length_range, List.head?_cons,
    List.headD_cons]
  simp only [Int.ofNat_eq_coe]
  refine ⟨by omega, trivial, trivial, ?_⟩
  intro i hi1 hi2
  obtain ⟨j, rfl⟩ : ∃ j, i = j + 1 := ⟨i - 1, by omega⟩
  have hj : j < n.toNat - 1 := by omega
  refine ⟨?_, fun d hd => Nat.digits_lt_base (by decide) hd, ?_, Nat.ofDigits_digits 10 _⟩
  · rw [List.getElem?_cons_succ, List.getElem?_map, List.getElem?_range hj]
    simp only [Option.map_some']
    have hcast : ((j : Int) + 1) = Int.ofNat (j + 1) := rfl
    rw [hcast, itoa_digits (j + 1) (by omega)]
    have : (j + 1 : Int) ≤ 9223372036854775807 := by omega
    have h3 : j + 1 < 10 ^ 19 := by
      have : (j + 1 : Int) < 10 ^ 19 := by omega
      exact_mod_cast this
    exact lt_trans h3 (by norm_num)
  · rw [List.head?_reverse]
    intro h0
    have hne : Nat.digits 10 (j + 1) ≠ [] := by
      rw [Ne, Nat.digits_eq_nil_iff_eq_zero]
      omega
    have hlast := Nat.getLast_digit_ne_zero 10 (m := j + 1) (by omega)
    rw [List.getLast?_eq_getLast _ hne] at h0
    exact hlast (Option.some.inj h0)

/-- The index `idx % len(table)` of a non-negative `idx`. -/
theorem tableIndex (idx : Int) (h : 0 ≤ idx) (n : Nat) (hn : 0 < n) :
    (Int.tmod idx (Int.ofNat n)).toNat = (idx % (Int.ofNat n)).toNat ∧
    (idx % (Int.ofNat n)).toNat < n := by
  rw [Int.tmod_eq_emod h (by simp)]
  refine ⟨rfl, ?_⟩
  have h1 : idx % (Int.ofNat n) < Int.ofNat n := Int.emod_lt_of_pos _ (by simpa using hn)
  have h2 : 0 ≤ idx % (Int.ofNat n) := Int.emod_nonneg _ (by simp; omega)
  simp only [Int.ofNat_eq_coe] at h1 h2 ⊢
  omega

/-- C27. For every index `idx >= 0`, `webOperation`, `grpcMethod`, `queueTopic` and
`batchJob` return the entry `idx mod len(table)` of the table of the specification:
the 8 web routes, the 8 gRPC methods, the 6 queue topics and the 6 batch jobs, in
that order. -/
theorem C27_profile_tables (idx : Int) (h : 0 ≤ idx) :
    some (webOperation idx) =
      [("GET", "/catalog"), ("GET", "/cart"), ("POST", "/checkout"), ("POST", "/payments"),
        ("GET", "/orders/:id"), ("GET", "/inventory"), ("POST", "/login"),
        ("GET", "/search")][(idx % 8).toNat]? ∧
    some (grpcMethod idx) =
      ["GetCatalog", "GetCart", "PlaceOrder", "AuthorizePayment", "ReserveInventory",
        "ShipOrder", "ListOrders", "TrackOrder"][(idx % 8).toNat]? ∧
    some (queueTopic idx) =
      ["orders", "payments", "shipments", "returns", "invoices",
        "notifications"][(idx % 6).toNat]? ∧
    some (batchJob idx) =
      ["reindex-catalog", "daily-billing-rollup", "inventory-reconcile", "order-archive",
        "sla-report", "fraud-retrain"][(idx % 6).toNat]? := by
  obtain ⟨a1, a2⟩ := tableIndex idx h 8 (by decide)
  obtain ⟨b1, b2⟩ := tableIndex idx h 6 (by decide)
  simp only [Int.ofNat_eq_coe, Nat.cast_ofNat] at a1 a2 b1 b2
  unfold webOperation grpcMethod queueTopic batchJob tableAt
  simp only [List.length_cons, List.length_nil, Int.ofNat_eq_coe, Nat.cast_ofNat, zero_add,
    Nat.reduceAdd, a1, b1]
  generalize (idx % 8).toNat = i at a2
  generalize (idx % 6).toNat = j at b2
  refine ⟨?_, ?_, ?_, ?_⟩
  · interval_cases i <;> rfl
  · interval_cases i <;> rfl
  · interval_cases j <;> rfl
  · interval_cases j <;> rfl

theorem C27_profile_tables_witness :
    (0 : Int) ≤ 13 ∧ webOperation 13 = ("GET", "/inventory") ∧ queueTopic 13 = "payments" ∧
    some (grpcMethod 13) =
      ["GetCatalog", "GetCart", "PlaceOrder", "AuthorizePayment", "ReserveInventory",
        "ShipOrder", "ListOrders", "TrackOrder"][((13 : Int) % 8).toNat]? :=
  ⟨by decide, by decide, by decide, (C27_profile_tables 13 (by decide)).2.1⟩

/-- Witness for C25: the first span of the first trace of `queueNanoConfig`. -/
theorem C25_spans_and_links_share_trace_id_witness :
    ∃ s ∈ (firstTrace queueNanoConfig).Spans,
      s.TraceID = (firstTrace queueNanoConfig).TraceID ∧
      ∀ l ∈ s.Links, l.TraceID = (firstTrace queueNanoConfig).TraceID :=
  have h : (firstTrace queueNanoConfig).Spans ≠ [] := by decide
  ⟨(firstTrace queueNanoConfig).Spans.head h, List.head_mem h,
    C25_spans_and_links_share_trace_id halfSource seriesMath queueNanoConfig 0
      (New halfSource seriesMath queueNanoConfig).2 _ (List.head_mem h)⟩

end generatorFacts

/-! ## sendWithRetry -/

section pipelineFacts

theorem sendWithRetryLoop_all_fail {E : Type} (R : Nat) (T : time.Duration)
    (send : time.Duration → Nat → Outcome Unit E) (eR : E)
    (hfail : ∀ k, k ≤ R → ∃ e, send T k = .error e) (hR : send T R = .error eR) :
    ∀ (d a : Nat) (lastErr : Option E), a + d = R →
      sendWithRetryLoop (fun _ => false) (Int.ofNat R) T send (d + 1) (Int.ofNat a) lastErr a
        = (.error (.last eR), R + 1) := by
  intro d
  induction d with
  | zero =>
    intro a lastErr ha
    have ha2 : a = R := by omega
    subst ha2
    unfold sendWithRetryLoop
    simp [hR]
  | succ d ih =>
    intro a lastErr ha
    obtain ⟨e, he⟩ := hfail a (by omega)
    unfold sendWithRetryLoop
    have h1 : Int.ofNat a ≤ Int.ofNat R := by
      simp only [Int.ofNat_eq_coe]; omega
    have h2 : ¬ Int.ofNat a = Int.ofNat R := by
      simp only [Int.ofNat_eq_coe]; omega
    simp only [h1, if_true, he, h2, if_false]
    have h3 := ih (a + 1) (some e) (by omega)
    simpa using h3

theorem sendWithRetryLoop_first_success {E : Type} (R : Nat) (T : time.Duration)
    (send : time.Duration → Nat → Outcome Unit E) (m : Nat) (hm : m ≤ R)
    (hfail : ∀ j, j < m → ∃ e, send T j = .error e) (hok : send T m = .ok ()) :
    ∀ (d a : Nat) (lastErr : Option E), a + d = m → ∀ (fuel : Nat), d + 1 ≤ fuel →
      sendWithRetryLoop (fun _ => false) (Int.ofNat R) T send fuel (Int.ofNat a) lastErr a
        = (.ok (), m + 1) := by
  intro d
  induction d with
  | zero =>
    intro a lastErr ha fuel hfuel
    have ha2 : a = m := by omega
    subst ha2
    obtain ⟨f, rfl⟩ : ∃ f, fuel = f + 1 := ⟨fuel - 1, by omega⟩
    unfold sendWithRetryLoop
    have h1 : Int.ofNat a ≤ Int.ofNat R := by
      simp only [Int.ofNat_eq_coe]; omega
    simp only [h1, if_true, hok]
  | succ d ih =>
    intro a lastErr ha fuel hfuel
    obtain ⟨f, rfl⟩ : ∃ f, fuel = f + 1 := ⟨fuel - 1, by omega⟩
    obtain ⟨e, he⟩ := hfail a (by omega)
    unfold sendWithRetryLoop
    have h1 : Int.ofNat a ≤ Int.ofNat R := by
      simp only [Int.ofNat_eq_coe]; omega
    have h2 : ¬ Int.ofNat a = Int.ofNat R := by
      simp only [Int.ofNat_eq_coe]; omega
    simp only [h1, if_true, he, h2, if_false]
    have h3 := ih (a + 1) (some e) (by omega) f (by omega)
    simpa using h3

/-- When every attempt fails and the context is never cancelled, `send` is called
`R + 1` times and the error of the last attempt is returned. -/
theorem sendWithRetry_all_fail {E : Type} (R : Nat) (backoff timeout : time.Duration)
    (send : time.Duration → Nat → Outcome Unit E) (eR : E)
    (hfail : ∀ k, k ≤ R →
      ∃ e, send (if timeout ≤ 0 then 10 * time.Second else timeout) k = .error e)
    (hlast : send (if timeout ≤ 0 then 10 * time.Second else timeout) R = .error eR) :
    sendWithRetry (fun _ => false) (Int.ofNat R) backoff timeout send
      = (.error (.last eR), R + 1) := by
  have hR : ¬ (Int.ofNat R < 0) := by
    simp only [Int.ofNat_eq_coe]; omega
  unfold sendWithRetry
  simp only [hR, if_false]
  have h := sendWithRetryLoop_all_fail R _ send eR hfail hlast R 0 none (by omega)
  simpa using h

/-- C8. For `sendWithRetry` with `retries = R >= 0` and an outer context that is never
cancelled: if every attempt fails, `send` is called exactly `R + 1` times and the
error of the last attempt is returned; if the first success is on attempt
`k <= R + 1` (attempts counted from 1), `send` is called exactly `k` times and `nil`
is returned. -/
theorem C8_sendWithRetry_calls {E : Type} (R : Nat) (backoff timeout : time.Duration)
    (send : time.Duration → Nat → Outcome Unit E) :
    (∀ (eR : E),
      (∀ k, k ≤ R → ∃ e, send (if timeout ≤ 0 then 10 * time.Second else timeout) k = .error e) →
      send (if timeout ≤ 0 then 10 * time.Second else timeout) R = .error eR →
      sendWithRetry (fun _ => false) (Int.ofNat R) backoff timeout send
        = (.error (.last eR), R + 1)) ∧
    (∀ (k : Nat), 1 ≤ k → k ≤ R + 1 →
      (∀ j, j + 1 < k → ∃ e, send (if timeout ≤ 0 then 10 * time.Second else timeout) j = .error e) →
      send (if timeout ≤ 0 then 10 * time.Second else timeout) (k - 1) = .ok () →
      sendWithRetry (fun _ => false) (Int.ofNat R) backoff timeout send = (.ok (), k)) := by
  have hR : ¬ (Int.ofNat R < 0) := by
    simp only [Int.ofNat_eq_coe]; omega
  constructor
  · intro eR hfail hlast
    exact sendWithRetry_all_fail R backoff timeout send eR hfail hlast
  · intro k hk1 hk2 hfail hok
    unfold sendWithRetry
    simp only [hR, if_false]
    have h := sendWithRetryLoop_first_success R _ send (k - 1) (by omega)
      (fun j hj => hfail j (by omega)) hok (k - 1) 0 none (by omega) (R + 1) (by omega)
    have hk : k - 1 + 1 = k := by omega
    rw [hk] at h
    simpa using h

theorem C8_sendWithRetry_calls_witness :
    sendWithRetry (fun _ => false) 2 0 0 (failFirst 5 "503") = (.error (.last "503"), 3) ∧
    sendWithRetry (fun _ => false) 1 0 0 (failFirst 1 "503") = (.ok (), 2) :=
  ⟨(C8_sendWithRetry_calls 2 0 0 (failFirst 5 "503")).1 "503"
     (fun k hk => ⟨"503", by unfold failFirst; rw [if_pos (by omega)]⟩) (by decide),
   (C8_sendWithRetry_calls 1 0 0 (failFirst 1 "503")).2 2 (by decide) (by decide)
     (fun j hj => ⟨"503", by unfold failFirst; rw [if_pos (by omega)]⟩) (by decide)⟩

/-! ## C9: encoding errors are retried like every other error -/

/-- C9, as stated, fails: with `sink_retries = 2` a batch that the encoder rejects (a
negative duration for OTLP, a zero start time for Zipkin) makes `sendWithRetry` call
`send` three times, not once. -/
theorem C9_encoding_error_is_retried :
    otlp.EncodeSpans [negativeDurationSpan] = .error (.negativeDuration "bad") ∧
    (sendWithRetry (fun _ => false) 2 0 0
      (fun _ _ => otlphttp.SendSpans (fun _ => none) [negativeDurationSpan])).2 = 3 ∧
    zipkin.EncodeSpans fractionFormat [zeroStartSpan] = .error (.zeroStartTime zeroSpanID) ∧
    (sendWithRetry (fun _ => false) 2 0 0
      (fun _ _ => zipkinsink.SendSpans fractionFormat (fun _ => none) [zeroStartSpan])).2 = 3 := by
  decide

/-- C9, amended. An encoding error is retried like any other send error: when the
batch cannot be encoded and the outer context is never cancelled, `send` is attempted
`sink_retries + 1` times, whatever the transport would answer, and the encoding error
is returned; the send is attempted exactly once only for `sink_retries = 0`. -/
theorem C9_encoding_error_attempts {F : Type} [GoFloat64 F] (R : Nat)
    (backoff timeout : time.Duration) (spans : List (Span F)) :
    (∀ (e : OTLPEncodeError) (transport : Nat → ExportTraceServiceRequest F → Option String),
      spans ≠ [] → otlp.EncodeSpans spans = .error e →
      sendWithRetry (fun _ => false) (Int.ofNat R) backoff timeout
        (fun _ k => otlphttp.SendSpans (transport k) spans)
        = (.error (.last (.otlpEncode e)), R + 1)) ∧
    (∀ (fmt : FormatLib F) (e : ZipkinEncodeError) (transport : Nat → List ZipkinSpan → Option String),
      spans ≠ [] → zipkin.EncodeSpans fmt spans = .error e →
      sendWithRetry (fun _ => false) (Int.ofNat R) backoff timeout
        (fun _ k => zipkinsink.SendSpans fmt (transport k) spans)
        = (.error (.last (.zipkinEncode e)), R + 1)) := by
  constructor
  · intro e transport hne henc
    have hsend : ∀ k, otlphttp.SendSpans (transport k) spans = .error (.otlpEncode e) := by
      intro k
      unfold otlphttp.SendSpans
      have hlen : ¬ spans.length = 0 := by
        intro h
        exact hne (List.length_eq_zero.mp h)
      simp only [hlen, if_false, henc]
    exact sendWithRetry_all_fail R backoff timeout _ (SinkError.otlpEncode e)
      (fun k _ => ⟨_, hsend k⟩) (hsend R)
  · intro fmt e transport hne henc
    have hsend : ∀ k, zipkinsink.SendSpans fmt (transport k) spans = .error (.zipkinEncode e) := by
      intro k
      unfold zipkinsink.SendSpans
      have hlen : ¬ spans.length = 0 := by
        intro h
        exact hne (List.length_eq_zero.mp h)
      simp only [hlen, if_false, henc]
    exact sendWithRetry_all_fail R backoff timeout _ (SinkError.zipkinEncode e)
      (fun k _ => ⟨_, hsend k⟩) (hsend R)

theorem C9_encoding_error_attempts_witness :
    sendWithRetry (fun _ => false) 4 0 0
      (fun _ k => otlphttp.SendSpans (fun _ => if k = 0 then some "503" else none)
        [negativeDurationSpan])
      = (.error (.last (.otlpEncode (.negativeDuration "bad"))), 5) :=
  (C9_encoding_error_attempts 4 0 0 [negativeDurationSpan]).1 (.negativeDuration "bad")
    (fun k _ => if k = 0 then some "503" else none) (by decide) (by decide)

/-! ## The scheduler of produceTraces -/

variable {F : Type} [GoFloat64 F]

theorem deadlinePassed_frame (p : ProducerParams F) (env : ProducerEnv) (st : ProducerState F) :
    (deadlinePassed p env st).2.sent = st.sent ∧
    (deadlinePassed p env st).2.jobs = st.jobs ∧
    (deadlinePassed p env st).2.tokens = st.tokens ∧
    (deadlinePassed p env st).2.lastRefill = st.lastRefill ∧
    (deadlinePassed p env st).2.sends = st.sends ∧
    (deadlinePassed p env st).2.waits = st.waits := by
  unfold deadlinePassed
  split_ifs <;> simp

theorem deadlinePassed_noLimit (p : ProducerParams F) (env : ProducerEnv) (st : ProducerState F)
    (h : p.hasDurationLimit = false) : deadlinePassed p env st = (false, st) := by
  unfold deadlinePassed
  simp [h]

theorem ProducerInv_deadline (p : ProducerParams F) (env : ProducerEnv) (st : ProducerState F)
    (h : ProducerInv p st) : ProducerInv p (deadlinePassed p env st).2 := by
  obtain ⟨h1, h2, _⟩ := deadlinePassed_frame p env st
  unfold ProducerInv
  rw [h1, h2]
  exact h

theorem ProducerInv_dispatch (p : ProducerParams F) (st : ProducerState F) (t : F) (n : Nat)
    (h : ProducerInv p st) (hlt : ¬ (p.cfg.Count > 0 ∧ st.sent ≥ p.cfg.Count)) :
    ProducerInv p { st with sends := n, jobs := st.jobs ++ [scheduledAt p st.sent],
                            sent := st.sent + 1, tokens := t } := by
  obtain ⟨h1, h2, h3⟩ := h
  refine ⟨by show 0 ≤ st.sent + 1; omega, ?_, ?_⟩
  · show st.jobs ++ [scheduledAt p st.sent] = _
    have hn : (st.sent + 1).toNat = st.sent.toNat + 1 := by omega
    rw [hn, List.range_succ, List.map_append, ← h2]
    have hs : Int.ofNat st.sent.toNat = st.sent := by
      simp only [Int.ofNat_eq_coe]; omega
    simp only [List.map_cons, List.map_nil, hs]
  · intro hc
    show st.sent + 1 ≤ p.cfg.Count
    have := h3 hc
    by_contra hcon
    exact hlt ⟨hc, by omega⟩

/-- The inner loop keeps the bookkeeping invariant, and without cancellation it does
not end by `ctx.Done()`. -/
theorem producerInner_inv (p : ProducerParams F) (env : ProducerEnv) :
    ∀ (fuel : Nat) (st : ProducerState F) (d : Bool), ProducerInv p st →
      ProducerInv p (producerInner p env fuel st d).state ∧
      ((∀ n, env.trySend n ≠ .done) → ∀ st2, producerInner p env fuel st d ≠ .cancelled st2) := by
  intro fuel
  induction fuel with
  | zero =>
    intro st d h
    exact ⟨h, fun _ st2 hc => by simp [producerInner] at hc⟩
  | succ fuel ih =>
    intro st d h
    unfold producerInner
    split_ifs with h1 h2
    · exact ⟨h, fun _ st2 hc => by simp at hc⟩
    · have hd := ProducerInv_deadline p env st h
      obtain ⟨f1, _, _, _, _, _⟩ := deadlinePassed_frame p env st
      rcases hdp : deadlinePassed p env st with ⟨expired, st1⟩
      rw [hdp] at hd f1
      simp only at hd f1 ⊢
      cases expired with
      | true =>
        simp only [if_true]
        exact ⟨hd, fun _ st2 hc => by simp at hc⟩
      | false =>
        have hlt : ¬ (p.cfg.Count > 0 ∧ st1.sent ≥ p.cfg.Count) := by
          rw [f1]; exact h2
        simp only [Bool.false_eq_true, if_false]
        cases hsel : env.trySend st1.sends with
        | sent =>
          simp only []
          exact ih _ true (ProducerInv_dispatch p _ _ _ hd hlt)
        | done =>
          simp only []
          exact ⟨hd, fun hno _ _ => absurd hsel (hno _)⟩
        | full =>
          simp only []
          exact ih _ d hd
    · exact ⟨h, fun _ st2 hc => by simp at hc⟩

theorem ProducerInv_congr (p : ProducerParams F) (st st2 : ProducerState F)
    (hs : st2.sent = st.sent) (hj : st2.jobs = st.jobs) (h : ProducerInv p st) :
    ProducerInv p st2 := by
  unfold ProducerInv
  rw [hs, hj]
  exact h

/-- The outer loop keeps the bookkeeping invariant; without cancellation it does not
end by `ctx.Done()`; and without a duration limit it returns only through the test
`cfg.Count > 0 && sent >= cfg.Count`. -/
theorem producerOuter_inv (p : ProducerParams F) (env : ProducerEnv) :
    ∀ (fuel : Nat) (st : ProducerState F), ProducerInv p st →
      ProducerInv p (producerOuter p env fuel st).state ∧
      ((∀ n, env.trySend n ≠ .done ∧ env.wait n ≠ .done) →
        ∀ st2, producerOuter p env fuel st ≠ .cancelled st2) ∧
      (p.hasDurationLimit = false → ∀ st2, producerOuter p env fuel st = .returned st2 →
        p.cfg.Count > 0 ∧ st2.sent ≥ p.cfg.Count) := by
  intro fuel
  induction fuel with
  | zero =>
    intro st h
    exact ⟨h, fun _ st2 hc => by simp [producerOuter] at hc,
      fun _ st2 hc => by simp [producerOuter] at hc⟩
  | succ fuel ih =>
    intro st h
    unfold producerOuter
    split_ifs with h1
    · refine ⟨h, fun _ st2 hc => by simp at hc, fun _ st2 hc => ?_⟩
      simp only [ProducerResult.returned.injEq] at hc
      subst hc
      exact h1
    · have hd := ProducerInv_deadline p env st h
      have hnl := deadlinePassed_noLimit p env st
      rcases hdp : deadlinePassed p env st with ⟨expired, st1⟩
      rw [hdp] at hd hnl
      simp only at hd ⊢
      cases expired with
      | true =>
        simp only [if_true]
        refine ⟨hd, fun _ st2 hc => by simp at hc, fun hno st2 _ => ?_⟩
        have := hnl hno
        simp at this
      | false =>
        simp only [Bool.false_eq_true, if_false]
        have hst : ProducerInv p
            { st1 with nows := st1.nows + 1, lastRefill := env.now st1.nows,
                       tokens := if st1.tokens + time.Duration.Seconds
                           ((env.now st1.nows).Sub st1.lastRefill) * p.ratePerSecond > p.capacity
                         then p.capacity
                         else st1.tokens + time.Duration.Seconds
                           ((env.now st1.nows).Sub st1.lastRefill) * p.ratePerSecond } :=
          ProducerInv_congr p st1 _ rfl rfl hd
        obtain ⟨hi1, hi2⟩ := producerInner_inv p env fuel _ false hst
        cases hin : producerInner p env fuel
            { st1 with nows := st1.nows + 1, lastRefill := env.now st1.nows,
                       tokens := if st1.tokens + time.Duration.Seconds
                           ((env.now st1.nows).Sub st1.lastRefill) * p.ratePerSecond > p.capacity
                         then p.capacity
                         else st1.tokens + time.Duration.Seconds
                           ((env.now st1.nows).Sub st1.lastRefill) * p.ratePerSecond } false with
        | outOfFuel st3 =>
          rw [hin] at hi1
          simp only []
          exact ⟨hi1, fun _ st2 hc => by simp at hc, fun _ st2 hc => by simp at hc⟩
        | cancelled st3 =>
          rw [hin] at hi1
          simp only []
          refine ⟨hi1, fun hno st2 _ => ?_, fun _ st2 hc => by simp at hc⟩
          exact absurd hin (hi2 (fun n => (hno n).1) st3)
        | exit st3 dispatched =>
          rw [hin] at hi1
          simp only []
          have hi3 : ProducerInv p st3 := hi1
          cases dispatched with
          | true =>
            simp only [if_true]
            exact ih st3 hi3
          | false =>
            simp only [Bool.false_eq_true, if_false]
            cases hw : env.wait st3.waits with
            | done =>
              simp only []
              exact ⟨ProducerInv_congr p st3 _ rfl rfl hi3,
                fun hno _ _ => absurd hw (hno _).2, fun _ st2 hc => by simp at hc⟩
            | tick =>
              simp only []
              exact ih _ (ProducerInv_congr p st3 _ rfl rfl hi3)

/-- In count mode `sent` never exceeds the count and counts the jobs sent, job number
`k` carries the timestamp computed from `k` and the first reading of the clock, the
scheduler does not end by cancellation when the context is never cancelled, and for
a positive rate the loop is left only with `sent = Count`. -/
theorem produceTraces_count_mode (cfg : Config F) (env : ProducerEnv) (fuel : Nat)
    (hcount : 0 < cfg.Count) :
    (produceTraces cfg env fuel).state.sent ≤ cfg.Count ∧
    0 ≤ (produceTraces cfg env fuel).state.sent ∧
    (produceTraces cfg env fuel).state.jobs =
      (List.range (produceTraces cfg env fuel).state.sent.toNat).map
        (fun k => scheduledAt (producerParams cfg env) (Int.ofNat k)) ∧
    ((∀ n, env.trySend n ≠ .done ∧ env.wait n ≠ .done) →
      ∀ st, produceTraces cfg env fuel ≠ .cancelled st) ∧
    (¬ ratePerSecond cfg ≤ 0.0 →
      ∀ st, produceTraces cfg env fuel = .returned st → st.sent = cfg.Count) := by
  by_cases hrate : ratePerSecond cfg ≤ 0.0
  · unfold produceTraces
    simp only [hrate, if_true]
    refine ⟨?_, le_refl 0, rfl, fun _ st hc => by simp at hc, fun h => absurd trivial h⟩
    show (0 : Int) ≤ cfg.Count
    omega
  · have hinit : ProducerInv (producerParams cfg env)
        { tokens := (producerParams cfg env).capacity, lastRefill := env.now 0, sent := 0,
          jobs := [], nows := 1, sends := 0, waits := 0 } := by
      refine ⟨le_refl 0, rfl, fun _ => ?_⟩
      show (0 : Int) ≤ cfg.Count
      omega
    have hnl : (producerParams cfg env).hasDurationLimit = false := by
      unfold producerParams
      simp only [decide_eq_false_iff_not]
      intro h
      omega
    obtain ⟨h1, h2, h3⟩ := producerOuter_inv (producerParams cfg env) env fuel _ hinit
    unfold produceTraces
    simp only [hrate, if_false]
    obtain ⟨i1, i2, i3⟩ := h1
    refine ⟨i3 hcount, i1, i2, h2, fun _ st hst => ?_⟩
    have h4 := (h3 hnl st hst).2
    rw [hst] at i3
    have h5 : st.sent ≤ cfg.Count := i3 hcount
    have h6 : st.sent ≥ cfg.Count := h4
    omega

/-! ## Termination of the scheduler in exact arithmetic -/

theorem ratLE (a b : ℚ) : @LE.le ℚ (@GoFloat64.toLE ℚ instGoFloat64Rat) a b ↔ a ≤ b := Iff.rfl

theorem ratLT (a b : ℚ) : @LT.lt ℚ (@GoFloat64.toLT ℚ instGoFloat64Rat) a b ↔ a < b := Iff.rfl

theorem ratAdd (a b : ℚ) :
    @HAdd.hAdd ℚ ℚ ℚ (@instHAdd ℚ (@GoFloat64.toAdd ℚ instGoFloat64Rat)) a b = a + b := rfl

theorem ratSub (a b : ℚ) :
    @HSub.hSub ℚ ℚ ℚ (@instHSub ℚ (@GoFloat64.toSub ℚ instGoFloat64Rat)) a b = a - b := rfl

theorem ratMul (a b : ℚ) :
    @HMul.hMul ℚ ℚ ℚ (@instHMul ℚ (@GoFloat64.toMul ℚ instGoFloat64Rat)) a b = a * b := rfl

theorem ratLit (m : Nat) (s : Bool) (e : Nat) :
    @OfScientific.ofScientific ℚ (@GoFloat64.toOfScientific ℚ instGoFloat64Rat) m s e
      = (OfScientific.ofScientific m s e : ℚ) := rfl

/-- With exact arithmetic, in count mode, when the jobs channel always has room, the
inner loop ends; it dispatches at least one job when it starts with a token and the
count is not reached. -/
theorem producerInner_terminates (p : ProducerParams ℚ) (env : ProducerEnv)
    (hnl : p.hasDurationLimit = false) (hcount : 0 < p.cfg.Count)
    (hsend : ∀ n, env.trySend n = .sent) :
    ∀ (fuel : Nat) (st : ProducerState ℚ) (d : Bool),
      st.sent ≤ p.cfg.Count → 0 ≤ st.tokens → (p.cfg.Count - st.sent).toNat + 1 ≤ fuel →
      ∃ (st2 : ProducerState ℚ) (d2 : Bool),
        producerInner p env fuel st d = .exit st2 d2 ∧
        st.sent ≤ st2.sent ∧ st2.sent ≤ p.cfg.Count ∧ 0 ≤ st2.tokens ∧
        st2.nows = st.nows ∧ st2.lastRefill = st.lastRefill ∧
        (d = true → d2 = true) ∧
        (1 ≤ st.tokens → st.sent < p.cfg.Count → d2 = true ∧ st.sent < st2.sent) := by
  intro fuel
  induction fuel with
  | zero =>
    intro st d _ _ hf
    omega
  | succ fuel ih =>
    intro st d hle htok hf
    unfold producerInner
    simp only [deadlinePassed_noLimit p env st hnl, hsend, ge_iff_le, ratLE, ratLit, ratSub]
    have hone : (OfScientific.ofScientific 10 true 1 : ℚ) = 1 := by norm_num
    rw [hone]
    by_cases h1 : 1 ≤ st.tokens
    · rw [if_pos h1]
      by_cases h2 : p.cfg.Count > 0 ∧ st.sent ≥ p.cfg.Count
      · rw [if_pos h2]
        exact ⟨st, d, rfl, le_refl _, hle, htok, rfl, rfl, fun h => h,
          fun _ hlt => absurd h2.2 (not_le.mpr hlt)⟩
      · rw [if_neg h2]
        have hlt : st.sent < p.cfg.Count := by
          by_contra hcon
          exact h2 ⟨hcount, by omega⟩
        obtain ⟨st2, d2, heq, g1, g2, g3, g4, g5, g6, _⟩ :=
          ih { st with sends := st.sends + 1, jobs := st.jobs ++ [scheduledAt p st.sent],
                       sent := st.sent + 1, tokens := st.tokens - 1 } true
            (by show st.sent + 1 ≤ p.cfg.Count; omega)
            (by show 0 ≤ st.tokens - 1; linarith)
            (by show (p.cfg.Count - (st.sent + 1)).toNat + 1 ≤ fuel; omega)
        refine ⟨st2, d2, heq, ?_, g2, g3, g4, g5, fun _ => g6 rfl, fun _ _ => ⟨g6 rfl, ?_⟩⟩
        · have : st.sent + 1 ≤ st2.sent := g1
          omega
        · have : st.sent + 1 ≤ st2.sent := g1
          omega
    · rw [if_neg h1]
      exact ⟨st, d, rfl, le_refl _, hle, htok, rfl, rfl, fun h => h,
        fun h _ => absurd h h1⟩

/-- With exact arithmetic, in count mode, when the jobs channel always has room and
every reading of the clock is at least one token later than the previous one, the
outer loop returns with `sent = Count`. -/
theorem producerOuter_terminates (p : ProducerParams ℚ) (env : ProducerEnv)
    (hnl : p.hasDurationLimit = false) (hcount : 0 < p.cfg.Count)
    (hcap : 1 ≤ p.capacity)
    (hsend : ∀ n, env.trySend n = .sent)
    (hclock : ∀ n, 1 ≤ (time.Duration.Seconds ((env.now (n + 1)).Sub (env.now n)) : ℚ)
      * p.ratePerSecond) :
    ∀ (m fuel : Nat) (st : ProducerState ℚ),
      (p.cfg.Count - st.sent).toNat ≤ m → 2 * m + 2 ≤ fuel →
      st.sent ≤ p.cfg.Count → 0 ≤ st.tokens → 1 ≤ st.nows →
      st.lastRefill = env.now (st.nows - 1) →
      ∃ st2, producerOuter p env fuel st = .returned st2 ∧ st2.sent = p.cfg.Count := by
  intro m
  induction m with
  | zero =>
    intro fuel st hm hf hle _ _ _
    obtain ⟨f, rfl⟩ : ∃ f, fuel = f + 1 := ⟨fuel - 1, by omega⟩
    unfold producerOuter
    have h1 : p.cfg.Count > 0 ∧ st.sent ≥ p.cfg.Count := ⟨hcount, by omega⟩
    simp only [h1, and_self, if_true]
    exact ⟨st, rfl, by omega⟩
  | succ m ih =>
    intro fuel st hm hf hle htok hnows hlast
    obtain ⟨f, rfl⟩ : ∃ f, fuel = f + 1 := ⟨fuel - 1, by omega⟩
    unfold producerOuter
    split_ifs with h1
    · exact ⟨st, rfl, by omega⟩
    · have hlt : st.sent < p.cfg.Count := by
        by_contra hcon
        exact h1 ⟨hcount, by omega⟩
      simp only [deadlinePassed_noLimit p env st hnl, Bool.false_eq_true, if_false,
        gt_iff_lt, ratLT, ratAdd, ratMul]
      have hrefill : 1 ≤ (if p.capacity < st.tokens +
          (time.Duration.Seconds ((env.now st.nows).Sub st.lastRefill) : ℚ) * p.ratePerSecond
          then p.capacity
          else st.tokens +
            (time.Duration.Seconds ((env.now st.nows).Sub st.lastRefill) : ℚ) * p.ratePerSecond) := by
        have hc := hclock (st.nows - 1)
        have hn : st.nows - 1 + 1 = st.nows := by omega
        rw [hn, ← hlast] at hc
        split_ifs
        · exact hcap
        · linarith
      obtain ⟨st2, d2, heq, g1, g2, g3, g4, g5, _, g7⟩ :=
        producerInner_terminates p env hnl hcount hsend f
          { st with nows := st.nows + 1, lastRefill := env.now st.nows,
                    tokens := if p.capacity < st.tokens +
                        (time.Duration.Seconds ((env.now st.nows).Sub st.lastRefill) : ℚ)
                          * p.ratePerSecond
                      then p.capacity
                      else st.tokens +
                        (time.Duration.Seconds ((env.now st.nows).Sub st.lastRefill) : ℚ)
                          * p.ratePerSecond }
          false hle (by linarith) (by show (p.cfg.Count - st.sent).toNat + 1 ≤ f; omega)
      obtain ⟨hd, hprog⟩ := g7 hrefill hlt
      subst hd
      rw [heq]
      simp only [if_true]
      have hprog2 : st.sent < st2.sent := hprog
      have hnows2 : st2.nows = st.nows + 1 := g4
      have hlast2 : st2.lastRefill = env.now st.nows := g5
      exact ih f st2 (by omega) (by omega) g2 g3 (by omega)
        (by rw [hlast2, hnows2]; rfl)

/-! ## C7: count mode emits exactly `Count` traces -/

/-- Every job yields exactly one trace. -/
theorem poolTraces_length {σ : Type} (R : RandLib F σ) (M : MathLib F) (cfg : Config F)
    (assign : Nat → Nat) :
    ∀ (jobs : List time.Time) (k : Nat) (states : Nat → σ),
      (poolTraces R M cfg assign jobs k states).length = jobs.length := by
  intro jobs
  induction jobs with
  | nil => intro k states; rfl
  | cons start jobs ih =>
    intro k states
    unfold poolTraces
    simp only [List.length_cons, ih]

/-- With exact arithmetic, in count mode with a positive rate, when the jobs channel
always has room and every reading of the clock is at least one token later than the
previous one, `2 * Count + 2` iterations suffice for the scheduler to return, with
exactly `Count` jobs sent. -/
theorem produceTraces_terminates (cfg : Config ℚ) (env : ProducerEnv)
    (hcount : 0 < cfg.Count) (hrate : 0 < ratePerSecond cfg)
    (hsend : ∀ n, env.trySend n = .sent)
    (hclock : ∀ n, 1 ≤ (time.Duration.Seconds ((env.now (n + 1)).Sub (env.now n)) : ℚ)
      * ratePerSecond cfg) :
    ∃ st, produceTraces cfg env (2 * cfg.Count.toNat + 2) = .returned st ∧
      st.sent = cfg.Count ∧ Int.ofNat st.jobs.length = cfg.Count := by
  have hzero : (OfScientific.ofScientific 0 true 1 : ℚ) = 0 := by norm_num
  have hone : (OfScientific.ofScientific 10 true 1 : ℚ) = 1 := by norm_num
  have hr : ¬ ratePerSecond cfg ≤ 0.0 := by
    show ¬ ratePerSecond cfg ≤ (OfScientific.ofScientific 0 true 1 : ℚ)
    rw [hzero]
    exact not_le.mpr hrate
  have hnl : (producerParams cfg env).hasDurationLimit = false := by
    unfold producerParams
    simp only [decide_eq_false_iff_not]
    intro h
    omega
  have hcap : 1 ≤ (producerParams cfg env).capacity := by
    show 1 ≤ (if ratePerSecond cfg < (OfScientific.ofScientific 10 true 1 : ℚ)
      then (OfScientific.ofScientific 10 true 1 : ℚ) else ratePerSecond cfg)
    rw [hone]
    split_ifs with h
    · exact le_refl 1
    · exact not_lt.mp h
  obtain ⟨st, hst, hsent⟩ := producerOuter_terminates (producerParams cfg env) env hnl hcount hcap
    hsend hclock cfg.Count.toNat (2 * cfg.Count.toNat + 2)
    { tokens := (producerParams cfg env).capacity, lastRefill := env.now 0, sent := 0,
      jobs := [], nows := 1, sends := 0, waits := 0 }
    (by show (cfg.Count - 0).toNat ≤ cfg.Count.toNat; simp)
    (le_refl _)
    (by show (0 : Int) ≤ cfg.Count; omega)
    (by show (0 : ℚ) ≤ (producerParams cfg env).capacity; linarith)
    (le_refl 1) rfl
  have hprod : produceTraces cfg env (2 * cfg.Count.toNat + 2) = .returned st := by
    unfold produceTraces
    simp only [hr, if_false]
    exact hst
  refine ⟨st, hprod, hsent, ?_⟩
  obtain ⟨_, h2, h3, _, _⟩ := produceTraces_count_mode cfg env (2 * cfg.Count.toNat + 2) hcount
  rw [hprod] at h2 h3
  have h4 : st.jobs = (List.range st.sent.toNat).map
      (fun k => scheduledAt (producerParams cfg env) (Int.ofNat k)) := h3
  have h5 : 0 ≤ st.sent := h2
  have h6 : st.sent = cfg.Count := hsent
  rw [h4, List.length_map, List.length_range, ← h6]
  simp only [Int.ofNat_eq_coe]
  omega

theorem ratePerSecond_exactConfig : ratePerSecond exactConfig = 100 := by
  have h1 : (time.Duration.Seconds time.Second : ℚ) = 1 := by
    show ((Int.tdiv time.Second time.Second : Int) : ℚ)
      + ((Int.tmod time.Second time.Second : Int) : ℚ) / (OfScientific.ofScientific 1 false 9 : ℚ) = 1
    have a : Int.tdiv time.Second time.Second = 1 := by decide
    have b : Int.tmod time.Second time.Second = 0 := by decide
    rw [a, b]
    norm_num
  have h2 : effectiveTracesPerInterval exactConfig = 100 := by
    unfold effectiveTracesPerInterval
    rw [if_pos (by decide)]
    rfl
  show effectiveTracesPerInterval exactConfig / (time.Duration.Seconds time.Second : ℚ) = 100
  rw [h1, h2]
  norm_num

theorem tickingClock_elapsed (n : Nat) :
    (time.Duration.Seconds ((idealEnv.now (n + 1)).Sub (idealEnv.now n)) : ℚ) = 1 / 100 := by
  have hsub : (idealEnv.now (n + 1)).Sub (idealEnv.now n) = 10000000 := by
    show (tickingClock (n + 1)).Sub (tickingClock n) = 10000000
    unfold Instant.Sub tickingClock
    simp only [Int.ofNat_eq_coe]
    have hd : (10000000 : Int) * ((n + 1 : Nat) : Int) - 10000000 * (n : Int) = 10000000 := by
      push_cast
      ring
    rw [hd]
    decide
  rw [hsub]
  show ((Int.tdiv 10000000 time.Second : Int) : ℚ)
    + ((Int.tmod 10000000 time.Second : Int) : ℚ) / (OfScientific.ofScientific 1 false 9 : ℚ) = 1 / 100
  have a : Int.tdiv 10000000 time.Second = 0 := by decide
  have b : Int.tmod 10000000 time.Second = 10000000 := by decide
  rw [a, b]
  norm_num

/-! ## C1: the output of a JSONL run depends on the wall clock read at the start -/

theorem poolTraces_one_worker {σ : Type} (R : RandLib F σ) (M : MathLib F) (cfg : Config F)
    (hw : cfg.Workers = 1) (assign1 assign2 : Nat → Nat) :
    ∀ (jobs : List time.Time) (k : Nat) (states : Nat → σ),
      poolTraces R M cfg assign1 jobs k states = poolTraces R M cfg assign2 jobs k states := by
  intro jobs
  induction jobs with
  | nil => intro k states; rfl
  | cons start jobs ih =>
    intro k states
    unfold poolTraces
    have h1 : assign1 k % cfg.Workers.toNat = 0 := by
      rw [hw]; exact Nat.mod_one _
    have h2 : assign2 k % cfg.Workers.toNat = 0 := by
      rw [hw]; exact Nat.mod_one _
    simp only [h1, h2, ih]

theorem statsAdd_frame (st : ConsumerState F) (traces spans : Int) :
    (st.statsAdd traces spans).written = st.written ∧
    (st.statsAdd traces spans).spanBatch = st.spanBatch := by
  unfold ConsumerState.statsAdd
  split_ifs <;> simp

theorem flushJSONL_written (st : ConsumerState F) :
    (flushJSONL st).written = st.written ++ jsonl.WriteTrace st.spanBatch ∧
    (flushJSONL st).spanBatch = [] := by
  unfold flushJSONL
  split_ifs with h
  · have hnil : st.spanBatch = [] := List.length_eq_zero.mp h
    simp [hnil, jsonl.WriteTrace]
  · obtain ⟨h1, h2⟩ := statsAdd_frame
      ({ st with written := st.written ++ jsonl.WriteTrace st.spanBatch,
                 spanBatch := [], pendingTraceCount := 0 } : ConsumerState F)
      st.pendingTraceCount (Int.ofNat st.spanBatch.length)
    exact ⟨h1, h2⟩

/-- The spans of the traces among the events, in order of arrival. -/
theorem consumeStepJSONL_written (cfg : Config F) (hout : cfg.Output ≠ "noop")
    (st : ConsumerState F) (ev : ConsumerEvent F) :
    (consumeStepJSONL cfg st ev).written ++ jsonl.WriteTrace (consumeStepJSONL cfg st ev).spanBatch
      = st.written ++ jsonl.WriteTrace st.spanBatch ++
        jsonl.WriteTrace (match ev with
          | .trace t => t.Spans
          | .flushTick => []) := by
  cases ev with
  | flushTick =>
    unfold consumeStepJSONL
    obtain ⟨h1, h2⟩ := flushJSONL_written st
    simp [h1, h2, jsonl.WriteTrace]
  | trace t =>
    unfold consumeStepJSONL
    simp only [hout, if_false]
    split_ifs
    · obtain ⟨h1, h2⟩ := flushJSONL_written
        ({ st with spanBatch := st.spanBatch ++ t.Spans,
                   pendingTraceCount := st.pendingTraceCount + 1 } : ConsumerState F)
      rw [h1, h2]
      simp [jsonl.WriteTrace]
    · simp [jsonl.WriteTrace]

theorem consume_fold_written (cfg : Config F) (hout : cfg.Output ≠ "noop") (ticks : Nat → Nat) :
    ∀ (traces : List (Trace F)) (i : Nat) (st : ConsumerState F),
      ((consumerEvents ticks i traces).foldl (consumeStepJSONL cfg) st).written ++
        jsonl.WriteTrace ((consumerEvents ticks i traces).foldl (consumeStepJSONL cfg) st).spanBatch
      = st.written ++ jsonl.WriteTrace st.spanBatch ++
        jsonl.WriteTrace (traces.flatMap (fun t => t.Spans)) := by
  have hticks : ∀ (n : Nat) (st : ConsumerState F),
      ((List.replicate n ConsumerEvent.flushTick).foldl (consumeStepJSONL cfg) st).written ++
        jsonl.WriteTrace
          ((List.replicate n ConsumerEvent.flushTick).foldl (consumeStepJSONL cfg) st).spanBatch
      = st.written ++ jsonl.WriteTrace st.spanBatch := by
    intro n
    induction n with
    | zero => intro st; rfl
    | succ n ih =>
      intro st
      rw [List.replicate_succ, List.foldl_cons, ih]
      have := consumeStepJSONL_written cfg hout st .flushTick
      simpa [jsonl.WriteTrace] using this
  intro traces
  induction traces with
  | nil =>
    intro i st
    unfold consumerEvents
    rw [hticks]
    simp [jsonl.WriteTrace]
  | cons t rest ih =>
    intro i st
    unfold consumerEvents
    rw [List.foldl_append, List.foldl_cons, ih]
    have h1 := consumeStepJSONL_written cfg hout
      ((List.replicate (ticks i) ConsumerEvent.flushTick).foldl (consumeStepJSONL cfg) st) (.trace t)
    rw [h1, hticks]
    simp [jsonl.WriteTrace, List.append_assoc]

/-- The lines written by the JSONL consumer do not depend on when the flush ticker
fires: they are the lines of all spans of the received traces, in order of arrival
(nothing is written for the noop output). -/
theorem consumeTracesJSONL_written (cfg : Config F) (ticks : Nat → Nat) (traces : List (Trace F)) :
    (consumeTracesJSONL cfg (consumerEvents ticks 0 traces)).written =
      if cfg.Output = "noop" then []
      else jsonl.WriteTrace (traces.flatMap (fun t => t.Spans)) := by
  unfold consumeTracesJSONL finalizeJSONL
  by_cases hout : cfg.Output = "noop"
  · simp only [hout, if_true]
    have hstep : ∀ (st : ConsumerState F) (ev : ConsumerEvent F),
        st.written = [] → st.spanBatch = [] →
        (consumeStepJSONL cfg st ev).written = [] ∧ (consumeStepJSONL cfg st ev).spanBatch = [] := by
      intro st ev h1 h2
      cases ev with
      | flushTick =>
        unfold consumeStepJSONL
        obtain ⟨g1, g2⟩ := flushJSONL_written st
        simp [g1, g2, h1, h2, jsonl.WriteTrace]
      | trace t =>
        unfold consumeStepJSONL
        simp only [hout, if_true]
        obtain ⟨g1, g2⟩ := statsAdd_frame st 1 (Int.ofNat t.Spans.length)
        exact ⟨g1.trans h1, g2.trans h2⟩
    have hfold : ∀ (evs : List (ConsumerEvent F)) (st : ConsumerState F),
        st.written = [] → st.spanBatch = [] →
        (evs.foldl (consumeStepJSONL cfg) st).written = [] := by
      intro evs
      induction evs with
      | nil => intro st h1 _; exact h1
      | cons ev evs ih =>
        intro st h1 h2
        obtain ⟨g1, g2⟩ := hstep st ev h1 h2
        exact ih _ g1 g2
    exact hfold _ _ rfl rfl
  · simp only [hout, if_false]
    obtain ⟨h1, _⟩ := flushJSONL_written
      ((consumerEvents ticks 0 traces).foldl (consumeStepJSONL cfg) {})
    rw [h1, consume_fold_written cfg hout ticks traces 0 {}]
    simp [jsonl.WriteTrace]

theorem scheduledAt_start (cfg : Config F) (env1 env2 : ProducerEnv)
    (hstart : (env1.now 0).wall = (env2.now 0).wall) (k : Int) :
    scheduledAt (producerParams cfg env1) k = scheduledAt (producerParams cfg env2) k := by
  unfold scheduledAt producerParams
  simp only [hstart]

/-- In count mode the jobs of a run that returned are determined by the configuration
and the first reading of the wall clock. -/
theorem produceTraces_jobs_start (cfg : Config F) (env1 env2 : ProducerEnv) (fuel1 fuel2 : Nat)
    (hcount : 0 < cfg.Count) (hstart : (env1.now 0).wall = (env2.now 0).wall)
    (st1 st2 : ProducerState F)
    (h1 : produceTraces cfg env1 fuel1 = .returned st1)
    (h2 : produceTraces cfg env2 fuel2 = .returned st2) : st1.jobs = st2.jobs := by
  obtain ⟨_, _, a3, _, a5⟩ := produceTraces_count_mode cfg env1 fuel1 hcount
  obtain ⟨_, _, b3, _, b5⟩ := produceTraces_count_mode cfg env2 fuel2 hcount
  by_cases hrate : ratePerSecond cfg ≤ 0.0
  · unfold produceTraces at h1 h2
    simp only [hrate, if_true, ProducerResult.returned.injEq] at h1 h2
    rw [← h1, ← h2]
  · have s1 := a5 hrate st1 h1
    have s2 := b5 hrate st2 h2
    rw [h1] at a3
    rw [h2] at b3
    have j1 : st1.jobs = (List.range st1.sent.toNat).map
        (fun k => scheduledAt (producerParams cfg env1) (Int.ofNat k)) := a3
    have j2 : st2.jobs = (List.range st2.sent.toNat).map
        (fun k => scheduledAt (producerParams cfg env2) (Int.ofNat k)) := b3
    rw [j1, j2, s1, s2]
    apply List.map_congr_left
    intro k _
    exact scheduledAt_start cfg env1 env2 hstart _

/-- C1, as stated, fails: two runs of the determinism scenario (seed 1, web profile,
depth 2, fanout 1, count 1, three services, JSONL) that differ only in the wall-clock
value read by the producer at the start (one second apart) both complete and write
different lines: the `start_time` fields follow the wall clock. -/
theorem C1_output_depends_on_wall_clock :
    scenarioConfig.Validate = none ∧
    (RunJSONL halfSource seriesMath scenarioConfig idealEnv 10 (fun _ => 0) (fun _ => 1)).map
        (fun lines => lines.map (fun l => (l.Kind, l.StartTime)))
      = some [("SERVER", 1700000000000000000), ("CLIENT", 1700000000001000000)] ∧
    (RunJSONL halfSource seriesMath scenarioConfig laterEnv 10 (fun _ => 0) (fun _ => 1)).map
        (fun lines => lines.map (fun l => (l.Kind, l.StartTime)))
      = some [("SERVER", 1700000001000000000), ("CLIENT", 1700000001001000000)] ∧
    RunJSONL halfSource seriesMath scenarioConfig idealEnv 10 (fun _ => 0) (fun _ => 1) ≠
      RunJSONL halfSource seriesMath scenarioConfig laterEnv 10 (fun _ => 0) (fun _ => 1) := by
  decide

/-- C1, amended. In count mode with one worker, the lines written by a JSONL run that
completes depend only on the configuration (with its seed) and on the wall-clock
value read by the producer when the run starts: two runs that read the same start
value write identical output, whatever the later clock readings, the pace of the
jobs channel and the flush ticker are. -/
theorem C1_same_start_same_output {σ : Type} (R : RandLib F σ) (M : MathLib F) (cfg : Config F)
    (env1 env2 : ProducerEnv) (fuel1 fuel2 : Nat) (assign1 assign2 ticks1 ticks2 : Nat → Nat)
    (out1 out2 : List (SpanLine F))
    (hcount : 0 < cfg.Count) (hworkers : cfg.Workers = 1)
    (hstart : (env1.now 0).wall = (env2.now 0).wall)
    (h1 : RunJSONL R M cfg env1 fuel1 assign1 ticks1 = some out1)
    (h2 : RunJSONL R M cfg env2 fuel2 assign2 ticks2 = some out2) :
    out1 = out2 := by
  unfold RunJSONL at h1 h2
  cases hp1 : produceTraces cfg env1 fuel1 with
  | cancelled st1 => rw [hp1] at h1; simp at h1
  | outOfFuel st1 => rw [hp1] at h1; simp at h1
  | returned st1 =>
    cases hp2 : produceTraces cfg env2 fuel2 with
    | cancelled st2 => rw [hp2] at h2; simp at h2
    | outOfFuel st2 => rw [hp2] at h2; simp at h2
    | returned st2 =>
      rw [hp1] at h1
      rw [hp2] at h2
      simp only [Option.some.injEq] at h1 h2
      rw [← h1, ← h2, consumeTracesJSONL_written, consumeTracesJSONL_written,
        produceTraces_jobs_start cfg env1 env2 fuel1 fuel2 hcount hstart st1 st2 hp1 hp2,
        poolTraces_one_worker R M cfg hworkers assign1 assign2]

theorem C1_same_start_same_output_witness :
    0 < scenarioConfig.Count ∧ scenarioConfig.Workers = 1 ∧
    (RunJSONL halfSource seriesMath scenarioConfig idealEnv 10 (fun _ => 0) (fun _ => 1)).isSome ∧
    (RunJSONL halfSource seriesMath scenarioConfig busyEnv 12 (fun n => n + 1) (fun _ => 0)).isSome ∧
    (RunJSONL halfSource seriesMath scenarioConfig idealEnv 10 (fun _ => 0) (fun _ => 1)).getD [] =
      (RunJSONL halfSource seriesMath scenarioConfig busyEnv 12 (fun n => n + 1) (fun _ => 0)).getD [] :=
  ⟨by decide, by decide, by decide, by decide,
    C1_same_start_same_output halfSource seriesMath scenarioConfig idealEnv busyEnv 10 12
      (fun _ => 0) (fun n => n + 1) (fun _ => 1) (fun _ => 0)
      ((RunJSONL halfSource seriesMath scenarioConfig idealEnv 10 (fun _ => 0) (fun _ => 1)).getD [])
      ((RunJSONL halfSource seriesMath scenarioConfig busyEnv 12 (fun n => n + 1) (fun _ => 0)).getD [])
      (by decide) (by decide) (by decide) (by decide) (by decide)⟩

/-! ## C12: the OTLP encoder groups the spans by service -/

/-- The keys returned by `sortedKeys` are the keys given, without repetition, in
strictly ascending order. -/
theorem sortedKeys_spec (keys : List String) :
    (sortedKeys keys).Sorted (fun a b => a < b) ∧ (sortedKeys keys).Nodup ∧
    ∀ k, k ∈ sortedKeys keys ↔ k ∈ keys := by
  unfold sortedKeys
  have hperm := List.perm_insertionSort (fun (a b : String) => a ≤ b) keys.dedup
  have hnodup : (List.insertionSort (fun (a b : String) => a ≤ b) keys.dedup).Nodup :=
    hperm.nodup_iff.mpr (List.nodup_dedup keys)
  have hsorted := List.sorted_insertionSort (fun (a b : String) => a ≤ b) keys.dedup
  refine ⟨hsorted.lt_of_le hnodup, hnodup, ?_⟩
  intro k
  rw [hperm.mem_iff, List.mem_dedup]

/-- The inner loop succeeds on spans with non-negative durations and converts them one
by one, in order. -/
theorem encodeServiceSpans_ok (xs : List (Span F)) (h : ∀ s ∈ xs, 0 ≤ s.Duration) :
    ∃ otel, encodeServiceSpans xs = .ok otel ∧ xs.map toOTLPSpan = otel.map Except.ok := by
  induction xs with
  | nil => exact ⟨[], rfl, rfl⟩
  | cons s rest ih =>
    obtain ⟨otel, h1, h2⟩ := ih (fun t ht => h t (List.mem_cons_of_mem _ ht))
    have hs : ¬ s.Duration < 0 := not_lt.mpr (h s (List.mem_cons_self _ _))
    obtain ⟨span, hspan⟩ : ∃ span, toOTLPSpan s = .ok span := by
      unfold toOTLPSpan
      simp only [hs, if_false]
      exact ⟨_, rfl⟩
    refine ⟨span :: otel, ?_, ?_⟩
    · rw [encodeServiceSpans, hspan, h1]
    · simp only [List.map_cons, hspan, h2]

/-- The record built for one service. -/
theorem encodeServices_ok (spans : List (Span F)) (h : ∀ s ∈ spans, 0 ≤ s.Duration)
    (keys : List String) :
    ∃ groups : List (String × List (OTLPSpan F)),
      encodeServices spans keys = .ok (groups.map (fun g =>
        ({ Resource := [{ Key := "service.name", Value := .StringValue g.1 }]
           ScopeSpans := [{ Spans := g.2 }] } : ResourceSpans F))) ∧
      groups.map Prod.fst = keys ∧
      ∀ g ∈ groups, (spans.filter (fun s => otlpServiceOf s = g.1)).map toOTLPSpan =
        g.2.map Except.ok := by
  induction keys with
  | nil => exact ⟨[], rfl, rfl, by simp⟩
  | cons k rest ih =>
    obtain ⟨groups, h1, h2, h3⟩ := ih
    obtain ⟨otel, o1, o2⟩ := encodeServiceSpans_ok (spans.filter (fun s => otlpServiceOf s = k))
      (fun s hs => h s (List.mem_of_mem_filter hs))
    refine ⟨(k, otel) :: groups, ?_, ?_, ?_⟩
    · rw [encodeServices, o1, h1]
      rfl
    · simp [h2]
    · intro g hg
      rcases List.mem_cons.mp hg with rfl | hg
      · exact o2
      · exact h3 g hg

/-- Every span is counted once by the groups of a duplicate-free list of keys that
contains its key. -/
theorem group_sizes_sum {α : Type} (key : α → String) (xs : List α) (keys : List String)
    (hnodup : keys.Nodup) (hall : ∀ x ∈ xs, key x ∈ keys) :
    (keys.map (fun k => (xs.filter (fun x => key x = k)).length)).sum = xs.length := by
  induction xs with
  | nil => simp
  | cons x rest ih =>
    have hone : ∀ (ks : List String), ks.Nodup → key x ∈ ks →
        (ks.map (fun k => ((x :: rest).filter (fun y => key y = k)).length)).sum =
          (ks.map (fun k => (rest.filter (fun y => key y = k)).length)).sum + 1 := by
      intro ks
      induction ks with
      | nil => intro _ hmem; exact absurd hmem (List.not_mem_nil _)
      | cons k ks ihk =>
        intro hnd hmem
        have hnd2 := List.nodup_cons.mp hnd
        by_cases hk : key x = k
        · have hnot : key x ∉ ks := hk ▸ hnd2.1
          have hsame : ks.map (fun k => ((x :: rest).filter (fun y => key y = k)).length) =
              ks.map (fun k => (rest.filter (fun y => key y = k)).length) := by
            apply List.map_congr_left
            intro k2 hk2
            have : key x ≠ k2 := fun e => hnot (e ▸ hk2)
            simp [List.filter_cons, this]
          simp only [List.map_cons, List.sum_cons, hsame]
          simp [List.filter_cons, hk]
          omega
        · have hmem2 : key x ∈ ks := by
            rcases List.mem_cons.mp hmem with e | e
            · exact absurd e hk
            · exact e
          simp only [List.map_cons, List.sum_cons, ihk hnd2.2 hmem2]
          simp [List.filter_cons, hk]
          omega
    rw [hone keys hnodup (hall x (List.mem_cons_self _ _)),
      ih (fun y hy => hall y (List.mem_cons_of_mem _ hy))]
    simp

/-- C12. For every list of spans with non-negative durations `otlp.EncodeSpans`
succeeds. Its `ResourceSpans` are one record per group `(service, spans)`: the record
carries the single resource attribute `service.name = service` and exactly one
`ScopeSpans`; the service names are in strictly ascending order (hence pairwise
distinct) and are exactly the group keys of the input spans; the spans of a group are
the conversions of the input spans with that key, in input order; the group sizes sum
to the number of input spans; and the group key of a span is its string attribute
`service.name`, or `unknown-service` when that attribute is missing, not a string or
empty. -/
theorem C12_otlp_groups_by_service (spans : List (Span F)) (h : ∀ s ∈ spans, 0 ≤ s.Duration) :
    ∃ groups : List (String × List (OTLPSpan F)),
      otlp.EncodeSpans spans = .ok { ResourceSpans := groups.map (fun g =>
        ({ Resource := [{ Key := "service.name", Value := .StringValue g.1 }]
           ScopeSpans := [{ Spans := g.2 }] } : ResourceSpans F)) } ∧
      (groups.map Prod.fst).Sorted (fun a b => a < b) ∧
      (groups.map Prod.fst).Nodup ∧
      (∀ svc, svc ∈ groups.map Prod.fst ↔ ∃ s ∈ spans, otlpServiceOf s = svc) ∧
      (∀ g ∈ groups, (spans.filter (fun s => otlpServiceOf s = g.1)).map toOTLPSpan =
        g.2.map Except.ok) ∧
      (groups.map (fun g => g.2.length)).sum = spans.length ∧
      (∀ s : Span F, otlpServiceOf s =
        match s.Attributes.get "service.name" with
        | some (.str n) => if n = "" then "unknown-service" else n
        | _ => "unknown-service") := by
  obtain ⟨hsorted, hnodup, hmem⟩ := sortedKeys_spec (spans.map (otlpServiceOf (F := F)))
  obtain ⟨groups, h1, h2, h3⟩ := encodeServices_ok spans h
    (sortedKeys (spans.map (otlpServiceOf (F := F))))
  refine ⟨groups, ?_, ?_, ?_, ?_, h3, ?_, ?_⟩
  · unfold otlp.EncodeSpans
    simp only [h1]
  · rw [h2]; exact hsorted
  · rw [h2]; exact hnodup
  · intro svc
    rw [h2, hmem, List.mem_map]
  · have hlen : ∀ g ∈ groups, g.2.length =
        (spans.filter (fun s => otlpServiceOf s = g.1)).length := by
      intro g hg
      have := congrArg List.length (h3 g hg)
      simp only [List.length_map] at this
      exact this.symm
    have hsum := group_sizes_sum (otlpServiceOf (F := F)) spans
      (sortedKeys (spans.map (otlpServiceOf (F := F)))) hnodup
      (fun s hs => (hmem _).mpr (List.mem_map_of_mem _ hs))
    rw [← hsum, ← h2, List.map_map]
    congr 1
    apply List.map_congr_left
    intro g hg
    simp only [Function.comp, hlen g hg]
  · intro s
    unfold otlpServiceOf Attrs.getString
    split <;> simp_all

/-- The sorted group keys of `groupingSpans`. -/
theorem sortedKeys_groupingSpans :
    sortedKeys (groupingSpans.map otlpServiceOf) = ["svc-a", "svc-b", "unknown-service"] := by
  have h : groupingSpans.map otlpServiceOf = ["svc-b", "svc-a", "svc-b", "unknown-service"] := by
    decide
  rw [h]
  simp [sortedKeys, List.dedup, List.pwFilter, List.insertionSort, List.orderedInsert]
  decide

theorem C12_otlp_groups_by_service_witness :
    (∀ s ∈ groupingSpans, 0 ≤ s.Duration) ∧
    (otlp.EncodeSpans groupingSpans).map (fun req => req.ResourceSpans.map (fun rs =>
        (rs.Resource.map (fun kv => kv.Value),
          rs.ScopeSpans.map (fun ss => ss.Spans.map (fun x => x.Name))))) =
      .ok [([.StringValue "svc-a"], [["a1"]]), ([.StringValue "svc-b"], [["b1", "b2"]]),
        ([.StringValue "unknown-service"], [["u1"]])] ∧
    ∃ groups : List (String × List (OTLPSpan DecFloat)),
      otlp.EncodeSpans groupingSpans = .ok { ResourceSpans := groups.map (fun g =>
        ({ Resource := [{ Key := "service.name", Value := .StringValue g.1 }]
           ScopeSpans := [{ Spans := g.2 }] } : ResourceSpans DecFloat)) } ∧
      (groups.map (fun g => g.2.length)).sum = groupingSpans.length :=
  ⟨by decide,
    by
      unfold otlp.EncodeSpans
      simp only [sortedKeys_groupingSpans]
      decide,
    (C12_otlp_groups_by_service groupingSpans (by decide)).elim
      (fun groups hg => ⟨groups, hg.1, hg.2.2.2.2.2.1⟩)⟩

/-! ## C13 and C14: the Zipkin encoder -/

theorem tagsGet_tagsSet_self (m : List (String × String)) (k v : String) :
    tagsGet (tagsSet m k v) k = v := by
  induction m with
  | nil => simp [tagsSet, tagsGet]
  | cons kv rest ih =>
    obtain ⟨k1, v1⟩ := kv
    by_cases h : k1 = k
    · simp [tagsSet, tagsGet, h]
    · simp [tagsSet, tagsGet, h, ih]

/-- The `error` tag after the two writes of the encoder. -/
theorem errorTag_value (m : List (String × String)) (msg : String) :
    tagsGet (if tagsGet (tagsSet m "error" msg) "error" = "" then
        tagsSet (tagsSet m "error" msg) "error" "true" else tagsSet m "error" msg) "error" =
      if msg = "" then "true" else msg := by
  rw [tagsGet_tagsSet_self]
  by_cases h : msg = ""
  · simp only [h, if_true, tagsGet_tagsSet_self]
  · simp only [h, if_false, tagsGet_tagsSet_self]

/-- C13. For a span with a non-zero start time and `Status.Code = "ERROR"`, the Zipkin
encoder panics when the attribute map is nil or empty (the write `tags["error"] = ...`
goes to the nil map returned by `tagsFromAttrs`); when the span has at least one
attribute it succeeds and the tags contain `error`, equal to `Status.Message` when
that is non-empty and to `"true"` otherwise. -/
theorem C13_zipkin_error_tag {F : Type} (fmt : FormatLib F) (s : Span F)
    (hstart : s.StartTime.IsZero = false) (herr : s.Status.Code = "ERROR") :
    (s.Attributes = [] → zipkin.EncodeSpans fmt [s] = .panic) ∧
    (s.Attributes ≠ [] → ∃ (z : ZipkinSpan) (tags : List (String × String)),
      zipkin.EncodeSpans fmt [s] = .ok [z] ∧ z.Tags = some tags ∧
      tagsGet tags "error" = if s.Status.Message = "" then "true" else s.Status.Message) := by
  constructor
  · intro h
    simp [zipkin.EncodeSpans, zipkinEncodeSpan, hstart, herr, tagsFromAttrs, h]
  · intro h
    have hlen : ¬ s.Attributes.length = 0 := by
      intro h0
      exact h (List.length_eq_zero.mp h0)
    simp only [zipkin.EncodeSpans, zipkinEncodeSpan, hstart, herr, tagsFromAttrs, hlen, if_true,
      if_false, Bool.false_eq_true]
    exact ⟨_, _, rfl, rfl, errorTag_value _ _⟩

theorem C13_zipkin_error_tag_witness :
    errorBareSpan.StartTime.IsZero = false ∧ errorBareSpan.Status.Code = "ERROR" ∧
    errorBareSpan.Attributes = [] ∧
    zipkin.EncodeSpans fractionFormat [errorBareSpan] = .panic ∧
    errorTaggedSpan.Attributes ≠ [] ∧
    ∃ (z : ZipkinSpan) (tags : List (String × String)),
      zipkin.EncodeSpans fractionFormat [errorTaggedSpan] = .ok [z] ∧ z.Tags = some tags ∧
      tagsGet tags "error" = "true" :=
  ⟨by decide, by decide, by decide,
    (C13_zipkin_error_tag fractionFormat errorBareSpan (by decide) (by decide)).1 (by decide),
    by decide,
    (C13_zipkin_error_tag fractionFormat errorTaggedSpan (by decide) (by decide)).2 (by decide)⟩

/-- The hexadecimal rendering of a non-empty id is not the empty string. -/
theorem hexEncode_ne_empty (bs : List Nat) (h : bs ≠ []) : hexEncode bs ≠ "" := by
  cases bs with
  | nil => exact absurd rfl h
  | cons b rest =>
    intro h2
    have h3 := congrArg String.data h2
    simp [hexEncode] at h3

/-- What the encoder produces for one span that has a start time and does not make it
write to a nil map. -/
theorem zipkinEncodeSpan_ok {F : Type} (fmt : FormatLib F) (s : Span F)
    (hstart : s.StartTime.IsZero = false) (hwrite : ¬ (s.Status.Code = "ERROR" ∧ s.Attributes = [])) :
    ∃ z, zipkinEncodeSpan fmt s = .ok z ∧ z.ID = hexEncode s.SpanID ∧
      z.DurationMicr = (if Int.tdiv s.Duration 1000 < 1 then 1 else Int.tdiv s.Duration 1000) ∧
      z.ParentID = (if s.HasParent then hexEncode s.ParentSpanID else "") := by
  unfold zipkinEncodeSpan
  simp only [hstart, Bool.false_eq_true, if_false]
  by_cases herr : s.Status.Code = "ERROR"
  · have hne : ¬ s.Attributes.length = 0 := by
      intro h0
      exact hwrite ⟨herr, List.length_eq_zero.mp h0⟩
    simp only [herr, if_true, tagsFromAttrs, hne, if_false]
    exact ⟨_, rfl, rfl, rfl, rfl⟩
  · simp only [herr, if_false]
    exact ⟨_, rfl, rfl, rfl, rfl⟩

/-- C14. The result of the Zipkin encoder on a batch. When no span has a zero start
time and no `ERROR` span has an empty attribute map, it returns one object per input
span, in input order, the object of a span `s` having the id of `s`, the duration
`max(1, s.Duration / 1µs)` (truncated division) and a `parentId` that is the id of the
parent when `HasParent` is true and absent (empty) otherwise; the id is 8 bytes, so
`parentId` is present exactly when `HasParent` is true. When no `ERROR` span has an
empty attribute map and some span has a zero start time, it returns an error and no
payload. But when a span with a start time, status `ERROR` and no attributes comes
first, the encoder panics, also if a later span has a zero start time. -/
theorem C14_zipkin_batch {F : Type} (fmt : FormatLib F) (spans : List (Span F)) :
    ((∀ s ∈ spans, s.StartTime.IsZero = false ∧ ¬ (s.Status.Code = "ERROR" ∧ s.Attributes = [])) →
      ∃ out, zipkin.EncodeSpans fmt spans = .ok out ∧
        List.Forall₂ (fun (s : Span F) (z : ZipkinSpan) =>
          z.ID = hexEncode s.SpanID ∧
          z.DurationMicr = (if Int.tdiv s.Duration 1000 < 1 then 1 else Int.tdiv s.Duration 1000) ∧
          z.ParentID = (if s.HasParent then hexEncode s.ParentSpanID else "") ∧
          (s.ParentSpanID.length = 8 → (z.ParentID ≠ "" ↔ s.HasParent = true))) spans out) ∧
    ((∀ s ∈ spans, ¬ (s.Status.Code = "ERROR" ∧ s.Attributes = [])) →
      (∃ s ∈ spans, s.StartTime.IsZero = true) →
      ∃ e, zipkin.EncodeSpans fmt spans = .error e) ∧
    (∀ (s : Span F) (rest : List (Span F)), spans = s :: rest → s.StartTime.IsZero = false →
      s.Status.Code = "ERROR" → s.Attributes = [] → zipkin.EncodeSpans fmt spans = .panic) := by
  refine ⟨?_, ?_, ?_⟩
  · induction spans with
    | nil => intro _; exact ⟨[], rfl, List.Forall₂.nil⟩
    | cons s rest ih =>
      intro h
      obtain ⟨hs1, hs2⟩ := h s (List.mem_cons_self _ _)
      obtain ⟨out, ho1, ho2⟩ := ih (fun t ht => h t (List.mem_cons_of_mem _ ht))
      obtain ⟨z, hz, z1, z2, z3⟩ := zipkinEncodeSpan_ok fmt s hs1 hs2
      refine ⟨z :: out, ?_, List.Forall₂.cons ⟨z1, z2, z3, ?_⟩ ho2⟩
      · rw [zipkin.EncodeSpans, hz, ho1]
      · intro hlen
        rw [z3]
        by_cases hp : s.HasParent = true
        · simp only [hp, if_true, iff_true]
          apply hexEncode_ne_empty
          intro h0
          rw [h0] at hlen
          simp at hlen
        · simp [hp]
  · induction spans with
    | nil => intro _ h; obtain ⟨s, hs, _⟩ := h; exact absurd hs (List.not_mem_nil _)
    | cons s rest ih =>
      intro hw hz
      by_cases hs : s.StartTime.IsZero = true
      · refine ⟨.zeroStartTime s.SpanID, ?_⟩
        simp [zipkin.EncodeSpans, zipkinEncodeSpan, hs]
      · have hs1 : s.StartTime.IsZero = false := by simpa using hs
        obtain ⟨z, hzok, _⟩ := zipkinEncodeSpan_ok fmt s hs1 (hw s (List.mem_cons_self _ _))
        have hrest : ∃ t ∈ rest, t.StartTime.IsZero = true := by
          obtain ⟨t, ht, ht2⟩ := hz
          rcases List.mem_cons.mp ht with rfl | ht
          · exact absurd ht2 hs
          · exact ⟨t, ht, ht2⟩
        obtain ⟨e, he⟩ := ih (fun t ht => hw t (List.mem_cons_of_mem _ ht)) hrest
        exact ⟨e, by rw [zipkin.EncodeSpans, hzok, he]⟩
  · intro s rest hsp hstart herr hattrs
    subst hsp
    simp [zipkin.EncodeSpans, zipkinEncodeSpan, hstart, herr, tagsFromAttrs, hattrs]

theorem C14_zipkin_batch_witness :
    zipkin.EncodeSpans fractionFormat [errorBareSpan, zeroStartSpan] = .panic ∧
    (∃ e, zipkin.EncodeSpans fractionFormat [errorTaggedSpan, zeroStartSpan] = .error e) ∧
    (zipkin.EncodeSpans fractionFormat [errorTaggedSpan, negativeDurationSpan] =
      .ok [{ TraceID := "00000000000000000000000000000000", ID := "0000000000000008",
             ParentID := "0000000000000007", Name := "child", Kind := "CLIENT",
             TimestampMicr := 1700000000000000, DurationMicr := 1, LocalEndpoint := "svc-a",
             Tags := some [("service.name", "svc-a"), ("cache.hit", "true"), ("error", "true")] },
           { TraceID := "00000000000000000000000000000000", ID := "0000000000000000",
             ParentID := "", Name := "bad", Kind := "INTERNAL",
             TimestampMicr := 1700000000000000, DurationMicr := 1, LocalEndpoint := "svc",
             Tags := some [("service.name", "svc")] }]) :=
  ⟨(C14_zipkin_batch fractionFormat [errorBareSpan, zeroStartSpan]).2.2 errorBareSpan
      [zeroStartSpan] rfl (by decide) (by decide) (by decide),
    (C14_zipkin_batch fractionFormat [errorTaggedSpan, zeroStartSpan]).2.1 (by decide)
      ⟨zeroStartSpan, by decide, by decide⟩,
    by decide⟩

/-! ## C15 to C19: what `Validate` accepts -/

theorem ite_some_eq_none_iff {α : Type} (p : Prop) [Decidable p] (e : α) (x : Option α) :
    (if p then some e else x) = none ↔ ¬ p ∧ x = none := by
  by_cases h : p <;> simp [h]

/-- The configurations accepted by `Validate`, check by check. -/
theorem Validate_eq_none_iff (c : Config F) :
    c.Validate = none ↔
      (¬ c.RateValue ≤ 0.0) ∧ 0 < c.RateInterval ∧
      (c.RateUnit = RateUnitSpans ∨ c.RateUnit = RateUnitTraces) ∧
      0 ≤ c.Duration ∧ 0 ≤ c.Count ∧ 0 < c.Workers ∧ 0 < c.Services ∧ 0 < c.Routes ∧
      0 < c.Depth ∧ (¬ c.Fanout ≤ 0.0) ∧
      (0 < c.P50 ∧ 0 < c.P95 ∧ 0 < c.P99) ∧ (c.P50 ≤ c.P95 ∧ c.P95 ≤ c.P99) ∧
      (¬ c.Errors < 0.0 ∧ ¬ c.Errors > 1.0 ∧ ¬ c.Retries < 0.0 ∧ ¬ c.Retries > 1.0 ∧
        ¬ c.DBHeavy < 0.0 ∧ ¬ c.DBHeavy > 1.0 ∧ ¬ c.CacheHitRate < 0.0 ∧
        ¬ c.CacheHitRate > 1.0) ∧
      (c.Profile = "web" ∨ c.Profile = "grpc" ∨ c.Profile = "queue" ∨ c.Profile = "batch") ∧
      (ToLower (TrimSpace c.Variety) = "" ∨ ToLower (TrimSpace c.Variety) = "low" ∨
        ToLower (TrimSpace c.Variety) = "medium" ∨ ToLower (TrimSpace c.Variety) = "high") ∧
      ((c.Output = "otlp" ∨ ((c.Format = "otlp-http" ∨ c.Format = "otlp-grpc") ∧ c.Output ≠ "noop")) →
        TrimSpace c.OTLPEndpoint ≠ "") ∧
      ((c.Output = "zipkin" ∨ (c.Format = "zipkin-json" ∧ c.Output ≠ "noop")) →
        TrimSpace c.ZipkinEndpoint ≠ "") ∧
      0 < c.BatchSize ∧ 0 < c.FlushInterval ∧ 0 ≤ c.SinkRetries ∧ 0 < c.SinkRetryBackoff ∧
      0 < c.SinkTimeout ∧ 0 < c.SinkMaxInFlight ∧
      ((c.Format = "jsonl" ∧ (c.Output = "stdout" ∨ c.Output = "file" ∨ c.Output = "noop")) ∨
        (c.Format = "pretty" ∧ (c.Output = "stdout" ∨ c.Output = "noop")) ∨
        (c.Format = "otlp-http" ∧ (c.Output = "otlp" ∨ c.Output = "noop")) ∨
        (c.Format = "otlp-grpc" ∧ (c.Output = "otlp" ∨ c.Output = "noop")) ∨
        (c.Format = "zipkin-json" ∧ (c.Output = "zipkin" ∨ c.Output = "noop"))) ∧
      (c.Output = "file" → TrimSpace c.File ≠ "") := by
  unfold Config.Validate
  simp only [ite_some_eq_none_iff]
  iterate 23
    refine and_congr
      (by
        first
        | exact Iff.rfl
        | exact not_le
        | exact not_lt
        | exact not_not
        | (simp; done)
        | tauto) ?_
  by_cases h1 : c.Format = "jsonl"
  · rw [h1]
    by_cases o1 : c.Output = "stdout"
    · rw [o1]; simp
    · by_cases o2 : c.Output = "file"
      · rw [o2]; simp
      · by_cases o3 : c.Output = "noop"
        · rw [o3]; simp
        · simp [o1, o2, o3]
  · by_cases h2 : c.Format = "pretty"
    · rw [h2]
      by_cases o1 : c.Output = "stdout"
      · rw [o1]; simp
      · by_cases o3 : c.Output = "noop"
        · rw [o3]; simp
        · simp [o1, o3]
    · by_cases h3 : c.Format = "otlp-http"
      · rw [h3]
        by_cases o1 : c.Output = "otlp"
        · rw [o1]; simp
        · by_cases o3 : c.Output = "noop"
          · rw [o3]; simp
          · simp [o1, o3]
      · by_cases h4 : c.Format = "otlp-grpc"
        · rw [h4]
          by_cases o1 : c.Output = "otlp"
          · rw [o1]; simp
          · by_cases o3 : c.Output = "noop"
            · rw [o3]; simp
            · simp [o1, o3]
        · by_cases h5 : c.Format = "zipkin-json"
          · rw [h5]
            by_cases o1 : c.Output = "zipkin"
            · rw [o1]; simp
            · by_cases o3 : c.Output = "noop"
              · rw [o3]; simp
              · simp [o1, o3]
          · simp [h1, h2, h3, h4, h5]

/-- C15. Every configuration accepted by `Validate` has its `(Format, Output)` pair in
the matrix jsonl-{stdout, file, noop}, pretty-{stdout, noop}, otlp-http-{otlp, noop},
otlp-grpc-{otlp, noop}, zipkin-json-{zipkin, noop}; and replacing the pair of an
accepted configuration by any pair of the matrix, together with a non-blank OTLP
endpoint for output `otlp`, a non-blank Zipkin endpoint for output `zipkin` and a
non-blank file name for output `file`, gives an accepted configuration. -/
theorem C15_format_output_matrix (c : Config F) (h : c.Validate = none) :
    ((c.Format = "jsonl" ∧ (c.Output = "stdout" ∨ c.Output = "file" ∨ c.Output = "noop")) ∨
      (c.Format = "pretty" ∧ (c.Output = "stdout" ∨ c.Output = "noop")) ∨
      (c.Format = "otlp-http" ∧ (c.Output = "otlp" ∨ c.Output = "noop")) ∨
      (c.Format = "otlp-grpc" ∧ (c.Output = "otlp" ∨ c.Output = "noop")) ∨
      (c.Format = "zipkin-json" ∧ (c.Output = "zipkin" ∨ c.Output = "noop"))) ∧
    ∀ (format output otlpEndpoint zipkinEndpoint file : String),
      ((format = "jsonl" ∧ (output = "stdout" ∨ output = "file" ∨ output = "noop")) ∨
        (format = "pretty" ∧ (output = "stdout" ∨ output = "noop")) ∨
        (format = "otlp-http" ∧ (output = "otlp" ∨ output = "noop")) ∨
        (format = "otlp-grpc" ∧ (output = "otlp" ∨ output = "noop")) ∨
        (format = "zipkin-json" ∧ (output = "zipkin" ∨ output = "noop"))) →
      (output = "otlp" → TrimSpace otlpEndpoint ≠ "") →
      (output = "zipkin" → TrimSpace zipkinEndpoint ≠ "") →
      (output = "file" → TrimSpace file ≠ "") →
      ({ c with Format := format, Output := output, OTLPEndpoint := otlpEndpoint,
                ZipkinEndpoint := zipkinEndpoint, File := file } : Config F).Validate = none := by
  have hc := (Validate_eq_none_iff c).mp h
  obtain ⟨h1, h2, h3, h4, h5, h6, h7, h8, h9, h10, h11, h12, h13, h14, h15, _, _, h18, h19, h20,
    h21, h22, h23, h24, _⟩ := hc
  refine ⟨h24, ?_⟩
  intro format output otlpEndpoint zipkinEndpoint file hpair hotlp hzipkin hfile
  rw [Validate_eq_none_iff]
  refine ⟨h1, h2, h3, h4, h5, h6, h7, h8, h9, h10, h11, h12, h13, h14, h15, ?_, ?_, h18, h19, h20,
    h21, h22, h23, hpair, hfile⟩
  · show (output = "otlp" ∨ ((format = "otlp-http" ∨ format = "otlp-grpc") ∧ output ≠ "noop")) →
      TrimSpace otlpEndpoint ≠ ""
    rintro (ho | ⟨hf, hn⟩)
    · exact hotlp ho
    · apply hotlp
      rcases hpair with ⟨_, hp⟩ | ⟨_, hp⟩ | ⟨_, hp⟩ | ⟨_, hp⟩ | ⟨hp1, _⟩
      · rcases hf with hf | hf <;> simp_all
      · rcases hf with hf | hf <;> simp_all
      · rcases hp with hp | hp
        · exact hp
        · exact absurd hp hn
      · rcases hp with hp | hp
        · exact hp
        · exact absurd hp hn
      · rcases hf with hf | hf <;> simp_all
  · show (output = "zipkin" ∨ (format = "zipkin-json" ∧ output ≠ "noop")) →
      TrimSpace zipkinEndpoint ≠ ""
    rintro (ho | ⟨hf, hn⟩)
    · exact hzipkin ho
    · apply hzipkin
      rcases hpair with ⟨hp1, _⟩ | ⟨hp1, _⟩ | ⟨hp1, _⟩ | ⟨hp1, _⟩ | ⟨_, hp⟩
      · simp_all
      · simp_all
      · simp_all
      · simp_all
      · rcases hp with hp | hp
        · exact hp
        · exact absurd hp hn

theorem C15_format_output_matrix_witness :
    scenarioConfig.Validate = none ∧
    (scenarioConfig.Format = "jsonl" ∧ scenarioConfig.Output = "stdout") ∧
    ({ scenarioConfig with Format := "otlp-grpc", Output := "otlp",
                           OTLPEndpoint := "collector:4317", ZipkinEndpoint := "",
                           File := "" } : Config DecFloat).Validate = none ∧
    ({ scenarioConfig with Format := "jsonl", Output := "file", OTLPEndpoint := "",
                           ZipkinEndpoint := "", File := "out.jsonl" } : Config DecFloat).Validate
      = none :=
  ⟨by decide, by decide,
    (C15_format_output_matrix scenarioConfig (by decide)).2 "otlp-grpc" "otlp" "collector:4317" ""
      "" (by decide) (by decide) (by decide) (by decide),
    (C15_format_output_matrix scenarioConfig (by decide)).2 "jsonl" "file" "" "" "out.jsonl"
      (by decide) (by decide) (by decide) (by decide)⟩

/-- A string is trimmed to the empty string exactly when it is empty or blank: all its
characters are white space. -/
theorem TrimSpace_eq_empty_iff (s : String) :
    TrimSpace s = "" ↔ ∀ ch ∈ s.data, isSpace ch = true := by
  unfold TrimSpace
  constructor
  · intro h
    have h1 : ((s.data.dropWhile isSpace).reverse.dropWhile isSpace).reverse = [] :=
      congrArg String.data h
    have h2 : (s.data.dropWhile isSpace).reverse.dropWhile isSpace = [] :=
      List.reverse_eq_nil_iff.mp h1
    have h3 : ∀ ch ∈ s.data.dropWhile isSpace, isSpace ch = true := by
      intro ch hch
      exact (List.dropWhile_eq_nil_iff.mp h2) ch (List.mem_reverse.mpr hch)
    have h4 : s.data.dropWhile isSpace = [] := by
      cases hd : s.data.dropWhile isSpace with
      | nil => rfl
      | cons x xs =>
        have hx := h3 x (by rw [hd]; exact List.mem_cons_self _ _)
        have hn := List.head_dropWhile_not isSpace s.data (by rw [hd]; exact List.cons_ne_nil _ _)
        simp only [hd, List.head_cons] at hn
        rw [hx] at hn
        exact absurd hn (by decide)
    exact List.dropWhile_eq_nil_iff.mp h4
  · intro h
    have h4 : s.data.dropWhile isSpace = [] := List.dropWhile_eq_nil_iff.mpr h
    rw [h4]
    rfl

/-- C16. `Validate` rejects every configuration with output `otlp` whose OTLP endpoint
is empty or blank and every configuration with output `zipkin` whose Zipkin endpoint
is empty or blank (a string is empty or blank exactly when `TrimSpace` maps it to the
empty string); and it requires no endpoint for output `noop`: an accepted
configuration stays accepted when its format becomes `otlp-http`, `otlp-grpc` or
`zipkin-json`, its output `noop` and both endpoints empty. -/
theorem C16_endpoint_required (c : Config F) :
    (c.Output = "otlp" → (∀ ch ∈ c.OTLPEndpoint.data, isSpace ch = true) → c.Validate ≠ none) ∧
    (c.Output = "zipkin" → (∀ ch ∈ c.ZipkinEndpoint.data, isSpace ch = true) →
      c.Validate ≠ none) ∧
    (c.Validate = none → ∀ format : String,
      format = "otlp-http" ∨ format = "otlp-grpc" ∨ format = "zipkin-json" →
      ({ c with Format := format, Output := "noop", OTLPEndpoint := "",
                ZipkinEndpoint := "" } : Config F).Validate = none) := by
  refine ⟨?_, ?_, ?_⟩
  · intro ho hb hv
    have hc := (Validate_eq_none_iff c).mp hv
    exact hc.2.2.2.2.2.2.2.2.2.2.2.2.2.2.2.1 (Or.inl ho) ((TrimSpace_eq_empty_iff _).mpr hb)
  · intro ho hb hv
    have hc := (Validate_eq_none_iff c).mp hv
    exact hc.2.2.2.2.2.2.2.2.2.2.2.2.2.2.2.2.1 (Or.inl ho) ((TrimSpace_eq_empty_iff _).mpr hb)
  · intro hv format hf
    have hc := (Validate_eq_none_iff c).mp hv
    obtain ⟨h1, h2, h3, h4, h5, h6, h7, h8, h9, h10, h11, h12, h13, h14, h15, _, _, h18, h19,
      h20, h21, h22, h23, _, _⟩ := hc
    rw [Validate_eq_none_iff]
    refine ⟨h1, h2, h3, h4, h5, h6, h7, h8, h9, h10, h11, h12, h13, h14, h15, ?_, ?_, h18, h19,
      h20, h21, h22, h23, ?_, ?_⟩
    · show (("noop" : String) = "otlp" ∨ ((format = "otlp-http" ∨ format = "otlp-grpc") ∧
        ("noop" : String) ≠ "noop")) → TrimSpace "" ≠ ""
      rintro (h | ⟨_, h⟩)
      · exact absurd h (by decide)
      · exact absurd rfl h
    · show (("noop" : String) = "zipkin" ∨ (format = "zipkin-json" ∧
        ("noop" : String) ≠ "noop")) → TrimSpace "" ≠ ""
      rintro (h | ⟨_, h⟩)
      · exact absurd h (by decide)
      · exact absurd rfl h
    · show (format = "jsonl" ∧ _) ∨ (format = "pretty" ∧ _) ∨
        (format = "otlp-http" ∧ (("noop" : String) = "otlp" ∨ ("noop" : String) = "noop")) ∨
        (format = "otlp-grpc" ∧ (("noop" : String) = "otlp" ∨ ("noop" : String) = "noop")) ∨
        (format = "zipkin-json" ∧ (("noop" : String) = "zipkin" ∨ ("noop" : String) = "noop"))
      rcases hf with hf | hf | hf
      · exact Or.inr (Or.inr (Or.inl ⟨hf, Or.inr rfl⟩))
      · exact Or.inr (Or.inr (Or.inr (Or.inl ⟨hf, Or.inr rfl⟩)))
      · exact Or.inr (Or.inr (Or.inr (Or.inr ⟨hf, Or.inr rfl⟩)))
    · show ("noop" : String) = "file" → _
      intro h
      exact absurd h (by decide)

theorem C16_endpoint_required_witness :
    blankOTLPEndpointConfig.Validate ≠ none ∧ noZipkinEndpointConfig.Validate ≠ none ∧
    ({ scenarioConfig with Format := "zipkin-json", Output := "noop", OTLPEndpoint := "",
                           ZipkinEndpoint := "" } : Config DecFloat).Validate = none :=
  ⟨(C16_endpoint_required blankOTLPEndpointConfig).1 (by decide) (by decide),
    (C16_endpoint_required noZipkinEndpointConfig).2.1 (by decide) (by decide),
    (C16_endpoint_required scenarioConfig).2.2 (by decide) "zipkin-json" (by decide)⟩

/-- C17, as stated, fails: the scenario configuration with `Variety = " LOW "` is
accepted although that string is none of `""`, `"low"`, `"medium"`, `"high"`. -/
theorem C17_padded_variety_accepted :
    paddedVarietyConfig.Validate = none ∧ paddedVarietyConfig.Variety = " LOW " ∧
    ¬ (paddedVarietyConfig.Variety = "" ∨ paddedVarietyConfig.Variety = "low" ∨
      paddedVarietyConfig.Variety = "medium" ∨ paddedVarietyConfig.Variety = "high") := by
  decide

/-- C17, amended. `Validate` compares the variety after trimming white space and
lower-casing it: every accepted configuration has `ToLower (TrimSpace Variety)` equal
to one of `""`, `"low"`, `"medium"`, `"high"`, and every configuration whose
normalised variety is none of the four is rejected. -/
theorem C17_variety_normalised (c : Config F) :
    (c.Validate = none →
      ToLower (TrimSpace c.Variety) = "" ∨ ToLower (TrimSpace c.Variety) = "low" ∨
      ToLower (TrimSpace c.Variety) = "medium" ∨ ToLower (TrimSpace c.Variety) = "high") ∧
    (¬ (ToLower (TrimSpace c.Variety) = "" ∨ ToLower (TrimSpace c.Variety) = "low" ∨
        ToLower (TrimSpace c.Variety) = "medium" ∨ ToLower (TrimSpace c.Variety) = "high") →
      c.Validate ≠ none) := by
  have key : c.Validate = none →
      ToLower (TrimSpace c.Variety) = "" ∨ ToLower (TrimSpace c.Variety) = "low" ∨
      ToLower (TrimSpace c.Variety) = "medium" ∨ ToLower (TrimSpace c.Variety) = "high" :=
    fun h => ((Validate_eq_none_iff c).mp h).2.2.2.2.2.2.2.2.2.2.2.2.2.2.1
  exact ⟨key, fun hn hv => hn (key hv)⟩

theorem C17_variety_normalised_witness :
    paddedVarietyConfig.Validate = none ∧
    ToLower (TrimSpace paddedVarietyConfig.Variety) = "low" ∧
    ({ scenarioConfig with Variety := "extreme" } : Config DecFloat).Validate ≠ none :=
  ⟨by decide, by decide,
    (C17_variety_normalised ({ scenarioConfig with Variety := "extreme" } : Config DecFloat)).2
      (by decide)⟩

/-- C18, as stated, fails: a configuration for an OTLP/HTTP collector with
`Compress = "zstd"` is accepted. -/
theorem C18_unknown_compress_accepted :
    zstdConfig.Validate = none ∧ zstdConfig.Compress = "zstd" ∧
    ¬ (zstdConfig.Compress = "" ∨ zstdConfig.Compress = "gzip") := by
  decide

/-- C18, amended. `Validate` does not look at `Compress`: its result is the same
whatever the compress value, so an accepted configuration stays accepted with any
compress value. -/
theorem C18_compress_not_validated (c : Config F) (compress : String) :
    ({ c with Compress := compress } : Config F).Validate = c.Validate := by
  rfl

/-- C19. What an accepted configuration satisfies. The integer and duration settings
and the profile satisfy the constraints of the configuration surface. For the
`float64` settings `Validate` only knows that the rejecting comparison is false:
`RateValue <= 0`, `Fanout <= 0`, `x < 0` and `x > 1` for the four probabilities. In
exact arithmetic that gives `RateValue > 0`, `Fanout > 0` and the probabilities in
`[0, 1]`; but a NaN makes every comparison false, so the scenario configuration with a
NaN rate, and the one with NaN as fanout and as the four probabilities, are accepted
although `RateValue > 0`, `Fanout > 0` and `0 <= Errors` do not hold. -/
theorem C19_numeric_constraints (c : Config F) (h : c.Validate = none) :
    (0 < c.RateInterval ∧ 0 ≤ c.Duration ∧ 0 ≤ c.Count ∧ 0 < c.Workers ∧ 0 < c.Routes ∧
      0 < c.Services ∧ 0 < c.Depth ∧ 0 < c.P50 ∧ c.P50 ≤ c.P95 ∧ c.P95 ≤ c.P99 ∧
      0 < c.BatchSize ∧ 0 < c.FlushInterval ∧ 0 ≤ c.SinkRetries ∧ 0 < c.SinkRetryBackoff ∧
      0 < c.SinkTimeout ∧ 0 < c.SinkMaxInFlight ∧
      (c.Profile = "web" ∨ c.Profile = "grpc" ∨ c.Profile = "queue" ∨ c.Profile = "batch")) ∧
    (¬ c.RateValue ≤ 0.0 ∧ ¬ c.Fanout ≤ 0.0 ∧
      ¬ c.Errors < 0.0 ∧ ¬ c.Errors > 1.0 ∧ ¬ c.Retries < 0.0 ∧ ¬ c.Retries > 1.0 ∧
      ¬ c.DBHeavy < 0.0 ∧ ¬ c.DBHeavy > 1.0 ∧ ¬ c.CacheHitRate < 0.0 ∧
      ¬ c.CacheHitRate > 1.0) ∧
    (∀ q : Config ℚ, q.Validate = none →
      (0 : ℚ) < q.RateValue ∧ (0 : ℚ) < q.Fanout ∧
      ((0 : ℚ) ≤ q.Errors ∧ q.Errors ≤ (1 : ℚ)) ∧ ((0 : ℚ) ≤ q.Retries ∧ q.Retries ≤ (1 : ℚ)) ∧
      ((0 : ℚ) ≤ q.DBHeavy ∧ q.DBHeavy ≤ (1 : ℚ)) ∧
      ((0 : ℚ) ≤ q.CacheHitRate ∧ q.CacheHitRate ≤ (1 : ℚ))) ∧
    (nanRateConfig.Validate = none ∧ ¬ (0.0 < nanRateConfig.RateValue) ∧
      nanRatiosConfig.Validate = none ∧ ¬ (0.0 < nanRatiosConfig.Fanout) ∧
      ¬ (0.0 ≤ nanRatiosConfig.Errors) ∧ ¬ (nanRatiosConfig.Errors ≤ 1.0) ∧
      ¬ (0.0 ≤ nanRatiosConfig.Retries) ∧ ¬ (0.0 ≤ nanRatiosConfig.DBHeavy) ∧
      ¬ (0.0 ≤ nanRatiosConfig.CacheHitRate)) := by
  obtain ⟨h1, h2, _, h4, h5, h6, h7, h8, h9, h10, ⟨h11a, _, _⟩, ⟨h12a, h12b⟩, h13, h14, _, _, _, h18,
    h19, h20, h21, h22, h23, _, _⟩ := (Validate_eq_none_iff c).mp h
  refine ⟨⟨h2, h4, h5, h6, h8, h7, h9, h11a, h12a, h12b, h18, h19, h20, h21, h22, h23, h14⟩,
    ⟨h1, h10, h13⟩, ?_, by decide⟩
  intro q hq
  obtain ⟨q1, _, _, _, _, _, _, _, _, q10, _, _, ⟨e1, e2, e3, e4, e5, e6, e7, e8⟩, _⟩ :=
    (Validate_eq_none_iff q).mp hq
  have z : (0.0 : ℚ) = 0 := by norm_num
  have o : (1.0 : ℚ) = 1 := by norm_num
  rw [ratLE, ratLit] at q1 q10
  rw [ratLT, ratLit] at e1 e3 e5 e7
  rw [gt_iff_lt, ratLT, ratLit] at e2 e4 e6 e8
  rw [z] at q1 q10 e1 e3 e5 e7
  rw [o] at e2 e4 e6 e8
  exact ⟨not_le.mp q1, not_le.mp q10, ⟨not_lt.mp e1, not_lt.mp e2⟩, ⟨not_lt.mp e3, not_lt.mp e4⟩,
    ⟨not_lt.mp e5, not_lt.mp e6⟩, ⟨not_lt.mp e7, not_lt.mp e8⟩⟩

theorem C19_numeric_constraints_witness :
    scenarioConfig.Validate = none ∧ 0 < scenarioConfig.Workers ∧
    ¬ scenarioConfig.RateValue ≤ 0.0 ∧ nanRateConfig.Validate = none :=
  ⟨by decide, (C19_numeric_constraints scenarioConfig (by decide)).1.2.2.2.1,
    (C19_numeric_constraints scenarioConfig (by decide)).2.1.1,
    (C19_numeric_constraints scenarioConfig (by decide)).2.2.2.1⟩

/-! ## C20: the precedence of flags, environment and configuration file -/

theorem bind_eq_ok_iff {ε α β : Type} (x : Except ε α) (f : α → Except ε β) (b : β) :
    (x >>= f) = .ok b ↔ ∃ a, x = .ok a ∧ f a = .ok b := by
  cases x with
  | error e => simp [bind, Except.bind]
  | ok a => simp [bind, Except.bind]

/-- What a successful `applyYAML` returns, field by field. -/
theorem applyYAML_ok {F : Type} (H : HostEnv F) (y : yamlFlagValues F) (v w : FlagValues F)
    (ov : Option (String → Bool)) (h : applyYAML H y v ov = .ok w) :
    w.ConfigFile = v.ConfigFile ∧
    w.Rate = yamlSet ov "rate" y.Rate v.Rate ∧
    w.RateUnit = yamlSet ov "rate-unit" y.RateUnit v.RateUnit ∧
    yamlSetDuration H ov "rate-interval" y.RateInterval v.RateInterval = .ok w.RateInterval ∧
    yamlSetDuration H ov "duration" y.Duration v.Duration = .ok w.Duration ∧
    w.Count = yamlSet ov "count" y.Count v.Count ∧
    w.Seed = yamlSet ov "seed" y.Seed v.Seed ∧
    w.Workers = yamlSet ov "workers" y.Workers v.Workers ∧
    w.Profile = yamlSet ov "profile" y.Profile v.Profile ∧
    w.Routes = yamlSet ov "routes" y.Routes v.Routes ∧
    w.Services = yamlSet ov "services" y.Services v.Services ∧
    w.Depth = yamlSet ov "depth" y.Depth v.Depth ∧
    w.Fanout = yamlSet ov "fanout" y.Fanout v.Fanout ∧
    w.ServicePrefix = yamlSet ov "service-prefix" y.ServicePrefix v.ServicePrefix ∧
    yamlSetDuration H ov "p50" y.P50 v.P50 = .ok w.P50 ∧
    yamlSetDuration H ov "p95" y.P95 v.P95 = .ok w.P95 ∧
    yamlSetDuration H ov "p99" y.P99 v.P99 = .ok w.P99 ∧
    w.Errors = yamlSet ov "errors" y.Errors v.Errors ∧
    w.Retries = yamlSet ov "retries" y.Retries v.Retries ∧
    w.DBHeavy = yamlSet ov "db-heavy" y.DBHeavy v.DBHeavy ∧
    w.CacheHitRate = yamlSet ov "cache-hit-rate" y.CacheHitRate v.CacheHitRate ∧
    w.Variety = yamlSet ov "variety" y.Variety v.Variety ∧
    w.HighCardinality = yamlSet ov "high-cardinality" y.HighCardinality v.HighCardinality ∧
    w.Format = yamlSet ov "format" y.Format v.Format ∧
    w.Output = yamlSet ov "output" y.Output v.Output ∧
    w.File = yamlSet ov "file" y.File v.File ∧
    w.OTLPEndpoint = yamlSet ov "otlp-endpoint" y.OTLPEndpoint v.OTLPEndpoint ∧
    w.ZipkinEndpoint = yamlSet ov "zipkin-endpoint" y.ZipkinEndpoint v.ZipkinEndpoint ∧
    w.OTLPInsecure = yamlSet ov "otlp-insecure" y.OTLPInsecure v.OTLPInsecure ∧
    w.Headers = (if y.Headers.length > 0 ∧ ¬ overridden ov "headers" then y.Headers else v.Headers) ∧
    w.Compress = yamlSet ov "compress" y.Compress v.Compress ∧
    w.BatchSize = yamlSet ov "batch-size" y.BatchSize v.BatchSize ∧
    yamlSetDuration H ov "flush-interval" y.FlushInterval v.FlushInterval = .ok w.FlushInterval ∧
    w.SinkRetries = yamlSet ov "sink-retries" y.SinkRetries v.SinkRetries ∧
    yamlSetDuration H ov "sink-retry-backoff" y.SinkRetryBackoff v.SinkRetryBackoff = .ok w.SinkRetryBackoff ∧
    yamlSetDuration H ov "sink-timeout" y.SinkTimeout v.SinkTimeout = .ok w.SinkTimeout ∧
    w.SinkMaxInFlight = yamlSet ov "sink-max-in-flight" y.SinkMaxInFlight v.SinkMaxInFlight ∧
    w.ReportFile = yamlSet ov "report-file" y.ReportFile v.ReportFile ∧
    w.HTTPListen = yamlSet ov "http-listen" y.HTTPListen v.HTTPListen ∧
    w.Debug = yamlSet ov "debug" y.Debug v.Debug := by
  unfold applyYAML at h
  simp only [bind_eq_ok_iff, pure, Except.pure, Except.ok.injEq] at h
  obtain ⟨d0, e0, d1, e1, d2, e2, d3, e3, d4, e4, d5, e5, d6, e6, d7, e7, rfl⟩ := h
  simp only [e0, e1, e2, e3, e4, e5, e6, e7, and_self, true_and]

/-- What a successful `mergeFromEnv` returns, field by field. -/
theorem mergeFromEnv_ok {F : Type} (H : HostEnv F) (v w : FlagValues F)
    (ov : Option (String → Bool)) (h : mergeFromEnv H v ov = .ok w) :
    w.ConfigFile = v.ConfigFile ∧
    envSet H ov H.ParseFloat "rate" "SPANFORGE_RATE" v.Rate = .ok w.Rate ∧
    w.RateUnit = envSetString H ov "rate-unit" "SPANFORGE_RATE_UNIT" v.RateUnit ∧
    envSet H ov H.ParseDuration "rate-interval" "SPANFORGE_RATE_INTERVAL" v.RateInterval = .ok w.RateInterval ∧
    envSet H ov H.ParseDuration "duration" "SPANFORGE_DURATION" v.Duration = .ok w.Duration ∧
    envSet H ov H.Atoi "count" "SPANFORGE_COUNT" v.Count = .ok w.Count ∧
    envSet H ov H.ParseInt "seed" "SPANFORGE_SEED" v.Seed = .ok w.Seed ∧
    envSet H ov H.Atoi "workers" "SPANFORGE_WORKERS" v.Workers = .ok w.Workers ∧
    w.Profile = envSetString H ov "profile" "SPANFORGE_PROFILE" v.Profile ∧
    envSet H ov H.Atoi "routes" "SPANFORGE_ROUTES" v.Routes = .ok w.Routes ∧
    envSet H ov H.Atoi "services" "SPANFORGE_SERVICES" v.Services = .ok w.Services ∧
    envSet H ov H.Atoi "depth" "SPANFORGE_DEPTH" v.Depth = .ok w.Depth ∧
    envSet H ov H.ParseFloat "fanout" "SPANFORGE_FANOUT" v.Fanout = .ok w.Fanout ∧
    w.ServicePrefix = envSetString H ov "service-prefix" "SPANFORGE_SERVICE_PREFIX" v.ServicePrefix ∧
    envSet H ov H.ParseDuration "p50" "SPANFORGE_P50" v.P50 = .ok w.P50 ∧
    envSet H ov H.ParseDuration "p95" "SPANFORGE_P95" v.P95 = .ok w.P95 ∧
    envSet H ov H.ParseDuration "p99" "SPANFORGE_P99" v.P99 = .ok w.P99 ∧
    w.Errors = envSetString H ov "errors" "SPANFORGE_ERRORS" v.Errors ∧
    w.Retries = envSetString H ov "retries" "SPANFORGE_RETRIES" v.Retries ∧
    w.DBHeavy = envSetString H ov "db-heavy" "SPANFORGE_DB_HEAVY" v.DBHeavy ∧
    w.CacheHitRate = envSetString H ov "cache-hit-rate" "SPANFORGE_CACHE_HIT_RATE" v.CacheHitRate ∧
    w.Variety = envSetString H ov "variety" "SPANFORGE_VARIETY" v.Variety ∧
    envSet H ov H.ParseBool "high-cardinality" "SPANFORGE_HIGH_CARDINALITY" v.HighCardinality = .ok w.HighCardinality ∧
    w.Format = envSetString H ov "format" "SPANFORGE_FORMAT" v.Format ∧
    w.Output = envSetString H ov "output" "SPANFORGE_OUTPUT" v.Output ∧
    w.File = envSetString H ov "file" "SPANFORGE_FILE" v.File ∧
    w.OTLPEndpoint = envSetString H ov "otlp-endpoint" "SPANFORGE_OTLP_ENDPOINT" v.OTLPEndpoint ∧
    w.ZipkinEndpoint = envSetString H ov "zipkin-endpoint" "SPANFORGE_ZIPKIN_ENDPOINT" v.ZipkinEndpoint ∧
    envSet H ov H.ParseBool "otlp-insecure" "SPANFORGE_OTLP_INSECURE" v.OTLPInsecure = .ok w.OTLPInsecure ∧
    w.Headers = envHeaders H ov v.Headers ∧
    w.Compress = envSetString H ov "compress" "SPANFORGE_COMPRESS" v.Compress ∧
    envSet H ov H.Atoi "batch-size" "SPANFORGE_BATCH_SIZE" v.BatchSize = .ok w.BatchSize ∧
    envSet H ov H.ParseDuration "flush-interval" "SPANFORGE_FLUSH_INTERVAL" v.FlushInterval = .ok w.FlushInterval ∧
    envSet H ov H.Atoi "sink-retries" "SPANFORGE_SINK_RETRIES" v.SinkRetries = .ok w.SinkRetries ∧
    envSet H ov H.ParseDuration "sink-retry-backoff" "SPANFORGE_SINK_RETRY_BACKOFF" v.SinkRetryBackoff = .ok w.SinkRetryBackoff ∧
    envSet H ov H.ParseDuration "sink-timeout" "SPANFORGE_SINK_TIMEOUT" v.SinkTimeout = .ok w.SinkTimeout ∧
    envSet H ov H.Atoi "sink-max-in-flight" "SPANFORGE_SINK_MAX_IN_FLIGHT" v.SinkMaxInFlight = .ok w.SinkMaxInFlight ∧
    w.ReportFile = envSetString H ov "report-file" "SPANFORGE_REPORT_FILE" v.ReportFile ∧
    w.HTTPListen = envSetString H ov "http-listen" "SPANFORGE_HTTP_LISTEN" v.HTTPListen ∧
    envSet H ov H.ParseBool "debug" "SPANFORGE_DEBUG" v.Debug = .ok w.Debug := by
  unfold mergeFromEnv at h
  simp only [bind_eq_ok_iff, pure, Except.pure, Except.ok.injEq] at h
  obtain ⟨d0, e0, d1, e1, d2, e2, d3, e3, d4, e4, d5, e5, d6, e6, d7, e7, d8, e8, d9, e9, d10, e10, d11, e11, d12, e12, d13, e13, d14, e14, d15, e15, d16, e16, d17, e17, d18, e18, d19, e19, d20, e20, d21, e21, rfl⟩ := h
  simp only [e0, e1, e2, e3, e4, e5, e6, e7, e8, e9, e10, e11, e12, e13, e14, e15, e16, e17, e18, e19, e20, e21, and_self, true_and]

/-- A setting read as a string from the file and from the environment. -/
theorem precedence_string {F : Type} (H : HostEnv F) (ov : Option (String → Bool))
    (flag env : String) (src : Option String) (dst : String) :
    envSetString H ov flag env (yamlSet ov flag src dst) =
      precedence (overridden ov flag) dst (H.LookupEnv env) src := by
  unfold envSetString yamlSet precedence
  cases overridden ov flag <;> cases H.LookupEnv env <;> cases src <;> simp

/-- A setting read as a value from the file and parsed from the environment. -/
theorem precedence_parsed {F α : Type} (H : HostEnv F) (ov : Option (String → Bool))
    (parse : String → Option α) (flag env : String) (src : Option α) (dst x : α)
    (h : envSet H ov parse flag env (yamlSet ov flag src dst) = .ok x) :
    x = precedence (overridden ov flag) dst
      ((H.LookupEnv env).bind (fun raw => parse (TrimSpace raw))) src := by
  unfold envSet yamlSet at h
  unfold precedence
  cases ho : overridden ov flag <;> cases he : H.LookupEnv env <;> cases src <;>
    simp [ho, he] at h ⊢
  all_goals first
    | exact h.symm
    | (cases hp : parse (TrimSpace _) <;> simp [hp] at h ⊢; exact h.symm)

/-- A duration parsed from the file and from the environment. -/
theorem precedence_duration {F : Type} (H : HostEnv F) (ov : Option (String → Bool))
    (flag env : String) (src : Option String) (dst d x : time.Duration)
    (hy : yamlSetDuration H ov flag src dst = .ok d)
    (h : envSet H ov H.ParseDuration flag env d = .ok x) :
    x = precedence (overridden ov flag) dst
      ((H.LookupEnv env).bind (fun raw => H.ParseDuration (TrimSpace raw)))
      (src.bind H.ParseDuration) := by
  unfold envSet at h
  unfold yamlSetDuration at hy
  unfold precedence
  cases ho : overridden ov flag <;> cases he : H.LookupEnv env <;> cases src <;>
    simp [ho, he] at h hy ⊢
  all_goals (try split at h) <;> (try split at hy) <;> simp_all

/-- The header block of `mergeFromEnv` after the header statement of `mergeFromYAML`. -/
theorem resolvedHeaders_eq {F : Type} (H : HostEnv F) (ov : Option (String → Bool))
    (flagValue yamlValue : List String) :
    envHeaders H ov
        (if yamlValue.length > 0 ∧ ¬ overridden ov "headers" then yamlValue else flagValue) =
      resolvedHeaders (overridden ov "headers") flagValue (H.LookupEnv "SPANFORGE_HEADERS")
        yamlValue := by
  unfold envHeaders resolvedHeaders
  cases overridden ov "headers" <;> cases H.LookupEnv "SPANFORGE_HEADERS" <;> simp

/-- The configuration file leaves every flag value but the file name unchanged. -/
theorem resolveConfigFile_frame {F : Type} (H : HostEnv F) (v : FlagValues F)
    (ov : Option (String → Bool)) :
    ∃ file, resolveConfigFile H v ov = { v with ConfigFile := file } := by
  unfold resolveConfigFile
  split_ifs
  · cases H.LookupEnv "SPANFORGE_CONFIG" with
    | none => exact ⟨v.ConfigFile, rfl⟩
    | some raw => exact ⟨TrimSpace raw, rfl⟩
  · exact ⟨v.ConfigFile, rfl⟩

/-- Without a configuration file the values pass unchanged, as with a file that sets
nothing. -/
theorem applyYAML_empty {F : Type} (H : HostEnv F) (v : FlagValues F)
    (ov : Option (String → Bool)) : applyYAML H {} v ov = .ok v := by
  rfl

/-- The steps of a successful `FromFlagsWithOverrides`. -/
theorem FromFlagsWithOverrides_ok (H : HostEnv F) (v : FlagValues F)
    (ov : Option (String → Bool)) (cfg : Config F)
    (h : FromFlagsWithOverrides H v ov = .ok cfg) :
    ∃ (y : yamlFlagValues F) (v1 v2 : FlagValues F),
      (((resolveConfigFile H v ov).ConfigFile = "" ∧ y = {}) ∨
        ((resolveConfigFile H v ov).ConfigFile ≠ "" ∧ ∃ data,
          H.ReadFile (resolveConfigFile H v ov).ConfigFile = some data ∧
          H.yamlUnmarshal data = some y)) ∧
      applyYAML H y (resolveConfigFile H v ov) ov = .ok v1 ∧
      mergeFromEnv H v1 ov = .ok v2 ∧
      ParseRateUnit v2.RateUnit = .ok cfg.RateUnit ∧
      ParsePercent H v2.Errors = .ok cfg.Errors ∧
      ParsePercent H v2.Retries = .ok cfg.Retries ∧
      ParsePercent H v2.DBHeavy = .ok cfg.DBHeavy ∧
      ParsePercent H v2.CacheHitRate = .ok cfg.CacheHitRate ∧
      ParseHeaders v2.Headers = .ok cfg.Headers ∧
      cfg.Validate = none ∧
      cfg.RateValue = v2.Rate ∧ cfg.RateInterval = v2.RateInterval ∧ cfg.Duration = v2.Duration ∧
      cfg.Count = v2.Count ∧ cfg.Seed = v2.Seed ∧ cfg.Workers = v2.Workers ∧
      cfg.Profile = v2.Profile ∧ cfg.Routes = v2.Routes ∧ cfg.Services = v2.Services ∧
      cfg.Depth = v2.Depth ∧ cfg.Fanout = v2.Fanout ∧ cfg.ServicePrefix = v2.ServicePrefix ∧
      cfg.P50 = v2.P50 ∧ cfg.P95 = v2.P95 ∧ cfg.P99 = v2.P99 ∧ cfg.Variety = v2.Variety ∧
      cfg.HighCardinality = v2.HighCardinality ∧ cfg.Format = v2.Format ∧
      cfg.Output = v2.Output ∧ cfg.File = v2.File ∧ cfg.OTLPEndpoint = v2.OTLPEndpoint ∧
      cfg.ZipkinEndpoint = v2.ZipkinEndpoint ∧ cfg.OTLPInsecure = v2.OTLPInsecure ∧
      cfg.Compress = v2.Compress ∧ cfg.BatchSize = v2.BatchSize ∧
      cfg.FlushInterval = v2.FlushInterval ∧ cfg.SinkRetries = v2.SinkRetries ∧
      cfg.SinkRetryBackoff = v2.SinkRetryBackoff ∧ cfg.SinkTimeout = v2.SinkTimeout ∧
      cfg.SinkMaxInFlight = v2.SinkMaxInFlight ∧ cfg.ReportFile = v2.ReportFile ∧
      cfg.HTTPListen = v2.HTTPListen ∧ cfg.Debug = v2.Debug := by
  unfold FromFlagsWithOverrides at h
  simp only [bind_eq_ok_iff] at h
  obtain ⟨v1, hv1, v2, hv2, ru, hru, er, her, re, hre, db, hdb, ch, hch, hd, hhd, hval⟩ := h
  have hvalid : ∃ c : Config F, c.Validate = none ∧ c = cfg ∧ c.RateUnit = ru ∧ c.Errors = er ∧
      c.Retries = re ∧ c.DBHeavy = db ∧ c.CacheHitRate = ch ∧ c.Headers = hd ∧
      c.RateValue = v2.Rate ∧ c.RateInterval = v2.RateInterval ∧ c.Duration = v2.Duration ∧
      c.Count = v2.Count ∧ c.Seed = v2.Seed ∧ c.Workers = v2.Workers ∧
      c.Profile = v2.Profile ∧ c.Routes = v2.Routes ∧ c.Services = v2.Services ∧
      c.Depth = v2.Depth ∧ c.Fanout = v2.Fanout ∧ c.ServicePrefix = v2.ServicePrefix ∧
      c.P50 = v2.P50 ∧ c.P95 = v2.P95 ∧ c.P99 = v2.P99 ∧ c.Variety = v2.Variety ∧
      c.HighCardinality = v2.HighCardinality ∧ c.Format = v2.Format ∧
      c.Output = v2.Output ∧ c.File = v2.File ∧ c.OTLPEndpoint = v2.OTLPEndpoint ∧
      c.ZipkinEndpoint = v2.ZipkinEndpoint ∧ c.OTLPInsecure = v2.OTLPInsecure ∧
      c.Compress = v2.Compress ∧ c.BatchSize = v2.BatchSize ∧
      c.FlushInterval = v2.FlushInterval ∧ c.SinkRetries = v2.SinkRetries ∧
      c.SinkRetryBackoff = v2.SinkRetryBackoff ∧ c.SinkTimeout = v2.SinkTimeout ∧
      c.SinkMaxInFlight = v2.SinkMaxInFlight ∧ c.ReportFile = v2.ReportFile ∧
      c.HTTPListen = v2.HTTPListen ∧ c.Debug = v2.Debug := by
    split at hval
    · exact absurd hval (by simp)
    · rename_i hnone
      simp only [pure, Except.pure, Except.ok.injEq] at hval
      exact ⟨_, hnone, hval, rfl, rfl, rfl, rfl, rfl, rfl, rfl, rfl, rfl, rfl, rfl, rfl, rfl, rfl,
        rfl, rfl, rfl, rfl, rfl, rfl, rfl, rfl, rfl, rfl, rfl, rfl, rfl, rfl, rfl, rfl, rfl, rfl,
        rfl, rfl, rfl, rfl, rfl, rfl, rfl⟩
  obtain ⟨c, hc0, rfl, rfl, rfl, rfl, rfl, rfl, rfl, hrest⟩ := hvalid
  have hyaml : ∃ y : yamlFlagValues F,
      (((resolveConfigFile H v ov).ConfigFile = "" ∧ y = {}) ∨
        ((resolveConfigFile H v ov).ConfigFile ≠ "" ∧ ∃ data,
          H.ReadFile (resolveConfigFile H v ov).ConfigFile = some data ∧
          H.yamlUnmarshal data = some y)) ∧
      applyYAML H y (resolveConfigFile H v ov) ov = .ok v1 := by
    by_cases hf : (resolveConfigFile H v ov).ConfigFile = ""
    · refine ⟨{}, Or.inl ⟨hf, rfl⟩, ?_⟩
      simp only [hf, ne_eq, not_true_eq_false, if_false, pure, Except.pure,
        Except.ok.injEq] at hv1
      rw [applyYAML_empty, hv1]
    · simp only [ne_eq, hf, not_false_eq_true, if_true] at hv1
      unfold mergeFromYAML at hv1
      cases hr : H.ReadFile (resolveConfigFile H v ov).ConfigFile with
      | none => simp [hr] at hv1
      | some data =>
        cases hu : H.yamlUnmarshal data with
        | none => simp [hr, hu] at hv1
        | some y =>
          simp only [hr, hu] at hv1
          exact ⟨y, Or.inr ⟨hf, data, rfl, hu⟩, hv1⟩
  obtain ⟨y, hy1, hy2⟩ := hyaml
  exact ⟨y, v1, v2, hy1, hy2, hv2, hru, her, hre, hdb, hch, hhd, hc0, hrest⟩


/-- C20, amended. When `FromFlagsWithOverrides` succeeds, every setting but `headers`
has the value given by the precedence command-line flag, then environment variable,
then configuration file, then flag default: a setting named in `cliOverrides` keeps
its flag value; otherwise it has the value of its `SPANFORGE_*` variable when that is
set (parsed after trimming, for the numeric, boolean and duration settings),
otherwise the value of the YAML file when the file gives one, otherwise the value in
`FlagValues`. The rate unit and the four percentages are then parsed from the string
so chosen. For `headers` the variable counts only when it is not blank and the YAML
list only when it is not empty (`resolvedHeaders`). The YAML values `y` are those of
the file named by the flag `config` or, when that is empty and not given, by
`SPANFORGE_CONFIG`; without a file they are all absent. The result is accepted by
`Validate`. -/
theorem C20_precedence_of_settings (H : HostEnv F) (v : FlagValues F)
    (cliOverrides : Option (String → Bool)) (cfg : Config F)
    (h : FromFlagsWithOverrides H v cliOverrides = .ok cfg) :
    ∃ y : yamlFlagValues F,
      (((resolveConfigFile H v cliOverrides).ConfigFile = "" ∧ y = {}) ∨
        ((resolveConfigFile H v cliOverrides).ConfigFile ≠ "" ∧ ∃ data,
          H.ReadFile (resolveConfigFile H v cliOverrides).ConfigFile = some data ∧
          H.yamlUnmarshal data = some y)) ∧
      cfg.RateValue = precedence (overridden cliOverrides "rate") v.Rate
        ((H.LookupEnv "SPANFORGE_RATE").bind (fun raw => H.ParseFloat (TrimSpace raw))) y.Rate ∧
      ParseRateUnit (precedence (overridden cliOverrides "rate-unit") v.RateUnit
        (H.LookupEnv "SPANFORGE_RATE_UNIT") y.RateUnit) = .ok cfg.RateUnit ∧
      cfg.RateInterval = precedence (overridden cliOverrides "rate-interval") v.RateInterval
        ((H.LookupEnv "SPANFORGE_RATE_INTERVAL").bind (fun raw => H.ParseDuration (TrimSpace raw))) (y.RateInterval.bind H.ParseDuration) ∧
      cfg.Duration = precedence (overridden cliOverrides "duration") v.Duration
        ((H.LookupEnv "SPANFORGE_DURATION").bind (fun raw => H.ParseDuration (TrimSpace raw))) (y.Duration.bind H.ParseDuration) ∧
      cfg.Count = precedence (overridden cliOverrides "count") v.Count
        ((H.LookupEnv "SPANFORGE_COUNT").bind (fun raw => H.Atoi (TrimSpace raw))) y.Count ∧
      cfg.Seed = precedence (overridden cliOverrides "seed") v.Seed
        ((H.LookupEnv "SPANFORGE_SEED").bind (fun raw => H.ParseInt (TrimSpace raw))) y.Seed ∧
      cfg.Workers = precedence (overridden cliOverrides "workers") v.Workers
        ((H.LookupEnv "SPANFORGE_WORKERS").bind (fun raw => H.Atoi (TrimSpace raw))) y.Workers ∧
      cfg.Profile = precedence (overridden cliOverrides "profile") v.Profile
        (H.LookupEnv "SPANFORGE_PROFILE") y.Profile ∧
      cfg.Routes = precedence (overridden cliOverrides "routes") v.Routes
        ((H.LookupEnv "SPANFORGE_ROUTES").bind (fun raw => H.Atoi (TrimSpace raw))) y.Routes ∧
      cfg.Services = precedence (overridden cliOverrides "services") v.Services
        ((H.LookupEnv "SPANFORGE_SERVICES").bind (fun raw => H.Atoi (TrimSpace raw))) y.Services ∧
      cfg.Depth = precedence (overridden cliOverrides "depth") v.Depth
        ((H.LookupEnv "SPANFORGE_DEPTH").bind (fun raw => H.Atoi (TrimSpace raw))) y.Depth ∧
      cfg.Fanout = precedence (overridden cliOverrides "fanout") v.Fanout
        ((H.LookupEnv "SPANFORGE_FANOUT").bind (fun raw => H.ParseFloat (TrimSpace raw))) y.Fanout ∧
      cfg.ServicePrefix = precedence (overridden cliOverrides "service-prefix") v.ServicePrefix
        (H.LookupEnv "SPANFORGE_SERVICE_PREFIX") y.ServicePrefix ∧
      cfg.P50 = precedence (overridden cliOverrides "p50") v.P50
        ((H.LookupEnv "SPANFORGE_P50").bind (fun raw => H.ParseDuration (TrimSpace raw))) (y.P50.bind H.ParseDuration) ∧
      cfg.P95 = precedence (overridden cliOverrides "p95") v.P95
        ((H.LookupEnv "SPANFORGE_P95").bind (fun raw => H.ParseDuration (TrimSpace raw))) (y.P95.bind H.ParseDuration) ∧
      cfg.P99 = precedence (overridden cliOverrides "p99") v.P99
        ((H.LookupEnv "SPANFORGE_P99").bind (fun raw => H.ParseDuration (TrimSpace raw))) (y.P99.bind H.ParseDuration) ∧
      ParsePercent H (precedence (overridden cliOverrides "errors") v.Errors
        (H.LookupEnv "SPANFORGE_ERRORS") y.Errors) = .ok cfg.Errors ∧
      ParsePercent H (precedence (overridden cliOverrides "retries") v.Retries
        (H.LookupEnv "SPANFORGE_RETRIES") y.Retries) = .ok cfg.Retries ∧
      ParsePercent H (precedence (overridden cliOverrides "db-heavy") v.DBHeavy
        (H.LookupEnv "SPANFORGE_DB_HEAVY") y.DBHeavy) = .ok cfg.DBHeavy ∧
      ParsePercent H (precedence (overridden cliOverrides "cache-hit-rate") v.CacheHitRate
        (H.LookupEnv "SPANFORGE_CACHE_HIT_RATE") y.CacheHitRate) = .ok cfg.CacheHitRate ∧
      cfg.Variety = precedence (overridden cliOverrides "variety") v.Variety
        (H.LookupEnv "SPANFORGE_VARIETY") y.Variety ∧
      cfg.HighCardinality = precedence (overridden cliOverrides "high-cardinality") v.HighCardinality
        ((H.LookupEnv "SPANFORGE_HIGH_CARDINALITY").bind (fun raw => H.ParseBool (TrimSpace raw))) y.HighCardinality ∧
      cfg.Format = precedence (overridden cliOverrides "format") v.Format
        (H.LookupEnv "SPANFORGE_FORMAT") y.Format ∧
      cfg.Output = precedence (overridden cliOverrides "output") v.Output
        (H.LookupEnv "SPANFORGE_OUTPUT") y.Output ∧
      cfg.File = precedence (overridden cliOverrides "file") v.File
        (H.LookupEnv "SPANFORGE_FILE") y.File ∧
      cfg.OTLPEndpoint = precedence (overridden cliOverrides "otlp-endpoint") v.OTLPEndpoint
        (H.LookupEnv "SPANFORGE_OTLP_ENDPOINT") y.OTLPEndpoint ∧
      cfg.ZipkinEndpoint = precedence (overridden cliOverrides "zipkin-endpoint") v.ZipkinEndpoint
        (H.LookupEnv "SPANFORGE_ZIPKIN_ENDPOINT") y.ZipkinEndpoint ∧
      cfg.OTLPInsecure = precedence (overridden cliOverrides "otlp-insecure") v.OTLPInsecure
        ((H.LookupEnv "SPANFORGE_OTLP_INSECURE").bind (fun raw => H.ParseBool (TrimSpace raw))) y.OTLPInsecure ∧
      ParseHeaders (resolvedHeaders (overridden cliOverrides "headers") v.Headers
        (H.LookupEnv "SPANFORGE_HEADERS") y.Headers) = .ok cfg.Headers ∧
      cfg.Compress = precedence (overridden cliOverrides "compress") v.Compress
        (H.LookupEnv "SPANFORGE_COMPRESS") y.Compress ∧
      cfg.BatchSize = precedence (overridden cliOverrides "batch-size") v.BatchSize
        ((H.LookupEnv "SPANFORGE_BATCH_SIZE").bind (fun raw => H.Atoi (TrimSpace raw))) y.BatchSize ∧
      cfg.FlushInterval = precedence (overridden cliOverrides "flush-interval") v.FlushInterval
        ((H.LookupEnv "SPANFORGE_FLUSH_INTERVAL").bind (fun raw => H.ParseDuration (TrimSpace raw))) (y.FlushInterval.bind H.ParseDuration) ∧
      cfg.SinkRetries = precedence (overridden cliOverrides "sink-retries") v.SinkRetries
        ((H.LookupEnv "SPANFORGE_SINK_RETRIES").bind (fun raw => H.Atoi (TrimSpace raw))) y.SinkRetries ∧
      cfg.SinkRetryBackoff = precedence (overridden cliOverrides "sink-retry-backoff") v.SinkRetryBackoff
        ((H.LookupEnv "SPANFORGE_SINK_RETRY_BACKOFF").bind (fun raw => H.ParseDuration (TrimSpace raw))) (y.SinkRetryBackoff.bind H.ParseDuration) ∧
      cfg.SinkTimeout = precedence (overridden cliOverrides "sink-timeout") v.SinkTimeout
        ((H.LookupEnv "SPANFORGE_SINK_TIMEOUT").bind (fun raw => H.ParseDuration (TrimSpace raw))) (y.SinkTimeout.bind H.ParseDuration) ∧
      cfg.SinkMaxInFlight = precedence (overridden cliOverrides "sink-max-in-flight") v.SinkMaxInFlight
        ((H.LookupEnv "SPANFORGE_SINK_MAX_IN_FLIGHT").bind (fun raw => H.Atoi (TrimSpace raw))) y.SinkMaxInFlight ∧
      cfg.ReportFile = precedence (overridden cliOverrides "report-file") v.ReportFile
        (H.LookupEnv "SPANFORGE_REPORT_FILE") y.ReportFile ∧
      cfg.HTTPListen = precedence (overridden cliOverrides "http-listen") v.HTTPListen
        (H.LookupEnv "SPANFORGE_HTTP_LISTEN") y.HTTPListen ∧
      cfg.Debug = precedence (overridden cliOverrides "debug") v.Debug
        ((H.LookupEnv "SPANFORGE_DEBUG").bind (fun raw => H.ParseBool (TrimSpace raw))) y.Debug ∧
      cfg.Validate = none := by
  obtain ⟨y, v1, v2, hy1, hy2, hv2, hru, her, hre, hdb, hch, hhd, hvalid, cRate, cRateInterval, cDuration, cCount, cSeed, cWorkers, cProfile, cRoutes, cServices, cDepth, cFanout, cServicePrefix, cP50, cP95, cP99, cVariety, cHighCardinality, cFormat, cOutput, cFile, cOTLPEndpoint, cZipkinEndpoint, cOTLPInsecure, cCompress, cBatchSize, cFlushInterval, cSinkRetries, cSinkRetryBackoff, cSinkTimeout, cSinkMaxInFlight, cReportFile, cHTTPListen, cDebug⟩ :=
    FromFlagsWithOverrides_ok H v cliOverrides cfg h
  obtain ⟨file, hfile⟩ := resolveConfigFile_frame H v cliOverrides
  rw [hfile] at hy2
  obtain ⟨_, aRate, aRateUnit, aRateInterval, aDuration, aCount, aSeed, aWorkers, aProfile, aRoutes, aServices, aDepth, aFanout, aServicePrefix, aP50, aP95, aP99, aErrors, aRetries, aDBHeavy, aCacheHitRate, aVariety, aHighCardinality, aFormat, aOutput, aFile, aOTLPEndpoint, aZipkinEndpoint, aOTLPInsecure, aHeaders, aCompress, aBatchSize, aFlushInterval, aSinkRetries, aSinkRetryBackoff, aSinkTimeout, aSinkMaxInFlight, aReportFile, aHTTPListen, aDebug⟩ := applyYAML_ok H y _ v1 cliOverrides hy2
  obtain ⟨_, mRate, mRateUnit, mRateInterval, mDuration, mCount, mSeed, mWorkers, mProfile, mRoutes, mServices, mDepth, mFanout, mServicePrefix, mP50, mP95, mP99, mErrors, mRetries, mDBHeavy, mCacheHitRate, mVariety, mHighCardinality, mFormat, mOutput, mFile, mOTLPEndpoint, mZipkinEndpoint, mOTLPInsecure, mHeaders, mCompress, mBatchSize, mFlushInterval, mSinkRetries, mSinkRetryBackoff, mSinkTimeout, mSinkMaxInFlight, mReportFile, mHTTPListen, mDebug⟩ := mergeFromEnv_ok H v1 v2 cliOverrides hv2
  dsimp only at aRate aRateUnit aRateInterval aDuration aCount aSeed aWorkers aProfile aRoutes aServices aDepth aFanout aServicePrefix aP50 aP95 aP99 aErrors aRetries aDBHeavy aCacheHitRate aVariety aHighCardinality aFormat aOutput aFile aOTLPEndpoint aZipkinEndpoint aOTLPInsecure aHeaders aCompress aBatchSize aFlushInterval aSinkRetries aSinkRetryBackoff aSinkTimeout aSinkMaxInFlight aReportFile aHTTPListen aDebug
  refine ⟨y, hy1, ?_, ?_, ?_, ?_, ?_, ?_, ?_, ?_, ?_, ?_, ?_, ?_, ?_, ?_, ?_, ?_, ?_, ?_, ?_, ?_, ?_, ?_, ?_, ?_, ?_, ?_, ?_, ?_, ?_, ?_, ?_, ?_, ?_, ?_, ?_, ?_, ?_, ?_, ?_, hvalid⟩
  · rw [aRate] at mRate
    rw [cRate]; exact precedence_parsed H _ _ _ _ _ _ _ mRate
  · have e : v2.RateUnit = precedence (overridden cliOverrides "rate-unit") v.RateUnit
        (H.LookupEnv "SPANFORGE_RATE_UNIT") y.RateUnit := by
      rw [mRateUnit, aRateUnit]; exact precedence_string H _ _ _ _ _
    rw [← e]; exact hru
  · rw [cRateInterval]; exact precedence_duration H _ _ _ _ _ _ _ aRateInterval mRateInterval
  · rw [cDuration]; exact precedence_duration H _ _ _ _ _ _ _ aDuration mDuration
  · rw [aCount] at mCount
    rw [cCount]; exact precedence_parsed H _ _ _ _ _ _ _ mCount
  · rw [aSeed] at mSeed
    rw [cSeed]; exact precedence_parsed H _ _ _ _ _ _ _ mSeed
  · rw [aWorkers] at mWorkers
    rw [cWorkers]; exact precedence_parsed H _ _ _ _ _ _ _ mWorkers
  · rw [cProfile, mProfile, aProfile]; exact precedence_string H _ _ _ _ _
  · rw [aRoutes] at mRoutes
    rw [cRoutes]; exact precedence_parsed H _ _ _ _ _ _ _ mRoutes
  · rw [aServices] at mServices
    rw [cServices]; exact precedence_parsed H _ _ _ _ _ _ _ mServices
  · rw [aDepth] at mDepth
    rw [cDepth]; exact precedence_parsed H _ _ _ _ _ _ _ mDepth
  · rw [aFanout] at mFanout
    rw [cFanout]; exact precedence_parsed H _ _ _ _ _ _ _ mFanout
  · rw [cServicePrefix, mServicePrefix, aServicePrefix]; exact precedence_string H _ _ _ _ _
  · rw [cP50]; exact precedence_duration H _ _ _ _ _ _ _ aP50 mP50
  · rw [cP95]; exact precedence_duration H _ _ _ _ _ _ _ aP95 mP95
  · rw [cP99]; exact precedence_duration H _ _ _ _ _ _ _ aP99 mP99
  · have e : v2.Errors = precedence (overridden cliOverrides "errors") v.Errors
        (H.LookupEnv "SPANFORGE_ERRORS") y.Errors := by
      rw [mErrors, aErrors]; exact precedence_string H _ _ _ _ _
    rw [← e]; exact her
  · have e : v2.Retries = precedence (overridden cliOverrides "retries") v.Retries
        (H.LookupEnv "SPANFORGE_RETRIES") y.Retries := by
      rw [mRetries, aRetries]; exact precedence_string H _ _ _ _ _
    rw [← e]; exact hre
  · have e : v2.DBHeavy = precedence (overridden cliOverrides "db-heavy") v.DBHeavy
        (H.LookupEnv "SPANFORGE_DB_HEAVY") y.DBHeavy := by
      rw [mDBHeavy, aDBHeavy]; exact precedence_string H _ _ _ _ _
    rw [← e]; exact hdb
  · have e : v2.CacheHitRate = precedence (overridden cliOverrides "cache-hit-rate") v.CacheHitRate
        (H.LookupEnv "SPANFORGE_CACHE_HIT_RATE") y.CacheHitRate := by
      rw [mCacheHitRate, aCacheHitRate]; exact precedence_string H _ _ _ _ _
    rw [← e]; exact hch
  · rw [cVariety, mVariety, aVariety]; exact precedence_string H _ _ _ _ _
  · rw [aHighCardinality] at mHighCardinality
    rw [cHighCardinality]; exact precedence_parsed H _ _ _ _ _ _ _ mHighCardinality
  · rw [cFormat, mFormat, aFormat]; exact precedence_string H _ _ _ _ _
  · rw [cOutput, mOutput, aOutput]; exact precedence_string H _ _ _ _ _
  · rw [cFile, mFile, aFile]; exact precedence_string H _ _ _ _ _
  · rw [cOTLPEndpoint, mOTLPEndpoint, aOTLPEndpoint]; exact precedence_string H _ _ _ _ _
  · rw [cZipkinEndpoint, mZipkinEndpoint, aZipkinEndpoint]; exact precedence_string H _ _ _ _ _
  · rw [aOTLPInsecure] at mOTLPInsecure
    rw [cOTLPInsecure]; exact precedence_parsed H _ _ _ _ _ _ _ mOTLPInsecure
  · have e : v2.Headers = resolvedHeaders (overridden cliOverrides "headers") v.Headers
        (H.LookupEnv "SPANFORGE_HEADERS") y.Headers := by
      rw [mHeaders, aHeaders]; exact resolvedHeaders_eq H _ _ _
    rw [← e]; exact hhd
  · rw [cCompress, mCompress, aCompress]; exact precedence_string H _ _ _ _ _
  · rw [aBatchSize] at mBatchSize
    rw [cBatchSize]; exact precedence_parsed H _ _ _ _ _ _ _ mBatchSize
  · rw [cFlushInterval]; exact precedence_duration H _ _ _ _ _ _ _ aFlushInterval mFlushInterval
  · rw [aSinkRetries] at mSinkRetries
    rw [cSinkRetries]; exact precedence_parsed H _ _ _ _ _ _ _ mSinkRetries
  · rw [cSinkRetryBackoff]; exact precedence_duration H _ _ _ _ _ _ _ aSinkRetryBackoff mSinkRetryBackoff
  · rw [cSinkTimeout]; exact precedence_duration H _ _ _ _ _ _ _ aSinkTimeout mSinkTimeout
  · rw [aSinkMaxInFlight] at mSinkMaxInFlight
    rw [cSinkMaxInFlight]; exact precedence_parsed H _ _ _ _ _ _ _ mSinkMaxInFlight
  · rw [cReportFile, mReportFile, aReportFile]; exact precedence_string H _ _ _ _ _
  · rw [cHTTPListen, mHTTPListen, aHTTPListen]; exact precedence_string H _ _ _ _ _
  · rw [aDebug] at mDebug
    rw [cDebug]; exact precedence_parsed H _ _ _ _ _ _ _ mDebug

/-- C20, as stated, fails for `headers`: with `SPANFORGE_HEADERS` set to the empty
string, no `headers` flag and a configuration file that lists the header
`X-Tenant=a`, the result carries the header of the file, not the (empty) value of the
variable. -/
theorem C20_blank_headers_variable_is_ignored :
    clearedHeadersHost.LookupEnv "SPANFORGE_HEADERS" = some "" ∧
    overridden (some (fun name => name == "config")) "headers" = false ∧
    (FromFlagsWithOverrides clearedHeadersHost
        { (defaultFlagValues : FlagValues DecFloat) with ConfigFile := "spanforge.yaml" }
        (some (fun name => name == "config"))).map (fun c => c.Headers) =
      .ok [("X-Tenant", "a")] := by
  decide

theorem C20_precedence_of_settings_witness :
    (FromFlagsWithOverrides precedenceHost precedenceFlags
        (some (fun name => name == "services"))).map
      (fun c => (c.Profile, c.Services, c.Routes, c.RateUnit)) = .ok ("queue", 5, 8, "spans") ∧
    ∃ cfg : Config DecFloat,
      FromFlagsWithOverrides precedenceHost precedenceFlags
        (some (fun name => name == "services")) = .ok cfg ∧
      cfg.Profile = "queue" ∧ cfg.Services = 5 ∧ cfg.Validate = none := by
  refine ⟨by decide, ?_⟩
  cases hc : FromFlagsWithOverrides precedenceHost precedenceFlags
      (some (fun name => name == "services")) with
  | error e =>
    have hd : (FromFlagsWithOverrides precedenceHost precedenceFlags
        (some (fun name => name == "services"))).map
      (fun c => (c.Profile, c.Services, c.Routes, c.RateUnit)) = .ok ("queue", 5, 8, "spans") := by
      decide
    rw [hc] at hd
    exact absurd hd (by simp [Except.map])
  | ok cfg =>
    obtain ⟨y, _, hs⟩ := C20_precedence_of_settings precedenceHost precedenceFlags _ cfg hc
    exact ⟨cfg, rfl, hs.2.2.2.2.2.2.2.1, hs.2.2.2.2.2.2.2.2.2.1,
      hs.2.2.2.2.2.2.2.2.2.2.2.2.2.2.2.2.2.2.2.2.2.2.2.2.2.2.2.2.2.2.2.2.2.2.2.2.2.2.2⟩

/-! ## C21: the benchmark summary of a noop run -/

/-- With the noop output the consumer counts every trace it receives. -/
theorem consumeTracesNoop_traces (ticks : Nat → Nat) :
    ∀ (traces : List (Trace F)) (i : Nat) (st : ConsumerState F),
      ((consumerEvents ticks i traces).foldl consumeStepNoop st).statsTraces =
        st.statsTraces + traces.length := by
  have hticks : ∀ (n : Nat) (st : ConsumerState F),
      (List.replicate n ConsumerEvent.flushTick).foldl consumeStepNoop st = st := by
    intro n
    induction n with
    | zero => intro st; rfl
    | succ n ih => intro st; rw [List.replicate_succ, List.foldl_cons]; exact ih _
  intro traces
  induction traces with
  | nil =>
    intro i st
    simp [consumerEvents, hticks]
  | cons t rest ih =>
    intro i st
    simp only [consumerEvents, List.foldl_append, List.foldl_cons, hticks, ih, List.length_cons]
    have h1 : (consumeStepNoop st (ConsumerEvent.trace t)).statsTraces = st.statsTraces + 1 := by
      unfold consumeStepNoop ConsumerState.statsAdd
      simp only
      split_ifs <;> first | omega | simp
    rw [h1]
    omega
/-- The pieces of the summary line, as lists of characters. -/
theorem summaryLine_data (fixed2 : F → String) (report : runReport F) :
    (summaryLine fixed2 report).data =
      "benchmark summary: ".data ++
      (("traces=" ++ strconvItoa (Int.ofNat report.EmittedTraces)).data ++
      (" spans=".data ++ ((strconvItoa (Int.ofNat report.EmittedSpans)).data ++
      (" duration=".data ++ ((fixed2 report.DurationSeconds).data ++
      ("s traces/sec=".data ++ ((fixed2 report.TracesPerSecond).data ++
      (" ".data ++ ("spans/sec=".data ++
      ((fixed2 report.SpansPerSecond).data ++ "\n".data)))))))))) := by
  unfold summaryLine
  simp only [String.data_append, List.append_assoc]
  rfl

set_option maxRecDepth 20000 in
/-- C21, as stated, fails: the summary line of a noop run with count 3 names the
number of traces `traces=3`; the text `emitted_traces` is the JSON key of the report
file and of the `/stats` endpoint and does not occur in the line. -/
theorem C21_summary_line_has_no_emitted_traces :
    noopBenchmarkConfig.Validate = none ∧ noopBenchmarkConfig.Output = "noop" ∧
    noopBenchmarkConfig.Count = 3 ∧
    (RunNoop halfSource seriesMath noopBenchmarkConfig idealEnv 10 (fun _ => 0) (fun _ => 1)
        1700000000000000000 1700000002000000000 fractionFormat.FormatFloat64).map
      (fun line => (String.mk (line.data.take 35), decide ("emitted_traces=3".data <:+: line.data),
        decide ("traces=3".data <:+: line.data), decide ("spans/sec=".data <:+: line.data))) =
      some ("benchmark summary: traces=3 spans=6", false, true, true) := by
  decide

/-- The loop of `itoa` writes decimal digits only. -/
theorem itoaDigits_chars :
    ∀ (fuel : Nat) (v : Int) (acc : List Char), (∀ c ∈ acc, c ≠ '_') →
      ∀ c ∈ itoaDigits fuel v acc, c ≠ '_' := by
  intro fuel
  induction fuel with
  | zero => intro v acc h; exact h
  | succ fuel ih =>
    intro v acc h
    unfold itoaDigits
    split_ifs with hv
    · apply ih
      intro c hc
      rcases List.mem_cons.mp hc with rfl | hc
      · have hk : (Int.tmod v 10).toNat < 10 := by
          rw [Int.tmod_eq_emod (by omega) (by decide)]
          omega
        generalize (Int.tmod v 10).toNat = k at hk
        interval_cases k <;> decide
      · exact h c hc
    · exact h

theorem strconvItoa_chars (n : Nat) : ∀ c ∈ (strconvItoa (Int.ofNat n)).data, c ≠ '_' := by
  unfold strconvItoa
  have hn : ¬ Int.ofNat n < 0 := by simp
  rw [if_neg hn]
  unfold itoa
  split_ifs
  · decide
  · exact itoaDigits_chars 20 _ [] (fun _ hc => absurd hc (List.not_mem_nil _))

theorem infix_here {α : Type} (needle rest : List α) : needle <:+: needle ++ rest :=
  (List.prefix_append _ _).isInfix

theorem infix_skip {α : Type} {needle rest : List α} (front : List α) (h : needle <:+: rest) :
    needle <:+: front ++ rest :=
  h.trans (List.suffix_append _ _).isInfix

theorem append_chars (front rest : List Char) (h1 : ∀ c ∈ front, c ≠ '_')
    (h2 : ∀ c ∈ rest, c ≠ '_') : ∀ c ∈ front ++ rest, c ≠ '_' := by
  intro c hc
  rcases List.mem_append.mp hc with h | h
  · exact h1 c h
  · exact h2 c h

/-- A list that holds a text holds each of its characters. -/
theorem infix_mem {α : Type} (needle hay : List α) (h : needle <:+: hay) :
    ∀ c ∈ needle, c ∈ hay := fun _ hc => h.subset hc

/-- C21, amended. For a successful run with output `noop` in count mode (count
`K > 0`, positive rate), the line written by `Run` is
`benchmark summary: traces=K spans=... duration=...s traces/sec=... spans/sec=...`:
it contains `spans/sec=` and `traces=K` (so `traces=3` for count 3), and it does not
contain `emitted_traces=`, since the verb `%.2f` writes no underscore. -/
theorem C21_noop_summary_line {σ : Type} (R : RandLib F σ) (M : MathLib F) (cfg : Config F)
    (env : ProducerEnv) (fuel : Nat) (assign ticks : Nat → Nat) (runStarted finishedAt : time.Time)
    (fixed2 : F → String) (line : String)
    (hout : cfg.Output = "noop") (hcount : 0 < cfg.Count) (hrate : ¬ ratePerSecond cfg ≤ 0.0)
    (hrun : RunNoop R M cfg env fuel assign ticks runStarted finishedAt fixed2 = some line) :
    (∃ spans dur tps sps : String,
      line = "benchmark summary: traces=" ++ strconvItoa cfg.Count ++ " spans=" ++ spans ++
        " duration=" ++ dur ++ "s traces/sec=" ++ tps ++ " spans/sec=" ++ sps ++ "\n") ∧
    ("traces=" ++ strconvItoa cfg.Count).data <:+: line.data ∧
    "spans/sec=".data <:+: line.data ∧
    ((∀ x, ∀ c ∈ (fixed2 x).data, c ≠ '_') → ¬ "emitted_traces=".data <:+: line.data) := by
  unfold RunNoop at hrun
  cases hp : produceTraces cfg env fuel with
  | cancelled st => simp [hp] at hrun
  | outOfFuel st => simp [hp] at hrun
  | returned st =>
    simp only [hp, hout, if_true, Option.some.injEq] at hrun
    obtain ⟨_, hnonneg, hjobs, _, hsent⟩ := produceTraces_count_mode cfg env fuel hcount
    have hs : st.sent = cfg.Count := hsent hrate st hp
    rw [hp] at hjobs
    have hj : st.jobs.length = cfg.Count.toNat := by
      have h1 : (ProducerResult.returned st).state = st := rfl
      rw [h1] at hjobs
      rw [hjobs, List.length_map, List.length_range, hs]
    have htr : (consumeTracesNoop (consumerEvents ticks 0
        (poolTraces R M cfg assign st.jobs 0 (poolStates R M cfg)))).statsTraces
        = cfg.Count.toNat := by
      unfold consumeTracesNoop
      rw [consumeTracesNoop_traces, poolTraces_length, hj]
      show 0 + cfg.Count.toNat = cfg.Count.toNat
      omega
    have hcast : Int.ofNat cfg.Count.toNat = cfg.Count := by
      simp only [Int.ofNat_eq_coe]
      omega
    obtain ⟨rep, hrep, hline⟩ : ∃ rep : runReport F,
        rep.EmittedTraces = cfg.Count.toNat ∧ summaryLine fixed2 rep = line := ⟨_, htr, hrun⟩
    have hdata := summaryLine_data fixed2 rep
    rw [hline, hrep, hcast] at hdata
    refine ⟨⟨strconvItoa (Int.ofNat rep.EmittedSpans), fixed2 rep.DurationSeconds,
      fixed2 rep.TracesPerSecond, fixed2 rep.SpansPerSecond, ?_⟩, ?_, ?_, ?_⟩
    · rw [← hline]
      unfold summaryLine
      rw [hrep, hcast]
    · rw [hdata]
      repeat (first | exact infix_here _ _ | apply infix_skip)
    · rw [hdata]
      repeat (first | exact infix_here _ _ | apply infix_skip)
    · intro hfmt hinfix
      have hcount2 := strconvItoa_chars cfg.Count.toNat
      rw [hcast] at hcount2
      have hall : ∀ c ∈ line.data, c ≠ '_' := by
        rw [hdata, String.data_append]
        repeat (first
          | exact (by decide)
          | exact hcount2
          | exact strconvItoa_chars _
          | exact hfmt _
          | apply append_chars)
      exact hall '_' (infix_mem "emitted_traces=".data line.data hinfix '_' (by decide)) rfl

set_option maxRecDepth 20000 in
/-- Witness for C21: the noop run with count 3 of `noopBenchmarkConfig`. -/
theorem C21_noop_summary_line_witness :
    noopBenchmarkConfig.Output = "noop" ∧ 0 < noopBenchmarkConfig.Count ∧
    ¬ ratePerSecond noopBenchmarkConfig ≤ 0.0 ∧
    RunNoop halfSource seriesMath noopBenchmarkConfig idealEnv 10 (fun _ => 0) (fun _ => 1)
      1700000000000000000 1700000002000000000 fractionFormat.FormatFloat64 =
      some ("benchmark summary: traces=3 spans=6 duration=2000000000/1000000000s " ++
        "traces/sec=3000000000/2000000000 spans/sec=6000000000/2000000000\n") ∧
    ("traces=" ++ strconvItoa noopBenchmarkConfig.Count).data <:+:
      ("benchmark summary: traces=3 spans=6 duration=2000000000/1000000000s " ++
        "traces/sec=3000000000/2000000000 spans/sec=6000000000/2000000000\n").data ∧
    "spans/sec=".data <:+:
      ("benchmark summary: traces=3 spans=6 duration=2000000000/1000000000s " ++
        "traces/sec=3000000000/2000000000 spans/sec=6000000000/2000000000\n").data :=
  have hrun : RunNoop halfSource seriesMath noopBenchmarkConfig idealEnv 10 (fun _ => 0)
      (fun _ => 1) 1700000000000000000 1700000002000000000 fractionFormat.FormatFloat64 =
      some ("benchmark summary: traces=3 spans=6 duration=2000000000/1000000000s " ++
        "traces/sec=3000000000/2000000000 spans/sec=6000000000/2000000000\n") := by decide
  have hrate : ¬ ratePerSecond noopBenchmarkConfig ≤ 0.0 := by decide
  ⟨by decide, by decide, hrate, hrun,
    (C21_noop_summary_line halfSource seriesMath noopBenchmarkConfig idealEnv 10 (fun _ => 0)
      (fun _ => 1) 1700000000000000000 1700000002000000000 fractionFormat.FormatFloat64 _
      (by decide) (by decide) hrate hrun).2.1,
    (C21_noop_summary_line halfSource seriesMath noopBenchmarkConfig idealEnv 10 (fun _ => 0)
      (fun _ => 1) 1700000000000000000 1700000002000000000 fractionFormat.FormatFloat64 _
      (by decide) (by decide) hrate hrun).2.2.1⟩

/-! ## C26 and C28: the tree printed by `RenderTrace` -/

theorem collectSpans_fold (spans : List (Span F)) (acc : (String → List (Span F)) × List (Span F)) :
    (spans.foldl (fun acc span =>
      if span.HasParent then
        (fun k => if k = hexEncode span.ParentSpanID then acc.1 k ++ [span] else acc.1 k, acc.2)
      else (acc.1, acc.2 ++ [span])) acc) =
    (fun k => acc.1 k ++ spans.filter
        (fun s => s.HasParent && decide (hexEncode s.ParentSpanID = k)),
      acc.2 ++ spans.filter (fun s => !s.HasParent)) := by
  induction spans generalizing acc with
  | nil => simp
  | cons s rest ih =>
    rw [List.foldl_cons, ih]
    by_cases hp : s.HasParent = true
    · simp only [hp, if_true, List.filter_cons, Bool.true_and, Bool.not_true]
      refine Prod.ext ?_ (by simp)
      funext k
      by_cases hk : k = hexEncode s.ParentSpanID
      · simp [hk]
      · have hk2 : ¬ hexEncode s.ParentSpanID = k := fun h => hk h.symm
        simp [hk, hk2]
    · have hp2 : s.HasParent = false := by simpa using hp
      simp [hp2, List.filter_cons]

/-- The map `children` holds, under a key, the spans with that parent in input order. -/
theorem collectSpans_children (spans : List (Span F)) (k : String) :
    (collectSpans spans).1 k =
      spans.filter (fun s => s.HasParent && decide (hexEncode s.ParentSpanID = k)) := by
  unfold collectSpans
  rw [collectSpans_fold]
  simp

/-- The slice `roots` holds the spans without parent in input order. -/
theorem collectSpans_roots (spans : List (Span F)) :
    (collectSpans spans).2 = spans.filter (fun s => !s.HasParent) := by
  unfold collectSpans
  rw [collectSpans_fold]
  simp

theorem concatLines_append (xs ys : List String) :
    concatLines (xs ++ ys) = concatLines xs ++ concatLines ys := by
  induction xs with
  | nil => simp [concatLines]
  | cons x xs ih =>
    simp only [concatLines, List.cons_append, List.foldr_cons] at ih ⊢
    rw [ih, String.append_assoc]

theorem concatLines_cons (x : String) (xs : List String) :
    concatLines (x :: xs) = x ++ concatLines xs := rfl

theorem writeIndent_eq (n : Nat) (b : String) :
    writeIndent n b = b ++ String.mk (List.replicate (2 * n) ' ') := by
  induction n generalizing b with
  | zero => simp [writeIndent]
  | succ n ih =>
    rw [writeIndent, ih]
    apply String.ext
    simp only [String.data_append]
    have h : 2 * (n + 1) = 2 + 2 * n := by ring
    rw [h, List.replicate_add, List.append_assoc]
    rfl
theorem foldlM_written {α : Type} (cs : List α) (f : String → α → Option String)
    (g : α → String) (h : ∀ c ∈ cs, ∀ b, f b c = some (b ++ g c)) (b : String) :
    cs.foldlM f b = some (b ++ concatLines (cs.map g)) := by
  induction cs generalizing b with
  | nil => simp [concatLines]
  | cons c cs ih =>
    rw [List.foldlM_cons, h c (List.mem_cons_self _ _) b]
    show cs.foldlM f (b ++ g c) = _
    rw [ih (fun c1 hc1 => h c1 (List.mem_cons_of_mem _ hc1)), List.map_cons, concatLines_cons,
      String.append_assoc]

theorem ParentChain_mem {spans : List (Span F)} {row : List (Span F)}
    (h : ParentChain spans row) : ∀ x ∈ row, x ∈ spans := by
  induction h with
  | root r hr _ =>
    intro x hx
    rw [List.mem_singleton.mp hx]
    exact hr
  | child c p anc _ hc _ _ ih =>
    intro x hx
    rcases List.mem_cons.mp hx with rfl | hx
    · exact hc
    · exact ih x hx

theorem ParentChain_parent {spans : List (Span F)} {row : List (Span F)}
    (h : ParentChain spans row) : ∀ x ∈ row, x.HasParent = true →
      hexEncode x.ParentSpanID ∈ row.tail.map (fun s => hexEncode s.SpanID) := by
  induction h with
  | root r _ hr =>
    intro x hx hp
    rw [List.mem_singleton.mp hx, hr] at hp
    exact absurd hp (by decide)
  | child c p anc _ _ _ hcp ih =>
    intro x hx hp
    rcases List.mem_cons.mp hx with rfl | hx
    · rw [hcp]
      exact List.mem_map.mpr ⟨p, List.mem_cons_self _ _, rfl⟩
    · have h1 := ih x hx hp
      exact List.mem_of_mem_tail h1

theorem key_injective {spans : List (Span F)}
    (hkeys : (spans.map (fun s => hexEncode s.SpanID)).Nodup) {x y : Span F}
    (hx : x ∈ spans) (hy : y ∈ spans) (h : hexEncode x.SpanID = hexEncode y.SpanID) : x = y :=
  List.inj_on_of_nodup_map hkeys hx hy h

theorem ParentChain_nodup {spans : List (Span F)}
    (hkeys : (spans.map (fun s => hexEncode s.SpanID)).Nodup) {row : List (Span F)}
    (h : ParentChain spans row) : (row.map (fun s => hexEncode s.SpanID)).Nodup := by
  induction h with
  | root r _ _ => simp
  | child c p anc hpa hc hcp hkey ih =>
    rw [List.map_cons, List.nodup_cons]
    refine ⟨?_, ih⟩
    intro hmem
    obtain ⟨x, hx, hxc⟩ := List.mem_map.mp hmem
    have hxe : x = c := key_injective hkeys (ParentChain_mem hpa x hx) hc hxc
    rw [hxe] at hx
    have h1 := ParentChain_parent hpa c hx hcp
    rw [hkey] at h1
    rw [List.map_cons, List.nodup_cons] at ih
    exact ih.1 h1

theorem ParentChain_length {spans : List (Span F)}
    (hkeys : (spans.map (fun s => hexEncode s.SpanID)).Nodup) {row : List (Span F)}
    (h : ParentChain spans row) : row.length ≤ spans.length := by
  have h1 := ParentChain_nodup hkeys h
  have h2 : row.map (fun s => hexEncode s.SpanID) ⊆ spans.map (fun s => hexEncode s.SpanID) := by
    intro k hk
    obtain ⟨x, hx, rfl⟩ := List.mem_map.mp hk
    exact List.mem_map.mpr ⟨x, ParentChain_mem h x hx, rfl⟩
  have h3 := (List.subperm_of_subset h1 h2).length_le
  simpa using h3

/-- A sorted child of a span whose chain is known extends the chain. -/
theorem ParentChain_step {S : SortLib (Span F)} (hS : S.Sorts startsBefore)
    {spans : List (Span F)} {s c : Span F} {anc : List (Span F)}
    (h : ParentChain spans (s :: anc))
    (hc : c ∈ S.Slice startsBefore ((collectSpans spans).1 (hexEncode s.SpanID))) :
    ParentChain spans (c :: s :: anc) := by
  have h1 := ((hS _).1.mem_iff).mp hc
  rw [collectSpans_children, List.mem_filter] at h1
  obtain ⟨hmem, hcond⟩ := h1
  simp only [Bool.and_eq_true, decide_eq_true_eq] at hcond
  exact ParentChain.child c s anc h hmem hcond.1 hcond.2

/-- The text written by `renderSpan` below a span whose chain of parents is known, when
the fuel covers the spans that are not yet on the chain. -/
theorem renderSpan_rows (S : SortLib (Span F)) (hS : S.Sorts startsBefore)
    (fixed2 : F → String) (spans : List (Span F))
    (hkeys : (spans.map (fun s => hexEncode s.SpanID)).Nodup) :
    ∀ (fuel : Nat) (s : Span F) (anc : List (Span F)) (b : String),
      ParentChain spans (s :: anc) → spans.length < fuel + (anc.length + 1) →
      renderSpan S fixed2 (collectSpans spans).1 fuel b s anc.length =
        some (b ++ concatLines ((treeRows S (collectSpans spans).1 fuel s anc).map
          (rowLine fixed2))) := by
  intro fuel
  induction fuel with
  | zero =>
    intro s anc b hchain hfuel
    have := ParentChain_length hkeys hchain
    simp only [List.length_cons] at this
    omega
  | succ fuel ih =>
    intro s anc b hchain hfuel
    unfold renderSpan treeRows
    simp only []
    rw [foldlM_written _ _ (fun c => concatLines
      ((treeRows S (collectSpans spans).1 fuel c (s :: anc)).map (rowLine fixed2)))]
    · rw [List.map_cons, concatLines_cons, writeIndent_eq]
      congr 1
      rw [String.append_assoc, String.append_assoc]
      congr 1
      have hflat : ∀ cs : List (Span F),
          concatLines (List.map (rowLine fixed2)
            (cs.flatMap (fun c => treeRows S (collectSpans spans).1 fuel c (s :: anc)))) =
          concatLines (cs.map (fun c => concatLines
            ((treeRows S (collectSpans spans).1 fuel c (s :: anc)).map (rowLine fixed2)))) := by
        intro cs
        induction cs with
        | nil => rfl
        | cons c cs ihc =>
          rw [List.flatMap_cons, List.map_append, concatLines_append, ihc, List.map_cons,
            concatLines_cons]
      rw [hflat]
      show _ = (String.mk (List.replicate (2 * anc.length) ' ') ++ spanText fixed2 s) ++ _
      rw [String.append_assoc]
    · intro c hc b1
      have hstep := ParentChain_step hS hchain hc
      have := ih c (s :: anc) b1 hstep (by simp only [List.length_cons]; omega)
      simpa using this

/-- With enough fuel `RenderTrace` returns the header followed by the lines of the rows. -/
theorem RenderTrace_rows (S : SortLib (Span F)) (hS : S.Sorts startsBefore)
    (fixed2 : F → String) (trace : Trace F)
    (hkeys : (trace.Spans.map (fun s => hexEncode s.SpanID)).Nodup)
    (fuel : Nat) (hfuel : trace.Spans.length ≤ fuel) :
    RenderTrace S fixed2 fuel trace =
      some ("trace " ++ hexEncode trace.TraceID ++ "\n" ++
        concatLines ((traceRows S fuel trace.Spans).map (rowLine fixed2))) := by
  unfold RenderTrace traceRows
  simp only []
  rw [foldlM_written _ _ (fun r => concatLines
    ((treeRows S (collectSpans trace.Spans).1 fuel r []).map (rowLine fixed2)))]
  · congr 2
    generalize S.Slice startsBefore (collectSpans trace.Spans).2 = rs
    induction rs with
    | nil => rfl
    | cons r rs ih =>
      rw [List.flatMap_cons, List.map_append, concatLines_append, ← ih, List.map_cons,
        concatLines_cons]
  · intro r hr b
    have h1 := ((hS _).1.mem_iff).mp hr
    rw [collectSpans_roots, List.mem_filter] at h1
    have hroot : ParentChain trace.Spans [r] :=
      ParentChain.root r h1.1 (by simpa using h1.2)
    exact renderSpan_rows S hS fixed2 trace.Spans hkeys fuel r [] b hroot
      (by simp only [List.length_nil]; omega)

/-- Every row of a tree ends with the row of its top span. -/
theorem treeRows_suffix (S : SortLib (Span F)) (children : String → List (Span F)) :
    ∀ (fuel : Nat) (s : Span F) (anc : List (Span F)),
      ∀ r ∈ treeRows S children fuel s anc, (s :: anc) <:+ (r.1 :: r.2) := by
  intro fuel
  induction fuel with
  | zero => intro s anc r hr; simp [treeRows] at hr
  | succ fuel ih =>
    intro s anc r hr
    unfold treeRows at hr
    rcases List.mem_cons.mp hr with rfl | hr
    · exact List.suffix_refl _
    · obtain ⟨c, _, hrc⟩ := List.mem_flatMap.mp hr
      exact (List.suffix_cons c (s :: anc)).trans (ih c (s :: anc) r hrc)

/-- Every row below a span with a chain of parents is itself a chain of parents. -/
theorem treeRows_chain (S : SortLib (Span F)) (hS : S.Sorts startsBefore)
    (spans : List (Span F)) :
    ∀ (fuel : Nat) (s : Span F) (anc : List (Span F)), ParentChain spans (s :: anc) →
      ∀ r ∈ treeRows S (collectSpans spans).1 fuel s anc, ParentChain spans (r.1 :: r.2) := by
  intro fuel
  induction fuel with
  | zero => intro s anc _ r hr; simp [treeRows] at hr
  | succ fuel ih =>
    intro s anc hchain r hr
    unfold treeRows at hr
    rcases List.mem_cons.mp hr with rfl | hr
    · exact hchain
    · obtain ⟨c, hc, hrc⟩ := List.mem_flatMap.mp hr
      exact ih c (s :: anc) (ParentChain_step hS hchain hc) r hrc

/-- A span has one chain of parents only. -/
theorem ParentChain_unique {spans : List (Span F)}
    (hkeys : (spans.map (fun s => hexEncode s.SpanID)).Nodup) :
    ∀ (row1 : List (Span F)), ParentChain spans row1 →
      ∀ (x : Span F) (anc : List (Span F)), ParentChain spans (x :: anc) →
      row1.head? = some x → row1 = x :: anc := by
  intro row1 h1
  induction h1 with
  | root r hr hroot =>
    intro x anc h2 hx
    simp only [List.head?_cons, Option.some.injEq] at hx
    subst hx
    cases h2 with
    | root _ _ _ => rfl
    | child _ p anc1 _ _ hp _ =>
      rw [hroot] at hp
      exact absurd hp (by decide)
  | child c p anc1 hpa hc hcp hkey ih =>
    intro x anc h2 hx
    simp only [List.head?_cons, Option.some.injEq] at hx
    subst hx
    cases h2 with
    | root _ _ hroot =>
      rw [hroot] at hcp
      exact absurd hcp (by decide)
    | child _ p2 anc2 hpa2 _ _ hkey2 =>
      have hpp : p = p2 := key_injective hkeys (ParentChain_mem hpa p (List.mem_cons_self _ _))
        (ParentChain_mem hpa2 p2 (List.mem_cons_self _ _)) (hkey.symm.trans hkey2)
      subst hpp
      rw [ih p anc2 hpa2 rfl]

/-- Two suffixes of one list that have the same length are the same list. -/
theorem suffix_same_length {α : Type} {xs ys zs : List α} (h1 : xs <:+ zs) (h2 : ys <:+ zs)
    (hlen : xs.length = ys.length) : xs = ys :=
  (List.suffix_of_suffix_length_le h1 h2 (le_of_eq hlen)).eq_of_length hlen

theorem spans_nodup {spans : List (Span F)}
    (hkeys : (spans.map (fun s => hexEncode s.SpanID)).Nodup) : spans.Nodup :=
  List.Nodup.of_map _ hkeys

/-- The sorted children of a span are pairwise different. -/
theorem sortedChildren_nodup (S : SortLib (Span F)) (hS : S.Sorts startsBefore)
    {spans : List (Span F)} (hkeys : (spans.map (fun s => hexEncode s.SpanID)).Nodup)
    (k : String) : (S.Slice startsBefore ((collectSpans spans).1 k)).Nodup := by
  rw [(hS _).1.nodup_iff, collectSpans_children]
  exact (spans_nodup hkeys).filter _

theorem sortedRoots_nodup (S : SortLib (Span F)) (hS : S.Sorts startsBefore)
    {spans : List (Span F)} (hkeys : (spans.map (fun s => hexEncode s.SpanID)).Nodup) :
    (S.Slice startsBefore (collectSpans spans).2).Nodup := by
  rw [(hS _).1.nodup_iff, collectSpans_roots]
  exact (spans_nodup hkeys).filter _

/-- The trees of different spans below the same ancestors share no row. -/
theorem treeRows_disjoint (S : SortLib (Span F)) (children : String → List (Span F))
    (fuel : Nat) (c1 c2 : Span F) (anc : List (Span F)) (hne : c1 ≠ c2) :
    List.Disjoint (treeRows S children fuel c1 anc) (treeRows S children fuel c2 anc) := by
  intro r h1 h2
  have s1 := treeRows_suffix S children fuel c1 anc r h1
  have s2 := treeRows_suffix S children fuel c2 anc r h2
  have := suffix_same_length s1 s2 (by simp)
  exact hne (List.cons.inj this).1

/-- No row occurs twice in a tree. -/
theorem treeRows_nodup (S : SortLib (Span F)) (hS : S.Sorts startsBefore)
    (spans : List (Span F)) (hkeys : (spans.map (fun s => hexEncode s.SpanID)).Nodup) :
    ∀ (fuel : Nat) (s : Span F) (anc : List (Span F)),
      (treeRows S (collectSpans spans).1 fuel s anc).Nodup := by
  intro fuel
  induction fuel with
  | zero => intro s anc; simp [treeRows]
  | succ fuel ih =>
    intro s anc
    unfold treeRows
    rw [List.nodup_cons]
    constructor
    · intro hmem
      obtain ⟨c, _, hrc⟩ := List.mem_flatMap.mp hmem
      have := (treeRows_suffix S _ fuel c (s :: anc) _ hrc).length_le
      simp at this
    · rw [List.nodup_flatMap]
      refine ⟨fun c _ => ih c (s :: anc), ?_⟩
      exact (sortedChildren_nodup S hS hkeys _).imp
        (fun hne => treeRows_disjoint S _ fuel _ _ (s :: anc) hne)

/-- No row occurs twice among the rows of a trace. -/
theorem traceRows_nodup (S : SortLib (Span F)) (hS : S.Sorts startsBefore)
    (spans : List (Span F)) (hkeys : (spans.map (fun s => hexEncode s.SpanID)).Nodup)
    (fuel : Nat) : (traceRows S fuel spans).Nodup := by
  unfold traceRows
  rw [List.nodup_flatMap]
  refine ⟨fun r _ => treeRows_nodup S hS spans hkeys fuel r [], ?_⟩
  exact (sortedRoots_nodup S hS hkeys).imp
    (fun hne => treeRows_disjoint S _ fuel _ _ [] hne)

/-- Every row of a trace is a chain of parents. -/
theorem traceRows_chain (S : SortLib (Span F)) (hS : S.Sorts startsBefore)
    (spans : List (Span F)) (fuel : Nat) :
    ∀ r ∈ traceRows S fuel spans, ParentChain spans (r.1 :: r.2) := by
  intro r hr
  unfold traceRows at hr
  obtain ⟨root, hroot, hrr⟩ := List.mem_flatMap.mp hr
  have h1 := ((hS _).1.mem_iff).mp hroot
  rw [collectSpans_roots, List.mem_filter] at h1
  exact treeRows_chain S hS spans fuel root []
    (ParentChain.root root h1.1 (by simpa using h1.2)) r hrr

/-- A tree holds the rows of the children of each of its rows, when the fuel covers the
spans that are not among the ancestors. -/
theorem treeRows_complete (S : SortLib (Span F)) (hS : S.Sorts startsBefore)
    (spans : List (Span F)) (hkeys : (spans.map (fun s => hexEncode s.SpanID)).Nodup) :
    ∀ (fuel : Nat) (s : Span F) (anc : List (Span F)),
      spans.length < fuel + (anc.length + 1) →
      ∀ r ∈ treeRows S (collectSpans spans).1 fuel s anc,
      ∀ c, ParentChain spans (c :: r.1 :: r.2) →
        (c, r.1 :: r.2) ∈ treeRows S (collectSpans spans).1 fuel s anc := by
  intro fuel
  induction fuel with
  | zero => intro s anc _ r hr; simp [treeRows] at hr
  | succ fuel ih =>
    intro s anc hfuel r hr c hchain
    unfold treeRows at hr ⊢
    apply List.mem_cons_of_mem
    rcases List.mem_cons.mp hr with rfl | hr
    · have hlen := ParentChain_length hkeys hchain
      simp only [List.length_cons] at hlen
      cases hchain with
      | child _ _ _ _ hc hcp hkey =>
        have hcs : c ∈ S.Slice startsBefore ((collectSpans spans).1 (hexEncode s.SpanID)) := by
          rw [(hS _).1.mem_iff, collectSpans_children, List.mem_filter]
          exact ⟨hc, by simp [hcp, hkey]⟩
        refine List.mem_flatMap.mpr ⟨c, hcs, ?_⟩
        obtain ⟨f, rfl⟩ : ∃ f, fuel = f + 1 := ⟨fuel - 1, by omega⟩
        unfold treeRows
        exact List.mem_cons_self _ _
    · obtain ⟨c1, hc1, hrc⟩ := List.mem_flatMap.mp hr
      refine List.mem_flatMap.mpr ⟨c1, hc1, ?_⟩
      exact ih c1 (s :: anc) (by simp only [List.length_cons]; omega) r hrc c hchain

/-- The rows of a trace are exactly the chains of parents of its spans. -/
theorem traceRows_iff (S : SortLib (Span F)) (hS : S.Sorts startsBefore)
    (spans : List (Span F)) (hkeys : (spans.map (fun s => hexEncode s.SpanID)).Nodup)
    (fuel : Nat) (hfuel : spans.length ≤ fuel) (x : Span F) (anc : List (Span F)) :
    (x, anc) ∈ traceRows S fuel spans ↔ ParentChain spans (x :: anc) := by
  constructor
  · intro h
    exact traceRows_chain S hS spans fuel (x, anc) h
  · intro h
    have key : ∀ row, ParentChain spans row → ∀ x anc, row = x :: anc →
        (x, anc) ∈ traceRows S fuel spans := by
      intro row hrow
      induction hrow with
      | root r hr hroot =>
        intro x anc heq
        obtain ⟨rfl, rfl⟩ := List.cons.inj heq
        unfold traceRows
        have hrs : r ∈ S.Slice startsBefore (collectSpans spans).2 := by
          rw [(hS _).1.mem_iff, collectSpans_roots, List.mem_filter]
          exact ⟨hr, by simp [hroot]⟩
        refine List.mem_flatMap.mpr ⟨r, hrs, ?_⟩
        have hpos : 0 < spans.length := List.length_pos_of_mem hr
        obtain ⟨f, rfl⟩ : ∃ f, fuel = f + 1 := ⟨fuel - 1, by omega⟩
        unfold treeRows
        exact List.mem_cons_self _ _
      | child c p anc1 hpa hc hcp hkey ih =>
        intro x anc heq
        obtain ⟨rfl, rfl⟩ := List.cons.inj heq
        have h1 := ih p anc1 rfl
        unfold traceRows at h1 ⊢
        obtain ⟨root, hroot, hrr⟩ := List.mem_flatMap.mp h1
        refine List.mem_flatMap.mpr ⟨root, hroot, ?_⟩
        exact treeRows_complete S hS spans hkeys fuel root [] (by simp only [List.length_nil]; omega)
          (p, anc1) hrr c (ParentChain.child c p anc1 hpa hc hcp hkey)
    exact key _ h x anc rfl

/-- More fuel than the number of spans does not change the rows of a tree. -/
theorem treeRows_stable (S : SortLib (Span F)) (hS : S.Sorts startsBefore)
    (spans : List (Span F)) (hkeys : (spans.map (fun s => hexEncode s.SpanID)).Nodup) :
    ∀ (fuel : Nat) (s : Span F) (anc : List (Span F)), ParentChain spans (s :: anc) →
      spans.length < fuel + (anc.length + 1) →
      treeRows S (collectSpans spans).1 (fuel + 1) s anc =
        treeRows S (collectSpans spans).1 fuel s anc := by
  intro fuel
  induction fuel with
  | zero =>
    intro s anc hchain hfuel
    have := ParentChain_length hkeys hchain
    simp only [List.length_cons] at this
    omega
  | succ fuel ih =>
    intro s anc hchain hfuel
    rw [treeRows]
    conv_rhs => rw [treeRows]
    congr 1
    apply List.flatMap_congr
    intro c hc
    exact ih c (s :: anc) (ParentChain_step hS hchain hc) (by simp only [List.length_cons]; omega)

/-- The rows do not depend on the fuel once it reaches the number of spans. -/
theorem traceRows_stable (S : SortLib (Span F)) (hS : S.Sorts startsBefore)
    (spans : List (Span F)) (hkeys : (spans.map (fun s => hexEncode s.SpanID)).Nodup)
    (fuel : Nat) (hfuel : spans.length ≤ fuel) :
    traceRows S fuel spans = traceRows S spans.length spans := by
  induction fuel, hfuel using Nat.le_induction with
  | base => rfl
  | succ fuel hle ih =>
    rw [← ih]
    unfold traceRows
    apply List.flatMap_congr
    intro r hr
    have h1 := ((hS _).1.mem_iff).mp hr
    rw [collectSpans_roots, List.mem_filter] at h1
    exact treeRows_stable S hS spans hkeys fuel r []
      (ParentChain.root r h1.1 (by simpa using h1.2)) (by simp only [List.length_nil]; omega)

/-- The rendered spans have pairwise different ids. -/
theorem traceRows_keys_nodup (S : SortLib (Span F)) (hS : S.Sorts startsBefore)
    (spans : List (Span F)) (hkeys : (spans.map (fun s => hexEncode s.SpanID)).Nodup)
    (fuel : Nat) :
    ((traceRows S fuel spans).map (fun r => hexEncode r.1.SpanID)).Nodup := by
  apply List.Nodup.map_on _ (traceRows_nodup S hS spans hkeys fuel)
  intro r1 h1 r2 h2 hk
  have c1 := traceRows_chain S hS spans fuel r1 h1
  have c2 := traceRows_chain S hS spans fuel r2 h2
  have hx : r1.1 = r2.1 := key_injective hkeys (ParentChain_mem c1 _ (List.mem_cons_self _ _))
    (ParentChain_mem c2 _ (List.mem_cons_self _ _)) hk
  have := ParentChain_unique hkeys _ c1 r2.1 r2.2 c2 (by simp [hx])
  exact Prod.ext (List.cons.inj this).1 (List.cons.inj this).2

/-- A span is rendered exactly when it is reachable from a root. -/
theorem traceRows_reachable (S : SortLib (Span F)) (hS : S.Sorts startsBefore)
    (spans : List (Span F)) (hkeys : (spans.map (fun s => hexEncode s.SpanID)).Nodup)
    (fuel : Nat) (hfuel : spans.length ≤ fuel) (x : Span F) :
    x ∈ (traceRows S fuel spans).map Prod.fst ↔ Reachable spans x := by
  constructor
  · intro h
    obtain ⟨r, hr, rfl⟩ := List.mem_map.mp h
    exact ⟨r.2, traceRows_chain S hS spans fuel r hr⟩
  · rintro ⟨anc, h⟩
    exact List.mem_map.mpr ⟨(x, anc),
      (traceRows_iff S hS spans hkeys fuel hfuel x anc).mpr h, rfl⟩

/-- When every span is reachable from a root, the rendered spans are the spans of the
trace, each once. -/
theorem traceRows_perm (S : SortLib (Span F)) (hS : S.Sorts startsBefore)
    (spans : List (Span F)) (hkeys : (spans.map (fun s => hexEncode s.SpanID)).Nodup)
    (hall : ∀ s ∈ spans, Reachable spans s)
    (fuel : Nat) (hfuel : spans.length ≤ fuel) :
    ((traceRows S fuel spans).map Prod.fst).Perm spans := by
  have h1 : ((traceRows S fuel spans).map Prod.fst).Nodup := by
    have h0 := traceRows_keys_nodup S hS spans hkeys fuel
    have h2 : (traceRows S fuel spans).map (fun r => hexEncode r.1.SpanID) =
        ((traceRows S fuel spans).map Prod.fst).map (fun s => hexEncode s.SpanID) := by
      rw [List.map_map]
      rfl
    rw [h2] at h0
    exact List.Nodup.of_map _ h0
  rw [List.perm_ext_iff_of_nodup h1 (spans_nodup hkeys)]
  intro x
  rw [traceRows_reachable S hS spans hkeys fuel hfuel]
  constructor
  · rintro ⟨anc, h⟩
    exact ParentChain_mem h x (List.mem_cons_self _ _)
  · exact hall x

/-- Rows with the same ancestors are in ascending order of start time. -/
theorem treeRows_sorted (S : SortLib (Span F)) (hS : S.Sorts startsBefore)
    (spans : List (Span F)) (hkeys : (spans.map (fun s => hexEncode s.SpanID)).Nodup) :
    ∀ (fuel : Nat) (s : Span F) (anc : List (Span F)),
      (treeRows S (collectSpans spans).1 fuel s anc).Pairwise
        (fun r1 r2 => r1.2 = r2.2 → startsBefore r2.1 r1.1 = false) := by
  intro fuel
  induction fuel with
  | zero => intro s anc; simp [treeRows]
  | succ fuel ih =>
    intro s anc
    unfold treeRows
    rw [List.pairwise_cons]
    constructor
    · intro r hr heq
      obtain ⟨c, _, hrc⟩ := List.mem_flatMap.mp hr
      have := (treeRows_suffix S _ fuel c (s :: anc) _ hrc).length_le
      simp only [List.length_cons] at this
      have h2 : anc.length = r.2.length := congrArg List.length heq
      omega
    · rw [List.pairwise_flatMap]
      refine ⟨fun c _ => ih c (s :: anc), ?_⟩
      refine ((hS _).2.and (sortedChildren_nodup S hS hkeys _)).imp ?_
      rintro c1 c2 ⟨hle, hne⟩ x hx y hy heq
      have s1 := treeRows_suffix S _ fuel c1 (s :: anc) x hx
      have s2 := treeRows_suffix S _ fuel c2 (s :: anc) y hy
      rcases List.suffix_cons_iff.mp s1 with e1 | t1
      · rcases List.suffix_cons_iff.mp s2 with e2 | t2
        · rw [← (List.cons.inj e1).1, ← (List.cons.inj e2).1]
          exact hle
        · have := t2.length_le
          have h3 : x.2.length = y.2.length := congrArg List.length heq
          have h4 : (s :: anc).length = x.2.length := congrArg List.length (List.cons.inj e1).2
          simp only [List.length_cons] at this h4
          omega
      · rcases List.suffix_cons_iff.mp s2 with e2 | t2
        · have := t1.length_le
          have h3 : x.2.length = y.2.length := congrArg List.length heq
          have h4 : (s :: anc).length = y.2.length := congrArg List.length (List.cons.inj e2).2
          simp only [List.length_cons] at this h4
          omega
        · rw [← heq] at t2
          have := suffix_same_length t1 t2 (by simp)
          exact absurd (List.cons.inj this).1 hne

theorem traceRows_sorted (S : SortLib (Span F)) (hS : S.Sorts startsBefore)
    (spans : List (Span F)) (hkeys : (spans.map (fun s => hexEncode s.SpanID)).Nodup)
    (fuel : Nat) :
    (traceRows S fuel spans).Pairwise
      (fun r1 r2 => r1.2 = r2.2 → startsBefore r2.1 r1.1 = false) := by
  unfold traceRows
  rw [List.pairwise_flatMap]
  refine ⟨fun r _ => treeRows_sorted S hS spans hkeys fuel r [], ?_⟩
  refine ((hS _).2.and (sortedRoots_nodup S hS hkeys)).imp ?_
  rintro c1 c2 ⟨hle, hne⟩ x hx y hy heq
  have s1 := treeRows_suffix S _ fuel c1 [] x hx
  have s2 := treeRows_suffix S _ fuel c2 [] y hy
  rcases List.suffix_cons_iff.mp s1 with e1 | t1
  · rcases List.suffix_cons_iff.mp s2 with e2 | t2
    · rw [← (List.cons.inj e1).1, ← (List.cons.inj e2).1]
      exact hle
    · have := t2.length_le
      have h3 : x.2.length = y.2.length := congrArg List.length heq
      have h4 : ([] : List (Span F)).length = x.2.length :=
        congrArg List.length (List.cons.inj e1).2
      simp only [List.length_cons, List.length_nil] at this h4
      omega
  · rcases List.suffix_cons_iff.mp s2 with e2 | t2
    · have := t1.length_le
      have h3 : x.2.length = y.2.length := congrArg List.length heq
      have h4 : ([] : List (Span F)).length = y.2.length :=
        congrArg List.length (List.cons.inj e2).2
      simp only [List.length_cons, List.length_nil] at this h4
      omega
    · rw [← heq] at t2
      have := suffix_same_length t1 t2 (by simp)
      exact absurd (List.cons.inj this).1 hne

/-- Spans of two chains that are both roots, or have the same parent id, have the same
ancestors. -/
theorem ParentChain_siblings {spans : List (Span F)}
    (hkeys : (spans.map (fun s => hexEncode s.SpanID)).Nodup)
    {a b : Span F} {anc1 anc2 : List (Span F)}
    (h1 : ParentChain spans (a :: anc1)) (h2 : ParentChain spans (b :: anc2))
    (h : (a.HasParent = false ∧ b.HasParent = false) ∨
      (a.HasParent = true ∧ b.HasParent = true ∧
        hexEncode a.ParentSpanID = hexEncode b.ParentSpanID)) : anc1 = anc2 := by
  cases h1 with
  | root _ _ ha =>
    cases h2 with
    | root _ _ _ => rfl
    | child _ p2 a2 _ _ hb _ =>
      rcases h with ⟨_, hb2⟩ | ⟨ha2, _, _⟩
      · rw [hb] at hb2; exact absurd hb2 (by decide)
      · rw [ha] at ha2; exact absurd ha2 (by decide)
  | child _ p1 a1 hp1 _ ha hk1 =>
    cases h2 with
    | root _ _ hb =>
      rcases h with ⟨ha2, _⟩ | ⟨_, hb2, _⟩
      · rw [ha] at ha2; exact absurd ha2 (by decide)
      · rw [hb] at hb2; exact absurd hb2 (by decide)
    | child _ p2 a2 hp2 _ hb hk2 =>
      rcases h with ⟨ha2, _⟩ | ⟨_, _, hk⟩
      · rw [ha] at ha2; exact absurd ha2 (by decide)
      · have hpp : p1 = p2 := key_injective hkeys
          (ParentChain_mem hp1 p1 (List.mem_cons_self _ _))
          (ParentChain_mem hp2 p2 (List.mem_cons_self _ _)) (hk1.symm.trans (hk.trans hk2))
        exact ParentChain_unique hkeys _ hp1 p2 a2 hp2 (by simp [hpp])

/-- Every row of a tree other than the first comes after the row of its parent, and the
rows in between are at least as deep as the row. -/
theorem treeRows_below (S : SortLib (Span F)) (children : String → List (Span F)) :
    ∀ (fuel : Nat) (s : Span F) (anc : List (Span F)),
      ∀ r ∈ treeRows S children fuel s anc, r = (s, anc) ∨
        ∃ p anc1 pre mid post, r.2 = p :: anc1 ∧
          treeRows S children fuel s anc = pre ++ (p, anc1) :: (mid ++ r :: post) ∧
          ∀ m ∈ mid, r.2.length ≤ m.2.length := by
  intro fuel
  induction fuel with
  | zero => intro s anc r hr; simp [treeRows] at hr
  | succ fuel ih =>
    intro s anc r hr
    rw [treeRows] at hr ⊢
    rcases List.mem_cons.mp hr with heq | hr
    · exact Or.inl heq
    · right
      obtain ⟨c, hc, hrc⟩ := List.mem_flatMap.mp hr
      obtain ⟨cs1, cs2, hcs⟩ := List.append_of_mem hc
      rw [hcs, List.flatMap_append, List.flatMap_cons]
      rcases ih c (s :: anc) r hrc with heq | ⟨p, anc1, pre, mid, post, hr2, hT, hmid⟩
      · obtain ⟨f, rfl⟩ : ∃ f, fuel = f + 1 := by
          cases fuel with
          | zero => simp [treeRows] at hrc
          | succ f => exact ⟨f, rfl⟩
        refine ⟨s, anc, [], cs1.flatMap (fun c => treeRows S children (f + 1) c (s :: anc)),
          ((S.Slice startsBefore (children (hexEncode c.SpanID))).flatMap
            (fun c1 => treeRows S children f c1 (c :: s :: anc))) ++
            cs2.flatMap (fun c => treeRows S children (f + 1) c (s :: anc)), ?_, ?_, ?_⟩
        · rw [heq]
        · rw [heq]
          conv_lhs => rw [treeRows]
          simp
        · intro m hm
          obtain ⟨c1, _, hm1⟩ := List.mem_flatMap.mp hm
          have := (treeRows_suffix S children (f + 1) c1 (s :: anc) m hm1).length_le
          rw [heq]
          simp only [List.length_cons] at this ⊢
          omega
      · refine ⟨p, anc1, (s, anc) :: (cs1.flatMap
            (fun c => treeRows S children fuel c (s :: anc)) ++ pre), mid,
          post ++ cs2.flatMap (fun c => treeRows S children fuel c (s :: anc)), hr2, ?_, hmid⟩
        rw [hT]
        simp

theorem traceRows_below (S : SortLib (Span F)) (fuel : Nat) (spans : List (Span F)) :
    ∀ r ∈ traceRows S fuel spans, r.2 = [] ∨
      ∃ p anc1 pre mid post, r.2 = p :: anc1 ∧
        traceRows S fuel spans = pre ++ (p, anc1) :: (mid ++ r :: post) ∧
        ∀ m ∈ mid, r.2.length ≤ m.2.length := by
  intro r hr
  unfold traceRows at hr ⊢
  obtain ⟨c, hc, hrc⟩ := List.mem_flatMap.mp hr
  obtain ⟨cs1, cs2, hcs⟩ := List.append_of_mem hc
  rw [hcs, List.flatMap_append, List.flatMap_cons]
  rcases treeRows_below S _ fuel c [] r hrc with heq | ⟨p, anc1, pre, mid, post, hr2, hT, hmid⟩
  · left
    rw [heq]
  · right
    refine ⟨p, anc1, cs1.flatMap (fun r => treeRows S (collectSpans spans).1 fuel r []) ++ pre,
      mid, post ++ cs2.flatMap (fun r => treeRows S (collectSpans spans).1 fuel r []),
      hr2, ?_, hmid⟩
    rw [hT]
    simp

theorem hexDigit_lowercase : ∀ n < 16, hexDigit n ∈ "0123456789abcdef".data := by
  decide

theorem hexDigit_injective : ∀ a < 16, ∀ b < 16, hexDigit a = hexDigit b → a = b := by
  decide

/-- The hex text of a byte list has two lowercase hex digits for each byte. -/
theorem hexEncode_digits (bs : List Nat) :
    (hexEncode bs).length = 2 * bs.length ∧
    ∀ c ∈ (hexEncode bs).data, c ∈ "0123456789abcdef".data := by
  unfold hexEncode
  induction bs with
  | nil => simp
  | cons b bs ih =>
    constructor
    · have := ih.1
      simp only [String.length, List.flatMap_cons, List.length_append, List.length_cons,
        List.length_nil] at this ⊢
      omega
    · intro c hc
      simp only [List.flatMap_cons, List.mem_append, List.mem_cons, List.mem_singleton,
        List.not_mem_nil, or_false] at hc
      rcases hc with (rfl | rfl) | hc
      · exact hexDigit_lowercase _ (Nat.mod_lt _ (by decide))
      · exact hexDigit_lowercase _ (Nat.mod_lt _ (by decide))
      · exact ih.2 c hc

/-- Different byte lists have different hex texts. -/
theorem hexEncode_injective : ∀ (bs cs : List Nat), (∀ b ∈ bs, b < 256) →
    (∀ c ∈ cs, c < 256) → hexEncode bs = hexEncode cs → bs = cs := by
  intro bs
  induction bs with
  | nil =>
    intro cs _ _ h
    cases cs with
    | nil => rfl
    | cons c cs =>
      have h1 := congrArg String.data h
      simp [hexEncode] at h1
  | cons b bs ih =>
    intro cs hb hc h
    cases cs with
    | nil =>
      have h1 := congrArg String.data h
      simp [hexEncode] at h1
    | cons c cs =>
      have h0 := congrArg String.data h
      unfold hexEncode at h0
      simp only [List.flatMap_cons, List.cons_append, List.nil_append,
        List.cons.injEq] at h0
      have hb1 := hb b (List.mem_cons_self _ _)
      have hc1 := hc c (List.mem_cons_self _ _)
      have e1 := hexDigit_injective _ (Nat.mod_lt _ (by decide)) _ (Nat.mod_lt _ (by decide))
        h0.1
      have e2 := hexDigit_injective _ (Nat.mod_lt _ (by decide)) _ (Nat.mod_lt _ (by decide))
        h0.2.1
      have hbc : b = c := by omega
      rw [hbc, ih cs (fun x hx => hb x (List.mem_cons_of_mem _ hx))
        (fun x hx => hc x (List.mem_cons_of_mem _ hx))
        (by unfold hexEncode; rw [h0.2.2])]

/-- Spans with pairwise different ids have pairwise different keys in the map
`children`. -/
theorem keys_nodup_of_ids (spans : List (Span F))
    (hids : (spans.map (fun s => s.SpanID)).Nodup)
    (hbytes : ∀ s ∈ spans, ∀ b ∈ s.SpanID, b < 256) :
    (spans.map (fun s => hexEncode s.SpanID)).Nodup := by
  have h1 : spans.map (fun s => hexEncode s.SpanID) =
      (spans.map (fun s => s.SpanID)).map hexEncode := by
    rw [List.map_map]
    rfl
  rw [h1]
  apply List.Nodup.map_on _ hids
  intro x hx y hy hxy
  obtain ⟨sx, hsx, rfl⟩ := List.mem_map.mp hx
  obtain ⟨sy, hsy, rfl⟩ := List.mem_map.mp hy
  exact hexEncode_injective _ _ (hbytes sx hsx) (hbytes sy hsy) hxy

/-- Insertion by start time is a sort in the sense of `sort.Slice`. -/
theorem insertionSlice_sorts : (insertionSlice : SortLib (Span F)).Sorts startsBefore := by
  intro xs
  refine ⟨List.perm_insertionSort _ xs, ?_⟩
  have htotal : IsTotal (Span F) (fun a b => startsBefore b a = false) :=
    ⟨fun a b => by
      simp only [startsBefore, decide_eq_false_iff_not, not_lt]
      exact le_total _ _⟩
  have htrans : IsTrans (Span F) (fun a b => startsBefore b a = false) :=
    ⟨fun a b c h1 h2 => by
      simp only [startsBefore, decide_eq_false_iff_not, not_lt] at h1 h2 ⊢
      exact le_trans h1 h2⟩
  exact List.sorted_insertionSort (fun a b => startsBefore b a = false) xs

/-- C26, as stated, fails: in `cycleTrace` the two span ids differ and the parent of
each span is present, the other span being its parent, yet no span is a root and
`RenderTrace` writes the header line only, one line where the claim counts three. -/
theorem C26_cycle_of_parents_is_not_rendered :
    (cycleTrace.Spans.map (fun s => s.SpanID)).Nodup ∧
    (∀ s ∈ cycleTrace.Spans, s.HasParent = true →
      ∃ p ∈ cycleTrace.Spans, p.SpanID = s.ParentSpanID) ∧
    cycleTrace.Spans.length = 2 ∧
    ∀ fuel, RenderTrace insertionSlice fractionFormat.FormatFloat64 fuel cycleTrace =
      some "trace abababababababababababababababab\n" := by
  refine ⟨by decide, by decide, rfl, ?_⟩
  intro fuel
  rfl

/-- C26, amended. For a trace whose span ids are pairwise distinct and in which every
span is reachable from a span without parent through parent links, `RenderTrace`
returns, for every bound on the recursion depth that is at least the number of spans,
the header `trace ` with the 32 lowercase hex digits of the trace id, followed by one row
for each span: the rows hold every span exactly once; the row of a span is indented by
two spaces for each of its ancestors; the row of a span with a parent comes after the
row of that parent, with only rows at least as deep in between; and rows of spans that
share a parent, or are both roots, are in ascending order of start time. -/
theorem C26_render_trace_tree (S : SortLib (Span F)) (fixed2 : F → String) (trace : Trace F)
    (hS : S.Sorts startsBefore)
    (hids : (trace.Spans.map (fun s => s.SpanID)).Nodup)
    (hbytes : ∀ s ∈ trace.Spans, ∀ b ∈ s.SpanID, b < 256)
    (hall : ∀ s ∈ trace.Spans, Reachable trace.Spans s)
    (htid : trace.TraceID.length = 16) :
    ∃ rows : List (Span F × List (Span F)),
      (∀ fuel, trace.Spans.length ≤ fuel →
        RenderTrace S fixed2 fuel trace =
          some ("trace " ++ hexEncode trace.TraceID ++ "\n" ++
            concatLines (rows.map (rowLine fixed2)))) ∧
      (hexEncode trace.TraceID).length = 32 ∧
      (∀ c ∈ (hexEncode trace.TraceID).data, c ∈ "0123456789abcdef".data) ∧
      rows.length = trace.Spans.length ∧
      (rows.map Prod.fst).Perm trace.Spans ∧
      (∀ r ∈ rows, ParentChain trace.Spans (r.1 :: r.2) ∧
        rowLine fixed2 r =
          String.mk (List.replicate (2 * r.2.length) ' ') ++ "- " ++ r.1.Name ++ " [" ++
            r.1.Kind ++ "] (" ++ (r.1.Attributes.getString "service.name").1 ++ ", " ++
            fixed2 (GoFloat64.ofInt r.1.Duration / 1e6) ++ "ms, " ++ r.1.Status.Code ++
            ")\n") ∧
      (∀ r ∈ rows, r.2 = [] ∨ ∃ p anc pre mid post, r.2 = p :: anc ∧
        rows = pre ++ (p, anc) :: (mid ++ r :: post) ∧
        ∀ m ∈ mid, r.2.length ≤ m.2.length) ∧
      rows.Pairwise (fun r1 r2 =>
        ((r1.1.HasParent = false ∧ r2.1.HasParent = false) ∨
          (r1.1.HasParent = true ∧ r2.1.HasParent = true ∧
            hexEncode r1.1.ParentSpanID = hexEncode r2.1.ParentSpanID)) →
        ¬ r2.1.StartTime < r1.1.StartTime) := by
  have hkeys := keys_nodup_of_ids trace.Spans hids hbytes
  have hperm := traceRows_perm S hS trace.Spans hkeys hall trace.Spans.length (le_refl _)
  refine ⟨traceRows S trace.Spans.length trace.Spans, ?_, ?_, ?_, ?_, hperm, ?_, ?_, ?_⟩
  · intro fuel hfuel
    rw [RenderTrace_rows S hS fixed2 trace hkeys fuel hfuel,
      traceRows_stable S hS trace.Spans hkeys fuel hfuel]
  · rw [(hexEncode_digits trace.TraceID).1, htid]
  · exact (hexEncode_digits trace.TraceID).2
  · have := hperm.length_eq
    simpa using this
  · intro r hr
    refine ⟨traceRows_chain S hS trace.Spans _ r hr, ?_⟩
    unfold rowLine spanText
    simp only [String.append_assoc]
  · exact traceRows_below S _ trace.Spans
  · refine (traceRows_sorted S hS trace.Spans hkeys _).imp_of_mem ?_
    intro r1 r2 h1 h2 hsorted hsame
    have c1 := traceRows_chain S hS trace.Spans _ r1 h1
    have c2 := traceRows_chain S hS trace.Spans _ r2 h2
    have := hsorted (ParentChain_siblings hkeys c1 c2 hsame)
    simpa [startsBefore] using this

theorem familyTrace_reachable : ∀ s ∈ familyTrace.Spans, Reachable familyTrace.Spans s := by
  have hroot : ParentChain familyTrace.Spans [familyRoot] :=
    ParentChain.root familyRoot (by simp [familyTrace]) rfl
  have hlate : ParentChain familyTrace.Spans [familyLate, familyRoot] :=
    ParentChain.child familyLate familyRoot [] hroot (by simp [familyTrace]) rfl rfl
  intro s hs
  simp only [familyTrace, List.mem_cons, List.mem_singleton, List.not_mem_nil, or_false] at hs
  rcases hs with rfl | rfl | rfl | rfl
  · exact ⟨_, ParentChain.child familyGrandchild familyLate [familyRoot] hlate
      (by simp [familyTrace]) rfl rfl⟩
  · exact ⟨_, hlate⟩
  · exact ⟨_, hroot⟩
  · exact ⟨_, ParentChain.child familyEarly familyRoot [] hroot (by simp [familyTrace]) rfl rfl⟩

/-- Witness for C26: the four spans of `familyTrace`. -/
theorem C26_render_trace_tree_witness :
    (insertionSlice : SortLib (Span DecFloat)).Sorts startsBefore ∧
    (familyTrace.Spans.map (fun s => s.SpanID)).Nodup ∧
    (∀ s ∈ familyTrace.Spans, ∀ b ∈ s.SpanID, b < 256) ∧
    (∀ s ∈ familyTrace.Spans, Reachable familyTrace.Spans s) ∧
    familyTrace.TraceID.length = 16 ∧
    ∃ rows : List (Span DecFloat × List (Span DecFloat)),
      RenderTrace insertionSlice fractionFormat.FormatFloat64 4 familyTrace =
        some ("trace " ++ hexEncode familyTrace.TraceID ++ "\n" ++
          concatLines (rows.map (rowLine fractionFormat.FormatFloat64))) ∧
      rows.length = 4 := by
  have hids : (familyTrace.Spans.map (fun s => s.SpanID)).Nodup := by decide
  have hbytes : ∀ s ∈ familyTrace.Spans, ∀ b ∈ s.SpanID, b < 256 := by decide
  obtain ⟨rows, h1, _, _, h4, _⟩ := C26_render_trace_tree insertionSlice
    fractionFormat.FormatFloat64 familyTrace insertionSlice_sorts hids hbytes
    familyTrace_reachable rfl
  exact ⟨insertionSlice_sorts, hids, hbytes, familyTrace_reachable, rfl, rows,
    h1 4 (by decide), h4⟩

/-- C28. For a trace whose span ids are pairwise distinct, `RenderTrace` returns for
every bound on the recursion depth that is at least the number of spans, always with
the same text; no span is rendered more than once; the rendered spans are the spans
reachable from a span without parent through parent links; and a span whose parent id
is the id of no reachable span is left out. -/
theorem C28_render_trace_terminates (S : SortLib (Span F)) (fixed2 : F → String)
    (trace : Trace F) (hS : S.Sorts startsBefore)
    (hids : (trace.Spans.map (fun s => s.SpanID)).Nodup)
    (hbytes : ∀ s ∈ trace.Spans, ∀ b ∈ s.SpanID, b < 256) :
    ∃ rows : List (Span F × List (Span F)),
      (∀ fuel, trace.Spans.length ≤ fuel →
        RenderTrace S fixed2 fuel trace =
          some ("trace " ++ hexEncode trace.TraceID ++ "\n" ++
            concatLines (rows.map (rowLine fixed2)))) ∧
      (rows.map (fun r => r.1.SpanID)).Nodup ∧
      (∀ s, s ∈ rows.map Prod.fst ↔ Reachable trace.Spans s) ∧
      (∀ s ∈ trace.Spans, s.HasParent = true →
        (∀ p, Reachable trace.Spans p → hexEncode p.SpanID ≠ hexEncode s.ParentSpanID) →
        s ∉ rows.map Prod.fst) := by
  have hkeys := keys_nodup_of_ids trace.Spans hids hbytes
  have hreach := traceRows_reachable S hS trace.Spans hkeys trace.Spans.length (le_refl _)
  refine ⟨traceRows S trace.Spans.length trace.Spans, ?_, ?_, hreach, ?_⟩
  · intro fuel hfuel
    rw [RenderTrace_rows S hS fixed2 trace hkeys fuel hfuel,
      traceRows_stable S hS trace.Spans hkeys fuel hfuel]
  · have h0 := traceRows_keys_nodup S hS trace.Spans hkeys trace.Spans.length
    have h2 : (traceRows S trace.Spans.length trace.Spans).map
          (fun r => hexEncode r.1.SpanID) =
        ((traceRows S trace.Spans.length trace.Spans).map (fun r => r.1.SpanID)).map
          hexEncode := by
      rw [List.map_map]
      rfl
    rw [h2] at h0
    exact List.Nodup.of_map _ h0
  · intro s _ hp hnone hmem
    obtain ⟨anc, hchain⟩ := (hreach s).mp hmem
    cases hchain with
    | root _ _ hroot =>
      rw [hroot] at hp
      exact absurd hp (by decide)
    | child _ p anc1 hpa _ _ hkey => exact hnone p ⟨anc1, hpa⟩ hkey.symm

/-- Witness for C28: `orphanTrace`, whose first span has a parent id that no span
carries. -/
theorem C28_render_trace_terminates_witness :
    (insertionSlice : SortLib (Span DecFloat)).Sorts startsBefore ∧
    (orphanTrace.Spans.map (fun s => s.SpanID)).Nodup ∧
    (∀ s ∈ orphanTrace.Spans, ∀ b ∈ s.SpanID, b < 256) ∧
    ∃ rows : List (Span DecFloat × List (Span DecFloat)),
      RenderTrace insertionSlice fractionFormat.FormatFloat64 3 orphanTrace =
        some ("trace " ++ hexEncode orphanTrace.TraceID ++ "\n" ++
          concatLines (rows.map (rowLine fractionFormat.FormatFloat64))) ∧
      orphanSpan ∉ rows.map Prod.fst := by
  have hids : (orphanTrace.Spans.map (fun s => s.SpanID)).Nodup := by decide
  have hbytes : ∀ s ∈ orphanTrace.Spans, ∀ b ∈ s.SpanID, b < 256 := by decide
  obtain ⟨rows, h1, _, _, h4⟩ := C28_render_trace_terminates insertionSlice
    fractionFormat.FormatFloat64 orphanTrace insertionSlice_sorts hids hbytes
  refine ⟨insertionSlice_sorts, hids, hbytes, rows, h1 3 (by decide), ?_⟩
  refine h4 orphanSpan (by simp [orphanTrace]) rfl ?_
  rintro p ⟨anc, hchain⟩
  have hp := ParentChain_mem hchain p (List.mem_cons_self _ _)
  simp only [orphanTrace, List.mem_cons, List.mem_singleton, List.not_mem_nil, or_false] at hp
  rcases hp with rfl | rfl | rfl <;> decide

/-! ## C29: the number of spans of a trace and `estimateSpansPerTrace` -/

/-- Without a draw below `Retries` no retry span is emitted. -/
theorem maybeErrorAndRetry_no_retry {σ : Type} (g : Generator F σ)
    (hno : ∀ r, ¬ (RNG.Float64 g.rand r).1 < g.cfg.Retries) (span : Span F) (r : σ) :
    (g.maybeErrorAndRetry span r).2.1 = none := by
  unfold Generator.maybeErrorAndRetry
  simp only
  by_cases h1 : (RNG.Float64 g.rand r).1 ≥ g.errorProbability span
  · rw [if_pos h1]
  · rw [if_neg h1, if_neg (hno _)]

/-- The three post-processing steps keep the parent of a span. -/
theorem finish_parent {σ : Type} (g : Generator F σ) (s0 : Span F) (r1 r2 : σ) :
    (g.maybeErrorAndRetry (g.maybeAddProfileEvent (g.applyCardinalityAttrs s0) r1).1 r2).1.HasParent
      = s0.HasParent ∧
    (g.maybeErrorAndRetry (g.maybeAddProfileEvent (g.applyCardinalityAttrs s0) r1).1
      r2).1.ParentSpanID = s0.ParentSpanID := by
  obtain ⟨_, _, a3, a4, _⟩ := applyCardinalityAttrs_frame g s0
  obtain ⟨_, _, b3, b4, _⟩ := maybeAddProfileEvent_frame g (g.applyCardinalityAttrs s0) r1
  obtain ⟨_, _, c3, c4, _⟩ :=
    maybeErrorAndRetry_frame g (g.maybeAddProfileEvent (g.applyCardinalityAttrs s0) r1).1 r2
  exact ⟨by rw [c4, b4, a4], by rw [c3, b3, a3]⟩

/-- Outside the queue profile and without retry spans, one iteration of the loop of
`generateChildren` appends one child of `parent` and recurses from it. -/
theorem generateChild_single {σ : Type} (g : Generator F σ)
    (hq : g.cfg.Profile ≠ "queue")
    (hno : ∀ r, ¬ (RNG.Float64 g.rand r).1 < g.cfg.Retries)
    (recurse : List (Span F) → Span F → σ → List (Span F) × σ)
    (tid : model.TraceID) (parent : Span F) (i : Int) (spans : List (Span F)) (r : σ) :
    ∃ (c : Span F) (r2 : σ),
      g.generateChild recurse tid parent i spans r = recurse (spans ++ [c]) c r2 ∧
      c.HasParent = true ∧ c.ParentSpanID = parent.SpanID := by
  unfold Generator.generateChild
  simp only [hq, if_false, appendRetry_eq, maybeErrorAndRetry_no_retry g hno, Option.map_none',
    Option.toList_none, List.append_nil]
  refine ⟨_, _, rfl, ?_, ?_⟩
  · rw [(finish_parent g _ _ _).1]
    exact (buildChild_facts g.profile parent _ _ _ _ _ _ _ _).2.2.2.1
  · rw [(finish_parent g _ _ _).2]
    exact (buildChild_facts g.profile parent _ _ _ _ _ _ _ _).2.2.1

/-- The children appended by the loop of `generateChildren`, and the spans below them,
when every span gets `k` children and the recursion builds full trees. -/
theorem childLoop_full {σ : Type} (g : Generator F σ)
    (hq : g.cfg.Profile ≠ "queue")
    (hno : ∀ r, ¬ (RNG.Float64 g.rand r).1 < g.cfg.Retries)
    (recurse : List (Span F) → Span F → σ → List (Span F) × σ)
    (tid : model.TraceID) (parent : Span F) (k d : Nat)
    (hrec : ∀ spans c r, ∃ sub r2, recurse spans c r = (spans ++ sub, r2) ∧
      FullTree k d (if d = 0 then 0 else k) c sub) :
    ∀ (n : Nat) (i : Int) (spans : List (Span F)) (r : σ),
      ∃ out r2, g.childLoop recurse tid parent n i spans r = (spans ++ out, r2) ∧
        FullTree k (d + 1) n parent out := by
  intro n
  induction n with
  | zero =>
    intro i spans r
    exact ⟨[], r, by simp [Generator.childLoop], FullTree.done _ _⟩
  | succ n ih =>
    intro i spans r
    unfold Generator.childLoop
    simp only
    obtain ⟨c, r2, heq, hc1, hc2⟩ := generateChild_single g hq hno recurse tid parent i spans r
    obtain ⟨sub, r3, hsub, htree⟩ := hrec (spans ++ [c]) c r2
    rw [heq, hsub]
    obtain ⟨rest, r4, hrest, hfull⟩ := ih (i + 1) (spans ++ [c] ++ sub) r3
    refine ⟨c :: (sub ++ rest), r4, ?_, FullTree.child d n parent c sub rest hc1 hc2 htree hfull⟩
    rw [hrest]
    simp

/-- With `k` children for every span, `generateChildren` appends a full tree with as many
levels as lie between `level` and `Depth`. -/
theorem generateChildrenFuel_full {σ : Type} (g : Generator F σ)
    (hq : g.cfg.Profile ≠ "queue")
    (hno : ∀ r, ¬ (RNG.Float64 g.rand r).1 < g.cfg.Retries)
    (k : Nat) (hk : ∀ r, (g.childCount r).1 = Int.ofNat k) (tid : model.TraceID) :
    ∀ (fuel : Nat) (level : Int) (spans : List (Span F)) (parent : Span F) (r : σ),
      (g.cfg.Depth - level).toNat ≤ fuel →
      ∃ out r2, g.generateChildrenFuel tid fuel level spans parent r = (spans ++ out, r2) ∧
        FullTree k (g.cfg.Depth - level).toNat
          (if (g.cfg.Depth - level).toNat = 0 then 0 else k) parent out := by
  intro fuel
  induction fuel with
  | zero =>
    intro level spans parent r hfuel
    have h0 : (g.cfg.Depth - level).toNat = 0 := by omega
    refine ⟨[], r, by simp [Generator.generateChildrenFuel], ?_⟩
    rw [h0]
    exact FullTree.done _ _
  | succ fuel ih =>
    intro level spans parent r hfuel
    unfold Generator.generateChildrenFuel
    by_cases hl : level ≥ g.cfg.Depth
    · have h0 : (g.cfg.Depth - level).toNat = 0 := by omega
      rw [if_pos hl, h0]
      exact ⟨[], r, by simp, FullTree.done _ _⟩
    · rw [if_neg hl]
      simp only
      obtain ⟨d, hd⟩ : ∃ d, (g.cfg.Depth - level).toNat = d + 1 :=
        ⟨(g.cfg.Depth - level).toNat - 1, by omega⟩
      have hd2 : (g.cfg.Depth - (level + 1)).toNat = d := by omega
      rw [hd, hk r]
      simp only [Int.toNat_ofNat, Nat.succ_ne_zero, if_false]
      have hrec : ∀ spans c r, ∃ sub r2,
          g.generateChildrenFuel tid fuel (level + 1) spans c r = (spans ++ sub, r2) ∧
          FullTree k d (if d = 0 then 0 else k) c sub := by
        intro spans c r
        have := ih (level + 1) spans c r (by omega)
        rw [hd2] at this
        exact this
      exact childLoop_full g hq hno _ tid parent k d hrec k 0 spans _

/-- The number of spans in a full tree. -/
theorem FullTree_length (k : Nat) : ∀ (d n : Nat) (p : Span F) (out : List (Span F)),
    FullTree k d n p out → out.length = n * Finset.sum (Finset.range d) (fun i => k ^ i) := by
  intro d n p out h
  induction h with
  | done d p => simp
  | child d n p c sub rest _ _ _ _ ih1 ih2 =>
    rw [List.length_cons, List.length_append, ih1, ih2]
    have hg : Finset.sum (Finset.range (d + 1)) (fun i => k ^ i) =
        1 + k * Finset.sum (Finset.range d) (fun i => k ^ i) := by
      rw [Finset.sum_range_succ', Finset.mul_sum]
      simp only [pow_succ, pow_zero]
      rw [add_comm]
      congr 1
      apply Finset.sum_congr rfl
      intro i _
      ring
    by_cases hd : d = 0
    · subst hd
      simp
    · rw [if_neg hd, hg]
      ring
/-- Without retry spans and with `k` children for every span, a trace is its root
followed by a full tree of `Depth - 1` levels. -/
theorem GenerateTrace_full {σ : Type} (g : Generator F σ)
    (hq : g.cfg.Profile ≠ "queue")
    (hno : ∀ r, ¬ (RNG.Float64 g.rand r).1 < g.cfg.Retries)
    (k : Nat) (hk : ∀ r, (g.childCount r).1 = Int.ofNat k) (start : time.Time) (r : σ) :
    ∃ root rest, (g.GenerateTrace start r).1.Spans = root :: rest ∧ root.HasParent = false ∧
      FullTree k (g.cfg.Depth - 1).toNat
        (if (g.cfg.Depth - 1).toNat = 0 then 0 else k) root rest := by
  unfold Generator.GenerateTrace Generator.generateChildren
  simp only [appendRetry_eq, maybeErrorAndRetry_no_retry g hno, Option.map_none',
    Option.toList_none, List.append_nil]
  obtain ⟨out, r2, heq, htree⟩ := generateChildrenFuel_full g hq hno k hk (g.newTraceID r).1
    (g.cfg.Depth - 1).toNat 1
    [(g.maybeErrorAndRetry (g.maybeAddProfileEvent (g.applyCardinalityAttrs
      (g.profile.buildRoot g.topology.Frontdoor
        (RNG.Intn g.rand (max 1 g.cfg.Routes) (g.newSpanID (g.newTraceID r).2).2).1 start
        (g.newSpanID (g.newTraceID r).2).1 (g.newTraceID r).1
        (g.sampleDurationForProfile (RNG.Intn g.rand (max 1 g.cfg.Routes)
          (g.newSpanID (g.newTraceID r).2).2).2).1))
      (g.sampleDurationForProfile (RNG.Intn g.rand (max 1 g.cfg.Routes)
          (g.newSpanID (g.newTraceID r).2).2).2).2).1
      (g.maybeAddProfileEvent (g.applyCardinalityAttrs
      (g.profile.buildRoot g.topology.Frontdoor
        (RNG.Intn g.rand (max 1 g.cfg.Routes) (g.newSpanID (g.newTraceID r).2).2).1 start
        (g.newSpanID (g.newTraceID r).2).1 (g.newTraceID r).1
        (g.sampleDurationForProfile (RNG.Intn g.rand (max 1 g.cfg.Routes)
          (g.newSpanID (g.newTraceID r).2).2).2).1))
      (g.sampleDurationForProfile (RNG.Intn g.rand (max 1 g.cfg.Routes)
          (g.newSpanID (g.newTraceID r).2).2).2).2).2).1]
    _ _ (le_refl _)
  rw [heq]
  refine ⟨_, out, rfl, ?_, htree⟩
  rw [(finish_parent g _ _ _).1]
  exact (buildRoot_facts g.profile _ _ _ _ _ _).2.2.1

theorem geometric_succ (k d : Nat) :
    Finset.sum (Finset.range (d + 1)) (fun i => k ^ i) =
      1 + k * Finset.sum (Finset.range d) (fun i => k ^ i) := by
  rw [Finset.sum_range_succ', Finset.mul_sum]
  simp only [pow_succ, pow_zero]
  rw [add_comm]
  congr 1
  apply Finset.sum_congr rfl
  intro i _
  ring

/-- In exact arithmetic the integer part of a whole number that fits `int` is the
number. -/
theorem toInt64_natCast (k : Nat) (hk : k ≤ 9223372036854775807) :
    GoFloat64.toInt64 ((k : ℚ)) = Int.ofNat k := by
  show (if Int.tdiv ((k : ℚ)).num (Int.ofNat ((k : ℚ)).den) < -9223372036854775808 ∨
      9223372036854775807 < Int.tdiv ((k : ℚ)).num (Int.ofNat ((k : ℚ)).den)
    then -9223372036854775808 else Int.tdiv ((k : ℚ)).num (Int.ofNat ((k : ℚ)).den)) = _
  simp only [Rat.num_natCast, Rat.den_natCast, Int.ofNat_eq_coe, Nat.cast_one, Int.tdiv_one]
  rw [if_neg (by omega)]

/-- In exact arithmetic the integer part of a number that is at most 1 is at most 1. -/
theorem toInt64_le_one (x : ℚ) (hx : x ≤ 1) : GoFloat64.toInt64 x ≤ 1 := by
  show (if Int.tdiv x.num (Int.ofNat x.den) < -9223372036854775808 ∨
      9223372036854775807 < Int.tdiv x.num (Int.ofNat x.den)
    then -9223372036854775808 else Int.tdiv x.num (Int.ofNat x.den)) ≤ 1
  split_ifs
  · decide
  · have hnum : x.num ≤ (x.den : Int) := by
      have := Rat.le_def.mp hx
      simpa using this
    have hden : (0 : Int) < x.den := by exact_mod_cast x.den_pos
    by_cases h0 : 0 ≤ x.num
    · rw [Int.ofNat_eq_coe, Int.tdiv_eq_ediv h0 (le_of_lt hden)]
      have : x.num / (x.den : Int) < 2 := Int.ediv_lt_of_lt_mul hden (by omega)
      omega
    · have h1 : x.num = - (- x.num) := by omega
      rw [h1, Int.neg_tdiv]
      have := Int.tdiv_nonneg (a := - x.num) (b := Int.ofNat x.den) (by omega)
        (by simp only [Int.ofNat_eq_coe]; omega)
      omega

/-- In exact arithmetic, when the draws are not negative, a whole fanout `k >= 1` that
fits `int` gives every span `k` children. -/
theorem childCount_whole {σ : Type} (g : Generator ℚ σ) (k : Nat) (hk1 : 1 ≤ k)
    (hk2 : k ≤ 9223372036854775807) (hf : g.cfg.Fanout = (k : ℚ))
    (hdraw : ∀ r, (0 : ℚ) ≤ (g.rand.Float64 r).1) (r : σ) :
    (g.childCount r).1 = Int.ofNat k := by
  unfold Generator.childCount
  simp only [hf, toInt64_natCast k hk2]
  have hfrac : ¬ (RNG.Float64 g.rand r).1 < (k : ℚ) - GoFloat64.ofInt (Int.ofNat k) := by
    rw [ratLT]
    have h0 : (k : ℚ) - GoFloat64.ofInt (Int.ofNat k) = 0 := by
      show (k : ℚ) - ((Int.ofNat k : Int) : ℚ) = 0
      simp
    rw [h0]
    exact not_lt.mpr (hdraw r)
  rw [if_neg hfrac, if_neg (by simp only [Int.ofNat_eq_coe]; omega)]

/-- In exact arithmetic, when the draws are not negative, a fanout of at most 1 gives
every span one child. -/
theorem childCount_small {σ : Type} (g : Generator ℚ σ) (hf : g.cfg.Fanout ≤ (1 : ℚ))
    (hdraw : ∀ r, (0 : ℚ) ≤ (g.rand.Float64 r).1) (r : σ) :
    (g.childCount r).1 = Int.ofNat 1 := by
  unfold Generator.childCount
  simp only
  have hq := toInt64_le_one g.cfg.Fanout hf
  by_cases h1 : GoFloat64.toInt64 g.cfg.Fanout = 1
  · have hfrac : ¬ (RNG.Float64 g.rand r).1 <
        g.cfg.Fanout - GoFloat64.ofInt (GoFloat64.toInt64 g.cfg.Fanout) := by
      rw [ratLT, h1]
      have h0 : g.cfg.Fanout - GoFloat64.ofInt 1 ≤ (0 : ℚ) := by
        show g.cfg.Fanout - ((1 : Int) : ℚ) ≤ 0
        simp only [Int.cast_one]
        linarith
      exact not_lt.mpr (le_trans h0 (hdraw r))
    rw [if_neg hfrac, h1]
    rfl
  · have hone : (Int.ofNat 1 : Int) = 1 := rfl
    rw [hone]
    split_ifs <;> omega

/-- In exact arithmetic the loop of `estimateSpansPerTrace` adds the powers of the
fanout. -/
theorem estimateSpansPerTraceLoop_sum (f : ℚ) : ∀ (n : Nat) (level total : ℚ),
    estimateSpansPerTraceLoop f n level total =
      total + level * Finset.sum (Finset.range n) (fun i => f ^ (i + 1)) := by
  intro n
  induction n with
  | zero => intro level total; simp [estimateSpansPerTraceLoop]
  | succ n ih =>
    intro level total
    unfold estimateSpansPerTraceLoop
    simp only [ratMul, ratAdd]
    have key : Finset.sum (Finset.range n) (fun i => f ^ (i + 1 + 1)) =
        f * Finset.sum (Finset.range n) (fun i => f ^ (i + 1)) := by
      rw [Finset.mul_sum]
      apply Finset.sum_congr rfl
      intro i _
      ring
    rw [ih, Finset.sum_range_succ', key]
    ring

theorem ratOne : (1.0 : ℚ) = 1 := by
  rw [show (1.0 : ℚ) = (OfScientific.ofScientific 10 true 1 : ℚ) from rfl]
  norm_num

/-- In exact arithmetic `estimateSpansPerTrace` is the number of spans of a full tree. -/
theorem estimateSpansPerTrace_sum (depth : Int) (f : ℚ) (k : Nat) (hdepth : 1 ≤ depth)
    (hfan : (f = (k : ℚ) ∧ 1 ≤ k) ∨ (f ≤ 1 ∧ k = 1)) :
    estimateSpansPerTrace depth f =
      ((Finset.sum (Finset.range depth.toNat) (fun i => k ^ i) : Nat) : ℚ) := by
  unfold estimateSpansPerTrace
  obtain ⟨d, hd⟩ : ∃ d, depth.toNat = d + 1 := ⟨depth.toNat - 1, by omega⟩
  by_cases h1 : depth ≤ 1
  · rw [if_pos h1]
    have hd0 : d = 0 := by omega
    rw [hd, hd0]
    simp [ratOne]
  · rw [if_neg h1]
    by_cases h2 : f ≤ 1.0
    · rw [if_pos h2]
      have hf1 : f ≤ 1 := by
        have := (ratLE _ _).mp h2
        rwa [ratOne] at this
      have hk : k = 1 := by
        rcases hfan with ⟨hf, hk1⟩ | ⟨_, hk⟩
        · rw [hf] at hf1
          have : k ≤ 1 := by exact_mod_cast hf1
          omega
        · exact hk
      rw [hk]
      show ((depth : Int) : ℚ) = _
      simp only [one_pow, Finset.sum_const, Finset.card_range, smul_eq_mul, mul_one]
      have hcast : ((depth.toNat : Nat) : Int) = depth := Int.toNat_of_nonneg (by omega)
      have h3 : ((depth : Int) : ℚ) = (((depth.toNat : Nat) : Int) : ℚ) := by rw [hcast]
      exact h3.trans (Int.cast_natCast _)
    · rw [if_neg h2]
      have hf1 : ¬ f ≤ 1 := by
        intro h
        apply h2
        rw [ratLE, ratOne]
        exact h
      rcases hfan with ⟨hf, _⟩ | ⟨hle, _⟩
      · have hd1 : (depth - 1).toNat = d := by omega
        rw [hd1, hd, estimateSpansPerTraceLoop_sum, ratOne, Finset.sum_range_succ', hf]
        push_cast
        ring
      · exact absurd hle hf1

/-- C29, as stated, fails for a whole fanout that does not fit `int`: with fanout 2^63
and depth 2 the conversion `int(fanout)` gives the smallest integer, `childCount` is
raised to 1, and the trace has 2 spans, while `estimateSpansPerTrace` is at least
2^63, so above the number of spans. -/
theorem C29_fanout_beyond_int_gives_one_child :
    hugeFanoutConfig.Profile = "web" ∧ hugeFanoutConfig.Depth = 2 ∧
    hugeFanoutConfig.Fanout = GoFloat64.ofInt 9223372036854775808 ∧
    ¬ (hugeFanoutConfig.Retries < 0.0 ∨ 0.0 < hugeFanoutConfig.Retries) ∧
    (firstTrace hugeFanoutConfig).Spans.length = 2 ∧
    GoFloat64.ofInt 9223372036854775808 ≤
      estimateSpansPerTrace hugeFanoutConfig.Depth hugeFanoutConfig.Fanout ∧
    GoFloat64.ofInt (Int.ofNat (firstTrace hugeFanoutConfig).Spans.length) <
      estimateSpansPerTrace hugeFanoutConfig.Depth hugeFanoutConfig.Fanout := by
  decide

/-- C29, amended. With draws that are never negative, for the web, grpc and batch
profiles with retries = 0, depth `d >= 1` and a fanout that is a whole number `k` with
`1 <= k <= 2^63 - 1`, or at most 1 (then `k = 1`), a generated trace is its root
followed by a full tree of `d - 1` further levels in which every span above the last
level has `k` children; it has `1 + k + ... + k^(d-1)` spans, `d` spans for a fanout of
at most 1; and as long as that number is at most 2^53, so that every value
`estimateSpansPerTrace` computes is a whole number that `float64` holds exactly, it is
`estimateSpansPerTrace(d, fanout)`. The model of `generateChildren` is a total
function. -/
theorem C29_span_count_of_full_tree {σ : Type} (R : RandLib ℚ σ) (M : MathLib ℚ)
    (cfg : Config ℚ) (start : time.Time) (r : σ) (k : Nat)
    (hprofile : cfg.Profile = "web" ∨ cfg.Profile = "grpc" ∨ cfg.Profile = "batch")
    (hretries : cfg.Retries = 0) (hdepth : 1 ≤ cfg.Depth)
    (hdraw : ∀ r, (0 : ℚ) ≤ (R.Float64 r).1)
    (hfan : (cfg.Fanout = (k : ℚ) ∧ 1 ≤ k ∧ k ≤ 9223372036854775807) ∨
      (cfg.Fanout ≤ (1 : ℚ) ∧ k = 1)) :
    (∃ root rest, ((New R M cfg).1.GenerateTrace start r).1.Spans = root :: rest ∧
      root.HasParent = false ∧
      FullTree k (cfg.Depth.toNat - 1) (if cfg.Depth.toNat - 1 = 0 then 0 else k) root rest) ∧
    ((New R M cfg).1.GenerateTrace start r).1.Spans.length =
      Finset.sum (Finset.range cfg.Depth.toNat) (fun i => k ^ i) ∧
    (Finset.sum (Finset.range cfg.Depth.toNat) (fun i => k ^ i) ≤ 9007199254740992 →
      ((((New R M cfg).1.GenerateTrace start r).1.Spans.length : Nat) : ℚ) =
        estimateSpansPerTrace cfg.Depth cfg.Fanout) ∧
    (cfg.Fanout ≤ (1 : ℚ) → ((New R M cfg).1.GenerateTrace start r).1.Spans.length =
      cfg.Depth.toNat) := by
  have hq : (New R M cfg).1.cfg.Profile ≠ "queue" := by
    show cfg.Profile ≠ "queue"
    rcases hprofile with h | h | h <;> rw [h] <;> decide
  have hno : ∀ r, ¬ (RNG.Float64 (New R M cfg).1.rand r).1 < (New R M cfg).1.cfg.Retries := by
    intro r1
    show ¬ (R.Float64 r1).1 < cfg.Retries
    rw [hretries, ratLT]
    exact not_lt.mpr (hdraw r1)
  have hk : ∀ r, ((New R M cfg).1.childCount r).1 = Int.ofNat k := by
    intro r1
    rcases hfan with ⟨hf, hk1, hk2⟩ | ⟨hf, hk1⟩
    · exact childCount_whole (New R M cfg).1 k hk1 hk2 hf hdraw r1
    · rw [hk1]
      exact childCount_small (New R M cfg).1 hf hdraw r1
  obtain ⟨root, rest, hspans, hroot, htree⟩ :=
    GenerateTrace_full (New R M cfg).1 hq hno k hk start r
  have hdd : ((New R M cfg).1.cfg.Depth - 1).toNat = cfg.Depth.toNat - 1 := by
    show (cfg.Depth - 1).toNat = cfg.Depth.toNat - 1
    omega
  rw [hdd] at htree
  obtain ⟨d, hd⟩ : ∃ d, cfg.Depth.toNat = d + 1 := ⟨cfg.Depth.toNat - 1, by omega⟩
  have hlen : ((New R M cfg).1.GenerateTrace start r).1.Spans.length =
      Finset.sum (Finset.range cfg.Depth.toNat) (fun i => k ^ i) := by
    rw [hspans, List.length_cons, FullTree_length k _ _ _ _ htree, hd, geometric_succ]
    simp only [Nat.add_sub_cancel]
    by_cases hd0 : d = 0
    · subst hd0
      simp
    · rw [if_neg hd0]
      ring
  have hfan2 : (cfg.Fanout = (k : ℚ) ∧ 1 ≤ k) ∨ (cfg.Fanout ≤ 1 ∧ k = 1) := by
    rcases hfan with ⟨hf, hk1, _⟩ | h
    · exact Or.inl ⟨hf, hk1⟩
    · exact Or.inr h
  refine ⟨⟨root, rest, hspans, hroot, htree⟩, hlen, ?_, ?_⟩
  · intro _
    rw [hlen, estimateSpansPerTrace_sum cfg.Depth cfg.Fanout k hdepth hfan2]
  · intro hle
    have hk1 : k = 1 := by
      rcases hfan with ⟨hf, hk1, _⟩ | ⟨_, hk1⟩
      · rw [hf] at hle
        have : k ≤ 1 := by exact_mod_cast hle
        omega
      · exact hk1
    rw [hlen, hk1]
    simp

/-- Witness for C29: depth 3 and fanout 2 give 1 + 2 + 4 spans. -/
theorem C29_span_count_of_full_tree_witness :
    (binaryTreeConfig.Profile = "web" ∨ binaryTreeConfig.Profile = "grpc" ∨
      binaryTreeConfig.Profile = "batch") ∧
    binaryTreeConfig.Retries = 0 ∧ 1 ≤ binaryTreeConfig.Depth ∧
    (∀ r, (0 : ℚ) ≤ (constantRand.Float64 r).1) ∧
    binaryTreeConfig.Fanout = ((2 : Nat) : ℚ) ∧
    Finset.sum (Finset.range binaryTreeConfig.Depth.toNat) (fun i => 2 ^ i) = 7 ∧
    ((New constantRand linearMath binaryTreeConfig).1.GenerateTrace 0 0).1.Spans.length = 7 ∧
    (7 : ℚ) = estimateSpansPerTrace binaryTreeConfig.Depth binaryTreeConfig.Fanout := by
  have hdraw : ∀ r, (0 : ℚ) ≤ (constantRand.Float64 r).1 := by
    intro r
    show (0 : ℚ) ≤ 1 / 2
    norm_num
  have hfan : binaryTreeConfig.Fanout = ((2 : Nat) : ℚ) := by
    show (2 : ℚ) = ((2 : Nat) : ℚ)
    norm_num
  obtain ⟨_, h2, h3, _⟩ := C29_span_count_of_full_tree constantRand linearMath
    binaryTreeConfig 0 0 2 (Or.inl rfl) rfl (by decide) hdraw
    (Or.inl ⟨hfan, by decide, by decide⟩)
  have h7 : Finset.sum (Finset.range binaryTreeConfig.Depth.toNat) (fun i => 2 ^ i) = 7 := by
    decide
  have h4 := h3 (by rw [h7]; decide)
  rw [h7] at h2
  rw [h2] at h4
  exact ⟨Or.inl rfl, rfl, by decide, hdraw, hfan, h7, h2, by exact_mod_cast h4⟩

/-! ## C30: the operations of the generator that can fail -/

theorem Attrs.set_ne_nil {F : Type} (attrs : Attrs F) (k : String) (v : AttrValue F) :
    attrs.set k v ≠ [] := by
  cases attrs with
  | nil => simp [Attrs.set]
  | cons kv rest =>
    obtain ⟨k1, v1⟩ := kv
    unfold Attrs.set
    split_ifs <;> simp

/-- The cardinality attributes leave no span without attributes that had some. -/
theorem applyCardinalityAttrs_ne_nil {σ : Type} (g : Generator F σ) (s : Span F)
    (h : s.Attributes ≠ []) : (g.applyCardinalityAttrs s).Attributes ≠ [] := by
  unfold Generator.applyCardinalityAttrs
  by_cases hc : g.cfg.HighCardinality = true
  · rw [if_neg (not_not.mpr hc)]
    dsimp only
    split_ifs <;> exact Attrs.set_ne_nil _ _ _
  · rw [if_pos hc]
    exact h

/-- The write of `maybeErrorAndRetry` finds a map when the span that was built has
attributes. -/
theorem errorWriteFails_finished {σ : Type} (g : Generator F σ) (s0 : Span F)
    (h : s0.Attributes ≠ []) (r1 r : σ) :
    g.errorWriteFails (g.maybeAddProfileEvent (g.applyCardinalityAttrs s0) r1).1 r = false := by
  unfold Generator.errorWriteFails
  have h1 := applyCardinalityAttrs_ne_nil g s0 h
  rw [(maybeAddProfileEvent_frame g (g.applyCardinalityAttrs s0) r1).2.2.2.2.2.2.2.2]
  cases hattrs : (g.applyCardinalityAttrs s0).Attributes with
  | nil => exact absurd hattrs h1
  | cons kv rest => simp
theorem max_one_pos (x : Int) : ¬ max 1 x ≤ 0 := by
  unfold max
  split_ifs <;> omega

theorem lookupOK_of_nonneg (p : profileModule) (idx : Int) (h : 0 ≤ idx) :
    p.lookupOK idx = true := by
  unfold profileModule.lookupOK
  have hpos : (0 : Int) < Int.ofNat p.tableLength := by
    cases p <;> decide
  rw [Int.tmod_eq_emod h (le_of_lt hpos)]
  simp only [decide_eq_true_eq]
  exact ⟨Int.emod_nonneg _ (ne_of_gt hpos), Int.emod_lt_of_pos _ hpos⟩

theorem buildRoot_attrs (p : profileModule) (frontdoor : String) (routeIdx : Int)
    (start : time.Time) (spanID : model.SpanID) (traceID : model.TraceID) (dur : time.Duration) :
    (p.buildRoot (F := F) frontdoor routeIdx start spanID traceID dur).Attributes ≠ [] := by
  cases p <;> simp [profileModule.buildRoot]

theorem addStoreAttrs_ne_nil (attrs : Attrs F) (dbHeavy cacheHit : Bool) :
    addStoreAttrs attrs dbHeavy cacheHit ≠ [] := by
  unfold addStoreAttrs
  exact Attrs.set_ne_nil _ _ _

theorem buildChild_attrs (p : profileModule) (parent : Span F) (service : String)
    (routeIdx : Int) (start : time.Time) (spanID : model.SpanID) (traceID : model.TraceID)
    (dur : time.Duration) (dbHeavy cacheHit : Bool) :
    (p.buildChild parent service routeIdx start spanID traceID dur dbHeavy cacheHit).Attributes
      ≠ [] := by
  cases p <;> simp [profileModule.buildChild, addStoreAttrs_ne_nil]

theorem buildQueuePair_attrs (parent : Span F) (service : String)
    (routeIdx : Int) (start : time.Time) (producerID consumerID : model.SpanID)
    (traceID : model.TraceID) (dur : time.Duration) :
    (profileModule.queueProfile.buildQueuePair parent service routeIdx start producerID
      consumerID traceID dur).1.Attributes ≠ [] ∧
    (profileModule.queueProfile.buildQueuePair parent service routeIdx start producerID
      consumerID traceID dur).2.Attributes ≠ [] := by
  simp [profileModule.buildQueuePair]

/-- One checked iteration of the loop of `generateChildren` fails nowhere and does what
the unchecked iteration does. -/
theorem generateChildChecked_eq {σ : Type} (g : Generator F σ)
    (hp : g.profile = moduleFor g.cfg.Profile) (hlen : 0 < g.topology.Services.length)
    (hintn : ∀ n r, 0 < n → 0 ≤ (g.rand.Intn n r).1 ∧ (g.rand.Intn n r).1 < n)
    (recurseC : List (Span F) → Span F → σ → Option (List (Span F) × σ))
    (recurse : List (Span F) → Span F → σ → List (Span F) × σ)
    (hrec : ∀ spans c r, recurseC spans c r = some (recurse spans c r))
    (tid : model.TraceID) (parent : Span F) (i : Int) (spans : List (Span F)) (r : σ) :
    g.generateChildChecked recurseC tid parent i spans r =
      some (g.generateChild recurse tid parent i spans r) := by
  unfold Generator.generateChildChecked Generator.generateChild
  have hn : ¬ Int.ofNat g.topology.Services.length ≤ 0 := by
    simp only [Int.ofNat_eq_coe]; omega
  rw [if_neg hn]
  simp only []
  have h2 := hintn (Int.ofNat g.topology.Services.length) r
    (by simp only [Int.ofNat_eq_coe]; omega)
  have hg2 : ¬ ((RNG.Intn g.rand (Int.ofNat g.topology.Services.length) r).1 < 0 ∨
      Int.ofNat g.topology.Services.length ≤
        (RNG.Intn g.rand (Int.ofNat g.topology.Services.length) r).1) := by
    unfold RNG.Intn
    omega
  rw [if_neg hg2, if_neg (max_one_pos _)]
  have h3 := hintn (max 1 g.cfg.Routes)
    (RNG.Intn g.rand (Int.ofNat g.topology.Services.length) r).2
    (by have := max_one_pos g.cfg.Routes; omega)
  have hg3 : ¬ ¬ g.profile.lookupOK (RNG.Intn g.rand (max 1 g.cfg.Routes)
      (RNG.Intn g.rand (Int.ofNat g.topology.Services.length) r).2).1 = true :=
    not_not.mpr (lookupOK_of_nonneg _ _ h3.1)
  rw [if_neg hg3]
  by_cases hq : g.cfg.Profile = "queue"
  · have hprof : g.profile = profileModule.queueProfile := by rw [hp, hq]; exact moduleFor_queue
    simp only [hq, if_true, hprof]
    rw [errorWriteFails_finished g _ (buildQueuePair_attrs _ _ _ _ _ _ _ _).1,
      errorWriteFails_finished g _ (buildQueuePair_attrs _ _ _ _ _ _ _ _).2]
    simp only [Bool.false_eq_true, if_false]
    exact hrec _ _ _
  · simp only [hq, if_false]
    rw [errorWriteFails_finished g _ (buildChild_attrs _ _ _ _ _ _ _ _ _ _)]
    simp only [Bool.false_eq_true, if_false]
    exact hrec _ _ _

/-- The checked loop of `generateChildren` fails nowhere when the recursion does not. -/
theorem childLoopChecked_eq {σ : Type} (g : Generator F σ)
    (hp : g.profile = moduleFor g.cfg.Profile) (hlen : 0 < g.topology.Services.length)
    (hintn : ∀ n r, 0 < n → 0 ≤ (g.rand.Intn n r).1 ∧ (g.rand.Intn n r).1 < n)
    (recurseC : List (Span F) → Span F → σ → Option (List (Span F) × σ))
    (recurse : List (Span F) → Span F → σ → List (Span F) × σ)
    (hrec : ∀ spans c r, recurseC spans c r = some (recurse spans c r))
    (tid : model.TraceID) (parent : Span F) :
    ∀ (n : Nat) (i : Int) (spans : List (Span F)) (r : σ),
      g.childLoopChecked recurseC tid parent n i spans r =
        some (g.childLoop recurse tid parent n i spans r) := by
  intro n
  induction n with
  | zero => intro i spans r; rfl
  | succ n ih =>
    intro i spans r
    unfold Generator.childLoopChecked Generator.childLoop
    rw [generateChildChecked_eq g hp hlen hintn recurseC recurse hrec]
    exact ih _ _ _

/-- The checked `generateChildren` fails nowhere. -/
theorem generateChildrenFuelChecked_eq {σ : Type} (g : Generator F σ)
    (hp : g.profile = moduleFor g.cfg.Profile) (hlen : 0 < g.topology.Services.length)
    (hintn : ∀ n r, 0 < n → 0 ≤ (g.rand.Intn n r).1 ∧ (g.rand.Intn n r).1 < n)
    (tid : model.TraceID) :
    ∀ (fuel : Nat) (level : Int) (spans : List (Span F)) (parent : Span F) (r : σ),
      g.generateChildrenFuelChecked tid fuel level spans parent r =
        some (g.generateChildrenFuel tid fuel level spans parent r) := by
  intro fuel
  induction fuel with
  | zero => intro level spans parent r; rfl
  | succ fuel ih =>
    intro level spans parent r
    unfold Generator.generateChildrenFuelChecked Generator.generateChildrenFuel
    by_cases hl : level ≥ g.cfg.Depth
    · rw [if_pos hl, if_pos hl]
    · rw [if_neg hl, if_neg hl]
      exact childLoopChecked_eq g hp hlen hintn _ _ (ih (level + 1)) tid parent _ _ _ _

/-- The checked `GenerateTrace` fails nowhere and returns the trace of `GenerateTrace`. -/
theorem GenerateTraceChecked_eq {σ : Type} (g : Generator F σ)
    (hp : g.profile = moduleFor g.cfg.Profile) (hlen : 0 < g.topology.Services.length)
    (hintn : ∀ n r, 0 < n → 0 ≤ (g.rand.Intn n r).1 ∧ (g.rand.Intn n r).1 < n)
    (start : time.Time) (r : σ) :
    g.GenerateTraceChecked start r = some (g.GenerateTrace start r) := by
  unfold Generator.GenerateTraceChecked Generator.GenerateTrace Generator.generateChildren
  simp only []
  rw [if_neg (max_one_pos _)]
  have h3 := hintn (max 1 g.cfg.Routes) (g.newSpanID (g.newTraceID r).2).2
    (by have := max_one_pos g.cfg.Routes; omega)
  have hg3 : ¬ ¬ g.profile.lookupOK (RNG.Intn g.rand (max 1 g.cfg.Routes)
      (g.newSpanID (g.newTraceID r).2).2).1 = true :=
    not_not.mpr (lookupOK_of_nonneg _ _ h3.1)
  rw [if_neg hg3, errorWriteFails_finished g _ (buildRoot_attrs _ _ _ _ _ _ _)]
  simp only [Bool.false_eq_true, if_false]
  rw [generateChildrenFuelChecked_eq g hp hlen hintn]

theorem BuildTopologyChecked_eq (maxAlloc : Nat) (pfx : String) (n : Int)
    (h : makesliceOK maxAlloc 16 0 n = true) :
    BuildTopologyChecked maxAlloc pfx n = some (BuildTopology pfx n) := by
  unfold BuildTopologyChecked BuildTopology
  rw [if_neg (not_not.mpr h)]
  simp

theorem NewChecked_eq {σ : Type} (maxAlloc : Nat) (R : RandLib F σ) (M : MathLib F)
    (cfg : Config F) (h : makesliceOK maxAlloc 16 0 cfg.Services = true) :
    NewChecked maxAlloc R M cfg = some (New R M cfg) := by
  unfold NewChecked New
  rw [BuildTopologyChecked_eq maxAlloc _ _ h]

theorem BuildTopology_length (pfx : String) (n : Int) :
    0 < (BuildTopology pfx n).Services.length := by
  unfold BuildTopology
  simp

/-- C30, as stated, fails for a number of services that `make` cannot allocate: the
configuration `hugeServicesConfig`, with the largest `int` as number of services, is
accepted by `Validate`, and `New` panics in `make([]string, 0, n)` of `BuildTopology`
whatever the allocation limit of the platform is. -/
theorem C30_services_beyond_make_panic :
    hugeServicesConfig.Validate = none ∧
    ∀ maxAlloc, NewChecked maxAlloc halfSource seriesMath hugeServicesConfig = none := by
  refine ⟨by decide, ?_⟩
  intro maxAlloc
  have h : makesliceOK maxAlloc 16 0 hugeServicesConfig.Services = false := by
    unfold makesliceOK
    have h1 : ¬ (16 * (hugeServicesConfig.Services).toNat < 18446744073709551616) := by
      decide
    simp [h1]
  unfold NewChecked BuildTopologyChecked
  simp [h]

/-- C30, amended. For every configuration accepted by `Validate` whose number of services
`make` can allocate (16 bytes for each, at most `maxAlloc`), and every random stream
whose `Intn(n)` lies in `[0, n)`, `New` followed by `GenerateTrace` passes every check:
the checked functions return what the unchecked ones compute. In particular the
topology has at least one service, the arguments of `Intn` are positive, the service
index is inside `Services`, the table index of the profile is inside its table, and
`maybeErrorAndRetry` writes to a map with entries. Running out of memory or stack is no
part of the model. -/
theorem C30_generator_passes_every_check {σ : Type} (R : RandLib F σ) (M : MathLib F)
    (cfg : Config F) (maxAlloc : Nat) (start : time.Time) (r : σ)
    (hvalid : cfg.Validate = none)
    (hintn : ∀ n r, 0 < n → 0 ≤ (R.Intn n r).1 ∧ (R.Intn n r).1 < n)
    (hmake : 16 * cfg.Services.toNat ≤ maxAlloc) (hplat : maxAlloc < 18446744073709551616) :
    NewChecked maxAlloc R M cfg = some (New R M cfg) ∧
    (New R M cfg).1.GenerateTraceChecked start r =
      some ((New R M cfg).1.GenerateTrace start r) ∧
    1 ≤ (New R M cfg).1.topology.Services.length ∧
    0 < max 1 cfg.Routes ∧
    0 < Int.ofNat (New R M cfg).1.topology.Services.length ∧
    (∀ r1, 0 ≤ (R.Intn (Int.ofNat (New R M cfg).1.topology.Services.length) r1).1 ∧
      (R.Intn (Int.ofNat (New R M cfg).1.topology.Services.length) r1).1.toNat <
        (New R M cfg).1.topology.Services.length) ∧
    (∀ r1, (New R M cfg).1.profile.lookupOK (R.Intn (max 1 cfg.Routes) r1).1 = true) := by
  have hserv : 0 < cfg.Services := ((Validate_eq_none_iff cfg).mp hvalid).2.2.2.2.2.2.1
  have hok : makesliceOK maxAlloc 16 0 cfg.Services = true := by
    unfold makesliceOK
    simp only [decide_eq_true_eq]
    omega
  have hlen : 0 < (New R M cfg).1.topology.Services.length :=
    BuildTopology_length cfg.ServicePrefix cfg.Services
  have hpos : (0 : Int) < Int.ofNat (New R M cfg).1.topology.Services.length := by
    simp only [Int.ofNat_eq_coe]
    omega
  have hroutes : 0 < max 1 cfg.Routes := by
    have := max_one_pos cfg.Routes
    omega
  refine ⟨NewChecked_eq maxAlloc R M cfg hok,
    GenerateTraceChecked_eq (New R M cfg).1 (New_profile R M cfg) hlen hintn start r,
    hlen, hroutes, hpos, ?_, ?_⟩
  · intro r1
    have h := hintn _ r1 hpos
    refine ⟨h.1, ?_⟩
    have h2 := h.2
    simp only [Int.ofNat_eq_coe] at h2 ⊢
    omega
  · intro r1
    exact lookupOK_of_nonneg _ _ (hintn _ r1 hroutes).1

theorem halfSource_Intn : ∀ (n : Int) (r : List Nat), 0 < n →
    0 ≤ (halfSource.Intn n r).1 ∧ (halfSource.Intn n r).1 < n := by
  intro n r hn
  show 0 ≤ Int.ofNat (r.headD 0) % n ∧ Int.ofNat (r.headD 0) % n < n
  exact ⟨Int.emod_nonneg _ (ne_of_gt hn), Int.emod_lt_of_pos _ hn⟩

/-- Witness for C30: the scenario with three services and an allocation limit of 2^48
bytes. -/
theorem C30_generator_passes_every_check_witness :
    scenarioConfig.Validate = none ∧
    (∀ (n : Int) (r : List Nat), 0 < n →
      0 ≤ (halfSource.Intn n r).1 ∧ (halfSource.Intn n r).1 < n) ∧
    16 * scenarioConfig.Services.toNat ≤ 281474976710656 ∧
    (281474976710656 : Nat) < 18446744073709551616 ∧
    NewChecked 281474976710656 halfSource seriesMath scenarioConfig =
      some (New halfSource seriesMath scenarioConfig) ∧
    (New halfSource seriesMath scenarioConfig).1.GenerateTraceChecked 0
        (New halfSource seriesMath scenarioConfig).2 =
      some ((New halfSource seriesMath scenarioConfig).1.GenerateTrace 0
        (New halfSource seriesMath scenarioConfig).2) :=
  have hvalid : scenarioConfig.Validate = none := by decide
  ⟨hvalid, halfSource_Intn, by decide, by decide,
    (C30_generator_passes_every_check halfSource seriesMath scenarioConfig 281474976710656 0
      (New halfSource seriesMath scenarioConfig).2 hvalid halfSource_Intn (by decide)
      (by decide)).1,
    (C30_generator_passes_every_check halfSource seriesMath scenarioConfig 281474976710656 0
      (New halfSource seriesMath scenarioConfig).2 hvalid halfSource_Intn (by decide)
      (by decide)).2.1⟩

/-! ## C39: the service name of a Zipkin span -/

theorem getString_str {F : Type} (attrs : Attrs F) (k n : String)
    (h : attrs.get k = some (.str n)) : attrs.getString k = (n, true) := by
  unfold Attrs.getString
  rw [h]

theorem getString_other {F : Type} (attrs : Attrs F) (k : String)
    (h : ∀ n, attrs.get k ≠ some (.str n)) : attrs.getString k = ("", false) := by
  unfold Attrs.getString
  split
  · next s heq => exact absurd heq (h s)
  · rfl

/-- C39. The `localEndpoint.serviceName` of an encoded span is the resource attribute
`service.name` when that is a non-empty string; otherwise it is the span attribute
`service.name` whenever that is a string, the empty string included; and it is
`unknown` only when the span attribute is missing or is no string. -/
theorem C39_zipkin_service_name {F : Type} (fmt : FormatLib F) (s : Span F) (z : ZipkinSpan)
    (henc : zipkinEncodeSpan fmt s = .ok z) :
    z.LocalEndpoint = zipkinServiceName s ∧
    (∀ n, s.Resource.Attributes.get "service.name" = some (.str n) → n ≠ "" →
      z.LocalEndpoint = n) ∧
    ((∀ n, s.Resource.Attributes.get "service.name" = some (.str n) → n = "") →
      (∀ n, s.Attributes.get "service.name" = some (.str n) → z.LocalEndpoint = n) ∧
      ((∀ n, s.Attributes.get "service.name" ≠ some (.str n)) →
        z.LocalEndpoint = "unknown")) := by
  have hz : z.LocalEndpoint = zipkinServiceName s := by
    unfold zipkinEncodeSpan at henc
    by_cases h0 : s.StartTime.IsZero = true
    · simp [h0] at henc
    · simp only [h0, if_false] at henc
      repeat' split at henc
      all_goals first
        | (injection henc with henc; rw [← henc])
        | simp at henc
  refine ⟨hz, ?_, ?_⟩
  · intro n hn hne
    rw [hz]
    unfold zipkinServiceName
    simp [getString_str _ _ _ hn, hne]
  · intro hres
    have hfirst : ¬ ((s.Resource.Attributes.getString "service.name").2 = true ∧
        (s.Resource.Attributes.getString "service.name").1 ≠ "") := by
      rintro ⟨h1, h2⟩
      unfold Attrs.getString at h1 h2
      split at h1
      · next n heq =>
        simp only [heq] at h2
        exact h2 (hres n heq)
      · simp at h1
    constructor
    · intro n hn
      rw [hz]
      unfold zipkinServiceName
      simp only [hfirst, if_false, getString_str _ _ _ hn, if_true]
    · intro hnone
      rw [hz]
      unfold zipkinServiceName
      simp only [hfirst, if_false, getString_other _ _ hnone, Bool.false_eq_true]

/-- Evaluation of C39: an empty span attribute gives an empty service name, not
`unknown`. -/
theorem C39_zipkin_service_name_witness :
    zipkinEncodeSpan fractionFormat emptyServiceSpan =
      .ok { TraceID := "00000000000000000000000000000000", ID := "0000000000000005",
            ParentID := "", Name := "work", Kind := "INTERNAL",
            TimestampMicr := 1700000000000000, DurationMicr := 2,
            LocalEndpoint := "", Tags := some [("service.name", "")] } ∧
    zipkinServiceName emptyServiceSpan = "" ∧
    zipkinServiceName resourceNamedSpan = "res" ∧
    zipkinServiceName numberNamedSpan = "unknown" :=
  have henc : zipkinEncodeSpan fractionFormat emptyServiceSpan =
      .ok { TraceID := "00000000000000000000000000000000", ID := "0000000000000005",
            ParentID := "", Name := "work", Kind := "INTERNAL",
            TimestampMicr := 1700000000000000, DurationMicr := 2,
            LocalEndpoint := "", Tags := some [("service.name", "")] } := by decide
  ⟨henc, ((C39_zipkin_service_name fractionFormat emptyServiceSpan _ henc).1).symm,
    by decide, by decide⟩

/-! ## C38: the attributes written by the OTLP encoder -/

/-- The inner loop, when it succeeds, has converted the spans one by one, in order. -/
theorem encodeServiceSpans_inv (xs : List (Span F)) (out : List (OTLPSpan F))
    (h : encodeServiceSpans xs = .ok out) : xs.map toOTLPSpan = out.map Except.ok := by
  induction xs generalizing out with
  | nil =>
    unfold encodeServiceSpans at h
    injection h with h
    rw [← h]
    rfl
  | cons s rest ih =>
    unfold encodeServiceSpans at h
    cases hs : toOTLPSpan s with
    | error e => simp [hs] at h
    | ok span =>
      cases hr : encodeServiceSpans rest with
      | error e => simp [hs, hr] at h
      | ok spans =>
        simp only [hs, hr] at h
        injection h with h
        rw [← h, List.map_cons, List.map_cons, hs, ih spans hr]

/-- Every span in the records of the outer loop is the conversion of an input span. -/
theorem encodeServices_inv (spans : List (Span F)) (keys : List String)
    (out : List (ResourceSpans F)) (h : encodeServices spans keys = .ok out) :
    ∀ rs ∈ out, ∀ ss ∈ rs.ScopeSpans, ∀ o ∈ ss.Spans, ∃ s ∈ spans, toOTLPSpan s = .ok o := by
  induction keys generalizing out with
  | nil =>
    unfold encodeServices at h
    injection h with h
    rw [← h]
    intro rs hrs
    exact absurd hrs (List.not_mem_nil _)
  | cons k rest ih =>
    unfold encodeServices at h
    cases hs : encodeServiceSpans (spans.filter (fun s => otlpServiceOf s = k)) with
    | error e => simp [hs] at h
    | ok otel =>
      cases hr : encodeServices spans rest with
      | error e => simp [hs, hr] at h
      | ok more =>
        simp only [hs, hr] at h
        injection h with h
        rw [← h]
        intro rs hrs
        rcases List.mem_cons.mp hrs with rfl | hrs
        · intro ss hss o ho
          simp only [List.mem_singleton] at hss
          subst hss
          have hmap := encodeServiceSpans_inv _ _ hs
          have : Except.ok o ∈ otel.map (Except.ok (ε := OTLPEncodeError)) :=
            List.mem_map.mpr ⟨o, ho, rfl⟩
          rw [← hmap] at this
          obtain ⟨s, hsmem, hso⟩ := List.mem_map.mp this
          exact ⟨s, List.mem_of_mem_filter hsmem, hso⟩
        · exact ih more hr rs hrs

/-- A key of the list has a value in the map. -/
theorem Attrs.get_of_mem_keys {F : Type} (attrs : Attrs F) (k : String)
    (h : k ∈ attrs.map (fun kv => kv.1)) : ∃ v, attrs.get k = some v := by
  induction attrs with
  | nil => simp at h
  | cons kv rest ih =>
    obtain ⟨k1, v1⟩ := kv
    unfold Attrs.get
    by_cases hk : k1 = k
    · exact ⟨v1, by simp [hk]⟩
    · simp only [hk, if_false]
      apply ih
      simp only [List.map_cons, List.mem_cons] at h
      rcases h with h | h
      · exact absurd h.symm hk
      · exact h

/-- What `toOTLPSpan` does with the attributes of a span and of its events. -/
theorem toOTLPSpan_attrs (s : Span F) (o : OTLPSpan F) (h : toOTLPSpan s = .ok o) :
    o.Attributes = toAttrs s.Attributes ∧
    o.Events.map (fun e => e.Attributes) = s.Events.map (fun e => toAttrs e.Attributes) := by
  unfold toOTLPSpan at h
  simp only at h
  split_ifs at h
  all_goals
    injection h with h
    rw [← h]
    simp [List.map_map, Function.comp_def]

/-- The list written by `toAttrs`: the keys of the map, each once, in strictly ascending
order, each with the conversion of its value. -/
theorem toAttrs_spec (attrs : Attrs F) :
    ((toAttrs attrs).map (fun kv => kv.Key)).Sorted (fun a b => a < b) ∧
    ((toAttrs attrs).map (fun kv => kv.Key)).Nodup ∧
    (∀ k, k ∈ (toAttrs attrs).map (fun kv => kv.Key) ↔ k ∈ attrs.map (fun kv => kv.1)) ∧
    ∀ kv ∈ toAttrs attrs, ∃ v, attrs.get kv.Key = some v ∧ kv.Value = toAny v := by
  unfold toAttrs
  by_cases h0 : attrs.length = 0
  · have hnil : attrs = [] := List.length_eq_zero.mp h0
    subst hnil
    simp
  · rw [if_neg h0]
    obtain ⟨hsorted, hnodup, hmem⟩ := sortedKeys_spec (attrs.map (fun kv => kv.1))
    have hkeys : ((sortedKeys (attrs.map (fun kv => kv.1))).map
        (fun k => ({ Key := k, Value := toAny ((attrs.get k).getD (.other "<nil>")) } :
          KeyValue F))).map (fun kv => kv.Key) = sortedKeys (attrs.map (fun kv => kv.1)) := by
      rw [List.map_map]
      exact List.map_id _
    rw [hkeys]
    refine ⟨hsorted, hnodup, hmem, ?_⟩
    intro kv hkv
    obtain ⟨k, hk, rfl⟩ := List.mem_map.mp hkv
    obtain ⟨v, hv⟩ := Attrs.get_of_mem_keys attrs k ((hmem k).mp hk)
    exact ⟨v, hv, by simp only [hv, Option.getD_some]⟩

/-- C38, as stated, fails for a `float32` value, which is none of the listed kinds: it is
written as a double, not in its stringified form. -/
theorem C38_float32_is_written_as_double :
    (toOTLPSpan float32Span).map (fun o => (o.Attributes, o.Events.map (fun e => e.Attributes))) =
      .ok ([{ Key := "ratio", Value := .DoubleValue 0.5 }],
        [[{ Key := "ratio", Value := .DoubleValue 0.5 }]]) ∧
    otlp.EncodeSpans [float32Span] =
      .ok float32Request := by
  decide

/-- C38, amended. For every span and event in the request returned by `EncodeSpans`, the
attribute list holds each key of the attribute map exactly once, in strictly ascending
key order, each with the conversion of its value: a string, a bool, an `int` or `int64`
and a `float64` go to the string, bool, int64 and double variants, a `float32` goes to
the double variant too, a duration goes to a double holding its value in milliseconds,
and any other value goes to its stringified form. -/
theorem C38_otlp_attributes (spans : List (Span F)) (req : ExportTraceServiceRequest F)
    (henc : otlp.EncodeSpans spans = .ok req) :
    (∀ rs ∈ req.ResourceSpans, ∀ ss ∈ rs.ScopeSpans, ∀ o ∈ ss.Spans, ∃ s ∈ spans,
      o.Attributes = toAttrs s.Attributes ∧
      o.Events.map (fun e => e.Attributes) = s.Events.map (fun e => toAttrs e.Attributes)) ∧
    (∀ attrs : Attrs F,
      ((toAttrs attrs).map (fun kv => kv.Key)).Sorted (fun a b => a < b) ∧
      ((toAttrs attrs).map (fun kv => kv.Key)).Nodup ∧
      (∀ k, k ∈ (toAttrs attrs).map (fun kv => kv.Key) ↔ k ∈ attrs.map (fun kv => kv.1)) ∧
      ∀ kv ∈ toAttrs attrs, ∃ v, attrs.get kv.Key = some v ∧ kv.Value = toAny v) ∧
    (∀ t : String, toAny (.str t : AttrValue F) = .StringValue t) ∧
    (∀ t : Bool, toAny (.bool t : AttrValue F) = .BoolValue t) ∧
    (∀ t : Int, toAny (.int t : AttrValue F) = .IntValue t) ∧
    (∀ t : Int, toAny (.int64 t : AttrValue F) = .IntValue t) ∧
    (∀ t : F, toAny (.float64 t) = .DoubleValue t) ∧
    (∀ t : F, toAny (.float32 t) = .DoubleValue t) ∧
    (∀ t : time.Duration, toAny (.duration t : AttrValue F) =
      .DoubleValue (GoFloat64.ofInt t / GoFloat64.ofInt 1000000)) ∧
    (∀ text : String, toAny (.other text : AttrValue F) = .StringValue text) := by
  refine ⟨?_, toAttrs_spec, fun _ => rfl, fun _ => rfl, fun _ => rfl, fun _ => rfl,
    fun _ => rfl, fun _ => rfl, fun _ => rfl, fun _ => rfl⟩
  intro rs hrs ss hss o ho
  unfold otlp.EncodeSpans at henc
  simp only at henc
  cases hs : encodeServices spans (sortedKeys (spans.map otlpServiceOf)) with
  | error e => simp [hs] at henc
  | ok out =>
    simp only [hs] at henc
    injection henc with henc
    rw [← henc] at hrs
    obtain ⟨s, hsmem, hso⟩ := encodeServices_inv spans _ out hs rs hrs ss hss o ho
    exact ⟨s, hsmem, toOTLPSpan_attrs s o hso⟩

/-- Witness for C38: the request built for `float32Span`. -/
theorem C38_otlp_attributes_witness :
    ∃ req, otlp.EncodeSpans [float32Span] = .ok req ∧
      ∀ rs ∈ req.ResourceSpans, ∀ ss ∈ rs.ScopeSpans, ∀ o ∈ ss.Spans, ∃ s ∈ [float32Span],
        o.Attributes = toAttrs s.Attributes ∧
        o.Events.map (fun e => e.Attributes) = s.Events.map (fun e => toAttrs e.Attributes) :=
  have henc : otlp.EncodeSpans [float32Span] =
      .ok float32Request := by decide
  ⟨_, henc, (C38_otlp_attributes [float32Span] _ henc).1⟩

/-! ## C36: the error probability of a span -/

theorem ratGT (a b : ℚ) : @GT.gt ℚ (@GoFloat64.toLT ℚ instGoFloat64Rat) a b ↔ b < a := Iff.rfl

/-- In exact arithmetic the multiplier of the error rate is 0.9, 1.2 and 1.1 for the
profiles grpc, queue and batch, and 1 for every other profile. -/
theorem profileErrorMultiplier_exact {σ : Type} (g : Generator ℚ σ) :
    g.profileErrorMultiplier =
      if ToLower g.cfg.Profile = "grpc" then 9 / 10
      else if ToLower g.cfg.Profile = "queue" then 6 / 5
      else if ToLower g.cfg.Profile = "batch" then 11 / 10
      else 1 := by
  unfold Generator.profileErrorMultiplier
  simp only [ratLit]
  split_ifs <;> norm_num

theorem clamp_exact (x y : ℚ) (h : x = y) :
    (if x < 0.0 then (0.0 : ℚ) else if 1.0 < x then 1.0 else x) = Max.max 0 (Min.min 1 y) := by
  subst h
  norm_num
  split_ifs with h1 h2
  · rw [max_eq_left]
    exact le_trans (min_le_right _ _) (le_of_lt h1)
  · rw [min_eq_left (le_of_lt h2), max_eq_right (by norm_num)]
  · rw [min_eq_right (not_lt.mp h2), max_eq_right (not_lt.mp h1)]

/-- In exact arithmetic `errorProbability` is the sum of the four terms, clipped to
the interval from 0 to 1. -/
theorem errorProbability_exact {σ : Type} (g : Generator ℚ σ) (span : Span ℚ) :
    g.errorProbability span =
      Max.max 0 (Min.min 1
        (g.cfg.Errors * g.profileErrorMultiplier +
          (if span.Duration ≥ g.cfg.P95 then 3 / 4 * g.cfg.Errors + 1 / 50 else 0) +
          (if span.Duration ≥ g.cfg.P99 then g.cfg.Errors + 3 / 100 else 0) +
          (if g.variety = "low" then - (1 / 100)
           else if g.variety = "high" then 1 / 50 else 0))) := by
  unfold Generator.errorProbability
  simp only [ratLit, ratMul, ratAdd, ratSub, ratLT, ratGT]
  generalize g.cfg.Errors * g.profileErrorMultiplier = base
  generalize g.cfg.Errors = e
  have hne : ¬ ("high" = "low") := by decide
  by_cases hl : g.variety = "low" <;> by_cases hh : g.variety = "high" <;>
    by_cases h95 : span.Duration ≥ g.cfg.P95 <;> by_cases h99 : span.Duration ≥ g.cfg.P99 <;>
    simp only [hl, hh, hne, h95, h99, if_true, if_false] <;>
    apply clamp_exact <;> norm_num <;> ring
/-- The variety `low` or `high` of the generator is the trimmed, lower-cased setting. -/
theorem variety_low_high {σ : Type} (g : Generator F σ) :
    (g.variety = "low" ↔ ToLower (TrimSpace g.cfg.Variety) = "low") ∧
    (g.variety = "high" ↔ ToLower (TrimSpace g.cfg.Variety) = "high") := by
  unfold Generator.variety
  simp only
  by_cases h : ToLower (TrimSpace g.cfg.Variety) = ""
  · rw [if_pos h, h]
    decide
  · rw [if_neg h]
    exact ⟨Iff.rfl, Iff.rfl⟩

/-- C36. In exact arithmetic `errorProbability(span)` equals
`clamp(errors*m + (0.75*errors + 0.02 if duration >= P95) + (errors + 0.03 if
duration >= P99) + v, 0, 1)` and lies in `[0, 1]`; `m` is 0.9, 1.2 and 1.1 for the
lower-cased profiles grpc, queue and batch and 1 otherwise, so 1 for web; `v` is -0.01
for the trimmed, lower-cased variety low, +0.02 for high and 0 otherwise. -/
theorem C36_error_probability {σ : Type} (g : Generator ℚ σ) (span : Span ℚ) :
    g.errorProbability span =
      Max.max 0 (Min.min 1
        (g.cfg.Errors *
            (if ToLower g.cfg.Profile = "grpc" then 9 / 10
             else if ToLower g.cfg.Profile = "queue" then 6 / 5
             else if ToLower g.cfg.Profile = "batch" then 11 / 10
             else 1) +
          (if span.Duration ≥ g.cfg.P95 then 3 / 4 * g.cfg.Errors + 1 / 50 else 0) +
          (if span.Duration ≥ g.cfg.P99 then g.cfg.Errors + 3 / 100 else 0) +
          (if ToLower (TrimSpace g.cfg.Variety) = "low" then - (1 / 100)
           else if ToLower (TrimSpace g.cfg.Variety) = "high" then 1 / 50 else 0))) ∧
    (0 : ℚ) ≤ g.errorProbability span ∧ g.errorProbability span ≤ (1 : ℚ) ∧
    (g.cfg.Profile = "web" → g.profileErrorMultiplier = 1) ∧
    (g.cfg.Profile = "grpc" → g.profileErrorMultiplier = 9 / 10) ∧
    (g.cfg.Profile = "queue" → g.profileErrorMultiplier = 6 / 5) ∧
    (g.cfg.Profile = "batch" → g.profileErrorMultiplier = 11 / 10) := by
  have hexact := errorProbability_exact g span
  have hm := profileErrorMultiplier_exact g
  obtain ⟨hlow, hhigh⟩ := variety_low_high g
  have hv : (if g.variety = "low" then - (1 / 100 : ℚ)
      else if g.variety = "high" then 1 / 50 else 0) =
      (if ToLower (TrimSpace g.cfg.Variety) = "low" then - (1 / 100 : ℚ)
       else if ToLower (TrimSpace g.cfg.Variety) = "high" then 1 / 50 else 0) := by
    simp only [hlow, hhigh]
  rw [hv, hm] at hexact
  refine ⟨hexact, ?_, ?_, ?_, ?_, ?_, ?_⟩
  · rw [hexact]
    exact le_max_left _ _
  · rw [hexact]
    exact max_le (by norm_num) (min_le_left _ _)
  · intro h
    rw [hm, h, if_neg (by decide), if_neg (by decide), if_neg (by decide)]
  · intro h
    rw [hm, h, if_pos (by decide)]
  · intro h
    rw [hm, h, if_neg (by decide), if_pos (by decide)]
  · intro h
    rw [hm, h, if_neg (by decide), if_neg (by decide), if_pos (by decide)]

/-- Evaluation of C36: the web profile with an error rate of zero in exact arithmetic,
and an error rate that is not a number, which `Validate` accepts: the comparisons
`rate < 0` and `rate > 1` are both false, the rate is returned as it is, and it lies
neither at or above 0 nor at or below 1. -/
theorem C36_error_probability_witness :
    binaryTreeConfig.Profile = "web" ∧
    (New constantRand linearMath binaryTreeConfig).1.profileErrorMultiplier = 1 ∧
    (0 : ℚ) ≤ (New constantRand linearMath binaryTreeConfig).1.errorProbability {} ∧
    nanRatiosConfig.Validate = none ∧
    ¬ (0.0 ≤ (New halfSource seriesMath nanRatiosConfig).1.errorProbability {}) ∧
    ¬ ((New halfSource seriesMath nanRatiosConfig).1.errorProbability {} ≤ 1.0) :=
  ⟨rfl,
    (C36_error_probability (New constantRand linearMath binaryTreeConfig).1 {}).2.2.2.1 rfl,
    (C36_error_probability (New constantRand linearMath binaryTreeConfig).1 {}).2.1,
    by decide, by decide, by decide⟩

/-! ## C31: the timing of a retry span -/

theorem wrapInt64_of_int64 (x : Int) (h1 : -9223372036854775808 ≤ x)
    (h2 : x ≤ 9223372036854775807) : wrapInt64 x = x := by
  unfold wrapInt64
  omega

theorem wrapInt64_sub_cancel (d rd : Int) (h1 : -9223372036854775808 ≤ d)
    (h2 : d ≤ 9223372036854775807) : wrapInt64 (wrapInt64 (d + rd) - rd) = d := by
  unfold wrapInt64
  omega

/-- What `maybeErrorAndRetry` does to the times of a span: the start never changes;
without a retry the duration is kept and at most the event `exception` is appended;
with a retry the events `exception` and `retry` are appended, the duration grows by
the duration of the retry span in 64-bit arithmetic, and the retry span, which has no
events, starts the new duration less its own after the start of the span. -/
theorem maybeErrorAndRetry_times {σ : Type} (g : Generator F σ) (s : Span F) (r : σ) :
    (g.maybeErrorAndRetry s r).1.StartTime = s.StartTime ∧
    (((g.maybeErrorAndRetry s r).2.1 = none ∧
        (g.maybeErrorAndRetry s r).1.Duration = s.Duration ∧
        ((g.maybeErrorAndRetry s r).1.Events = s.Events ∨
          (g.maybeErrorAndRetry s r).1.Events = s.Events ++ [exceptionEventOf s])) ∨
      ∃ (rs : Span F) (r1 : σ), (g.maybeErrorAndRetry s r).2.1 = some rs ∧
        rs.Duration = Int.tdiv (g.sampleDuration r1).1 2 ∧
        (g.maybeErrorAndRetry s r).1.Duration = wrapInt64 (s.Duration + rs.Duration) ∧
        (g.maybeErrorAndRetry s r).1.Events
          = s.Events ++ [exceptionEventOf s, retryEventOf s] ∧
        rs.StartTime
          = s.StartTime.Add (wrapInt64 (wrapInt64 (s.Duration + rs.Duration) - rs.Duration)) ∧
        rs.Name = "retry attempt" ∧ rs.Events = []) := by
  unfold Generator.maybeErrorAndRetry
  simp only
  by_cases h1 : (RNG.Float64 g.rand r).1 ≥ g.errorProbability s
  · rw [if_pos h1]
    exact ⟨rfl, Or.inl ⟨rfl, rfl, Or.inl rfl⟩⟩
  · rw [if_neg h1]
    by_cases h2 : (RNG.Float64 g.rand (RNG.Float64 g.rand r).2).1 < g.cfg.Retries
    · rw [if_pos h2]
      refine ⟨by split_ifs <;> rfl, Or.inr ⟨_, (RNG.Float64 g.rand (RNG.Float64 g.rand r).2).2,
        rfl, ?_, ?_, ?_, ?_, ?_, ?_⟩⟩
      all_goals (split_ifs <;> simp [exceptionEventOf, retryEventOf])
    · rw [if_neg h2]
      refine ⟨by split_ifs <;> rfl, Or.inl ⟨rfl, by split_ifs <;> rfl, Or.inr ?_⟩⟩
      split_ifs <;> simp [exceptionEventOf]

/-- C31, as far as it fails: for a span that lasts `math.MaxInt64` nanoseconds the
retry span is emitted with a duration of 500 ns, the sum overflows, the span is left
with a negative duration, and the retry span, which starts at the old end of the
span, ends 2^64 ns after the span does. -/
theorem C31_retry_of_longest_span_ends_later :
    (((New halfSource seriesMath webRetryConfig).1.maybeErrorAndRetry longestSpan
        (New halfSource seriesMath webRetryConfig).2).2.1.map
          (fun rs => (rs.StartTime, rs.Duration, rs.StartTime.Add rs.Duration)))
      = some (9223372036854775807, 500, 9223372036854776307) ∧
    ((New halfSource seriesMath webRetryConfig).1.maybeErrorAndRetry longestSpan
        (New halfSource seriesMath webRetryConfig).2).1.Duration = -9223372036854775309 ∧
    ((New halfSource seriesMath webRetryConfig).1.maybeErrorAndRetry longestSpan
        (New halfSource seriesMath webRetryConfig).2).1.StartTime.Add
      ((New halfSource seriesMath webRetryConfig).1.maybeErrorAndRetry longestSpan
        (New halfSource seriesMath webRetryConfig).2).1.Duration = -9223372036854775309 := by
  decide

/-- C31, amended: whenever `maybeErrorAndRetry` emits a retry span `rs` for a span `s`,
the retry span is a child of `s` in the same trace, named "retry attempt", of kind
INTERNAL and status OK; its duration is half a sampled duration; the duration of `s`
becomes the 64-bit sum of its old duration and the retry duration; the last event of
`s` is the event "retry" stamped with the old end of `s`; the retry span starts the new
duration less the retry duration after the start of `s`, which is the old end of `s`
when the old duration is a 64-bit value; and when the sum does not overflow the new
duration is the exact sum and the retry span ends exactly when `s` ends. -/
theorem C31_retry_span_timing {σ : Type} (g : Generator F σ) (s : Span F) (r : σ) (rs : Span F)
    (h : (g.maybeErrorAndRetry s r).2.1 = some rs) :
    (rs.HasParent = true ∧ rs.ParentSpanID = s.SpanID ∧ rs.TraceID = s.TraceID ∧
      rs.Name = "retry attempt" ∧ rs.Kind = "INTERNAL" ∧ rs.Status.Code = "OK") ∧
    (∃ r1, rs.Duration = Int.tdiv (g.sampleDuration r1).1 2) ∧
    (g.maybeErrorAndRetry s r).1.StartTime = s.StartTime ∧
    (g.maybeErrorAndRetry s r).1.Duration = wrapInt64 (s.Duration + rs.Duration) ∧
    (g.maybeErrorAndRetry s r).1.Events.getLast? = some (retryEventOf s) ∧
    (retryEventOf s).Time = s.StartTime + s.Duration ∧
    rs.StartTime
      = s.StartTime + wrapInt64 ((g.maybeErrorAndRetry s r).1.Duration - rs.Duration) ∧
    (-9223372036854775808 ≤ s.Duration → s.Duration ≤ 9223372036854775807 →
      rs.StartTime = s.StartTime + s.Duration) ∧
    (-9223372036854775808 ≤ s.Duration → s.Duration ≤ 9223372036854775807 →
      -9223372036854775808 ≤ s.Duration + rs.Duration →
      s.Duration + rs.Duration ≤ 9223372036854775807 →
      (g.maybeErrorAndRetry s r).1.Duration = s.Duration + rs.Duration ∧
      rs.StartTime.Add rs.Duration
        = (g.maybeErrorAndRetry s r).1.StartTime.Add (g.maybeErrorAndRetry s r).1.Duration) := by
  obtain ⟨a1, a2, a3, a4, _, a6, _⟩ := maybeErrorAndRetry_retry g s r rs h
  obtain ⟨hstart, hcase⟩ := maybeErrorAndRetry_times g s r
  rcases hcase with ⟨hnone, _⟩ | ⟨rs2, r1, hsome, hdur, hnew, hev, hrs, hname, _⟩
  · rw [hnone] at h
    cases h
  · rw [hsome] at h
    cases h
    have hst : rs.StartTime
        = s.StartTime + wrapInt64 ((g.maybeErrorAndRetry s r).1.Duration - rs.Duration) := by
      rw [hnew]
      exact hrs
    refine ⟨⟨a2, a3, a1, hname, a4, a6⟩, ⟨r1, hdur⟩, hstart, hnew, ?_, rfl, hst, ?_, ?_⟩
    · rw [hev]
      simp
    · intro h1 h2
      rw [hrs, wrapInt64_sub_cancel _ _ h1 h2]
      rfl
    · intro h1 h2 h3 h4
      have hsum := wrapInt64_of_int64 _ h3 h4
      refine ⟨hnew.trans hsum, ?_⟩
      rw [hstart, hnew, hsum, hrs, wrapInt64_sub_cancel _ _ h1 h2]
      show s.StartTime + s.Duration + rs.Duration = s.StartTime + (s.Duration + rs.Duration)
      ring

/-- The amended C31 at the span that is retried in the scenario of the web profile
with errors and retries: a span of 1000 ns with a retry of 500 ns. -/
theorem C31_retry_span_timing_witness :
    ∃ rs, ((New halfSource seriesMath webRetryConfig).1.maybeErrorAndRetry
        { longestSpan with Duration := 1000 } (New halfSource seriesMath webRetryConfig).2).2.1
        = some rs ∧
      rs.Duration = 500 ∧ rs.StartTime = 1000 ∧
      ((New halfSource seriesMath webRetryConfig).1.maybeErrorAndRetry
        { longestSpan with Duration := 1000 }
        (New halfSource seriesMath webRetryConfig).2).1.Duration = 1500 ∧
      rs.StartTime.Add rs.Duration
        = ((New halfSource seriesMath webRetryConfig).1.maybeErrorAndRetry
            { longestSpan with Duration := 1000 }
            (New halfSource seriesMath webRetryConfig).2).1.StartTime.Add
          ((New halfSource seriesMath webRetryConfig).1.maybeErrorAndRetry
            { longestSpan with Duration := 1000 }
            (New halfSource seriesMath webRetryConfig).2).1.Duration := by
  have hsome : ((New halfSource seriesMath webRetryConfig).1.maybeErrorAndRetry
      { longestSpan with Duration := 1000 } (New halfSource seriesMath webRetryConfig).2).2.1
      = some (((New halfSource seriesMath webRetryConfig).1.maybeErrorAndRetry
          { longestSpan with Duration := 1000 }
          (New halfSource seriesMath webRetryConfig).2).2.1.getD longestSpan) := by
    decide
  have hd : (((New halfSource seriesMath webRetryConfig).1.maybeErrorAndRetry
      { longestSpan with Duration := 1000 }
      (New halfSource seriesMath webRetryConfig).2).2.1.getD longestSpan).Duration = 500 := by
    decide
  have hs : (((New halfSource seriesMath webRetryConfig).1.maybeErrorAndRetry
      { longestSpan with Duration := 1000 }
      (New halfSource seriesMath webRetryConfig).2).2.1.getD longestSpan).StartTime = 1000 := by
    decide
  obtain ⟨_, _, _, _, _, _, _, _, hend⟩ :=
    C31_retry_span_timing (New halfSource seriesMath webRetryConfig).1
      { longestSpan with Duration := 1000 } (New halfSource seriesMath webRetryConfig).2 _ hsome
  have h := hend (by decide) (by decide) (by rw [hd]; decide) (by rw [hd]; decide)
  exact ⟨_, hsome, hd, hs, by rw [h.1, hd]; rfl, h.2⟩

/-! ## C35: the events of a span lie within its interval -/

theorem applyCardinalityAttrs_times {σ : Type} (g : Generator F σ) (s : Span F) :
    (g.applyCardinalityAttrs s).StartTime = s.StartTime ∧
    (g.applyCardinalityAttrs s).Duration = s.Duration ∧
    (g.applyCardinalityAttrs s).Events = s.Events := by
  unfold Generator.applyCardinalityAttrs
  split_ifs <;> simp

/-- The method `maybeAddProfileEvent` keeps the interval of the span and appends at
most one event, stamped at the first third of the duration. -/
theorem maybeAddProfileEvent_times {σ : Type} (g : Generator F σ) (s : Span F) (r : σ) :
    (g.maybeAddProfileEvent s r).1.StartTime = s.StartTime ∧
    (g.maybeAddProfileEvent s r).1.Duration = s.Duration ∧
    ((g.maybeAddProfileEvent s r).1.Events = s.Events ∨
      ∃ e : Event F, e.Time = s.StartTime.Add (Int.tdiv s.Duration 3) ∧
        (g.maybeAddProfileEvent s r).1.Events = s.Events ++ [e]) := by
  unfold Generator.maybeAddProfileEvent
  simp only
  by_cases h : (RNG.Float64 g.rand r).1 ≥ g.eventProbability
  · rw [if_pos h]
    exact ⟨rfl, rfl, Or.inl rfl⟩
  · rw [if_neg h]
    exact ⟨rfl, rfl, Or.inr ⟨_, rfl, rfl⟩⟩

theorem tdiv_within (d : Int) (h : 0 ≤ d) :
    0 ≤ Int.tdiv d 2 ∧ Int.tdiv d 2 ≤ d ∧ 0 ≤ Int.tdiv d 3 ∧ Int.tdiv d 3 ≤ d := by
  rw [Int.tdiv_eq_ediv h (by decide), Int.tdiv_eq_ediv h (by decide)]
  omega

theorem tdiv_two_le (x : Int) (h : x ≤ 9223372036854775807) :
    Int.tdiv x 2 ≤ 9223372036854775807 := by
  by_cases h0 : 0 ≤ x
  · have := (tdiv_within x h0).2.1
    omega
  · have h1 : x = - (- x) := by omega
    rw [h1, Int.neg_tdiv]
    have := Int.tdiv_nonneg (a := - x) (b := 2) (by omega) (by decide)
    omega

theorem interval_plain (t d : Int) (h0 : 0 ≤ d) :
    (t ≤ t + Int.tdiv d 3 ∧ t + Int.tdiv d 3 ≤ t + d) ∧
    (t ≤ t + Int.tdiv d 2 ∧ t + Int.tdiv d 2 ≤ t + d) := by
  obtain ⟨a, b, c, e⟩ := tdiv_within d h0
  omega

theorem interval_retry (t d rd : Int) (h0 : 0 ≤ d) (h1 : 0 ≤ rd) :
    (t ≤ t + Int.tdiv d 3 ∧ t + Int.tdiv d 3 ≤ t + (d + rd)) ∧
    (t ≤ t + Int.tdiv d 2 ∧ t + Int.tdiv d 2 ≤ t + (d + rd)) ∧
    (t ≤ t + d ∧ t + d ≤ t + (d + rd)) := by
  obtain ⟨a, b, c, e⟩ := tdiv_within d h0
  omega

/-- A 64-bit sum of two non-negative 64-bit values that is not negative did not
overflow. -/
theorem wrapInt64_nonneg_sum (d rd : Int) (h0 : 0 ≤ d) (h1 : d ≤ 9223372036854775807)
    (h2 : 0 ≤ rd) (h3 : rd ≤ 9223372036854775807) (h4 : ¬ wrapInt64 (d + rd) < 0) :
    wrapInt64 (d + rd) = d + rd := by
  unfold wrapInt64 at h4 ⊢
  omega

theorem sampleDuration_le {σ : Type} (g : Generator F σ)
    (hconv : ∀ x : F, GoFloat64.toInt64 x ≤ 9223372036854775807) (r : σ) :
    (g.sampleDuration r).1 ≤ 9223372036854775807 :=
  hconv _

/-- A duration returned by `sampleDurationForProfile` is at least one microsecond, and
it is a 64-bit value when the conversion of a float returns one. -/
theorem sampleDurationForProfile_range {σ : Type} (g : Generator F σ)
    (hconv : ∀ x : F, GoFloat64.toInt64 x ≤ 9223372036854775807) (r : σ) :
    1000 ≤ (g.sampleDurationForProfile r).1 ∧
    (g.sampleDurationForProfile r).1 ≤ 9223372036854775807 := by
  have key : ∀ (d : Int) (r1 : σ), d ≤ 9223372036854775807 →
      1000 ≤ (if d < time.Microsecond then (time.Microsecond, r1) else (d, r1)).1 ∧
      (if d < time.Microsecond then (time.Microsecond, r1) else (d, r1)).1
        ≤ 9223372036854775807 := by
    intro d r1 hd
    by_cases h : d < time.Microsecond
    · rw [if_pos h]
      refine ⟨le_refl _, ?_⟩
      show time.Microsecond ≤ 9223372036854775807
      decide
    · rw [if_neg h]
      exact ⟨not_lt.mp h, hd⟩
  unfold Generator.sampleDurationForProfile
  simp only
  apply key
  split_ifs
  · exact hconv _
  · exact hconv _

theorem buildRoot_times (p : profileModule) (frontdoor : String) (routeIdx : Int)
    (start : time.Time) (spanID : model.SpanID) (traceID : model.TraceID) (dur : time.Duration) :
    (p.buildRoot (F := F) frontdoor routeIdx start spanID traceID dur).Events = [] ∧
    (p.buildRoot (F := F) frontdoor routeIdx start spanID traceID dur).Duration = dur := by
  cases p <;> simp [profileModule.buildRoot]

theorem buildChild_times (p : profileModule) (parent : Span F) (service : String) (routeIdx : Int)
    (start : time.Time) (spanID : model.SpanID) (traceID : model.TraceID) (dur : time.Duration)
    (dbHeavy cacheHit : Bool) :
    (p.buildChild parent service routeIdx start spanID traceID dur dbHeavy cacheHit).Events = [] ∧
    (p.buildChild parent service routeIdx start spanID traceID dur dbHeavy cacheHit).Duration
      = dur := by
  cases p <;> simp [profileModule.buildChild]

theorem buildQueuePair_times (p : profileModule) (parent : Span F) (service : String)
    (routeIdx : Int) (start : time.Time) (producerID consumerID : model.SpanID)
    (traceID : model.TraceID) (dur : time.Duration) (h0 : 0 ≤ dur)
    (h1 : dur ≤ 9223372036854775807) :
    ((p.buildQueuePair parent service routeIdx start producerID consumerID traceID dur).1.Events
        = [] ∧
      0 ≤ (p.buildQueuePair parent service routeIdx start producerID consumerID traceID dur).1.Duration ∧
      (p.buildQueuePair parent service routeIdx start producerID consumerID traceID dur).1.Duration
        ≤ 9223372036854775807) ∧
    ((p.buildQueuePair parent service routeIdx start producerID consumerID traceID dur).2.Events
        = [] ∧
      0 ≤ (p.buildQueuePair parent service routeIdx start producerID consumerID traceID dur).2.Duration ∧
      (p.buildQueuePair parent service routeIdx start producerID consumerID traceID dur).2.Duration
        ≤ 9223372036854775807) := by
  obtain ⟨a, b, c, d⟩ := tdiv_within dur h0
  cases p <;> simp [profileModule.buildQueuePair]
  exact ⟨⟨c, le_trans d h1⟩, a, le_trans b h1⟩

/-- A built span without events and with a duration between 0 and `math.MaxInt64`,
after the three post-processing steps, together with its retry span: either one of
the two has a negative duration, or the events of both lie within their spans. -/
theorem finish_fits {σ : Type} (g : Generator F σ)
    (hconv : ∀ x : F, GoFloat64.toInt64 x ≤ 9223372036854775807)
    (s0 : Span F) (r1 r2 : σ) (h0 : s0.Events = []) (hd : 0 ≤ s0.Duration)
    (hd2 : s0.Duration ≤ 9223372036854775807) :
    Fits ((g.maybeErrorAndRetry (g.maybeAddProfileEvent (g.applyCardinalityAttrs s0) r1).1 r2).1 ::
      ((g.maybeErrorAndRetry (g.maybeAddProfileEvent (g.applyCardinalityAttrs s0) r1).1
        r2).2.1.map g.applyCardinalityAttrs).toList) := by
  obtain ⟨a1, a2, a3⟩ := applyCardinalityAttrs_times g s0
  obtain ⟨b1, b2, b3⟩ := maybeAddProfileEvent_times g (g.applyCardinalityAttrs s0) r1
  obtain ⟨c1, hcase⟩ :=
    maybeErrorAndRetry_times g (g.maybeAddProfileEvent (g.applyCardinalityAttrs s0) r1).1 r2
  generalize (g.maybeAddProfileEvent (g.applyCardinalityAttrs s0) r1).1 = b at b1 b2 b3 c1 hcase ⊢
  have hb0 : 0 ≤ b.Duration := by rw [b2, a2]; exact hd
  have hbM : b.Duration ≤ 9223372036854775807 := by rw [b2, a2]; exact hd2
  have hbe : ∀ e ∈ b.Events, e.Time = b.StartTime + Int.tdiv b.Duration 3 := by
    intro e he
    rcases b3 with h | ⟨e1, h1, h⟩
    · rw [h, a3, h0] at he
      cases he
    · rw [h, a3, h0] at he
      simp only [List.nil_append, List.mem_singleton] at he
      rw [he, h1, ← b1, ← b2]
      rfl
  rcases hcase with ⟨hnone, hdur, hev⟩ | ⟨rs, r3, hsome, hrd, hnew, hev, hrs, hname, hrev⟩
  · rw [hnone]
    right
    intro s hs
    simp only [Option.map_none', Option.toList_none, List.mem_singleton] at hs
    subst hs
    intro e he
    rw [c1, hdur]
    obtain ⟨k3, k2⟩ := interval_plain b.StartTime b.Duration hb0
    rcases hev with h | h
    · rw [h] at he
      rw [hbe e he]
      exact k3
    · rw [h, List.mem_append, List.mem_singleton] at he
      rcases he with he | he
      · rw [hbe e he]
        exact k3
      · rw [he]
        exact k2
  · rw [hsome]
    simp only [Option.map_some', Option.toList_some]
    obtain ⟨e1, e2, e3⟩ := applyCardinalityAttrs_times g rs
    by_cases hneg : rs.Duration < 0
    · left
      exact ⟨g.applyCardinalityAttrs rs, by simp, by rw [e2]; exact hneg⟩
    by_cases hneg2 : (g.maybeErrorAndRetry b r2).1.Duration < 0
    · left
      exact ⟨_, List.mem_cons_self _ _, hneg2⟩
    right
    intro s hs
    rcases List.mem_cons.mp hs with rfl | hs
    · intro e he
      have hrmax : rs.Duration ≤ 9223372036854775807 := by
        rw [hrd]
        exact tdiv_two_le _ (sampleDuration_le g hconv r3)
      have hsum : (g.maybeErrorAndRetry b r2).1.Duration = b.Duration + rs.Duration := by
        rw [hnew] at hneg2 ⊢
        exact wrapInt64_nonneg_sum _ _ hb0 hbM (not_lt.mp hneg) hrmax hneg2
      rw [c1, hsum]
      obtain ⟨k3, k2, k1⟩ := interval_retry b.StartTime b.Duration rs.Duration hb0 (not_lt.mp hneg)
      rw [hev, List.mem_append] at he
      rcases he with he | he
      · rw [hbe e he]
        exact k3
      · simp only [List.mem_cons, List.mem_singleton, List.not_mem_nil, or_false] at he
        rcases he with he | he
        · rw [he]
          exact k2
        · rw [he]
          exact k1
    · rw [List.mem_singleton] at hs
      subst hs
      intro e he
      rw [e3, hrev] at he
      cases he

theorem Fits_append (a b : List (Span F)) (ha : Fits a) (hb : Fits b) : Fits (a ++ b) := by
  rcases ha with ⟨s, hs, hn⟩ | ha
  · exact Or.inl ⟨s, List.mem_append_left _ hs, hn⟩
  · rcases hb with ⟨s, hs, hn⟩ | hb
    · exact Or.inl ⟨s, List.mem_append_right _ hs, hn⟩
    · right
      intro s hs
      rcases List.mem_append.mp hs with h | h
      · exact ha s h
      · exact hb s h

theorem Fits_of_mem (a b : List (Span F)) (ha : Fits a) (hab : ∀ s, s ∈ b ↔ s ∈ a) : Fits b := by
  rcases ha with ⟨s, hs, hn⟩ | ha
  · exact Or.inl ⟨s, (hab s).mpr hs, hn⟩
  · exact Or.inr (fun s hs => ha s ((hab s).mp hs))

theorem Fits_pair (p c : Span F) (pr cr : List (Span F)) (hp : Fits (p :: pr))
    (hc : Fits (c :: cr)) : Fits (p :: c :: (pr ++ cr)) := by
  refine Fits_of_mem _ _ (Fits_append _ _ hp hc) ?_
  intro s
  simp only [List.mem_cons, List.mem_append, List.cons_append]
  tauto

/-- One iteration of the loop of `generateChildren` appends a block of spans that
fits. -/
theorem generateChild_fits {σ : Type} (g : Generator F σ)
    (hconv : ∀ x : F, GoFloat64.toInt64 x ≤ 9223372036854775807)
    (recurse : List (Span F) → Span F → σ → List (Span F) × σ)
    (tid : model.TraceID) (parent : Span F) (i : Int) (spans : List (Span F)) (r : σ) :
    ∃ (block : List (Span F)) (last : Span F) (r2 : σ),
      g.generateChild recurse tid parent i spans r = recurse (spans ++ block) last r2 ∧
      Fits block := by
  unfold Generator.generateChild
  by_cases hq : g.cfg.Profile = "queue"
  · simp only [hq, if_true, appendRetry_eq, List.append_assoc, List.cons_append,
      List.nil_append]
    refine ⟨_, _, _, rfl, ?_⟩
    obtain ⟨hr1, hr2⟩ := sampleDurationForProfile_range g hconv
      (g.newSpanID (g.newSpanID (RNG.Intn g.rand (max 1 g.cfg.Routes)
        (RNG.Intn g.rand (Int.ofNat g.topology.Services.length) r).2).2).2).2
    have hr0 : (0 : Int) ≤ (g.sampleDurationForProfile
        (g.newSpanID (g.newSpanID (RNG.Intn g.rand (max 1 g.cfg.Routes)
          (RNG.Intn g.rand (Int.ofNat g.topology.Services.length) r).2).2).2).2).1 :=
      le_trans (by decide) hr1
    obtain ⟨⟨p1, p2, p3⟩, ⟨q1, q2, q3⟩⟩ := buildQueuePair_times (F := F) g.profile parent
      (g.topology.Services.getD
        (RNG.Intn g.rand (Int.ofNat g.topology.Services.length) r).1.toNat "")
      (RNG.Intn g.rand (max 1 g.cfg.Routes)
        (RNG.Intn g.rand (Int.ofNat g.topology.Services.length) r).2).1
      (parent.StartTime.Add ((i + 1) * time.Millisecond))
      (g.newSpanID (RNG.Intn g.rand (max 1 g.cfg.Routes)
        (RNG.Intn g.rand (Int.ofNat g.topology.Services.length) r).2).2).1
      (g.newSpanID (g.newSpanID (RNG.Intn g.rand (max 1 g.cfg.Routes)
        (RNG.Intn g.rand (Int.ofNat g.topology.Services.length) r).2).2).2).1
      tid _ hr0 hr2
    apply Fits_pair
    · exact finish_fits g hconv _ _ _ p1 p2 p3
    · exact finish_fits g hconv _ _ _ q1 q2 q3
  · simp only [hq, if_false, appendRetry_eq, List.append_assoc, List.cons_append,
      List.nil_append]
    refine ⟨_, _, _, rfl, ?_⟩
    obtain ⟨hr1, hr2⟩ := sampleDurationForProfile_range g hconv
      (g.newSpanID (RNG.Intn g.rand (max 1 g.cfg.Routes)
        (RNG.Intn g.rand (Int.ofNat g.topology.Services.length) r).2).2).2
    refine finish_fits g hconv _ _ _ (buildChild_times _ _ _ _ _ _ _ _ _ _).1 ?_ ?_
    · rw [(buildChild_times _ _ _ _ _ _ _ _ _ _).2]
      exact le_trans (by decide) hr1
    · rw [(buildChild_times _ _ _ _ _ _ _ _ _ _).2]
      exact hr2

/-- The loop of `generateChildren` keeps a property of the span list that every
iteration keeps. -/
theorem childLoop_invariant {σ : Type} (g : Generator F σ) (tid : model.TraceID)
    (Q : List (Span F) → Prop)
    (recurse : List (Span F) → Span F → σ → List (Span F) × σ) (parent : Span F)
    (hchild : ∀ i spans r, Q spans → Q (g.generateChild recurse tid parent i spans r).1) :
    ∀ (n : Nat) (i : Int) (spans : List (Span F)) (r : σ), Q spans →
      Q (g.childLoop recurse tid parent n i spans r).1 := by
  intro n
  induction n with
  | zero => intro i spans r h; exact h
  | succ n ih =>
    intro i spans r h
    unfold Generator.childLoop
    simp only
    exact ih _ _ _ (hchild _ _ _ h)

/-- The method `generateChildren` keeps a property of the span list that one
iteration of its loop keeps whenever the recursive call does. -/
theorem generateChildrenFuel_invariant {σ : Type} (g : Generator F σ) (tid : model.TraceID)
    (Q : List (Span F) → Prop)
    (hstep : ∀ (recurse : List (Span F) → Span F → σ → List (Span F) × σ),
      (∀ spans last r, Q spans → Q (recurse spans last r).1) →
      ∀ parent i spans r, Q spans → Q (g.generateChild recurse tid parent i spans r).1) :
    ∀ (fuel : Nat) (level : Int) (spans : List (Span F)) (parent : Span F) (r : σ),
      Q spans → Q (g.generateChildrenFuel tid fuel level spans parent r).1 := by
  intro fuel
  induction fuel with
  | zero => intro level spans parent r h; exact h
  | succ fuel ih =>
    intro level spans parent r h
    unfold Generator.generateChildrenFuel
    split_ifs with hl
    · exact h
    · exact childLoop_invariant g tid Q _ parent
        (hstep _ (fun spans1 last r1 h1 => ih (level + 1) spans1 last r1 h1) parent) _ _ _ _ h

/-- The spans of a trace fit: one of them has a negative duration, or every event lies
within its span. -/
theorem GenerateTrace_fits {σ : Type} (g : Generator F σ)
    (hconv : ∀ x : F, GoFloat64.toInt64 x ≤ 9223372036854775807)
    (start : time.Time) (r : σ) : Fits (g.GenerateTrace start r).1.Spans := by
  unfold Generator.GenerateTrace
  simp only [appendRetry_eq, List.cons_append, List.nil_append]
  unfold Generator.generateChildren
  apply generateChildrenFuel_invariant g _ Fits
  · intro recurse hrec parent i spans r1 h
    obtain ⟨block, last, r2, heq, hb⟩ := generateChild_fits g hconv recurse _ parent i spans r1
    rw [heq]
    exact hrec _ _ _ (Fits_append _ _ h hb)
  · obtain ⟨hr1, hr2⟩ := sampleDurationForProfile_range g hconv
      (RNG.Intn g.rand (max 1 g.cfg.Routes) (g.newSpanID (g.newTraceID r).2).2).2
    refine finish_fits g hconv _ _ _ (buildRoot_times _ _ _ _ _ _ _).1 ?_ ?_
    · rw [(buildRoot_times _ _ _ _ _ _ _).2]
      exact le_trans (by decide) hr1
    · rw [(buildRoot_times _ _ _ _ _ _ _).2]
      exact hr2

set_option maxRecDepth 20000 in
/-- C35, as far as it fails: with the three latency percentiles at 7000000000000000000
ns, a configuration that `Validate` accepts, the root span of the first trace lasts
6999999999999999999 ns before its retry of 3499999999999999999 ns; the sum overflows
and leaves the duration -7946744073709551618, so the span ends before it starts while
its events "exception" and "retry" are stamped 3499999999999999999 ns and
6999999999999999999 ns after its start. -/
theorem C35_events_after_the_end_of_an_overflowed_span :
    centuryConfig.Validate = none ∧
    (firstTrace centuryConfig).Spans.map
        (fun s => (s.StartTime, s.Duration, s.Events.map (fun e => (e.Name, e.Time))))
      = [(0, -7946744073709551618,
            [("exception", 3499999999999999999), ("retry", 6999999999999999999)]),
         (6999999999999999999, 3499999999999999999, []),
         (1000000, -7946744073709551618,
            [("exception", 3500000000000999999), ("retry", 7000000000000999999)]),
         (7000000000000999999, 3499999999999999999, [])] := by
  decide

/-- C35, amended: in every trace returned by `GenerateTrace` whose spans all have a
non-negative duration, every event of every span is stamped within the final interval
of the span, `span.start <= event.time <= span.start + span.duration`. The conversion
of a float to an integer is required to return a 64-bit value, as it does in Go. -/
theorem C35_events_within_span {σ : Type} (g : Generator F σ)
    (hconv : ∀ x : F, GoFloat64.toInt64 x ≤ 9223372036854775807)
    (start : time.Time) (r : σ)
    (hdur : ∀ s ∈ (g.GenerateTrace start r).1.Spans, 0 ≤ s.Duration) :
    ∀ s ∈ (g.GenerateTrace start r).1.Spans, ∀ e ∈ s.Events,
      s.StartTime ≤ e.Time ∧ e.Time ≤ s.StartTime + s.Duration := by
  rcases GenerateTrace_fits g hconv start r with ⟨s, hs, hn⟩ | h
  · exact absurd (hdur s hs) (not_le.mpr hn)
  · exact h

theorem DecFloat_toInt64_le (x : DecFloat) :
    GoFloat64.toInt64 x ≤ 9223372036854775807 := by
  show DecFloat.toInt64 x ≤ 9223372036854775807
  unfold DecFloat.toInt64
  simp only
  split_ifs with h
  · decide
  · omega

set_option maxRecDepth 20000 in
/-- The amended C35 at the first trace of the web scenario with errors and retries,
whose four spans last 1500, 500, 1500 and 500 ns and hold four events. -/
theorem C35_events_within_span_witness :
    (firstTrace webRetryConfig).Spans.map (fun s => (s.Duration, s.Events.length))
      = [(1500, 2), (500, 0), (1500, 2), (500, 0)] ∧
    ∀ s ∈ (firstTrace webRetryConfig).Spans, ∀ e ∈ s.Events,
      s.StartTime ≤ e.Time ∧ e.Time ≤ s.StartTime + s.Duration :=
  ⟨by decide,
   C35_events_within_span (New halfSource seriesMath webRetryConfig).1 DecFloat_toInt64_le 0
    (New halfSource seriesMath webRetryConfig).2 (by decide)⟩

/-! ## C33: the number of children and their start times -/

/-- The loop of `generateChildren` runs its body once for each of the `n` indices from
`i` on. -/
theorem childLoop_eq_foldl {σ : Type} (g : Generator F σ)
    (recurse : List (Span F) → Span F → σ → List (Span F) × σ)
    (tid : model.TraceID) (parent : Span F) :
    ∀ (n : Nat) (i : Int) (spans : List (Span F)) (r : σ),
      g.childLoop recurse tid parent n i spans r =
        List.foldl (fun acc k => g.generateChild recurse tid parent (i + Int.ofNat k) acc.1 acc.2)
          (spans, r) (List.range n) := by
  intro n
  induction n with
  | zero => intro i spans r; rfl
  | succ n ih =>
    intro i spans r
    unfold Generator.childLoop
    simp only
    rw [ih, List.range_succ_eq_map, List.foldl_cons, List.foldl_map]
    have h0 : i + Int.ofNat 0 = i := by
      show i + 0 = i
      omega
    rw [h0]
    congr 1
    funext acc k
    have hk : i + 1 + Int.ofNat k = i + Int.ofNat (Nat.succ k) := by
      simp only [Int.ofNat_eq_coe, Nat.succ_eq_add_one, Nat.cast_add, Nat.cast_one]
      omega
    rw [hk]

/-- Below the depth limit `generateChildren` draws `childCount` and runs the body of
its loop for the indices 0 to `childCount - 1`, each time with `generateChildren` at
the next level as the recursive call. -/
theorem generateChildren_eq_foldl {σ : Type} (g : Generator F σ) (tid : model.TraceID)
    (spans : List (Span F)) (parent : Span F) (level : Int) (r : σ)
    (hl : level < g.cfg.Depth) :
    g.generateChildren tid spans parent level r =
      List.foldl (fun acc k => g.generateChild
          (fun s l r1 => g.generateChildren tid s l (level + 1) r1) tid parent (Int.ofNat k)
          acc.1 acc.2)
        (spans, (g.childCount r).2) (List.range (g.childCount r).1.toNat) := by
  unfold Generator.generateChildren
  obtain ⟨n, hn⟩ : ∃ n, (g.cfg.Depth - level).toNat = n + 1 :=
    ⟨(g.cfg.Depth - level).toNat - 1, by omega⟩
  have hn2 : (g.cfg.Depth - (level + 1)).toNat = n := by omega
  have hrec : (fun (s : List (Span F)) (l : Span F) (r1 : σ) =>
      g.generateChildrenFuel tid (g.cfg.Depth - (level + 1)).toNat (level + 1) s l r1)
      = g.generateChildrenFuel tid n (level + 1) := by
    rw [hn2]
  rw [hrec, hn]
  conv_lhs => unfold Generator.generateChildrenFuel
  rw [if_neg (not_le.mpr hl)]
  simp only
  rw [childLoop_eq_foldl]
  have hfun : (fun (acc : List (Span F) × σ) (k : Nat) =>
      g.generateChild (g.generateChildrenFuel tid n (level + 1)) tid parent (0 + Int.ofNat k)
        acc.1 acc.2)
      = (fun acc k => g.generateChild (g.generateChildrenFuel tid n (level + 1)) tid parent
          (Int.ofNat k) acc.1 acc.2) := by
    funext acc k
    rw [zero_add]
  rw [hfun]

theorem buildChild_start (p : profileModule) (parent : Span F) (service : String) (routeIdx : Int)
    (start : time.Time) (spanID : model.SpanID) (traceID : model.TraceID) (dur : time.Duration)
    (dbHeavy cacheHit : Bool) :
    (p.buildChild parent service routeIdx start spanID traceID dur dbHeavy cacheHit).StartTime
      = start := by
  cases p <;> simp [profileModule.buildChild]

/-- The three post-processing steps keep the start time of a span. -/
theorem finish_start {σ : Type} (g : Generator F σ) (s0 : Span F) (r1 r2 : σ) :
    (g.maybeErrorAndRetry (g.maybeAddProfileEvent (g.applyCardinalityAttrs s0) r1).1 r2).1.StartTime
      = s0.StartTime := by
  rw [(maybeErrorAndRetry_times g _ r2).1, (maybeAddProfileEvent_times g _ r1).1,
    (applyCardinalityAttrs_times g s0).1]

/-- One iteration `i` of the loop of `generateChildren` appends a block of spans and
recurses from one of them; the first span of the block starts `i + 1` milliseconds
after the parent. -/
theorem generateChild_start {σ : Type} (g : Generator F σ)
    (hp : g.profile = moduleFor g.cfg.Profile)
    (recurse : List (Span F) → Span F → σ → List (Span F) × σ)
    (tid : model.TraceID) (parent : Span F) (i : Int) (spans : List (Span F)) (r : σ) :
    ∃ (block : List (Span F)) (last : Span F) (r2 : σ),
      g.generateChild recurse tid parent i spans r = recurse (spans ++ block) last r2 ∧
      BlockSpec g tid parent block last ∧
      ∃ (c : Span F) (rest : List (Span F)), block = c :: rest ∧
        c.StartTime = parent.StartTime + (i + 1) * 1000000 := by
  unfold Generator.generateChild
  by_cases hq : g.cfg.Profile = "queue"
  · have hprof : g.profile = profileModule.queueProfile := by rw [hp, hq]; exact moduleFor_queue
    simp only [hq, if_true, hprof, appendRetry_eq, List.append_assoc, List.cons_append,
      List.nil_append]
    refine ⟨_, _, _, rfl, ?_, _, _, rfl, ?_⟩
    · obtain ⟨h1, h2⟩ := buildQueuePair_facts (F := F) parent
        (g.topology.Services.getD
          (RNG.Intn g.rand (Int.ofNat g.topology.Services.length) r).1.toNat "")
        (RNG.Intn g.rand (max 1 g.cfg.Routes)
          (RNG.Intn g.rand (Int.ofNat g.topology.Services.length) r).2).1
        (parent.StartTime.Add ((i + 1) * time.Millisecond))
        (g.newSpanID (RNG.Intn g.rand (max 1 g.cfg.Routes)
          (RNG.Intn g.rand (Int.ofNat g.topology.Services.length) r).2).2).1
        (g.newSpanID (g.newSpanID (RNG.Intn g.rand (max 1 g.cfg.Routes)
          (RNG.Intn g.rand (Int.ofNat g.topology.Services.length) r).2).2).2).1
        tid
        (g.sampleDurationForProfile (g.newSpanID (g.newSpanID (RNG.Intn g.rand (max 1 g.cfg.Routes)
          (RNG.Intn g.rand (Int.ofNat g.topology.Services.length) r).2).2).2).2).1
      exact queueBlock g hq tid parent _ _ _ _ _ _ h1 h2
    · rw [finish_start]
      rfl
  · simp only [hq, if_false, appendRetry_eq, List.append_assoc, List.cons_append,
      List.nil_append]
    refine ⟨_, _, _, rfl, ?_, _, _, rfl, ?_⟩
    · obtain ⟨h1, _, h3, h4, h5, h6, h7, h8⟩ := buildChild_facts (F := F) g.profile parent
        (g.topology.Services.getD
          (RNG.Intn g.rand (Int.ofNat g.topology.Services.length) r).1.toNat "")
        (RNG.Intn g.rand (max 1 g.cfg.Routes)
          (RNG.Intn g.rand (Int.ofNat g.topology.Services.length) r).2).1
        (parent.StartTime.Add ((i + 1) * time.Millisecond))
        (g.newSpanID (RNG.Intn g.rand (max 1 g.cfg.Routes)
          (RNG.Intn g.rand (Int.ofNat g.topology.Services.length) r).2).2).1
        tid
        (g.sampleDurationForProfile (g.newSpanID (RNG.Intn g.rand (max 1 g.cfg.Routes)
          (RNG.Intn g.rand (Int.ofNat g.topology.Services.length) r).2).2).2).1
        (decide ((RNG.Float64 g.rand (g.sampleDurationForProfile (g.newSpanID
          (RNG.Intn g.rand (max 1 g.cfg.Routes)
          (RNG.Intn g.rand (Int.ofNat g.topology.Services.length) r).2).2).2).2).1 < g.cfg.DBHeavy))
        (decide ((RNG.Float64 g.rand (RNG.Float64 g.rand (g.sampleDurationForProfile (g.newSpanID
          (RNG.Intn g.rand (max 1 g.cfg.Routes)
          (RNG.Intn g.rand (Int.ofNat g.topology.Services.length) r).2).2).2).2).2).1
            < g.cfg.CacheHitRate))
      exact childBlock g hq tid parent _ _ _ ⟨h1, h3, h4, h5, h6, h7, h8⟩
    · rw [finish_start, buildChild_start]
      rfl

/-- In exact arithmetic the conversion to an integer of a number from 0 to below 2^63
is its floor. -/
theorem toInt64_floor (x : ℚ) (h0 : 0 ≤ x) (h1 : x < 9223372036854775808) :
    GoFloat64.toInt64 x = ⌊x⌋ := by
  show (if Int.tdiv x.num (Int.ofNat x.den) < -9223372036854775808 ∨
      9223372036854775807 < Int.tdiv x.num (Int.ofNat x.den)
    then -9223372036854775808 else Int.tdiv x.num (Int.ofNat x.den)) = ⌊x⌋
  have hnum : 0 ≤ x.num := Rat.num_nonneg.mpr h0
  have hq : Int.tdiv x.num (Int.ofNat x.den) = ⌊x⌋ := by
    rw [Int.ofNat_eq_coe, Int.tdiv_eq_ediv hnum (by exact_mod_cast Nat.zero_le _), Rat.floor_def]
  have hf0 : 0 ≤ ⌊x⌋ := Int.floor_nonneg.mpr h0
  have hf1 : ⌊x⌋ < 9223372036854775808 := Int.floor_lt.mpr (by exact_mod_cast h1)
  rw [hq, if_neg (by omega)]

/-- In exact arithmetic, for a fanout from 0 to below 2^63, `childCount` is the floor
of the fanout, plus one when the draw is below the fractional part, and at least 1. -/
theorem childCount_exact {σ : Type} (g : Generator ℚ σ) (h0 : (0 : ℚ) ≤ g.cfg.Fanout)
    (h1 : g.cfg.Fanout < 9223372036854775808) (r : σ) :
    (g.childCount r).1 =
      Max.max 1 (⌊g.cfg.Fanout⌋ +
        (if (RNG.Float64 g.rand r).1 < g.cfg.Fanout - ((⌊g.cfg.Fanout⌋ : Int) : ℚ) then 1 else 0)) := by
  unfold Generator.childCount
  simp only [toInt64_floor g.cfg.Fanout h0 h1]
  have hcast : (GoFloat64.ofInt ⌊g.cfg.Fanout⌋ : ℚ) = ((⌊g.cfg.Fanout⌋ : Int) : ℚ) := rfl
  rw [hcast]
  have hf0 : 0 ≤ ⌊g.cfg.Fanout⌋ := Int.floor_nonneg.mpr h0
  by_cases hb : (RNG.Float64 g.rand r).1 < g.cfg.Fanout - ((⌊g.cfg.Fanout⌋ : Int) : ℚ)
  · have hb2 : @LT.lt ℚ (@GoFloat64.toLT ℚ instGoFloat64Rat) (RNG.Float64 g.rand r).1
        (g.cfg.Fanout - ((⌊g.cfg.Fanout⌋ : Int) : ℚ)) := hb
    rw [if_pos hb2, if_pos hb, if_neg (by omega), max_eq_right (by omega)]
  · have hb2 : ¬ @LT.lt ℚ (@GoFloat64.toLT ℚ instGoFloat64Rat) (RNG.Float64 g.rand r).1
        (g.cfg.Fanout - ((⌊g.cfg.Fanout⌋ : Int) : ℚ)) := hb
    rw [if_neg hb2, if_neg hb, add_zero]
    by_cases h1 : ⌊g.cfg.Fanout⌋ < 1
    · rw [if_pos h1, max_eq_left (by omega)]
    · rw [if_neg h1, max_eq_right (by omega)]

/-- C33, as far as it fails: with a fanout of 2^63, which `Validate` accepts, the
conversion `int(fanout)` gives the smallest integer and `childCount` is 1, not the
floor of the fanout. -/
theorem C33_child_count_of_a_fanout_beyond_int :
    hugeFanoutConfig.Validate = none ∧
    hugeFanoutConfig.Fanout = GoFloat64.ofInt 9223372036854775808 ∧
    GoFloat64.toInt64 hugeFanoutConfig.Fanout = -9223372036854775808 ∧
    ((New halfSource seriesMath hugeFanoutConfig).1.childCount
      (New halfSource seriesMath hugeFanoutConfig).2).1 = 1 := by
  decide

/-- C33, amended: in exact arithmetic and for a fanout above 0 and below 2^63, a call of
`generateChildren` below the depth limit draws
`childCount = max(1, floor(fanout) + b)`, where `b` is 1 exactly when the draw is below
`fanout - floor(fanout)`, so `childCount` is the fanout when the fanout is whole and the
draw is not negative; it runs the body of its loop for `i = 0, ..., childCount - 1`,
recursing into `generateChildren` at the next level; and iteration `i` appends a child
of the parent (a producer and a consumer for the queue profile) with its retry spans,
the first span of which starts `i + 1` milliseconds after the parent. -/
theorem C33_child_count_and_start_times {σ : Type} (g : Generator ℚ σ)
    (hp : g.profile = moduleFor g.cfg.Profile)
    (hlo : (0 : ℚ) < g.cfg.Fanout) (hhi : g.cfg.Fanout < 9223372036854775808)
    (tid : model.TraceID) (spans : List (Span ℚ)) (parent : Span ℚ) (level : Int) (r : σ)
    (hl : level < g.cfg.Depth) :
    (g.childCount r).1 =
      Max.max 1 (⌊g.cfg.Fanout⌋ +
        (if (RNG.Float64 g.rand r).1 < g.cfg.Fanout - ((⌊g.cfg.Fanout⌋ : Int) : ℚ) then 1 else 0)) ∧
    (g.cfg.Fanout = ((⌊g.cfg.Fanout⌋ : Int) : ℚ) → (0 : ℚ) ≤ (RNG.Float64 g.rand r).1 →
      (g.childCount r).1 = ⌊g.cfg.Fanout⌋) ∧
    Int.ofNat (g.childCount r).1.toNat = (g.childCount r).1 ∧
    g.generateChildren tid spans parent level r =
      List.foldl (fun acc k => g.generateChild
          (fun s l r1 => g.generateChildren tid s l (level + 1) r1) tid parent (Int.ofNat k)
          acc.1 acc.2)
        (spans, (g.childCount r).2) (List.range (g.childCount r).1.toNat) ∧
    ∀ (recurse : List (Span ℚ) → Span ℚ → σ → List (Span ℚ) × σ) (i : Int)
      (spans1 : List (Span ℚ)) (r1 : σ),
      ∃ (block : List (Span ℚ)) (last : Span ℚ) (r2 : σ),
        g.generateChild recurse tid parent i spans1 r1 = recurse (spans1 ++ block) last r2 ∧
        BlockSpec g tid parent block last ∧
        ∃ (c : Span ℚ) (rest : List (Span ℚ)), block = c :: rest ∧
          c.StartTime = parent.StartTime + (i + 1) * 1000000 := by
  have hcount := childCount_exact g (le_of_lt hlo) hhi r
  refine ⟨hcount, ?_, ?_, generateChildren_eq_foldl g tid spans parent level r hl,
    fun recurse i spans1 r1 => generateChild_start g hp recurse tid parent i spans1 r1⟩
  · intro hwhole hdraw
    rw [hcount]
    have hb : ¬ (RNG.Float64 g.rand r).1 < g.cfg.Fanout - ((⌊g.cfg.Fanout⌋ : Int) : ℚ) := by
      rw [← hwhole, sub_self]
      exact not_lt.mpr hdraw
    rw [if_neg hb, add_zero]
    have h1 : 1 ≤ ⌊g.cfg.Fanout⌋ := by
      have h2 : (0 : ℚ) < ((⌊g.cfg.Fanout⌋ : Int) : ℚ) := by rw [← hwhole]; exact hlo
      have h3 : (0 : Int) < ⌊g.cfg.Fanout⌋ := by exact_mod_cast h2
      omega
    exact max_eq_right h1
  · have := childCount_pos g r
    simp only [Int.ofNat_eq_coe]
    omega

/-- The amended C33 at a fanout of 2.75 with draws of one half: the floor is 2, the
draw is below the fractional part 0.75, and `childCount` is 3. -/
theorem C33_child_count_and_start_times_witness :
    (0 : ℚ) < fractionalFanoutConfig.Fanout ∧
    fractionalFanoutConfig.Fanout < 9223372036854775808 ∧
    (1 : Int) < fractionalFanoutConfig.Depth ∧
    ((New constantRand linearMath fractionalFanoutConfig).1.childCount 0).1 = 3 := by
  have hlo : (0 : ℚ) < fractionalFanoutConfig.Fanout := by
    show (0 : ℚ) < 11 / 4
    norm_num
  have hhi : fractionalFanoutConfig.Fanout < 9223372036854775808 := by
    show (11 / 4 : ℚ) < 9223372036854775808
    norm_num
  have hfloor : ⌊(11 / 4 : ℚ)⌋ = 2 := by
    rw [Int.floor_eq_iff]
    norm_num
  obtain ⟨h, _⟩ := C33_child_count_and_start_times
    (New constantRand linearMath fractionalFanoutConfig).1 (New_profile _ _ _) hlo hhi [] []
    {} 1 0 (by decide)
  refine ⟨hlo, hhi, by decide, ?_⟩
  rw [h]
  show Max.max 1 (⌊(11 / 4 : ℚ)⌋ +
    (if (1 / 2 : ℚ) < 11 / 4 - ((⌊(11 / 4 : ℚ)⌋ : Int) : ℚ) then 1 else 0)) = 3
  rw [hfloor, if_pos (by norm_num)]
  rfl

/-! ## C32: the queue profile recurses from the consumer -/

theorem BelowConsumer_mono (root : Span F) (xs ys : List (Span F)) (s : Span F)
    (hsub : ∀ x ∈ xs, x ∈ ys) (h : BelowConsumer root xs s) : BelowConsumer root ys s := by
  obtain ⟨h1, h2, x, hx, h3⟩ := h
  exact ⟨h1, h2, x, hsub x hx, h3⟩

theorem QueueShape_mono (root : Span F) (xs ys : List (Span F)) (s : Span F)
    (hsub : ∀ x ∈ xs, x ∈ ys)
    (h : s = root ∨ BelowConsumer root xs s ∨ ∃ x ∈ xs, RetryOf x s) :
    s = root ∨ BelowConsumer root ys s ∨ ∃ x ∈ ys, RetryOf x s := by
  rcases h with h | h | ⟨x, hx, h⟩
  · exact Or.inl h
  · exact Or.inr (Or.inl (BelowConsumer_mono root xs ys s hsub h))
  · exact Or.inr (Or.inr ⟨x, hsub x hx, h⟩)

/-- Appending the block of one iteration for the queue profile, below a parent that is
the root or a `CONSUMER` span of the list, keeps the shape and the pairing, and the
span the recursion continues from is the `CONSUMER` span of the block. -/
theorem queue_block_shape {σ : Type} (g : Generator F σ) (hq : g.cfg.Profile = "queue")
    (tid : model.TraceID) (root parent : Span F) (spans block : List (Span F)) (last : Span F)
    (hshape : QueueShape root spans) (hpair : ProducersPaired spans)
    (hmem : parent ∈ spans) (hpar : parent = root ∨ parent.Kind = "CONSUMER")
    (hspec : BlockSpec g tid parent block last) :
    QueueShape root (spans ++ block) ∧ ProducersPaired (spans ++ block) ∧
    last ∈ spans ++ block ∧ last.Kind = "CONSUMER" := by
  rcases hspec with ⟨hnq, _⟩ | ⟨_, p, c, pr, cr, hb, hl, hcp, hcc, hpk, hck, hlink, _, hpr, hcr⟩
  · exact absurd hq hnq
  · subst hb
    subst hl
    obtain ⟨l, hl1, _, hl3, _⟩ := hlink
    have hp : BelowConsumer root (spans ++ p :: last :: (pr.toList ++ cr.toList)) p :=
      ⟨Or.inl hpk, hcp.2.1, parent, List.mem_append_left _ hmem, hcp.2.2.1.symm, hpar⟩
    have hc : BelowConsumer root (spans ++ p :: last :: (pr.toList ++ cr.toList)) last :=
      ⟨Or.inr hck, hcc.2.1, parent, List.mem_append_left _ hmem, hcc.2.2.1.symm, hpar⟩
    refine ⟨?_, ?_, by simp, hck⟩
    · intro s hs
      rcases List.mem_append.mp hs with hs | hs
      · exact QueueShape_mono root spans _ s (fun x hx => List.mem_append_left _ hx)
          (hshape s hs)
      · rcases List.mem_cons.mp hs with rfl | hs
        · exact Or.inr (Or.inl hp)
        · rcases List.mem_cons.mp hs with rfl | hs
          · exact Or.inr (Or.inl hc)
          · rcases List.mem_append.mp hs with hs | hs
            · exact Or.inr (Or.inr ⟨p, by simp, hpr s (Option.mem_toList.mp hs)⟩)
            · exact Or.inr (Or.inr ⟨last, by simp, hcr s (Option.mem_toList.mp hs)⟩)
    · intro q hqm hqk
      rcases List.mem_append.mp hqm with hs | hs
      · obtain ⟨c, hc1, l1, h⟩ := hpair q hs hqk
        exact ⟨c, List.mem_append_left _ hc1, l1, h⟩
      · have hnot : ∀ rs : Span F, rs.Kind = "INTERNAL" → rs.Kind ≠ "PRODUCER" := by
          intro rs h1 h2
          rw [h2] at h1
          revert h1
          decide
        rcases List.mem_cons.mp hs with rfl | hs
        · exact ⟨last, by simp, l, hl1, hl3, hck, hcp.2.1, hcc.2.1,
            by rw [hcc.2.2.1, hcp.2.2.1]⟩
        · rcases List.mem_cons.mp hs with rfl | hs
          · rw [hck] at hqk
            exact absurd hqk (by decide)
          · rcases List.mem_append.mp hs with hs | hs
            · exact absurd hqk (hnot q (hpr q (Option.mem_toList.mp hs)).2.2.2.1)
            · exact absurd hqk (hnot q (hcr q (Option.mem_toList.mp hs)).2.2.2.1)

/-- The spans of a trace of the queue profile: the first one is the root, which has no
parent and is not a `PRODUCER` span; the list has the shape of `QueueShape` and its
producers are paired. -/
theorem GenerateTrace_queue {σ : Type} (g : Generator F σ)
    (hp : g.profile = moduleFor g.cfg.Profile) (hq : g.cfg.Profile = "queue")
    (start : time.Time) (r : σ) :
    ∃ (root : Span F) (rest : List (Span F)),
      (g.GenerateTrace start r).1.Spans = root :: rest ∧
      root.HasParent = false ∧ (root.Kind = "SERVER" ∨ root.Kind = "INTERNAL") ∧
      QueueShape root (g.GenerateTrace start r).1.Spans ∧
      ProducersPaired (g.GenerateTrace start r).1.Spans := by
  obtain ⟨root, retry, r2, hspans, _, hnp, hrk, _, _, hretry⟩ := GenerateTrace_shape g start r
  have hne : ∀ (s : Span F), (s.Kind = "SERVER" ∨ s.Kind = "INTERNAL") → s.Kind ≠ "PRODUCER" := by
    intro s hs hk
    rw [hk] at hs
    revert hs
    decide
  obtain ⟨rest, hrest⟩ : ∃ rest, (g.GenerateTrace start r).1.Spans = root :: rest := by
    rw [hspans]
    unfold Generator.generateChildren
    obtain ⟨t, ht⟩ := generateChildrenFuel_extends g hp (g.GenerateTrace start r).1.TraceID
      (g.cfg.Depth - 1).toNat 1 (root :: retry.toList) root r2
    exact ⟨retry.toList ++ t, by rw [← ht]; rfl⟩
  have h := (generateChildrenFuel_preserves g hp (g.GenerateTrace start r).1.TraceID
    (fun spans parent => (QueueShape root spans ∧ ProducersPaired spans) ∧ parent ∈ spans ∧
      (parent = root ∨ parent.Kind = "CONSUMER"))
    ?_ ?_ (g.cfg.Depth - 1).toNat 1 (root :: retry.toList) root r2 ?_).1
  · refine ⟨root, rest, hrest, hnp, hrk, ?_, ?_⟩
    · rw [hspans]
      exact h.1.1
    · rw [hspans]
      exact h.1.2
  · rintro spans parent block last ⟨⟨h1, h2⟩, h3, h4⟩ hspec
    obtain ⟨a, b, c, d⟩ := queue_block_shape g hq _ root parent spans block last h1 h2 h3 h4 hspec
    exact ⟨⟨a, b⟩, c, Or.inr d⟩
  · rintro spans parent block last out ⟨_, h3, h4⟩ _ ⟨h5, _⟩ hpre
    exact ⟨h5, ((List.prefix_append _ _).trans hpre).subset h3, h4⟩
  · refine ⟨⟨?_, ?_⟩, by simp, Or.inl rfl⟩
    · intro s hs
      rcases List.mem_cons.mp hs with rfl | hs
      · exact Or.inl rfl
      · exact Or.inr (Or.inr ⟨root, by simp, hretry s (Option.mem_toList.mp hs)⟩)
    · intro p hpm hpk
      rcases List.mem_cons.mp hpm with rfl | hs
      · exact absurd hpk (hne _ hrk)
      · exact absurd hpk (hne _ (Or.inr (hretry p (Option.mem_toList.mp hs)).2.2.2.1))

/-- C32. In every trace generated with the queue profile the first span is the root,
which has no parent and is not a `PRODUCER` span, and every span is the root, a
`PRODUCER` or `CONSUMER` span built below the root or a `CONSUMER` span, or a retry
span, of kind `INTERNAL`; so every `PRODUCER` and every `CONSUMER` span has a parent
id that is the id of the root or of a `CONSUMER` span of the trace; every `PRODUCER`
span links to a `CONSUMER` span with the same parent id; and when the span ids of the
trace are pairwise different, a span whose parent is a `PRODUCER` span is the retry
span of that producer. -/
theorem C32_queue_recurses_from_consumer {σ : Type} (R : RandLib F σ) (M : MathLib F)
    (cfg : Config F) (start : time.Time) (r : σ) (hq : cfg.Profile = "queue") :
    ∃ (root : Span F) (rest : List (Span F)),
      ((New R M cfg).1.GenerateTrace start r).1.Spans = root :: rest ∧
      root.HasParent = false ∧ (root.Kind = "SERVER" ∨ root.Kind = "INTERNAL") ∧
      (∀ s ∈ ((New R M cfg).1.GenerateTrace start r).1.Spans,
        s = root ∨
        BelowConsumer root ((New R M cfg).1.GenerateTrace start r).1.Spans s ∨
        (s.Kind = "INTERNAL" ∧
          ∃ x ∈ ((New R M cfg).1.GenerateTrace start r).1.Spans, RetryOf x s)) ∧
      (∀ s ∈ ((New R M cfg).1.GenerateTrace start r).1.Spans,
        s.Kind = "PRODUCER" ∨ s.Kind = "CONSUMER" →
        s.HasParent = true ∧
        ∃ x ∈ ((New R M cfg).1.GenerateTrace start r).1.Spans,
          x.SpanID = s.ParentSpanID ∧ (x = root ∨ x.Kind = "CONSUMER")) ∧
      (∀ p ∈ ((New R M cfg).1.GenerateTrace start r).1.Spans, p.Kind = "PRODUCER" →
        ∃ c ∈ ((New R M cfg).1.GenerateTrace start r).1.Spans, ∃ l : Link F,
          p.Links = [l] ∧ l.SpanID = c.SpanID ∧ c.Kind = "CONSUMER" ∧
          p.HasParent = true ∧ c.HasParent = true ∧ c.ParentSpanID = p.ParentSpanID) ∧
      ((((New R M cfg).1.GenerateTrace start r).1.Spans.map (fun s => s.SpanID)).Nodup →
        ∀ s ∈ ((New R M cfg).1.GenerateTrace start r).1.Spans,
        ∀ p ∈ ((New R M cfg).1.GenerateTrace start r).1.Spans,
          s.HasParent = true → s.ParentSpanID = p.SpanID → p.Kind = "PRODUCER" →
          RetryOf p s) := by
  obtain ⟨root, rest, hspans, hnp, hrk, hshape, hpair⟩ :=
    GenerateTrace_queue (New R M cfg).1 (New_profile R M cfg) hq start r
  have hne : ∀ (s : Span F), (s.Kind = "SERVER" ∨ s.Kind = "INTERNAL") →
      ¬ (s.Kind = "PRODUCER" ∨ s.Kind = "CONSUMER") := by
    intro s hs hk
    rcases hk with hk | hk <;> rw [hk] at hs <;> revert hs <;> decide
  have hcons : ∀ (s : Span F), s.Kind = "CONSUMER" → s.Kind ≠ "PRODUCER" := by
    intro s hs hk
    rw [hk] at hs
    revert hs
    decide
  refine ⟨root, rest, hspans, hnp, hrk, ?_, ?_, hpair, ?_⟩
  · intro s hs
    rcases hshape s hs with h | h | ⟨x, hx, h⟩
    · exact Or.inl h
    · exact Or.inr (Or.inl h)
    · exact Or.inr (Or.inr ⟨h.2.2.2.1, x, hx, h⟩)
  · intro s hs hk
    rcases hshape s hs with h | h | ⟨x, hx, h⟩
    · rw [h] at hk
      exact absurd hk (hne root hrk)
    · exact ⟨h.2.1, h.2.2⟩
    · exact absurd hk (hne s (Or.inr h.2.2.2.1))
  · intro hnodup s hs p hpm hhas hpar hpk
    rcases hshape s hs with h | h | ⟨x, hx, h⟩
    · rw [h, hnp] at hhas
      cases hhas
    · obtain ⟨_, _, x, hx, hid, hx2⟩ := h
      have hxp : x = p := List.inj_on_of_nodup_map hnodup hx hpm (hid.trans hpar)
      rw [hxp] at hx2
      rcases hx2 with h1 | h1
      · rw [h1] at hpk
        exact absurd (Or.inl hpk) (hne root hrk)
      · exact absurd hpk (hcons p h1)
    · have hxp : x = p := List.inj_on_of_nodup_map hnodup hx hpm (h.2.2.1.symm.trans hpar)
      rw [← hxp]
      exact h

set_option maxRecDepth 40000 in
/-- C32 at the first trace of the queue scenario with depth 3, errors and retries, from
a source whose draws are all different: its ten spans have pairwise different ids,
the second producer and consumer hang below the first consumer, and the spans whose
parent is a producer are retry spans. -/
theorem C32_queue_recurses_from_consumer_witness :
    queueRetryConfig.Profile = "queue" ∧
    ((New countingSource seriesMath queueRetryConfig).1.GenerateTrace 0
        (New countingSource seriesMath queueRetryConfig).2).1.Spans.map (fun s => s.Kind)
      = ["SERVER", "INTERNAL", "PRODUCER", "CONSUMER", "INTERNAL", "INTERNAL",
         "PRODUCER", "CONSUMER", "INTERNAL", "INTERNAL"] ∧
    (∃ s ∈ ((New countingSource seriesMath queueRetryConfig).1.GenerateTrace 0
        (New countingSource seriesMath queueRetryConfig).2).1.Spans,
      ∃ p ∈ ((New countingSource seriesMath queueRetryConfig).1.GenerateTrace 0
        (New countingSource seriesMath queueRetryConfig).2).1.Spans,
      s.HasParent = true ∧ s.ParentSpanID = p.SpanID ∧ p.Kind = "PRODUCER") ∧
    ∀ s ∈ ((New countingSource seriesMath queueRetryConfig).1.GenerateTrace 0
        (New countingSource seriesMath queueRetryConfig).2).1.Spans,
      ∀ p ∈ ((New countingSource seriesMath queueRetryConfig).1.GenerateTrace 0
        (New countingSource seriesMath queueRetryConfig).2).1.Spans,
        s.HasParent = true → s.ParentSpanID = p.SpanID → p.Kind = "PRODUCER" → RetryOf p s := by
  obtain ⟨_, _, _, _, _, _, _, _, h⟩ := C32_queue_recurses_from_consumer countingSource
    seriesMath queueRetryConfig 0 (New countingSource seriesMath queueRetryConfig).2 rfl
  exact ⟨rfl, by decide, by decide, h (by decide)⟩

/-! ## C34: the totals and the buffer of the JSONL consumer -/

theorem receivedTraces_append (xs ys : List (ConsumerEvent F)) :
    receivedTraces (xs ++ ys) = receivedTraces xs ++ receivedTraces ys := by
  induction xs with
  | nil => rfl
  | cons x rest ih =>
    cases x with
    | trace t => simp [receivedTraces, ih]
    | flushTick => simp [receivedTraces, ih]

theorem spansOf_append (xs ys : List (Trace F)) :
    spansOf (xs ++ ys) = spansOf xs ++ spansOf ys := by
  induction xs with
  | nil => rfl
  | cons x rest ih => simp [spansOf, ih]

theorem spansOf_length (xs : List (Trace F)) :
    (spansOf xs).length = (xs.map (fun t => t.Spans.length)).sum := by
  induction xs with
  | nil => rfl
  | cons x rest ih => simp [spansOf, ih]

/-- The method `emitterStats.add` adds both numbers when they are not negative, and
touches nothing else. -/
theorem statsAdd_counts (st : ConsumerState F) (traces spans : Int) :
    (st.statsAdd traces spans).statsTraces = st.statsTraces + traces.toNat ∧
    (st.statsAdd traces spans).statsSpans = st.statsSpans + spans.toNat ∧
    (st.statsAdd traces spans).pendingTraceCount = st.pendingTraceCount := by
  unfold ConsumerState.statsAdd
  by_cases h1 : traces > 0
  · by_cases h2 : spans > 0
    · simp [h1, h2]
    · have : spans.toNat = 0 := by omega
      simp [h1, h2, this]
  · have h3 : traces.toNat = 0 := by omega
    by_cases h2 : spans > 0
    · simp [h1, h2, h3]
    · have : spans.toNat = 0 := by omega
      simp [h1, h2, h3, this]

/-- The closure `flushJSONL` keeps the record of the traces seen and leaves the buffer
empty. -/
theorem flushJSONL_inv (st : ConsumerState F) (seen : List (Trace F))
    (h : ConsumerInv st seen) :
    ConsumerInv (flushJSONL st) seen ∧ (flushJSONL st).spanBatch = [] := by
  obtain ⟨i1, i2, i3, i4, i5⟩ := h
  obtain ⟨w1, w2⟩ := flushJSONL_written st
  refine ⟨?_, w2⟩
  by_cases hlen : st.spanBatch.length = 0
  · have hst : flushJSONL st = st := by
      unfold flushJSONL
      rw [if_pos hlen]
    rw [hst]
    exact ⟨i1, i2, i3, i4, i5⟩
  · have hst : flushJSONL st =
        ({ st with written := st.written ++ jsonl.WriteTrace st.spanBatch,
                   spanBatch := [], pendingTraceCount := 0 } : ConsumerState F).statsAdd
          st.pendingTraceCount (Int.ofNat st.spanBatch.length) := by
      unfold flushJSONL
      rw [if_neg hlen]
    obtain ⟨c1, c2, c3⟩ := statsAdd_counts
      ({ st with written := st.written ++ jsonl.WriteTrace st.spanBatch,
                 spanBatch := [], pendingTraceCount := 0 } : ConsumerState F)
      st.pendingTraceCount (Int.ofNat st.spanBatch.length)
    rw [← hst] at c1 c2 c3
    refine ⟨?_, ?_, ?_, ?_, ?_⟩
    · rw [c1, c3]
      exact i1
    · rw [c2, w2]
      simpa using i2
    · rw [w1, w2]
      simpa [jsonl.WriteTrace] using i3
    · intro _
      exact c3
    · rw [c3]

/-- One event keeps the record: a tick flushes, a trace with at least one span joins
the traces seen. After a trace the buffer holds fewer than `BatchSize` spans. -/
theorem consumeStepJSONL_inv (cfg : Config F) (hout : cfg.Output ≠ "noop")
    (hbatch : 0 < cfg.BatchSize) (st : ConsumerState F) (seen : List (Trace F))
    (h : ConsumerInv st seen) (ev : ConsumerEvent F)
    (hev : ∀ t ∈ receivedTraces [ev], 1 ≤ t.Spans.length) :
    ConsumerInv (consumeStepJSONL cfg st ev) (seen ++ receivedTraces [ev]) ∧
    (∀ t, ev = .trace t →
      Int.ofNat (consumeStepJSONL cfg st ev).spanBatch.length < cfg.BatchSize) := by
  cases ev with
  | flushTick =>
    refine ⟨?_, fun t ht => by cases ht⟩
    have : seen ++ receivedTraces [(ConsumerEvent.flushTick : ConsumerEvent F)] = seen := by
      simp [receivedTraces]
    rw [this]
    unfold consumeStepJSONL
    exact (flushJSONL_inv st seen h).1
  | trace t =>
    have ht : 1 ≤ t.Spans.length := hev t (by simp [receivedTraces])
    have hseen : seen ++ receivedTraces [ConsumerEvent.trace t] = seen ++ [t] := by
      simp [receivedTraces]
    rw [hseen]
    obtain ⟨i1, i2, i3, i4, i5⟩ := h
    have hinv : ConsumerInv
        ({ st with spanBatch := st.spanBatch ++ t.Spans,
                   pendingTraceCount := st.pendingTraceCount + 1 } : ConsumerState F)
        (seen ++ [t]) := by
      refine ⟨?_, ?_, ?_, ?_, ?_⟩
      · show st.statsTraces + (st.pendingTraceCount + 1).toNat = (seen ++ [t]).length
        rw [List.length_append, List.length_singleton]
        omega
      · show st.statsSpans + (st.spanBatch ++ t.Spans).length = (spansOf (seen ++ [t])).length
        rw [spansOf_append, List.length_append, List.length_append]
        simp only [spansOf, List.append_nil]
        omega
      · show st.written ++ jsonl.WriteTrace (st.spanBatch ++ t.Spans)
            = jsonl.WriteTrace (spansOf (seen ++ [t]))
        rw [spansOf_append]
        simp only [spansOf, List.append_nil]
        unfold jsonl.WriteTrace at i3 ⊢
        rw [List.map_append, List.map_append, ← List.append_assoc, i3]
      · intro hnil
        have hnil2 : st.spanBatch ++ t.Spans = [] := hnil
        have : t.Spans = [] := (List.append_eq_nil.mp hnil2).2
        rw [this] at ht
        simp at ht
      · show 0 ≤ st.pendingTraceCount + 1
        omega
    unfold consumeStepJSONL
    simp only [hout, if_false]
    by_cases hfull : Int.ofNat (st.spanBatch ++ t.Spans).length ≥ cfg.BatchSize
    · rw [if_pos hfull]
      obtain ⟨f1, f2⟩ := flushJSONL_inv _ _ hinv
      refine ⟨f1, fun _ _ => ?_⟩
      rw [f2]
      exact hbatch
    · rw [if_neg hfull]
      exact ⟨hinv, fun _ _ => not_le.mp hfull⟩

/-- The loop of `consumeTraces` keeps the record over any list of events. -/
theorem consume_fold_inv (cfg : Config F) (hout : cfg.Output ≠ "noop")
    (hbatch : 0 < cfg.BatchSize) :
    ∀ (events : List (ConsumerEvent F)) (st : ConsumerState F) (seen : List (Trace F)),
      ConsumerInv st seen → (∀ t ∈ receivedTraces events, 1 ≤ t.Spans.length) →
      ConsumerInv (events.foldl (consumeStepJSONL cfg) st) (seen ++ receivedTraces events) := by
  intro events
  induction events with
  | nil =>
    intro st seen h _
    simpa [receivedTraces] using h
  | cons ev rest ih =>
    intro st seen h hall
    have hsplit : receivedTraces (ev :: rest) = receivedTraces [ev] ++ receivedTraces rest :=
      receivedTraces_append [ev] rest
    rw [hsplit] at hall ⊢
    rw [List.foldl_cons, ← List.append_assoc]
    apply ih
    · exact (consumeStepJSONL_inv cfg hout hbatch st seen h ev
        (fun t ht => hall t (List.mem_append_left _ ht))).1
    · exact fun t ht => hall t (List.mem_append_right _ ht)

theorem ConsumerInv_init : ConsumerInv ({} : ConsumerState F) [] := by
  refine ⟨rfl, rfl, rfl, fun _ => rfl, le_refl _⟩

/-- C34. For the JSONL format with an output other than noop and a positive batch
size, as `Validate` requires, when `consumeTraces` has received a finite list of events
(traces and ticks of the flush ticker) in which every trace has at least one span and
returns after the trace channel is closed: the traces and spans added to the stats are
the number of traces received and the sum of their span counts; the lines written are
the lines of the received spans, each once and in order of arrival; nothing is left in
the buffer; and after each received trace the buffer holds fewer than `BatchSize`
spans. The encoder and the writer are modelled as not failing. -/
theorem C34_jsonl_consumer_totals (cfg : Config F) (events : List (ConsumerEvent F))
    (hout : cfg.Output ≠ "noop") (hbatch : 0 < cfg.BatchSize)
    (hspans : ∀ t ∈ receivedTraces events, 1 ≤ t.Spans.length) :
    (consumeTracesJSONL cfg events).statsTraces = (receivedTraces events).length ∧
    (consumeTracesJSONL cfg events).statsSpans
      = ((receivedTraces events).map (fun t => t.Spans.length)).sum ∧
    (consumeTracesJSONL cfg events).written
      = (spansOf (receivedTraces events)).map jsonlLine ∧
    (consumeTracesJSONL cfg events).spanBatch = [] ∧
    (consumeTracesJSONL cfg events).pendingTraceCount = 0 ∧
    ∀ (pre : List (ConsumerEvent F)) (t : Trace F) (post : List (ConsumerEvent F)),
      events = pre ++ ConsumerEvent.trace t :: post →
      Int.ofNat ((pre ++ [ConsumerEvent.trace t]).foldl (consumeStepJSONL cfg) {}).spanBatch.length
        < cfg.BatchSize := by
  have hfold := consume_fold_inv cfg hout hbatch events {} [] ConsumerInv_init hspans
  rw [List.nil_append] at hfold
  obtain ⟨⟨i1, i2, i3, i4, i5⟩, hnil⟩ := flushJSONL_inv _ _ hfold
  have hfin : consumeTracesJSONL cfg events
      = flushJSONL (events.foldl (consumeStepJSONL cfg) {}) := by
    unfold consumeTracesJSONL finalizeJSONL
    rw [if_neg hout]
  rw [hfin]
  have hpend := i4 hnil
  refine ⟨?_, ?_, ?_, hnil, hpend, ?_⟩
  · rw [hpend] at i1
    simpa using i1
  · rw [hnil] at i2
    rw [← spansOf_length]
    simpa using i2
  · rw [hnil] at i3
    simpa [jsonl.WriteTrace] using i3
  · intro pre t post hsplit
    have hpre : ∀ t1 ∈ receivedTraces pre, 1 ≤ t1.Spans.length := by
      intro t1 ht1
      apply hspans
      rw [hsplit, receivedTraces_append]
      exact List.mem_append_left _ ht1
    have ht : ∀ t1 ∈ receivedTraces [ConsumerEvent.trace t], 1 ≤ t1.Spans.length := by
      intro t1 ht1
      apply hspans
      rw [hsplit, receivedTraces_append]
      apply List.mem_append_right
      have : ConsumerEvent.trace t :: post = [ConsumerEvent.trace t] ++ post := rfl
      rw [this, receivedTraces_append]
      exact List.mem_append_left _ ht1
    have h1 := consume_fold_inv cfg hout hbatch pre {} [] ConsumerInv_init hpre
    rw [List.foldl_append, List.foldl_cons, List.foldl_nil]
    exact (consumeStepJSONL_inv cfg hout hbatch _ _ h1 (ConsumerEvent.trace t) ht).2 t rfl

/-- C34 for three traces of one, two and three spans with a batch size of 3 and a tick
after the second trace: three traces and six spans are counted and six lines are
written. -/
theorem C34_jsonl_consumer_totals_witness :
    (consumeTracesJSONL { scenarioConfig with BatchSize := 3 } threeTraceEvents).statsTraces = 3 ∧
    (consumeTracesJSONL { scenarioConfig with BatchSize := 3 } threeTraceEvents).statsSpans = 6 ∧
    (consumeTracesJSONL { scenarioConfig with BatchSize := 3 } threeTraceEvents).written.map
        (fun l => l.Name) = ["a", "b", "c", "d", "e", "f"] := by
  obtain ⟨h1, h2, h3, _⟩ := C34_jsonl_consumer_totals { scenarioConfig with BatchSize := 3 }
    threeTraceEvents (by decide) (by decide) (by decide)
  refine ⟨h1, h2, ?_⟩
  rw [h3]
  rfl

/-! ## C37: the token bucket of produceTraces -/

theorem deadlinePassed_steps (p : ProducerParams F) (env : ProducerEnv) (st : ProducerState F) :
    Relation.ReflTransGen (BucketStepSpec p env) st (deadlinePassed p env st).2 := by
  unfold deadlinePassed
  split_ifs
  · exact Relation.ReflTransGen.single (BucketStepSpec.clock st)
  · exact Relation.ReflTransGen.refl

/-- The inner loop of `produceTraces` takes steps of the token bucket. -/
theorem producerInner_steps (p : ProducerParams F) (env : ProducerEnv) :
    ∀ (fuel : Nat) (st : ProducerState F) (d : Bool),
      Relation.ReflTransGen (BucketStepSpec p env) st (producerInner p env fuel st d).state := by
  intro fuel
  induction fuel with
  | zero =>
    intro st d
    exact Relation.ReflTransGen.refl
  | succ fuel ih =>
    intro st d
    unfold producerInner
    split_ifs with h1 h2
    · exact Relation.ReflTransGen.refl
    · have hd := deadlinePassed_steps p env st
      obtain ⟨_, _, f3, _⟩ := deadlinePassed_frame p env st
      rcases hdp : deadlinePassed p env st with ⟨expired, st1⟩
      rw [hdp] at hd f3
      simp only at hd f3 ⊢
      have h3 : st1.tokens ≥ 1.0 := by rw [f3]; exact h1
      cases expired with
      | true =>
        simp only [if_true]
        exact hd
      | false =>
        simp only [Bool.false_eq_true, if_false]
        cases hsel : env.trySend st1.sends with
        | sent =>
          simp only []
          exact (hd.tail (BucketStepSpec.dispatch st1 h3)).trans (ih _ true)
        | done =>
          simp only []
          exact hd.tail (BucketStepSpec.cancelled st1)
        | full =>
          simp only []
          exact (hd.tail (BucketStepSpec.full st1 h3)).trans (ih _ d)
    · exact Relation.ReflTransGen.refl

/-- The outer loop of `produceTraces` takes steps of the token bucket. -/
theorem producerOuter_steps (p : ProducerParams F) (env : ProducerEnv) :
    ∀ (fuel : Nat) (st : ProducerState F),
      Relation.ReflTransGen (BucketStepSpec p env) st (producerOuter p env fuel st).state := by
  intro fuel
  induction fuel with
  | zero =>
    intro st
    exact Relation.ReflTransGen.refl
  | succ fuel ih =>
    intro st
    unfold producerOuter
    split_ifs with h1
    · exact Relation.ReflTransGen.refl
    · have hd := deadlinePassed_steps p env st
      rcases hdp : deadlinePassed p env st with ⟨expired, st1⟩
      rw [hdp] at hd
      simp only at hd ⊢
      cases expired with
      | true =>
        simp only [if_true]
        exact hd
      | false =>
        simp only [Bool.false_eq_true, if_false]
        have hr := hd.tail (BucketStepSpec.refill st1)
        have hi := producerInner_steps p env fuel
          { st1 with nows := st1.nows + 1, lastRefill := env.now st1.nows,
                     tokens := if st1.tokens + time.Duration.Seconds
                         ((env.now st1.nows).Sub st1.lastRefill) * p.ratePerSecond > p.capacity
                       then p.capacity
                       else st1.tokens + time.Duration.Seconds
                         ((env.now st1.nows).Sub st1.lastRefill) * p.ratePerSecond } false
        cases hin : producerInner p env fuel
            { st1 with nows := st1.nows + 1, lastRefill := env.now st1.nows,
                       tokens := if st1.tokens + time.Duration.Seconds
                           ((env.now st1.nows).Sub st1.lastRefill) * p.ratePerSecond > p.capacity
                         then p.capacity
                         else st1.tokens + time.Duration.Seconds
                           ((env.now st1.nows).Sub st1.lastRefill) * p.ratePerSecond } false with
        | outOfFuel st3 =>
          rw [hin] at hi
          simp only []
          exact hr.trans hi
        | cancelled st3 =>
          rw [hin] at hi
          simp only []
          exact hr.trans hi
        | exit st3 dispatched =>
          rw [hin] at hi
          simp only []
          have hi3 : Relation.ReflTransGen (BucketStepSpec p env) st st3 := hr.trans hi
          cases dispatched with
          | true =>
            simp only [if_true]
            exact hi3.trans (ih st3)
          | false =>
            simp only [Bool.false_eq_true, if_false]
            cases hw : env.wait st3.waits with
            | done =>
              simp only []
              exact hi3.tail (BucketStepSpec.wait st3)
            | tick =>
              simp only []
              exact (hi3.tail (BucketStepSpec.wait st3)).trans (ih _)

/-- With a rate that is not at or below zero, every state of the scheduler of
`produceTraces` is reached from the full bucket by steps of the token bucket. -/
theorem produceTraces_steps (cfg : Config F) (env : ProducerEnv) (fuel : Nat)
    (hrate : ¬ ratePerSecond cfg ≤ 0.0) :
    Relation.ReflTransGen (BucketStepSpec (producerParams cfg env) env) (producerStart cfg env)
      (produceTraces cfg env fuel).state := by
  unfold produceTraces
  simp only [hrate, if_false]
  exact producerOuter_steps (producerParams cfg env) env fuel (producerStart cfg env)

theorem Instant_Sub_nonneg (t u : Instant) (h : u.mono ≤ t.mono) : (0 : Int) ≤ t.Sub u := by
  unfold Instant.Sub
  simp only
  split_ifs <;> omega

theorem Seconds_nonneg (d : Int) (h : 0 ≤ d) : (0 : ℚ) ≤ (time.Duration.Seconds d : ℚ) := by
  show (0 : ℚ) ≤ ((Int.tdiv d time.Second : Int) : ℚ)
    + ((Int.tmod d time.Second : Int) : ℚ) / (OfScientific.ofScientific 1 false 9 : ℚ)
  have a : (0 : Int) ≤ Int.tdiv d time.Second := Int.tdiv_nonneg h (by decide)
  have b : (0 : Int) ≤ Int.tmod d time.Second := Int.tmod_nonneg _ h
  have a2 : (0 : ℚ) ≤ ((Int.tdiv d time.Second : Int) : ℚ) := by exact_mod_cast a
  have b2 : (0 : ℚ) ≤ ((Int.tmod d time.Second : Int) : ℚ) := by exact_mod_cast b
  exact add_nonneg a2 (div_nonneg b2 (by norm_num))

/-- In exact arithmetic, with a rate that is not negative and a clock whose monotonic
readings never decrease, every step of the token bucket keeps the invariant. -/
theorem BucketStepSpec_inv (p : ProducerParams ℚ) (env : ProducerEnv)
    (hrate : (0 : ℚ) ≤ p.ratePerSecond)
    (hmono : ∀ i j, i ≤ j → (env.now i).mono ≤ (env.now j).mono)
    (st st2 : ProducerState ℚ) (h : BucketInv p env st) (hs : BucketStepSpec p env st st2) :
    BucketInv p env st2 := by
  have hzero : (OfScientific.ofScientific 0 true 1 : ℚ) = 0 := by norm_num
  have hone : (OfScientific.ofScientific 10 true 1 : ℚ) = 1 := by norm_num
  obtain ⟨i1, i2, ⟨j, hj, hlast⟩, i4, i5⟩ := h
  cases hs with
  | refill =>
    have hel : (0 : ℚ) ≤ (time.Duration.Seconds ((env.now st.nows).Sub st.lastRefill) : ℚ) := by
      apply Seconds_nonneg
      apply Instant_Sub_nonneg
      rw [hlast]
      exact hmono j st.nows (le_of_lt hj)
    have hadd : (0 : ℚ) ≤ st.tokens
        + (time.Duration.Seconds ((env.now st.nows).Sub st.lastRefill) : ℚ) * p.ratePerSecond :=
      add_nonneg i1 (mul_nonneg hel hrate)
    refine ⟨?_, ?_, ⟨st.nows, Nat.lt_succ_self _, rfl⟩, i4, i5⟩
    · show (0 : ℚ) ≤ if p.capacity < st.tokens
          + (time.Duration.Seconds ((env.now st.nows).Sub st.lastRefill) : ℚ) * p.ratePerSecond
        then p.capacity
        else st.tokens
          + (time.Duration.Seconds ((env.now st.nows).Sub st.lastRefill) : ℚ) * p.ratePerSecond
      split_ifs
      · exact le_trans i1 i2
      · exact hadd
    · show (if p.capacity < st.tokens
          + (time.Duration.Seconds ((env.now st.nows).Sub st.lastRefill) : ℚ) * p.ratePerSecond
        then p.capacity
        else st.tokens
          + (time.Duration.Seconds ((env.now st.nows).Sub st.lastRefill) : ℚ) * p.ratePerSecond)
        ≤ p.capacity
      split_ifs with hc
      · exact le_refl _
      · exact not_lt.mp hc
  | dispatch h1 =>
    have h2 : (1 : ℚ) ≤ st.tokens := by
      have h3 : (OfScientific.ofScientific 10 true 1 : ℚ) ≤ st.tokens := h1
      rw [hone] at h3
      exact h3
    refine ⟨?_, ?_, ⟨j, hj, hlast⟩, ?_, ?_⟩
    · show (0 : ℚ) ≤ st.tokens - (OfScientific.ofScientific 10 true 1 : ℚ)
      rw [hone]
      linarith
    · show st.tokens - (OfScientific.ofScientific 10 true 1 : ℚ) ≤ p.capacity
      rw [hone]
      linarith
    · show 0 ≤ st.sent + 1
      omega
    · show st.jobs ++ [scheduledAt p st.sent] = _
      have hn : (st.sent + 1).toNat = st.sent.toNat + 1 := by omega
      rw [hn, List.range_succ, List.map_append, ← i5]
      have hsent : Int.ofNat st.sent.toNat = st.sent := by
        simp only [Int.ofNat_eq_coe]
        omega
      simp only [List.map_cons, List.map_nil, hsent]
  | full h1 =>
    refine ⟨?_, ?_, ⟨j, hj, hlast⟩, i4, i5⟩
    · show (0 : ℚ) ≤ (OfScientific.ofScientific 0 true 1 : ℚ)
      rw [hzero]
    · show (OfScientific.ofScientific 0 true 1 : ℚ) ≤ p.capacity
      rw [hzero]
      exact le_trans i1 i2
  | cancelled => exact ⟨i1, i2, ⟨j, hj, hlast⟩, i4, i5⟩
  | clock => exact ⟨i1, i2, ⟨j, Nat.lt_succ_of_lt hj, hlast⟩, i4, i5⟩
  | wait => exact ⟨i1, i2, ⟨j, hj, hlast⟩, i4, i5⟩

/-- The invariant holds in every state reached by steps of the token bucket from a
state in which it holds. -/
theorem BucketInv_reach (p : ProducerParams ℚ) (env : ProducerEnv)
    (hrate : (0 : ℚ) ≤ p.ratePerSecond)
    (hmono : ∀ i j, i ≤ j → (env.now i).mono ≤ (env.now j).mono)
    (st st2 : ProducerState ℚ) (h : BucketInv p env st)
    (hs : Relation.ReflTransGen (BucketStepSpec p env) st st2) : BucketInv p env st2 := by
  induction hs with
  | refl => exact h
  | tail _ hstep ih => exact BucketStepSpec_inv p env hrate hmono _ _ ih hstep

/-- In exact arithmetic the capacity of the bucket is `max(1, T)`. -/
theorem capacity_exact (cfg : Config ℚ) (env : ProducerEnv) :
    (producerParams cfg env).capacity = Max.max 1 (ratePerSecond cfg) := by
  have hone : (OfScientific.ofScientific 10 true 1 : ℚ) = 1 := by norm_num
  show (if ratePerSecond cfg < (OfScientific.ofScientific 10 true 1 : ℚ)
    then (OfScientific.ofScientific 10 true 1 : ℚ) else ratePerSecond cfg) = _
  rw [hone]
  split_ifs with h
  · exact (max_eq_left (le_of_lt h)).symm
  · exact (max_eq_right (not_lt.mp h)).symm

/-- With a bucket that holds NaN the inner loop of `produceTraces` dispatches nothing:
the test `tokens >= 1` fails. -/
theorem producerInner_nan (p : ProducerParams DecFloat) (env : ProducerEnv) (fuel : Nat)
    (st : ProducerState DecFloat) (d : Bool) (h : st.tokens.den = 0) :
    producerInner p env fuel st d = .outOfFuel st ∨ producerInner p env fuel st d = .exit st d := by
  cases fuel with
  | zero => exact Or.inl rfl
  | succ fuel =>
    right
    unfold producerInner
    have hlt : ¬ st.tokens ≥ 1.0 := by
      show ¬ DecFloat.ble 1.0 st.tokens = true
      unfold DecFloat.ble
      simp [h]
    rw [if_neg hlt]

theorem refill_nan (p : ProducerParams DecFloat) (a e : DecFloat) (hcap : p.capacity.den = 0)
    (h : a.den = 0) :
    (if a + e * p.ratePerSecond > p.capacity then p.capacity else a + e * p.ratePerSecond).den
      = 0 := by
  have hadd : (a + e * p.ratePerSecond).den = 0 := by
    show a.den * (e * p.ratePerSecond).den = 0
    rw [h, Nat.zero_mul]
  split_ifs
  · exact hcap
  · exact hadd

/-- With a capacity that is NaN and a bucket that holds NaN, the scheduler of
`produceTraces` never sends a job. -/
theorem producerOuter_nan (p : ProducerParams DecFloat) (env : ProducerEnv)
    (hcap : p.capacity.den = 0) :
    ∀ (fuel : Nat) (st : ProducerState DecFloat), st.tokens.den = 0 →
      (producerOuter p env fuel st).state.jobs = st.jobs := by
  intro fuel
  induction fuel with
  | zero =>
    intro st _
    rfl
  | succ fuel ih =>
    intro st h
    unfold producerOuter
    split_ifs with h1
    · rfl
    · obtain ⟨_, f2, f3, _⟩ := deadlinePassed_frame p env st
      rcases hdp : deadlinePassed p env st with ⟨expired, st1⟩
      rw [hdp] at f2 f3
      simp only at f2 f3 ⊢
      cases expired with
      | true =>
        simp only [if_true]
        exact f2
      | false =>
        simp only [Bool.false_eq_true, if_false]
        have hden := refill_nan p st1.tokens
          (time.Duration.Seconds ((env.now st1.nows).Sub st1.lastRefill)) hcap (by rw [f3]; exact h)
        rcases producerInner_nan p env fuel
            { st1 with nows := st1.nows + 1, lastRefill := env.now st1.nows,
                       tokens := if st1.tokens + time.Duration.Seconds
                           ((env.now st1.nows).Sub st1.lastRefill) * p.ratePerSecond > p.capacity
                         then p.capacity
                         else st1.tokens + time.Duration.Seconds
                           ((env.now st1.nows).Sub st1.lastRefill) * p.ratePerSecond }
            false hden with hin | hin
        · rw [hin]
          simp only []
          exact f2
        · rw [hin]
          simp only [Bool.false_eq_true, if_false]
          cases hw : env.wait st1.waits with
          | done =>
            simp only []
            exact f2
          | tick =>
            simp only []
            rw [ih _ hden]
            exact f2

/-- With a rate that is NaN, whatever the clock and the jobs channel do, and however long
the scheduler runs, no job is dispatched. -/
theorem nanRate_never_dispatches (env : ProducerEnv) (fuel : Nat) :
    (produceTraces nanRateConfig env fuel).state.jobs = [] := by
  have hrate : ¬ ratePerSecond nanRateConfig ≤ 0.0 := by decide
  have hcap : (producerParams nanRateConfig env).capacity.den = 0 := by
    show (if ratePerSecond nanRateConfig < 1.0 then (1.0 : DecFloat)
      else ratePerSecond nanRateConfig).den = 0
    decide
  unfold produceTraces
  simp only [hrate, if_false]
  exact producerOuter_nan (producerParams nanRateConfig env) env hcap fuel _ hcap

/-! ## C22: the topology, with the allocation of `make` checked -/

/-- C22, as stated, fails for an `n >= 1` that `make` cannot allocate: for the largest
`int`, every prefix and every allocation limit of the platform, the call
`make([]string, 0, n)` of `BuildTopology` panics (16 bytes for each of the `n` string
headers do not fit a `uintptr`), and no service name is returned. -/
theorem C22_topology_of_the_largest_int_panics :
    (1 : Int) ≤ 9223372036854775807 ∧
    ∀ (maxAlloc : Nat) (pfx : String),
      BuildTopologyChecked maxAlloc pfx 9223372036854775807 = none := by
  refine ⟨by decide, ?_⟩
  intro maxAlloc pfx
  have h : makesliceOK maxAlloc 16 0 9223372036854775807 = false := by
    unfold makesliceOK
    have h1 : ¬ (16 * (9223372036854775807 : Int).toNat < 18446744073709551616) := by
      decide
    simp [h1]
  unfold BuildTopologyChecked
  simp [h]

/-- C22, amended. For every prefix and every `n >= 1` that `make` can allocate (16 bytes
for each of the `n` string headers, at most the allocation limit `maxAlloc` of the
platform, which is below 2^64), `BuildTopology(prefix, n)` passes the check of `make`
and the index `services[0]` and returns exactly `n` service names; the first, also
returned as `Frontdoor`, is `api-gateway`; the one at index `i`, for `1 <= i <= n-1`, is
the prefix followed by the decimal digits of `i`, most significant first, without a
leading zero; and the result is the same on every platform whose limit admits `n`. -/
theorem C22_topology_names (maxAlloc : Nat) (pfx : String) (n : Int) (h1 : 1 ≤ n)
    (hmake : 16 * n.toNat ≤ maxAlloc) (hplat : maxAlloc < 18446744073709551616) :
    ∃ t : Topology, BuildTopologyChecked maxAlloc pfx n = some t ∧
      Int.ofNat t.Services.length = n ∧
      t.Services.head? = some "api-gateway" ∧
      t.Frontdoor = "api-gateway" ∧
      (∀ i : Nat, 1 ≤ i → Int.ofNat i ≤ n - 1 →
        t.Services[i]? =
          some (pfx ++ String.mk ((Nat.digits 10 i).reverse.map (fun d => Char.ofNat (48 + d)))) ∧
        (∀ d ∈ Nat.digits 10 i, d < 10) ∧
        (Nat.digits 10 i).reverse.head? ≠ some 0 ∧
        Nat.ofDigits 10 (Nat.digits 10 i) = i) ∧
      ∀ maxAlloc2 : Nat, 16 * n.toNat ≤ maxAlloc2 → maxAlloc2 < 18446744073709551616 →
        BuildTopologyChecked maxAlloc2 pfx n = some t := by
  have hok : ∀ m : Nat, 16 * n.toNat ≤ m → m < 18446744073709551616 →
      makesliceOK m 16 0 n = true := by
    intro m hm1 hm2
    unfold makesliceOK
    rw [decide_eq_true_iff]
    exact ⟨le_refl 0, by omega, by omega, hm1⟩
  have hint : n ≤ 9223372036854775807 := by omega
  obtain ⟨a1, a2, a3, a4⟩ := BuildTopology_names pfx n h1 hint
  exact ⟨BuildTopology pfx n, BuildTopologyChecked_eq maxAlloc pfx n (hok maxAlloc hmake hplat),
    a1, a2, a3, a4,
    fun m hm1 hm2 => BuildTopologyChecked_eq m pfx n (hok m hm1 hm2)⟩

/-- C22 for the prefix `svc-` and twelve services on a platform whose allocation limit
is 2^48 bytes. -/
theorem C22_topology_names_witness :
    (1 : Int) ≤ 12 ∧ 16 * (12 : Int).toNat ≤ 281474976710656 ∧
    (BuildTopologyChecked 281474976710656 "svc-" 12).map (fun t => t.Services) =
      some ["api-gateway", "svc-1", "svc-2", "svc-3", "svc-4", "svc-5", "svc-6", "svc-7",
        "svc-8", "svc-9", "svc-10", "svc-11"] ∧
    ∃ t : Topology, BuildTopologyChecked 281474976710656 "svc-" 12 = some t ∧
      Int.ofNat t.Services.length = 12 ∧ t.Frontdoor = "api-gateway" :=
  ⟨by decide, by decide, by decide,
    match C22_topology_names 281474976710656 "svc-" 12 (by decide) (by decide) (by decide) with
    | ⟨t, h, hlen, _, hfront, _⟩ => ⟨t, h, hlen, hfront⟩⟩

/-! ## C7: the scheduler returns when its environment is fair -/

/-- Over the rationals `Duration.Seconds` is the number of nanoseconds divided by
10^9. -/
theorem Seconds_exact (d : Int) :
    (time.Duration.Seconds d : ℚ) = (d : ℚ) / 1000000000 := by
  show ((Int.tdiv d time.Second : Int) : ℚ)
    + ((Int.tmod d time.Second : Int) : ℚ) / (OfScientific.ofScientific 1 false 9 : ℚ) = _
  have h : (d : ℚ) = ((time.Second * Int.tdiv d time.Second + Int.tmod d time.Second : Int) : ℚ) := by
    rw [Int.tdiv_add_tmod]
  have hs : ((time.Second : Int) : ℚ) = 1000000000 := by
    unfold time.Second
    norm_num
  rw [h]
  push_cast
  rw [hs]
  have hlit : (OfScientific.ofScientific 1 false 9 : ℚ) = 1000000000 := by norm_num
  rw [hlit]
  field_simp
  ring

/-- A later reading of the monotonic clock is at least one nanosecond later. -/
theorem Instant_Sub_pos (t u : Instant) (h : u.mono < t.mono) : (1 : Int) ≤ t.Sub u := by
  unfold Instant.Sub
  simp only
  split_ifs <;> omega

/-- In count mode the inner loop is left at once when the bucket holds less than one
token or the count is reached. -/
theorem producerInner_exit (p : ProducerParams ℚ) (env : ProducerEnv) (f : Nat)
    (st : ProducerState ℚ) (d : Bool)
    (h : st.tokens < 1 ∨ (p.cfg.Count > 0 ∧ st.sent ≥ p.cfg.Count)) :
    producerInner p env (f + 1) st d = .exit st d := by
  have hone : (OfScientific.ofScientific 10 true 1 : ℚ) = 1 := by norm_num
  unfold producerInner
  simp only [ge_iff_le, ratLE, ratLit]
  rw [hone]
  by_cases h1 : 1 ≤ st.tokens
  · rw [if_pos h1]
    rcases h with h | h
    · exact absurd h1 (not_le.mpr h)
    · rw [if_pos h]
  · rw [if_neg h1]

/-- In count mode, with a token in the bucket and the count not reached, the inner loop
offers a job; when the channel takes it the loop goes on with one token less. -/
theorem producerInner_sent (p : ProducerParams ℚ) (env : ProducerEnv)
    (hnl : p.hasDurationLimit = false) (f : Nat) (st : ProducerState ℚ) (d : Bool)
    (h1 : 1 ≤ st.tokens) (h2 : ¬ (p.cfg.Count > 0 ∧ st.sent ≥ p.cfg.Count))
    (hs : env.trySend st.sends = .sent) :
    producerInner p env (f + 1) st d =
      producerInner p env f
        { st with sends := st.sends + 1, jobs := st.jobs ++ [scheduledAt p st.sent],
                  sent := st.sent + 1, tokens := st.tokens - 1 } true := by
  have hone : (OfScientific.ofScientific 10 true 1 : ℚ) = 1 := by norm_num
  conv_lhs => unfold producerInner
  simp only [deadlinePassed_noLimit p env st hnl, hs, ge_iff_le, ratLE, ratLit, ratSub]
  rw [hone, if_pos h1, if_neg h2]
  simp

/-- In count mode, with a token in the bucket and the count not reached, a full jobs
channel empties the bucket. -/
theorem producerInner_full (p : ProducerParams ℚ) (env : ProducerEnv)
    (hnl : p.hasDurationLimit = false) (f : Nat) (st : ProducerState ℚ) (d : Bool)
    (h1 : 1 ≤ st.tokens) (h2 : ¬ (p.cfg.Count > 0 ∧ st.sent ≥ p.cfg.Count))
    (hs : env.trySend st.sends = .full) :
    producerInner p env (f + 1) st d =
      producerInner p env f { st with sends := st.sends + 1, tokens := 0 } d := by
  have hone : (OfScientific.ofScientific 10 true 1 : ℚ) = 1 := by norm_num
  have hzero : (OfScientific.ofScientific 0 true 1 : ℚ) = 0 := by norm_num
  conv_lhs => unfold producerInner
  simp only [deadlinePassed_noLimit p env st hnl, hs, ge_iff_le, ratLE, ratLit, ratSub]
  rw [hone, if_pos h1, if_neg h2, hzero]
  simp

/-- Over the rationals, in count mode without cancellation, the inner loop ends, with a
result that does not depend on the fuel: it has dispatched a job, or it found less
than one token or the count reached and changed nothing, or its first attempt found
the jobs channel full and emptied the bucket. -/
theorem producerInner_fair (p : ProducerParams ℚ) (env : ProducerEnv)
    (hnl : p.hasDurationLimit = false) (hcount : 0 < p.cfg.Count)
    (hnodone : ∀ n, env.trySend n ≠ .done) :
    ∀ (j : Nat) (st : ProducerState ℚ) (d : Bool),
      st.sent ≤ p.cfg.Count → 0 ≤ st.tokens → (p.cfg.Count - st.sent).toNat ≤ j →
      ∃ (st2 : ProducerState ℚ) (d2 : Bool),
        (∀ fuel, j + 2 ≤ fuel → producerInner p env fuel st d = .exit st2 d2) ∧
        st.sent ≤ st2.sent ∧ st2.sent ≤ p.cfg.Count ∧ 0 ≤ st2.tokens ∧
        st2.nows = st.nows ∧ st2.lastRefill = st.lastRefill ∧
        (d = true → d2 = true) ∧
        (d = false →
          (d2 = true ∧ st.sent < st2.sent) ∨
          (d2 = false ∧ st2 = st ∧ (st.tokens < 1 ∨ p.cfg.Count ≤ st.sent)) ∨
          (d2 = false ∧ 1 ≤ st.tokens ∧ env.trySend st.sends = .full ∧
            st2 = { st with sends := st.sends + 1, tokens := 0 })) := by
  have hstop : ∀ (j : Nat) (st : ProducerState ℚ) (d : Bool),
      st.sent ≤ p.cfg.Count → 0 ≤ st.tokens →
      (st.tokens < 1 ∨ p.cfg.Count ≤ st.sent) →
      ∃ (st2 : ProducerState ℚ) (d2 : Bool),
        (∀ fuel, j + 2 ≤ fuel → producerInner p env fuel st d = .exit st2 d2) ∧
        st.sent ≤ st2.sent ∧ st2.sent ≤ p.cfg.Count ∧ 0 ≤ st2.tokens ∧
        st2.nows = st.nows ∧ st2.lastRefill = st.lastRefill ∧
        (d = true → d2 = true) ∧
        (d = false →
          (d2 = true ∧ st.sent < st2.sent) ∨
          (d2 = false ∧ st2 = st ∧ (st.tokens < 1 ∨ p.cfg.Count ≤ st.sent)) ∨
          (d2 = false ∧ 1 ≤ st.tokens ∧ env.trySend st.sends = .full ∧
            st2 = { st with sends := st.sends + 1, tokens := 0 })) := by
    intro j st d hle htok h
    refine ⟨st, d, ?_, le_refl _, hle, htok, rfl, rfl, fun hd => hd,
      fun hd => Or.inr (Or.inl ⟨hd, rfl, h⟩)⟩
    intro fuel hf
    obtain ⟨f, rfl⟩ : ∃ f, fuel = f + 1 := ⟨fuel - 1, by omega⟩
    apply producerInner_exit
    rcases h with h | h
    · exact Or.inl h
    · exact Or.inr ⟨hcount, h⟩
  intro j
  induction j with
  | zero =>
    intro st d hle htok hj
    exact hstop 0 st d hle htok (Or.inr (by omega))
  | succ j ih =>
    intro st d hle htok hj
    by_cases hs : st.tokens < 1 ∨ p.cfg.Count ≤ st.sent
    · exact hstop (j + 1) st d hle htok hs
    · have h1 : 1 ≤ st.tokens := by
        by_contra hcon
        exact hs (Or.inl (not_le.mp hcon))
      have hlt : st.sent < p.cfg.Count := by
        by_contra hcon
        exact hs (Or.inr (not_lt.mp hcon))
      have h2 : ¬ (p.cfg.Count > 0 ∧ st.sent ≥ p.cfg.Count) := by
        intro h
        exact absurd h.2 (not_le.mpr hlt)
      cases hts : env.trySend st.sends with
      | done => exact absurd hts (hnodone _)
      | sent =>
        obtain ⟨st2, d2, heq, g1, g2, g3, g4, g5, g6, _⟩ :=
          ih { st with sends := st.sends + 1, jobs := st.jobs ++ [scheduledAt p st.sent],
                       sent := st.sent + 1, tokens := st.tokens - 1 } true
            (by show st.sent + 1 ≤ p.cfg.Count; omega)
            (by show 0 ≤ st.tokens - 1; linarith)
            (by show (p.cfg.Count - (st.sent + 1)).toNat ≤ j; omega)
        have hprog : st.sent < st2.sent := by
          have : st.sent + 1 ≤ st2.sent := g1
          omega
        refine ⟨st2, d2, ?_, le_of_lt hprog, g2, g3, g4, g5, fun _ => g6 rfl,
          fun _ => Or.inl ⟨g6 rfl, hprog⟩⟩
        intro fuel hf
        obtain ⟨f, rfl⟩ : ∃ f, fuel = f + 1 := ⟨fuel - 1, by omega⟩
        rw [producerInner_sent p env hnl f st d h1 h2 hts]
        exact heq f (by omega)
      | full =>
        refine ⟨{ st with sends := st.sends + 1, tokens := 0 }, d, ?_, le_refl _, hle,
          le_refl _, rfl, rfl, fun hd => hd, fun hd => Or.inr (Or.inr ⟨hd, h1, rfl, rfl⟩)⟩
        intro fuel hf
        obtain ⟨f, rfl⟩ : ∃ f, fuel = f + 1 := ⟨fuel - 1, by omega⟩
        obtain ⟨f2, rfl⟩ : ∃ f2, f = f2 + 1 := ⟨f - 1, by omega⟩
        rw [producerInner_full p env hnl (f2 + 1) st d h1 h2 hts]
        apply producerInner_exit
        left
        show (0 : ℚ) < 1
        norm_num

/-- Once the count is reached the scheduler returns. -/
theorem ReturnsWithCount_done (p : ProducerParams ℚ) (env : ProducerEnv)
    (hcount : 0 < p.cfg.Count) (st : ProducerState ℚ) (h : st.sent = p.cfg.Count) :
    ReturnsWithCount p env st := by
  refine ⟨st, 1, fun fuel hf => ⟨?_, h⟩⟩
  obtain ⟨f, rfl⟩ : ∃ f, fuel = f + 1 := ⟨fuel - 1, by omega⟩
  unfold producerOuter
  have h1 : p.cfg.Count > 0 ∧ st.sent ≥ p.cfg.Count := ⟨hcount, by omega⟩
  rw [if_pos h1]

/-- Over the rationals, in count mode without cancellation and with a clock that
advances, one round of the outer loop before the count is reached leads to a state
from which the scheduler returns if it returns from the state after the round; and
the round has dispatched a job, or has found less than one token and refilled at least
`T / 10^9` tokens, or has found the jobs channel full at its first attempt. -/
theorem producerOuter_round (p : ProducerParams ℚ) (env : ProducerEnv)
    (hnl : p.hasDurationLimit = false) (hcount : 0 < p.cfg.Count)
    (hcap : 1 ≤ p.capacity) (hT : 0 < p.ratePerSecond)
    (hnocancel : ∀ n, env.trySend n ≠ .done ∧ env.wait n ≠ .done)
    (hclock : ∀ n, (env.now n).mono < (env.now (n + 1)).mono)
    (st : ProducerState ℚ) (hlt : st.sent < p.cfg.Count) (htok : 0 ≤ st.tokens)
    (hnows : 1 ≤ st.nows) (hlast : st.lastRefill = env.now (st.nows - 1)) :
    ∃ st3 : ProducerState ℚ,
      st3.sent ≤ p.cfg.Count ∧ 0 ≤ st3.tokens ∧ 1 ≤ st3.nows ∧
      st3.lastRefill = env.now (st3.nows - 1) ∧
      (ReturnsWithCount p env st3 → ReturnsWithCount p env st) ∧
      (st.sent < st3.sent ∨
        (st3.sent = st.sent ∧ st3.sends = st.sends ∧ st.tokens < 1 ∧
          st.tokens + p.ratePerSecond / 1000000000 ≤ st3.tokens) ∨
        (st3.sent = st.sent ∧ st3.sends = st.sends + 1 ∧
          env.trySend st.sends = .full)) := by
  have h1 : ¬ (p.cfg.Count > 0 ∧ st.sent ≥ p.cfg.Count) := by
    intro h
    exact absurd h.2 (not_le.mpr hlt)
  have hel : (1 : ℚ) / 1000000000 ≤
      (time.Duration.Seconds ((env.now st.nows).Sub st.lastRefill) : ℚ) := by
    rw [Seconds_exact]
    have hsub : (1 : Int) ≤ (env.now st.nows).Sub st.lastRefill := by
      apply Instant_Sub_pos
      rw [hlast]
      have := hclock (st.nows - 1)
      have hn : st.nows - 1 + 1 = st.nows := by omega
      rw [hn] at this
      exact this
    have hq : (1 : ℚ) ≤ (((env.now st.nows).Sub st.lastRefill : Int) : ℚ) := by
      exact_mod_cast hsub
    exact div_le_div_of_nonneg_right hq (by norm_num)
  have hadd : p.ratePerSecond / 1000000000 ≤
      (time.Duration.Seconds ((env.now st.nows).Sub st.lastRefill) : ℚ) * p.ratePerSecond := by
    have := mul_le_mul_of_nonneg_right hel (le_of_lt hT)
    calc p.ratePerSecond / 1000000000 = 1 / 1000000000 * p.ratePerSecond := by ring
      _ ≤ _ := this
  have hpos : (0 : ℚ) < p.ratePerSecond / 1000000000 := by positivity
  obtain ⟨st2, d2, heq, g1, g2, g3, g4, g5, _, g7⟩ :=
    producerInner_fair p env hnl hcount (fun n => (hnocancel n).1) (p.cfg.Count - st.sent).toNat
      { st with nows := st.nows + 1, lastRefill := env.now st.nows,
                tokens := if p.capacity < st.tokens +
                    (time.Duration.Seconds ((env.now st.nows).Sub st.lastRefill) : ℚ)
                      * p.ratePerSecond
                  then p.capacity
                  else st.tokens +
                    (time.Duration.Seconds ((env.now st.nows).Sub st.lastRefill) : ℚ)
                      * p.ratePerSecond }
      false (le_of_lt hlt)
      (by
        show (0 : ℚ) ≤ if p.capacity < st.tokens +
            (time.Duration.Seconds ((env.now st.nows).Sub st.lastRefill) : ℚ) * p.ratePerSecond
          then p.capacity
          else st.tokens +
            (time.Duration.Seconds ((env.now st.nows).Sub st.lastRefill) : ℚ) * p.ratePerSecond
        split_ifs
        · linarith
        · linarith)
      (le_refl _)
  have hnows2 : st2.nows = st.nows + 1 := g4
  have hlast2 : st2.lastRefill = env.now st.nows := g5
  have hsent2 : st2.sent ≤ p.cfg.Count := g2
  have hround : ∀ (f : Nat), (p.cfg.Count - st.sent).toNat + 2 ≤ f →
      producerOuter p env (f + 1) st =
        (if d2 = true then producerOuter p env f st2
         else match env.wait st2.waits with
           | .done => .cancelled { st2 with waits := st2.waits + 1 }
           | .tick => producerOuter p env f { st2 with waits := st2.waits + 1 }) := by
    intro f hf
    conv_lhs => unfold producerOuter
    rw [if_neg h1]
    simp only [deadlinePassed_noLimit p env st hnl, Bool.false_eq_true, if_false,
      gt_iff_lt, ratLT, ratAdd, ratMul]
    rw [heq f hf]
  rcases g7 rfl with ⟨hd, hprog⟩ | ⟨hd, hst, hlow⟩ | ⟨hd, hone, hfull, hst⟩
  · refine ⟨st2, hsent2, g3, by omega, by rw [hlast2, hnows2]; rfl, ?_, Or.inl hprog⟩
    rintro ⟨r, f0, hr⟩
    refine ⟨r, f0 + ((p.cfg.Count - st.sent).toNat + 2) + 1, fun fuel hf => ?_⟩
    obtain ⟨f, rfl⟩ : ∃ f, fuel = f + 1 := ⟨fuel - 1, by omega⟩
    have hf1 : f0 ≤ f := by omega
    have hf2 : (p.cfg.Count - st.sent).toNat + 2 ≤ f := by omega
    rw [hround f hf2, if_pos hd]
    exact hr f hf1
  · have hwait : env.wait st2.waits = .tick := by
      cases hw : env.wait st2.waits with
      | done => exact absurd hw (hnocancel _).2
      | tick => rfl
    have htok2 : st2.tokens = if p.capacity < st.tokens +
          (time.Duration.Seconds ((env.now st.nows).Sub st.lastRefill) : ℚ) * p.ratePerSecond
        then p.capacity
        else st.tokens +
          (time.Duration.Seconds ((env.now st.nows).Sub st.lastRefill) : ℚ) * p.ratePerSecond := by
      rw [hst]
    have hsent3 : st2.sent = st.sent := by rw [hst]
    have hsends3 : st2.sends = st.sends := by rw [hst]
    have hlow2 : st2.tokens < 1 := by
      rcases hlow with h | h
      · rw [hst]
        exact h
      · exact absurd (show p.cfg.Count ≤ st.sent from h) (not_le.mpr hlt)
    have hnoclip : ¬ p.capacity < st.tokens +
        (time.Duration.Seconds ((env.now st.nows).Sub st.lastRefill) : ℚ) * p.ratePerSecond := by
      intro hc
      rw [htok2, if_pos hc] at hlow2
      linarith
    rw [if_neg hnoclip] at htok2
    refine ⟨{ st2 with waits := st2.waits + 1 }, hsent2, g3, ?_, ?_, ?_,
      Or.inr (Or.inl ⟨hsent3, hsends3, ?_, ?_⟩)⟩
    · show 1 ≤ st2.nows
      omega
    · show st2.lastRefill = env.now (st2.nows - 1)
      rw [hlast2, hnows2]
      rfl
    · rintro ⟨r, f0, hr⟩
      refine ⟨r, f0 + ((p.cfg.Count - st.sent).toNat + 2) + 1, fun fuel hf => ?_⟩
      obtain ⟨f, rfl⟩ : ∃ f, fuel = f + 1 := ⟨fuel - 1, by omega⟩
      have hf1 : f0 ≤ f := by omega
      have hf2 : (p.cfg.Count - st.sent).toNat + 2 ≤ f := by omega
      rw [hround f hf2, if_neg (by rw [hd]; decide), hwait]
      exact hr f hf1
    · rw [htok2] at hlow2
      linarith
    · show st.tokens + p.ratePerSecond / 1000000000 ≤ st2.tokens
      rw [htok2]
      linarith
  · have hwait : env.wait st2.waits = .tick := by
      cases hw : env.wait st2.waits with
      | done => exact absurd hw (hnocancel _).2
      | tick => rfl
    have hsent3 : st2.sent = st.sent := by rw [hst]
    have hsends3 : st2.sends = st.sends + 1 := by rw [hst]
    refine ⟨{ st2 with waits := st2.waits + 1 }, hsent2, g3, ?_, ?_, ?_,
      Or.inr (Or.inr ⟨hsent3, hsends3, hfull⟩)⟩
    · show 1 ≤ st2.nows
      omega
    · show st2.lastRefill = env.now (st2.nows - 1)
      rw [hlast2, hnows2]
      rfl
    · rintro ⟨r, f0, hr⟩
      refine ⟨r, f0 + ((p.cfg.Count - st.sent).toNat + 2) + 1, fun fuel hf => ?_⟩
      obtain ⟨f, rfl⟩ : ∃ f, fuel = f + 1 := ⟨fuel - 1, by omega⟩
      have hf1 : f0 ≤ f := by omega
      have hf2 : (p.cfg.Count - st.sent).toNat + 2 ≤ f := by omega
      rw [hround f hf2, if_neg (by rw [hd]; decide), hwait]
      exact hr f hf1

/-- The refills: when the next job that the channel takes is among the next `a + 1`
attempts, and `n` refills of `T / 10^9` tokens fill one token, the scheduler returns,
provided it returns from every state with more jobs sent and from every state with
that job among the next `a` attempts. -/
theorem producerOuter_fair_refills (p : ProducerParams ℚ) (env : ProducerEnv)
    (hnl : p.hasDurationLimit = false) (hcount : 0 < p.cfg.Count)
    (hcap : 1 ≤ p.capacity) (hT : 0 < p.ratePerSecond)
    (hnocancel : ∀ n, env.trySend n ≠ .done ∧ env.wait n ≠ .done)
    (hclock : ∀ n, (env.now n).mono < (env.now (n + 1)).mono)
    (j a : Nat)
    (H1 : ∀ st : ProducerState ℚ, st.sent ≤ p.cfg.Count → 0 ≤ st.tokens → 1 ≤ st.nows →
      st.lastRefill = env.now (st.nows - 1) → (p.cfg.Count - st.sent).toNat ≤ j →
      ReturnsWithCount p env st)
    (H2 : ∀ st : ProducerState ℚ, st.sent ≤ p.cfg.Count → 0 ≤ st.tokens → 1 ≤ st.nows →
      st.lastRefill = env.now (st.nows - 1) → (p.cfg.Count - st.sent).toNat ≤ j + 1 →
      (∃ m, st.sends ≤ m ∧ m < st.sends + a ∧ env.trySend m = .sent) →
      ReturnsWithCount p env st) :
    ∀ (n : Nat) (st : ProducerState ℚ), st.sent ≤ p.cfg.Count → 0 ≤ st.tokens → 1 ≤ st.nows →
      st.lastRefill = env.now (st.nows - 1) → (p.cfg.Count - st.sent).toNat ≤ j + 1 →
      (∃ m, st.sends ≤ m ∧ m < st.sends + (a + 1) ∧ env.trySend m = .sent) →
      1 ≤ st.tokens + (n : ℚ) * (p.ratePerSecond / 1000000000) →
      ReturnsWithCount p env st := by
  have step : ∀ st : ProducerState ℚ, st.sent ≤ p.cfg.Count → 0 ≤ st.tokens → 1 ≤ st.nows →
      st.lastRefill = env.now (st.nows - 1) → (p.cfg.Count - st.sent).toNat ≤ j + 1 →
      (∃ m, st.sends ≤ m ∧ m < st.sends + (a + 1) ∧ env.trySend m = .sent) →
      (∀ st3 : ProducerState ℚ, st3.sent ≤ p.cfg.Count → 0 ≤ st3.tokens → 1 ≤ st3.nows →
        st3.lastRefill = env.now (st3.nows - 1) → st3.sent = st.sent → st3.sends = st.sends →
        st.tokens < 1 → st.tokens + p.ratePerSecond / 1000000000 ≤ st3.tokens →
        ReturnsWithCount p env st3) →
      ReturnsWithCount p env st := by
    intro st hle htok hnows hlast hj hfair hB
    by_cases hlt : st.sent < p.cfg.Count
    · obtain ⟨st3, i1, i2, i3, i4, hret, hcase⟩ :=
        producerOuter_round p env hnl hcount hcap hT hnocancel hclock st hlt htok hnows hlast
      apply hret
      rcases hcase with hprog | ⟨b1, b2, b3, b4⟩ | ⟨c1, c2, c3⟩
      · exact H1 st3 i1 i2 i3 i4 (by omega)
      · exact hB st3 i1 i2 i3 i4 b1 b2 b3 b4
      · obtain ⟨m, m1, m2, m3⟩ := hfair
        have hne : m ≠ st.sends := by
          intro h
          rw [h, c3] at m3
          exact absurd m3 (by decide)
        exact H2 st3 i1 i2 i3 i4 (by omega) ⟨m, by omega, by omega, m3⟩
    · exact ReturnsWithCount_done p env hcount st (by omega)
  intro n
  induction n with
  | zero =>
    intro st hle htok hnows hlast hj hfair hn
    apply step st hle htok hnows hlast hj hfair
    intro st3 _ _ _ _ _ _ hlow _
    simp only [Nat.cast_zero, zero_mul, add_zero] at hn
    exact absurd hn (not_le.mpr hlow)
  | succ n ih =>
    intro st hle htok hnows hlast hj hfair hn
    apply step st hle htok hnows hlast hj hfair
    intro st3 i1 i2 i3 i4 b1 b2 _ b4
    apply ih st3 i1 i2 i3 i4 (by omega)
    · obtain ⟨m, m1, m2, m3⟩ := hfair
      exact ⟨m, by omega, by omega, m3⟩
    · push_cast at hn
      linarith

/-- The attempts: when the next job that the channel takes is among the next `a`
attempts, the scheduler returns, provided it returns from every state with more jobs
sent. -/
theorem producerOuter_fair_attempts (p : ProducerParams ℚ) (env : ProducerEnv)
    (hnl : p.hasDurationLimit = false) (hcount : 0 < p.cfg.Count)
    (hcap : 1 ≤ p.capacity) (hT : 0 < p.ratePerSecond)
    (hnocancel : ∀ n, env.trySend n ≠ .done ∧ env.wait n ≠ .done)
    (hclock : ∀ n, (env.now n).mono < (env.now (n + 1)).mono)
    (j : Nat)
    (H1 : ∀ st : ProducerState ℚ, st.sent ≤ p.cfg.Count → 0 ≤ st.tokens → 1 ≤ st.nows →
      st.lastRefill = env.now (st.nows - 1) → (p.cfg.Count - st.sent).toNat ≤ j →
      ReturnsWithCount p env st) :
    ∀ (a : Nat) (st : ProducerState ℚ), st.sent ≤ p.cfg.Count → 0 ≤ st.tokens → 1 ≤ st.nows →
      st.lastRefill = env.now (st.nows - 1) → (p.cfg.Count - st.sent).toNat ≤ j + 1 →
      (∃ m, st.sends ≤ m ∧ m < st.sends + a ∧ env.trySend m = .sent) →
      ReturnsWithCount p env st := by
  intro a
  induction a with
  | zero =>
    intro st _ _ _ _ _ hfair
    obtain ⟨m, m1, m2, _⟩ := hfair
    omega
  | succ a ih =>
    intro st hle htok hnows hlast hj hfair
    have hpos : (0 : ℚ) < p.ratePerSecond / 1000000000 := by positivity
    obtain ⟨n, hn⟩ := exists_nat_gt (1 / (p.ratePerSecond / 1000000000))
    have hn1 : 1 ≤ (n : ℚ) * (p.ratePerSecond / 1000000000) := by
      have := (div_lt_iff₀ hpos).mp hn
      linarith
    exact producerOuter_fair_refills p env hnl hcount hcap hT hnocancel hclock j a H1 ih n st
      hle htok hnows hlast hj hfair (by linarith)

/-- Over the rationals, in count mode with a positive rate, without cancellation, with
a jobs channel that takes a job at infinitely many attempts and a monotonic clock that
advances between readings, the scheduler returns with `sent = Count` from every state
at the head of its loop. -/
theorem producerOuter_fair (p : ProducerParams ℚ) (env : ProducerEnv)
    (hnl : p.hasDurationLimit = false) (hcount : 0 < p.cfg.Count)
    (hcap : 1 ≤ p.capacity) (hT : 0 < p.ratePerSecond)
    (hnocancel : ∀ n, env.trySend n ≠ .done ∧ env.wait n ≠ .done)
    (hfair : ∀ n, ∃ m, n ≤ m ∧ env.trySend m = .sent)
    (hclock : ∀ n, (env.now n).mono < (env.now (n + 1)).mono) :
    ∀ (j : Nat) (st : ProducerState ℚ), st.sent ≤ p.cfg.Count → 0 ≤ st.tokens → 1 ≤ st.nows →
      st.lastRefill = env.now (st.nows - 1) → (p.cfg.Count - st.sent).toNat ≤ j →
      ReturnsWithCount p env st := by
  intro j
  induction j with
  | zero =>
    intro st hle _ _ _ hj
    exact ReturnsWithCount_done p env hcount st (by omega)
  | succ j ih =>
    intro st hle htok hnows hlast hj
    obtain ⟨m, m1, m2⟩ := hfair st.sends
    exact producerOuter_fair_attempts p env hnl hcount hcap hT hnocancel hclock j ih
      (m - st.sends + 1) st hle htok hnows hlast hj ⟨m, m1, by omega, m2⟩

/-- Over the rationals, in count mode with a positive rate, without cancellation, with
a jobs channel that takes a job at infinitely many attempts and a monotonic clock that
advances between readings, `produceTraces` returns after finitely many iterations, with
exactly `Count` jobs sent. -/
theorem produceTraces_fair (cfg : Config ℚ) (env : ProducerEnv)
    (hcount : 0 < cfg.Count) (hrate : 0 < ratePerSecond cfg)
    (hnocancel : ∀ n, env.trySend n ≠ .done ∧ env.wait n ≠ .done)
    (hfair : ∀ n, ∃ m, n ≤ m ∧ env.trySend m = .sent)
    (hclock : ∀ n, (env.now n).mono < (env.now (n + 1)).mono) :
    ∃ fuel st, produceTraces cfg env fuel = .returned st ∧
      st.sent = cfg.Count ∧ Int.ofNat st.jobs.length = cfg.Count := by
  have hzero : (OfScientific.ofScientific 0 true 1 : ℚ) = 0 := by norm_num
  have hone : (OfScientific.ofScientific 10 true 1 : ℚ) = 1 := by norm_num
  have hr : ¬ ratePerSecond cfg ≤ 0.0 := by
    show ¬ ratePerSecond cfg ≤ (OfScientific.ofScientific 0 true 1 : ℚ)
    rw [hzero]
    exact not_le.mpr hrate
  have hnl : (producerParams cfg env).hasDurationLimit = false := by
    unfold producerParams
    simp only [decide_eq_false_iff_not]
    intro h
    omega
  have hcap : 1 ≤ (producerParams cfg env).capacity := by
    show 1 ≤ (if ratePerSecond cfg < (OfScientific.ofScientific 10 true 1 : ℚ)
      then (OfScientific.ofScientific 10 true 1 : ℚ) else ratePerSecond cfg)
    rw [hone]
    split_ifs with h
    · exact le_refl 1
    · exact not_lt.mp h
  obtain ⟨st, fuel0, hst⟩ := producerOuter_fair (producerParams cfg env) env hnl hcount hcap
    hrate hnocancel hfair hclock cfg.Count.toNat
    { tokens := (producerParams cfg env).capacity, lastRefill := env.now 0, sent := 0,
      jobs := [], nows := 1, sends := 0, waits := 0 }
    (by show (0 : Int) ≤ cfg.Count; omega)
    (by show (0 : ℚ) ≤ (producerParams cfg env).capacity; linarith)
    (le_refl 1) rfl
    (by show (cfg.Count - 0).toNat ≤ cfg.Count.toNat; simp)
  obtain ⟨hret, hsent⟩ := hst fuel0 (le_refl _)
  have hprod : produceTraces cfg env fuel0 = .returned st := by
    unfold produceTraces
    simp only [hr, if_false]
    exact hret
  refine ⟨fuel0, st, hprod, hsent, ?_⟩
  obtain ⟨_, h2, h3, _, _⟩ := produceTraces_count_mode cfg env fuel0 hcount
  rw [hprod] at h2 h3
  have h4 : st.jobs = (List.range st.sent.toNat).map
      (fun k => scheduledAt (producerParams cfg env) (Int.ofNat k)) := h3
  have h5 : 0 ≤ st.sent := h2
  have h6 : st.sent = cfg.Count := hsent
  rw [h4, List.length_map, List.length_range, ← h6]
  simp only [Int.ofNat_eq_coe]
  omega

/-- C7, as stated, fails for a rate that is not a positive number. For the NaN rate of
`nanRateConfig` (count 1), which `Validate` accepts and for which the guard
`ratePerSecond <= 0` is false, no job is ever enqueued and `produceTraces` never
returns, whatever the clock and the jobs channel do and however long it runs. For the
rate 0 of `zeroRateConfig` (count 3, a configuration that `Validate` rejects) the
guard makes `produceTraces` return at once, with `sent = 0` and no job enqueued. -/
theorem C7_no_job_without_a_positive_rate :
    (nanRateConfig.Validate = none ∧ 0 < nanRateConfig.Count ∧
      ¬ ratePerSecond nanRateConfig ≤ 0.0 ∧ ¬ 0.0 < ratePerSecond nanRateConfig ∧
      ∀ (env : ProducerEnv) (fuel : Nat),
        (produceTraces nanRateConfig env fuel).state.jobs = [] ∧
        ∀ st, produceTraces nanRateConfig env fuel ≠ .returned st) ∧
    (0 < zeroRateConfig.Count ∧ ratePerSecond zeroRateConfig ≤ 0.0 ∧
      ∀ (env : ProducerEnv) (fuel : Nat), ∃ st,
        produceTraces zeroRateConfig env fuel = .returned st ∧ st.sent = 0 ∧ st.jobs = []) := by
  have hr : ¬ ratePerSecond nanRateConfig ≤ 0.0 := by decide
  have hz : ratePerSecond zeroRateConfig ≤ 0.0 := by decide
  refine ⟨⟨by decide, by decide, hr, by decide, fun env fuel => ?_⟩, by decide, hz,
    fun env fuel => ?_⟩
  · have hjobs := nanRate_never_dispatches env fuel
    refine ⟨hjobs, fun st hst => ?_⟩
    obtain ⟨_, h2, h3, _, h5⟩ := produceTraces_count_mode nanRateConfig env fuel (by decide)
    have hs := h5 hr st hst
    rw [hst] at hjobs h2 h3
    have j1 : st.jobs = [] := hjobs
    have j2 : st.jobs = (List.range st.sent.toNat).map
        (fun k => scheduledAt (producerParams nanRateConfig env) (Int.ofNat k)) := h3
    have hlen : st.jobs.length = st.sent.toNat := by
      rw [j2, List.length_map, List.length_range]
    rw [j1, hs] at hlen
    exact absurd hlen (by decide)
  · unfold produceTraces
    rw [if_pos hz]
    exact ⟨_, rfl, rfl, rfl⟩

/-- C7, amended. In count mode (`Count = K > 0`), with a rate that is not at or below
zero and no cancellation, the scheduler of `produceTraces` never ends by cancellation;
at every point `sent` equals the number of jobs enqueued and never exceeds `K`; the
loop is left only once `sent = K`, with exactly `K` jobs enqueued; and every job yields
exactly one trace, so that exactly `K` traces are emitted when `produceTraces` returns.
With a positive rate and the token arithmetic taken over the rationals it does return,
after finitely many iterations, whenever the jobs channel takes a job at infinitely
many of the attempts and the monotonic clock advances between two readings. -/
theorem C7_count_mode_emits_exactly_count {σ : Type} (R : RandLib F σ) (M : MathLib F)
    (cfg : Config F) (env : ProducerEnv) (fuel : Nat) (assign : Nat → Nat)
    (hcount : 0 < cfg.Count) (hrate : ¬ ratePerSecond cfg ≤ 0.0)
    (hnocancel : ∀ n, env.trySend n ≠ .done ∧ env.wait n ≠ .done) :
    (∀ st, produceTraces cfg env fuel ≠ .cancelled st) ∧
    (produceTraces cfg env fuel).state.sent ≤ cfg.Count ∧
    Int.ofNat (produceTraces cfg env fuel).state.jobs.length
      = (produceTraces cfg env fuel).state.sent ∧
    (∀ st, produceTraces cfg env fuel = .returned st →
      st.sent = cfg.Count ∧ Int.ofNat st.jobs.length = cfg.Count ∧
      Int.ofNat (poolTraces R M cfg assign st.jobs 0 (poolStates R M cfg)).length = cfg.Count) ∧
    (∀ (cfgQ : Config ℚ) (envQ : ProducerEnv), 0 < cfgQ.Count → 0 < ratePerSecond cfgQ →
      (∀ n, envQ.trySend n ≠ .done ∧ envQ.wait n ≠ .done) →
      (∀ n, ∃ m, n ≤ m ∧ envQ.trySend m = .sent) →
      (∀ n, (envQ.now n).mono < (envQ.now (n + 1)).mono) →
      ∃ fuelQ st, produceTraces cfgQ envQ fuelQ = .returned st ∧
        st.sent = cfgQ.Count ∧ Int.ofNat st.jobs.length = cfgQ.Count) := by
  obtain ⟨h1, h2, h3, h4, h5⟩ := produceTraces_count_mode cfg env fuel hcount
  have hlen : Int.ofNat (produceTraces cfg env fuel).state.jobs.length
      = (produceTraces cfg env fuel).state.sent := by
    rw [h3, List.length_map, List.length_range]
    simp only [Int.ofNat_eq_coe]
    omega
  refine ⟨h4 hnocancel, h1, hlen, fun st hst => ?_, fun cfgQ envQ a b c d e =>
    produceTraces_fair cfgQ envQ a b c d e⟩
  have hs := h5 hrate st hst
  rw [hst] at hlen
  have hl : Int.ofNat st.jobs.length = st.sent := hlen
  refine ⟨hs, by rw [hl, hs], ?_⟩
  rw [poolTraces_length, hl, hs]

/-- The amended C7 at a count of three and 100 traces per second: with a clock that
ticks every 10 ms and a jobs channel that always has room the scheduler returns within
8 iterations with three jobs; over the rationals it also returns, with three jobs,
when the jobs channel is full at the first attempt. -/
theorem C7_count_mode_emits_exactly_count_witness :
    0 < countThreeConfig.Count ∧ ¬ ratePerSecond countThreeConfig ≤ 0.0 ∧
    (∃ st, produceTraces countThreeConfig idealEnv 8 = .returned st ∧
      st.jobs = [1700000000000000000, 1700000000010000000, 1700000000020000000]) ∧
    Int.ofNat (poolTraces halfSource seriesMath countThreeConfig (fun _ => 0)
      (produceTraces countThreeConfig idealEnv 8).state.jobs 0
      (poolStates halfSource seriesMath countThreeConfig)).length = 3 ∧
    (∃ fuelQ st, produceTraces exactConfig busyEnv fuelQ = .returned st ∧
      st.sent = exactConfig.Count ∧ Int.ofNat st.jobs.length = exactConfig.Count) :=
  ⟨by decide, by decide,
    ⟨(produceTraces countThreeConfig idealEnv 8).state, by decide, by decide⟩,
    let h := C7_count_mode_emits_exactly_count halfSource seriesMath countThreeConfig idealEnv 8
      (fun _ => 0) (by decide) (by decide) (fun _ => ⟨by simp [idealEnv], by simp [idealEnv]⟩)
    ⟨(h.2.2.2.1 (produceTraces countThreeConfig idealEnv 8).state (by decide)).2.2,
      h.2.2.2.2 exactConfig busyEnv (by decide)
        (by rw [ratePerSecond_exactConfig]; norm_num)
        (fun _ => ⟨by simp only [busyEnv]; split_ifs <;> simp, by simp [busyEnv, idealEnv]⟩)
        (fun n => ⟨n + 1, by omega, by simp [busyEnv]⟩)
        (fun n => by
          show (10000000 : Int) * Int.ofNat n < 10000000 * Int.ofNat (n + 1)
          simp only [Int.ofNat_eq_coe]
          omega)⟩⟩

/-- Every step of the token bucket keeps the bookkeeping of the jobs: `sent` is not
negative and job number `k` carries the timestamp computed from `k`. -/
theorem BucketStepSpec_jobs (p : ProducerParams F) (env : ProducerEnv)
    (st st2 : ProducerState F)
    (h : 0 ≤ st.sent ∧
      st.jobs = (List.range st.sent.toNat).map (fun k => scheduledAt p (Int.ofNat k)))
    (hs : BucketStepSpec p env st st2) :
    0 ≤ st2.sent ∧
      st2.jobs = (List.range st2.sent.toNat).map (fun k => scheduledAt p (Int.ofNat k)) := by
  obtain ⟨i4, i5⟩ := h
  cases hs with
  | refill => exact ⟨i4, i5⟩
  | dispatch h1 =>
    refine ⟨?_, ?_⟩
    · show 0 ≤ st.sent + 1
      omega
    · show st.jobs ++ [scheduledAt p st.sent] = _
      have hn : (st.sent + 1).toNat = st.sent.toNat + 1 := by omega
      rw [hn, List.range_succ, List.map_append, ← i5]
      have hsent : Int.ofNat st.sent.toNat = st.sent := by
        simp only [Int.ofNat_eq_coe]
        omega
      simp only [List.map_cons, List.map_nil, hsent]
  | full h1 => exact ⟨i4, i5⟩
  | cancelled => exact ⟨i4, i5⟩
  | clock => exact ⟨i4, i5⟩
  | wait => exact ⟨i4, i5⟩

/-- The bookkeeping of the jobs holds in every state reached by steps of the token
bucket from the full bucket. -/
theorem BucketStepSpec_reach_jobs (cfg : Config F) (env : ProducerEnv) (st : ProducerState F)
    (hs : Relation.ReflTransGen (BucketStepSpec (producerParams cfg env) env)
      (producerStart cfg env) st) :
    0 ≤ st.sent ∧ st.jobs = (List.range st.sent.toNat).map
      (fun k => scheduledAt (producerParams cfg env) (Int.ofNat k)) := by
  induction hs with
  | refl => exact ⟨le_refl 0, rfl⟩
  | tail _ hstep ih => exact BucketStepSpec_jobs _ env _ _ ih hstep

/-- C37, for a rate `T` that is not at or below zero (so that the loop of `produceTraces`
is entered). For every float type: the capacity is `T`, or 1 when `T < 1`; every state
of the scheduler is reached from the full bucket by steps of the token bucket (a refill
adds `elapsed_seconds * T` and clips to the capacity, a dispatch happens only with
`tokens >= 1`, removes one token, increments `sent` and appends one job); in every
state on the way `sent` counts the jobs, and job number `k` carries the timestamp
`start.Add(time.Duration(float64(k) / T * float64(time.Second)))`, the quotient `k / T`
seconds as `float64` computes it, cut to whole nanoseconds. For a positive rate and a
clock whose monotonic readings never decrease, with the token arithmetic taken over
the rationals: the capacity is `max(1, T)` and `0 <= tokens <= capacity` holds in
every state on the way. -/
theorem C37_token_bucket (cfg : Config F) (env : ProducerEnv)
    (hrate : ¬ ratePerSecond cfg ≤ 0.0) :
    (producerParams cfg env).capacity
      = (if ratePerSecond cfg < 1.0 then 1.0 else ratePerSecond cfg) ∧
    (∀ fuel, Relation.ReflTransGen (BucketStepSpec (producerParams cfg env) env)
      (producerStart cfg env) (produceTraces cfg env fuel).state) ∧
    (∀ st, Relation.ReflTransGen (BucketStepSpec (producerParams cfg env) env)
        (producerStart cfg env) st →
      Int.ofNat st.jobs.length = st.sent ∧
      ∀ (k : Nat) (hk : k < st.jobs.length),
        st.jobs.get ⟨k, hk⟩ = (env.now 0).wall.Add (GoFloat64.toInt64
          (GoFloat64.ofInt (Int.ofNat k) / ratePerSecond cfg * GoFloat64.ofInt time.Second))) ∧
    (∀ (cfgQ : Config ℚ) (envQ : ProducerEnv), (0 : ℚ) < ratePerSecond cfgQ →
      (∀ i j, i ≤ j → (envQ.now i).mono ≤ (envQ.now j).mono) →
      (producerParams cfgQ envQ).capacity = Max.max 1 (ratePerSecond cfgQ) ∧
      ∀ st, Relation.ReflTransGen (BucketStepSpec (producerParams cfgQ envQ) envQ)
          (producerStart cfgQ envQ) st →
        (0 : ℚ) ≤ st.tokens ∧ st.tokens ≤ (producerParams cfgQ envQ).capacity) := by
  refine ⟨rfl, fun fuel => produceTraces_steps cfg env fuel hrate, ?_, ?_⟩
  · intro st hst
    obtain ⟨i4, i5⟩ := BucketStepSpec_reach_jobs cfg env st hst
    refine ⟨?_, ?_⟩
    · rw [i5, List.length_map, List.length_range]
      simp only [Int.ofNat_eq_coe]
      omega
    · intro k hk
      revert hk
      rw [i5]
      intro hk
      simp only [List.get_eq_getElem, List.getElem_map, List.getElem_range]
      rfl
  · intro cfgQ envQ hpos hmono
    have hcap := capacity_exact cfgQ envQ
    have hinit : BucketInv (producerParams cfgQ envQ) envQ (producerStart cfgQ envQ) := by
      refine ⟨?_, le_refl _, ⟨0, Nat.lt_succ_self 0, rfl⟩, le_refl _, rfl⟩
      show (0 : ℚ) ≤ (producerParams cfgQ envQ).capacity
      rw [hcap]
      exact le_trans zero_le_one (le_max_left _ _)
    refine ⟨hcap, ?_⟩
    intro st hst
    obtain ⟨i1, i2, _, _, _⟩ := BucketInv_reach (producerParams cfgQ envQ) envQ (le_of_lt hpos)
      hmono _ st hinit hst
    exact ⟨i1, i2⟩

set_option maxRecDepth 20000 in
/-- C37 at 100 traces per second with a clock that ticks every 10 ms: three jobs are
sent, stamped 0, 10 and 20 ms after the start, and over the rationals the capacity is
100. For a rate that is NaN, which `Validate` accepts, the rate is not at or below
zero, the capacity is neither at least 1 nor at most itself, and no job is ever
dispatched. -/
theorem C37_token_bucket_witness :
    ¬ ratePerSecond countThreeConfig ≤ 0.0 ∧
    (produceTraces countThreeConfig idealEnv 8).state.jobs
      = [1700000000000000000, 1700000000010000000, 1700000000020000000] ∧
    (produceTraces countThreeConfig idealEnv 8).state.sent = 3 ∧
    (producerParams exactConfig idealEnv).capacity = 100 ∧
    (nanRateConfig.Validate = none ∧ ¬ ratePerSecond nanRateConfig ≤ 0.0 ∧
      ¬ (producerParams nanRateConfig idealEnv).capacity ≥ 1.0 ∧
      ¬ (producerParams nanRateConfig idealEnv).capacity
          ≤ (producerParams nanRateConfig idealEnv).capacity ∧
      ∀ (env : ProducerEnv) (fuel : Nat), (produceTraces nanRateConfig env fuel).state.jobs = []) := by
  have hrate : (0 : ℚ) < ratePerSecond exactConfig := by
    rw [ratePerSecond_exactConfig]
    norm_num
  have hmono : ∀ i j, i ≤ j → (idealEnv.now i).mono ≤ (idealEnv.now j).mono := by
    intro i j hij
    show (10000000 : Int) * Int.ofNat i ≤ 10000000 * Int.ofNat j
    simp only [Int.ofNat_eq_coe]
    omega
  have hr : ¬ ratePerSecond countThreeConfig ≤ 0.0 := by decide
  obtain ⟨_, h2, h3, h4⟩ := C37_token_bucket countThreeConfig idealEnv hr
  have hjobs : (produceTraces countThreeConfig idealEnv 8).state.jobs
      = [1700000000000000000, 1700000000010000000, 1700000000020000000] := by decide
  have hlen := (h3 _ (h2 8)).1
  rw [hjobs] at hlen
  refine ⟨hr, hjobs, hlen.symm, ?_, by decide, by decide, by decide, by decide,
    nanRate_never_dispatches⟩
  rw [(h4 exactConfig idealEnv hrate hmono).1, ratePerSecond_exactConfig]
  norm_num

end pipelineFacts

end Spanforge
